import Mathlib

/-! EEZ-flow engine (`Starter_EEZ-Open/src/ui/eez-flow.cpp`): embedding and properties

The target is the ESP32-S3 (ILP32, little endian): `int`, `size_t`, `unsigned`
and pointers are 32 bits wide.  Unsigned machine arithmetic is written with an
explicit `% 2 ^ 32`; a signed reading of a 32-bit word is `toInt32`.  `float`
and `double` are IEEE 754 binary32 and binary64, and their operations round to
nearest.
-/

set_option autoImplicit false

namespace eez

/-! ## Machine words -/

/-- The number of values of a 32-bit word. -/
def WORD : Nat := 4294967296

/-- Unsigned 32-bit subtraction `a - b` of two words. -/
def wrapSub (a b : Nat) : Nat := (a % WORD + (WORD - b % WORD)) % WORD

/-- Signed reading (`(int)x`) of a 32-bit word. -/
def toInt32 (x : Nat) : Int :=
  if x % WORD < 2147483648 then ((x % WORD : Nat) : Int) else ((x % WORD : Nat) : Int) - (WORD : Int)

/-! ## core/alloc.cpp : the arena allocator (the `#else` branch, lines 104-236) -/

/-- Constant `ALIGNMENT` (line 104). -/
def ALIGNMENT : Nat := 64

/-- Constant `MIN_BLOCK_SIZE` (line 105). -/
def MIN_BLOCK_SIZE : Nat := 8

/-- Value of `sizeof(AllocBlock)` on ILP32: a pointer, an `int`, a `size_t` and a
`uint32_t`, four bytes each. -/
def SIZEOF_ALLOC_BLOCK : Nat := 16

/-- One `AllocBlock` header.  `addr` is the offset of the header from `g_heap`;
the `next` pointer of a block is the `addr` of its successor in the list (null
for the last block).  `id` is `none` while the field has never been written. -/
structure AllocBlock where
  addr : Nat
  free : Bool
  size : Nat
  id : Option Nat
deriving DecidableEq, Repr

/-- The block list starting at `g_heap`, in `next` order. -/
abbrev Heap := List AllocBlock

/-- Function `initAllocHeap` (lines 121-128). -/
def initAllocHeap (heapSize : Nat) : Heap :=
  [{ addr := 0, free := true, size := wrapSub heapSize SIZEOF_ALLOC_BLOCK, id := none }]

/-- The rounding `((size + ALIGNMENT - 1) / ALIGNMENT) * ALIGNMENT` of line 136,
in `size_t` arithmetic. -/
def alignSize (size : Nat) : Nat :=
  ((size + ALIGNMENT - 1) % WORD / ALIGNMENT * ALIGNMENT) % WORD

/-- The `while` loop of `alloc` (lines 137-159) on the blocks from `block` on:
`none` when the loop runs off the list, otherwise the new blocks and the
returned pointer `block + 1`. -/
def allocLoop (size id : Nat) : List AllocBlock → Option (List AllocBlock × Nat)
  | [] => none
  | block :: rest =>
    if block.free = true ∧ size ≤ block.size then
      let remainingSize : Int :=
        toInt32 (wrapSub (wrapSub block.size size) SIZEOF_ALLOC_BLOCK)
      if (MIN_BLOCK_SIZE : Int) ≤ remainingSize then
        let newBlock : AllocBlock :=
          { addr := block.addr + SIZEOF_ALLOC_BLOCK + size, free := true,
            size := remainingSize.toNat, id := none }
        some ({ block with size := size, free := false, id := some id } :: newBlock :: rest,
              block.addr + SIZEOF_ALLOC_BLOCK)
      else
        some ({ block with free := false, id := some id } :: rest,
              block.addr + SIZEOF_ALLOC_BLOCK)
    else
      match allocLoop size id rest with
      | none => none
      | some (rest', p) => some (block :: rest', p)

/-- Function `alloc` (lines 129-162): the new heap and the returned pointer
(`none` is `nullptr`). -/
def alloc (h : Heap) (size id : Nat) : Heap × Option Nat :=
  if size = 0 then (h, none)
  else
    match allocLoop (alignSize size) id h with
    | none => (h, none)
    | some (h', p) => (h', some p)

/-- Lines 181-196 of `free`: release `block`, whose predecessor is `prevBlock`
and whose successors are `rest`; the result replaces all of them. -/
def freeMerge (prevBlock : Option AllocBlock) (block : AllocBlock) :
    List AllocBlock → List AllocBlock
  | nextBlock :: rest =>
    if nextBlock.free = true then
      match prevBlock with
      | some p =>
        if p.free = true then
          { p with size := (p.size + (SIZEOF_ALLOC_BLOCK + block.size + SIZEOF_ALLOC_BLOCK
                              + nextBlock.size)) % WORD } :: rest
        else
          p :: { block with size := (block.size + (SIZEOF_ALLOC_BLOCK + nextBlock.size)) % WORD,
                            free := true } :: rest
      | none =>
        { block with size := (block.size + (SIZEOF_ALLOC_BLOCK + nextBlock.size)) % WORD,
                     free := true } :: rest
    else
      match prevBlock with
      | some p =>
        if p.free = true then
          { p with size := (p.size + (SIZEOF_ALLOC_BLOCK + block.size)) % WORD }
            :: nextBlock :: rest
        else p :: { block with free := true } :: nextBlock :: rest
      | none => { block with free := true } :: nextBlock :: rest
  | [] =>
    match prevBlock with
    | some p =>
      if p.free = true then
        [{ p with size := (p.size + (SIZEOF_ALLOC_BLOCK + block.size)) % WORD }]
      else [p, { block with free := true }]
    | none => [{ block with free := true }]

/-- The `while` loop of `free` (lines 171-179) once a predecessor exists; `none`
is the failed assertion of line 176. -/
def freeLoop (ptr : Nat) (prevBlock : AllocBlock) : List AllocBlock → Option (List AllocBlock)
  | [] => none
  | block :: rest =>
    if block.addr + SIZEOF_ALLOC_BLOCK < ptr then
      match freeLoop ptr block rest with
      | none => none
      | some l => some (prevBlock :: l)
    else if block.addr + SIZEOF_ALLOC_BLOCK ≠ ptr ∨ block.free = true then none
    else some (freeMerge (some prevBlock) block rest)

/-- Function `free` (lines 163-199); `ptr = none` is the null pointer, the
result `none` is the failed assertion `assert(false)` of line 176. -/
def free (h : Heap) (ptr : Option Nat) : Option Heap :=
  match ptr with
  | none => some h
  | some p =>
    match h with
    | [] => none
    | block :: rest =>
      if block.addr + SIZEOF_ALLOC_BLOCK < p then freeLoop p block rest
      else if block.addr + SIZEOF_ALLOC_BLOCK ≠ p ∨ block.free = true then none
      else some (freeMerge none block rest)

/-- The loop of `getAllocInfo` (lines 226-233) with its two `uint32_t`
accumulators. -/
def getAllocInfoLoop : List AllocBlock → Nat × Nat → Nat × Nat
  | [], acc => acc
  | block :: rest, (free, alloc) =>
    if block.free = true then getAllocInfoLoop rest ((free + block.size) % WORD, alloc)
    else getAllocInfoLoop rest (free, (alloc + block.size) % WORD)

/-- Function `getAllocInfo` (lines 220-236): the pair `(free, alloc)`. -/
def getAllocInfo (h : Heap) : Nat × Nat := getAllocInfoLoop h (0, 0)

/-- The heap states reachable from `initAllocHeap` by `alloc` and `free` calls.
The buffer holds at least the first header and its size is a `size_t`. -/
inductive HeapReachable : Heap → Prop
  | init (heapSize : Nat) (h₁ : SIZEOF_ALLOC_BLOCK ≤ heapSize) (h₂ : heapSize < WORD) :
      HeapReachable (initAllocHeap heapSize)
  | alloc (h : Heap) (size id : Nat) :
      HeapReachable h → HeapReachable (alloc h size id).1
  | free (h h' : Heap) (ptr : Option Nat) :
      HeapReachable h → free h ptr = some h' → HeapReachable h'

end eez

namespace eez

/-! ## core/value.cpp : tagged values -/

/-- Signed 32-bit wrap of an integer (the conversion `(int)x`, `(int32_t)x`). -/
def wrapInt32 (x : Int) : Int := (x + 2147483648) % 4294967296 - 2147483648

/-- Signed 64-bit wrap of an integer (the conversion `(int64_t)x`). -/
def wrapInt64 (x : Int) : Int :=
  (x + 9223372036854775808) % 18446744073709551616 - 9223372036854775808

/-- Signed 8-bit reading of the low byte of a word. -/
def wrapInt8 (x : Int) : Int := (x + 128) % 256 - 128

/-- Signed 16-bit reading of the low half of a word. -/
def wrapInt16 (x : Int) : Int := (x + 32768) % 65536 - 32768

/-- Values of C `float` and `double`: rationals with the two infinities and NaN.
A `fin q` is a value of a format when `q` is a number of that format; the
arithmetic operations and the conversions that are not exact round their result
to the format (`Dbl.roundRat`).  The sign of zero is not represented. -/
inductive Dbl
  | fin (q : ℚ)
  | posInf
  | negInf
  | nan
deriving DecidableEq

namespace Dbl

/-- The floating-point formats of the target: `float` is IEEE 754 binary32 and
`double` is binary64. -/
inductive Format
  | binary32
  | binary64
deriving DecidableEq, Repr

/-- The number of significant bits of a format. -/
def Format.precision : Format → Int
  | .binary32 => 24
  | .binary64 => 53

/-- The exponent of the smallest normal number of a format. -/
def Format.emin : Format → Int
  | .binary32 => -126
  | .binary64 => -1022

/-- The exponent of the smallest power of two that is too large for a format. -/
def Format.emax : Format → Int
  | .binary32 => 128
  | .binary64 => 1024

/-- The integer nearest to a rational, the even one of the two when it is halfway
between two integers. -/
def roundHalfEven (x : ℚ) : Int :=
  if Int.fract x < 1 / 2 then ⌊x⌋
  else if 1 / 2 < Int.fract x then ⌊x⌋ + 1
  else if ⌊x⌋ % 2 = 0 then ⌊x⌋
  else ⌊x⌋ + 1

/-- The exponent of the unit in the last place of the numbers of a format that
have the magnitude of `q`: that of the subnormal numbers when `q` is below the
normal range. -/
def Format.quantum (f : Format) (q : ℚ) : Int :=
  max (Int.log 2 |q|) f.emin - (f.precision - 1)

/-- Rounding of a rational number to a format in the default rounding mode (to
nearest, ties to even): the multiple of the unit in the last place nearest to
`q`, or an infinity when that is too large for the format. -/
def roundRat (f : Format) (q : ℚ) : Dbl :=
  let v : ℚ := (roundHalfEven (q / 2 ^ f.quantum q) : ℚ) * 2 ^ f.quantum q
  if (2 : ℚ) ^ f.emax ≤ |v| then (if q < 0 then negInf else posInf) else fin v

/-- The rational `q` is a number of the format: `m * 2 ^ t` with
`|m| < 2 ^ precision` and `t` not below the exponent of the subnormal numbers,
of a magnitude below `2 ^ emax`. -/
def Format.represents (f : Format) (q : ℚ) : Prop :=
  |q| < 2 ^ f.emax ∧
  ∃ m t : ℤ, |(m : ℚ)| < 2 ^ f.precision ∧ f.emin - (f.precision - 1) ≤ t ∧ q = m * 2 ^ t

/-- Conversion of a value to a format, as `(float)x` for a `double`. -/
def round (f : Format) : Dbl → Dbl
  | fin q => roundRat f q
  | x => x

/-- Conversion of an integer of at most 32 bits to `double`, or of at most 16 bits
to `float`, which is exact. -/
def ofInt (n : Int) : Dbl := fin (n : ℚ)

/-- Conversion of an integer to a format, which rounds. -/
def ofIntRounded (f : Format) (n : Int) : Dbl := roundRat f (n : ℚ)

/-- Test `isNaN` (lines 1103-1108). -/
def isNaN : Dbl → Bool
  | nan => true
  | _ => false

/-- Negation. -/
def neg : Dbl → Dbl
  | fin q => fin (-q)
  | posInf => negInf
  | negInf => posInf
  | nan => nan

/-- Addition `x + y` in a format. -/
def add (f : Format) : Dbl → Dbl → Dbl
  | fin a, fin b => roundRat f (a + b)
  | nan, _ => nan
  | _, nan => nan
  | posInf, negInf => nan
  | negInf, posInf => nan
  | posInf, _ => posInf
  | negInf, _ => negInf
  | _, posInf => posInf
  | _, negInf => negInf

/-- Subtraction `x - y` in a format. -/
def sub (f : Format) (x y : Dbl) : Dbl := add f x (neg y)

/-- An infinity of the given sign. -/
def inf (negative : Bool) : Dbl := if negative then negInf else posInf

/-- Multiplication `x * y` in a format. -/
def mul (f : Format) : Dbl → Dbl → Dbl
  | fin a, fin b => roundRat f (a * b)
  | nan, _ => nan
  | _, nan => nan
  | fin a, posInf => if a = 0 then nan else inf (decide (a < 0))
  | fin a, negInf => if a = 0 then nan else inf (decide (0 < a))
  | posInf, fin b => if b = 0 then nan else inf (decide (b < 0))
  | negInf, fin b => if b = 0 then nan else inf (decide (0 < b))
  | posInf, posInf => posInf
  | negInf, negInf => posInf
  | posInf, negInf => negInf
  | negInf, posInf => negInf

/-- Division `x / y` in a format; a finite non-zero value divided by zero is an
infinity. -/
def div (f : Format) : Dbl → Dbl → Dbl
  | fin a, fin b =>
    if b = 0 then (if a = 0 then nan else inf (decide (a < 0))) else roundRat f (a / b)
  | nan, _ => nan
  | _, nan => nan
  | fin _, posInf => fin 0
  | fin _, negInf => fin 0
  | posInf, fin b => inf (decide (b < 0))
  | negInf, fin b => inf (decide (0 ≤ b))
  | posInf, posInf => nan
  | posInf, negInf => nan
  | negInf, posInf => nan
  | negInf, negInf => nan

/-- Library function `floor`; its result is a number of the format of its
argument. -/
def floor : Dbl → Dbl
  | fin q => fin (⌊q⌋ : Int)
  | x => x

/-- Comparison `x < y`. -/
def lt : Dbl → Dbl → Bool
  | fin a, fin b => decide (a < b)
  | nan, _ => false
  | _, nan => false
  | negInf, negInf => false
  | negInf, _ => true
  | _, negInf => false
  | posInf, _ => false
  | fin _, posInf => true

/-- Comparison `x == y`. -/
def eq : Dbl → Dbl → Bool
  | fin a, fin b => decide (a = b)
  | posInf, posInf => true
  | negInf, negInf => true
  | _, _ => false

/-- Conversion `(uint32_t)x` of a finite value; the conversion of the other
values is taken to be 0. -/
def toUInt32 : Dbl → Nat
  | fin q => (q.floor % 4294967296).toNat
  | _ => 0

/-- Conversion to a signed integer (truncation towards zero); the conversion of
the non-finite values is taken to be 0. -/
def toInt : Dbl → Int
  | fin q => if 0 ≤ q then ⌊q⌋ else -⌊-q⌋
  | _ => 0

end Dbl

/-- The value type tags (`VALUE_TYPES`). -/
inductive ValueType
  | UNDEFINED | NULL | BOOLEAN | INT8 | UINT8 | INT16 | UINT16 | INT32 | UINT32 | INT64 | UINT64
  | FLOAT | DOUBLE | STRING | STRING_ASSET | ARRAY | ARRAY_ASSET | ARRAY_REF | STRING_REF
  | BLOB_REF | STREAM | WIDGET | JSON | JSON_MEMBER_VALUE | DATE | VERSIONED_STRING | VALUE_PTR
  | ARRAY_ELEMENT_VALUE | FLOW_OUTPUT | NATIVE_VARIABLE | ERROR | RANGE | POINTER | ENUM
  | YT_DATA_GET_VALUE_FUNCTION_POINTER | IP_ADDRESS | TIME_ZONE
deriving DecidableEq, Repr

/-- The places a `Value *` held by a `VALUE_TYPE_VALUE_PTR` value can point to. -/
inductive ValuePtr
  | flowStateValue (flowStateIndex : Nat) (index : Nat)
  | globalVariable (index : Nat)
  | flowDefinitionGlobalVariable (index : Nat)
deriving DecidableEq, Repr

/-- A `Value`: the tag and the members of its union that the embedded code reads.
`int32Value` is the 32-bit word shared by the boolean and the integer types of at
most 32 bits (their narrower members are its low bytes), `int64Value` the 64-bit
member, `strValue` the characters returned by `getString()` (`none` is a null
pointer), `blobValue` the bytes of the `BlobRef` returned by `getBlob()`,
`arraySize` the size of the array returned by `getArray()`, and `pValueValue`
what a pointer value points to; `dstValueType` is the member of that name.
`unit` and `options` are the members of those names (the code compares units
only for equality: `UNIT_UNKNOWN`, which the constructors store, is written 0);
`refValue`, `arrayValue` and `pVoidValue` are the addresses held by the pointer
members of those names (0 is the null pointer). -/
structure Value where
  type : ValueType
  int32Value : Int
  int64Value : Int
  floatValue : Dbl
  doubleValue : Dbl
  strValue : Option String
  blobValue : Option (List Nat)
  arraySize : Nat
  pValueValue : Option ValuePtr
  dstValueType : Nat
  unit : Nat
  options : Nat
  refValue : Nat
  arrayValue : Nat
  pVoidValue : Nat
deriving DecidableEq

namespace Value

/-- Constructor `Value()`: an undefined value with a zero payload. -/
def undefined : Value :=
  { type := .UNDEFINED, int32Value := 0, int64Value := 0, floatValue := .fin 0,
    doubleValue := .fin 0, strValue := none, blobValue := none, arraySize := 0,
    pValueValue := none, dstValueType := 0, unit := 0, options := 0, refValue := 0,
    arrayValue := 0, pVoidValue := 0 }

/-- Constructor `Value(int value, ValueType type)`. -/
def ofInt (value : Int) (type : ValueType) : Value :=
  { undefined with type := type, int32Value := wrapInt32 value }

/-- Constructor `Value(bool value, ValueType type)`. -/
def ofBool (value : Bool) (type : ValueType) : Value :=
  { undefined with type := type, int32Value := if value then 1 else 0 }

/-- Constructor `Value(int64_t value, ValueType type)`. -/
def ofInt64 (value : Int) (type : ValueType) : Value :=
  { undefined with type := type, int64Value := wrapInt64 value }

/-- Constructor `Value(float value, ValueType type)`. -/
def ofFloat (value : Dbl) (type : ValueType) : Value :=
  { undefined with type := type, floatValue := value }

/-- Constructor `Value(double value, ValueType type)`. -/
def ofDouble (value : Dbl) (type : ValueType) : Value :=
  { undefined with type := type, doubleValue := value }

/-- Modelled from the spec: `Value::makeError()` of the missing header, the value
carrying the error marker tag. -/
def makeError : Value := { undefined with type := .ERROR }

/-- Modelled from the spec: `Value::isError()` of the missing header. -/
def isError (v : Value) : Bool := decide (v.type = .ERROR)

/-- Modelled from the spec: `Value::isIndirectValueType()` of the missing header,
the pointer-valued indirections (pointer to a Value, native variable, array
element reference, JSON member reference). -/
def isIndirectValueType (v : Value) : Bool :=
  decide (v.type = .VALUE_PTR ∨ v.type = .NATIVE_VARIABLE ∨ v.type = .ARRAY_ELEMENT_VALUE ∨
    v.type = .JSON_MEMBER_VALUE)

/-- Modelled from the spec: `Value::getValue()` of the missing header; `resolve`
reads what an indirect value refers to. -/
def getValue (resolve : Value → Value) (v : Value) : Value :=
  if v.isIndirectValueType then resolve v else v

/-- Modelled from the spec: `Value::isDouble()` of the missing header. -/
def isDouble (v : Value) : Bool := decide (v.type = .DOUBLE)

/-- Modelled from the spec: `Value::isFloat()` of the missing header. -/
def isFloat (v : Value) : Bool := decide (v.type = .FLOAT)

/-- Modelled from the spec: `Value::isInt64()` of the missing header. -/
def isInt64 (v : Value) : Bool := decide (v.type = .INT64 ∨ v.type = .UINT64)

/-- Modelled from the spec: `Value::isInt32OrLess()` of the missing header, the
integer types of at most 32 bits and the boolean type. -/
def isInt32OrLess (v : Value) : Bool :=
  decide (v.type = .INT8 ∨ v.type = .UINT8 ∨ v.type = .INT16 ∨ v.type = .UINT16 ∨
    v.type = .INT32 ∨ v.type = .UINT32 ∨ v.type = .BOOLEAN)

/-- Modelled from the spec: `Value::isString()` of the missing header, the inline
string and the ref-counted heap string. -/
def isString (v : Value) : Bool := decide (v.type = .STRING ∨ v.type = .STRING_REF)

/-- Modelled from the spec: `Value::isBlob()` of the missing header. -/
def isBlob (v : Value) : Bool := decide (v.type = .BLOB_REF)

/-- Modelled from the spec: `Value::isArray()` of the missing header, the inline
descriptor, the asset array and the ref-counted heap array. -/
def isArray (v : Value) : Bool :=
  decide (v.type = .ARRAY ∨ v.type = .ARRAY_ASSET ∨ v.type = .ARRAY_REF)

/-- Modelled from the spec: `Value::isJson()` of the missing header. -/
def isJson (v : Value) : Bool := decide (v.type = .JSON)

/-- Modelled from the spec: `Value::isUndefinedOrNull()` of the missing header. -/
def isUndefinedOrNull (v : Value) : Bool := decide (v.type = .UNDEFINED ∨ v.type = .NULL)

/-- Union member `int8Value`. -/
def int8Value (v : Value) : Int := wrapInt8 v.int32Value
/-- Union member `uint8Value`. -/
def uint8Value (v : Value) : Int := v.int32Value % 256
/-- Union member `int16Value`. -/
def int16Value (v : Value) : Int := wrapInt16 v.int32Value
/-- Union member `uint16Value`. -/
def uint16Value (v : Value) : Int := v.int32Value % 65536
/-- Union member `uint32Value`. -/
def uint32Value (v : Value) : Int := v.int32Value % 4294967296
/-- Union member `uint64Value`. -/
def uint64Value (v : Value) : Int := v.int64Value % 18446744073709551616

/-- Function `Value::toDouble` (lines 2329-2384) on a value that is not indirect:
the result and the `err` flag.  `strtod` is the library parse of a whole string
(`none` when characters are left over). -/
def toDouble (strtod : String → Option Dbl) (v : Value) : Dbl × Bool :=
  match v.type with
  | .DOUBLE => (v.doubleValue, false)
  | .FLOAT => (v.floatValue, false)
  | .INT8 => (Dbl.ofInt v.int8Value, false)
  | .UINT8 => (Dbl.ofInt v.uint8Value, false)
  | .INT16 => (Dbl.ofInt v.int16Value, false)
  | .UINT16 => (Dbl.ofInt v.uint16Value, false)
  | .INT32 => (Dbl.ofInt v.int32Value, false)
  | .BOOLEAN => (Dbl.ofInt v.int32Value, false)
  | .UINT32 => (Dbl.ofInt v.uint32Value, false)
  | .INT64 => (Dbl.ofIntRounded .binary64 v.int64Value, false)
  | .UINT64 => (Dbl.ofIntRounded .binary64 v.uint64Value, false)
  | .DATE => (v.doubleValue, false)
  | _ =>
    if v.isString then
      match v.strValue.bind strtod with
      | some d => (d, false)
      | none => (Dbl.nan, true)
    else (Dbl.nan, true)

/-- Function `Value::toFloat` (lines 2385-2437) on a value that is not indirect. -/
def toFloat (strtod : String → Option Dbl) (v : Value) : Dbl × Bool :=
  match v.type with
  | .DOUBLE => (Dbl.round .binary32 v.doubleValue, false)
  | .FLOAT => (v.floatValue, false)
  | .INT8 => (Dbl.ofInt v.int8Value, false)
  | .UINT8 => (Dbl.ofInt v.uint8Value, false)
  | .INT16 => (Dbl.ofInt v.int16Value, false)
  | .UINT16 => (Dbl.ofInt v.uint16Value, false)
  | .INT32 => (Dbl.ofIntRounded .binary32 v.int32Value, false)
  | .BOOLEAN => (Dbl.ofIntRounded .binary32 v.int32Value, false)
  | .UINT32 => (Dbl.ofIntRounded .binary32 v.uint32Value, false)
  | .INT64 => (Dbl.ofIntRounded .binary32 v.int64Value, false)
  | .UINT64 => (Dbl.ofIntRounded .binary32 v.uint64Value, false)
  | _ =>
    if v.isString then
      match v.strValue.bind strtod with
      | some d => (d, false)
      | none => (Dbl.nan, true)
    else (Dbl.nan, true)

/-- Function `Value::toInt64` (lines 2494-2546) on a value that is not indirect.
`strtol` is the library parse of a whole string. -/
def toInt64 (strtol : String → Option Int) (v : Value) : Int × Bool :=
  match v.type with
  | .DOUBLE => (wrapInt64 v.doubleValue.toInt, false)
  | .FLOAT => (wrapInt64 v.floatValue.toInt, false)
  | .INT8 => (v.int8Value, false)
  | .UINT8 => (v.uint8Value, false)
  | .INT16 => (v.int16Value, false)
  | .UINT16 => (v.uint16Value, false)
  | .INT32 => (v.int32Value, false)
  | .BOOLEAN => (v.int32Value, false)
  | .UINT32 => (v.uint32Value, false)
  | .INT64 => (v.int64Value, false)
  | .UINT64 => (wrapInt64 v.uint64Value, false)
  | _ =>
    if v.isString then
      match v.strValue.bind strtol with
      | some n => (wrapInt64 n, false)
      | none => (0, true)
    else (0, true)

end Value

/-- What the embedded functions take from outside the value itself: the target of
an indirect value, the two library parsers, the text `snprintf` gives for a value
that is not a string, whether the arena has room for a new object, the address
`newRef` at which the arena then places it, and the constant
`VALUE_OPTIONS_REF` of the missing header. -/
structure ValueEnv where
  resolve : Value → Value
  strtod : String → Option Dbl
  strtol : String → Option Int
  format : Value → String
  allocOk : Bool
  newRef : Nat
  VALUE_OPTIONS_REF : Nat

/-- Function `op_div` (lines 4960-4992). -/
def op_div (env : ValueEnv) (a1 b1 : Value) : Value :=
  if a1.isError then a1
  else if b1.isError then b1
  else
    let a := a1.getValue env.resolve
    let b := b1.getValue env.resolve
    if !(a.isDouble || a.isFloat || a.isInt64 || a.isInt32OrLess) then Value.makeError
    else if !(b.isDouble || b.isFloat || b.isInt64 || b.isInt32OrLess) then Value.makeError
    else if a.isDouble || b.isDouble then
      Value.ofDouble (Dbl.div .binary64 (a.toDouble env.strtod).1 (b.toDouble env.strtod).1)
        .DOUBLE
    else if a.isFloat || b.isFloat then
      Value.ofFloat (Dbl.div .binary32 (a.toFloat env.strtod).1 (b.toFloat env.strtod).1) .FLOAT
    else if a.isInt64 || b.isInt64 then
      let d := (b.toInt64 env.strtol).1
      if d = 0 then Value.makeError
      else
        Value.ofDouble
          (Dbl.div .binary64
            (Dbl.mul .binary64 (Dbl.fin 1) (Dbl.ofIntRounded .binary64 (a.toInt64 env.strtol).1))
            (Dbl.ofIntRounded .binary64 d))
          .DOUBLE
    else if b.int32Value = 0 then Value.makeError
    else
      Value.ofDouble
        (Dbl.div .binary64 (Dbl.mul .binary64 (Dbl.fin 1) (Dbl.ofInt a.int32Value))
          (Dbl.ofInt b.int32Value))
        .DOUBLE

/-- Function `op_mod` (lines 4993-5025). -/
def op_mod (env : ValueEnv) (a1 b1 : Value) : Value :=
  if a1.isError then a1
  else if b1.isError then b1
  else
    let a := a1.getValue env.resolve
    let b := b1.getValue env.resolve
    if !(a.isDouble || a.isFloat || a.isInt64 || a.isInt32OrLess) then Value.makeError
    else if !(b.isDouble || b.isFloat || b.isInt64 || b.isInt32OrLess) then Value.makeError
    else if a.isDouble || b.isDouble then
      let x := (a.toDouble env.strtod).1
      let y := (b.toDouble env.strtod).1
      Value.ofDouble
        (Dbl.sub .binary64 x (Dbl.mul .binary64 (Dbl.floor (Dbl.div .binary64 x y)) y)) .DOUBLE
    else if a.isFloat || b.isFloat then
      let x := (a.toFloat env.strtod).1
      let y := (b.toFloat env.strtod).1
      Value.ofFloat
        (Dbl.sub .binary32 x (Dbl.mul .binary32 (Dbl.floor (Dbl.div .binary32 x y)) y)) .FLOAT
    else if a.isInt64 || b.isInt64 then
      let d := (b.toInt64 env.strtol).1
      if d = 0 then Value.makeError
      else Value.ofInt64 (Int.tmod (a.toInt64 env.strtol).1 d) .INT64
    else if b.int32Value = 0 then Value.makeError
    else Value.ofInt (Int.tmod a.int32Value b.int32Value) .INT32

end eez

namespace eez

namespace Value

/-- Function `Value::getString` (lines 2301-2310) on a value that is not indirect. -/
def getString (v : Value) : Option String :=
  if v.type = .STRING_REF then v.strValue
  else if v.type = .STRING then v.strValue
  else none

/-- Function `Value::toInt32` (lines 2438-2493) on a value that is not indirect:
the result and the `err` flag. -/
def toInt32 (strtol : String → Option Int) (v : Value) : Int × Bool :=
  match v.type with
  | .INT32 => (v.int32Value, false)
  | .BOOLEAN => (v.int32Value, false)
  | .UINT32 => (wrapInt32 v.uint32Value, false)
  | .INT8 => (v.int8Value, false)
  | .UINT8 => (v.uint8Value, false)
  | .INT16 => (v.int16Value, false)
  | .UINT16 => (v.uint16Value, false)
  | .INT64 => (wrapInt32 v.int64Value, false)
  | .UINT64 => (wrapInt32 v.uint64Value, false)
  | .DOUBLE => (wrapInt32 v.doubleValue.toInt, false)
  | .FLOAT => (wrapInt32 v.floatValue.toInt, false)
  | _ =>
    if v.isString then
      match v.strValue.bind strtol with
      | some n => (wrapInt32 n, false)
      | none => (0, true)
    else (0, true)

/-- Function `Value::toBool` (lines 2547-2609): the result and the `err` flag.
An indirect value is resolved first. -/
def toBool (env : ValueEnv) (v0 : Value) : Bool × Bool :=
  let v := v0.getValue env.resolve
  match v.type with
  | .UNDEFINED => (false, false)
  | .NULL => (false, false)
  | .DOUBLE => (!(Dbl.eq v.doubleValue (.fin 0)), false)
  | .FLOAT => (!(Dbl.eq v.floatValue (.fin 0)), false)
  | .INT8 => (decide (v.int8Value ≠ 0), false)
  | .UINT8 => (decide (v.uint8Value ≠ 0), false)
  | .INT16 => (decide (v.int16Value ≠ 0), false)
  | .UINT16 => (decide (v.uint16Value ≠ 0), false)
  | .INT32 => (decide (v.int32Value ≠ 0), false)
  | .BOOLEAN => (decide (v.int32Value ≠ 0), false)
  | .UINT32 => (decide (v.uint32Value ≠ 0), false)
  | .INT64 => (decide (v.int64Value ≠ 0), false)
  | .UINT64 => (decide (v.uint64Value ≠ 0), false)
  | .DATE => (!(Dbl.eq v.doubleValue (.fin 0)), false)
  | _ =>
    if v.isString then
      (match v.getString with
        | some s => decide (s ≠ "")
        | none => false, false)
    else if v.isBlob then
      (match v.blobValue with
        | some bytes => decide (0 < bytes.length)
        | none => false, false)
    else if v.isArray then (decide (v.arraySize ≠ 0), false)
    else if v.isJson then (decide (v.int32Value ≠ 0), false)
    else (false, true)

/-- The value `Value(0, VALUE_TYPE_NULL)` returned when the arena is exhausted. -/
def nullValue : Value := Value.ofInt 0 .NULL

/-- Function `Value::makeStringRef` (lines 2650-2671). -/
def makeStringRef (env : ValueEnv) (str : String) : Value :=
  if env.allocOk then
    { undefined with
      type := .STRING_REF, options := env.VALUE_OPTIONS_REF, refValue := env.newRef,
      strValue := some str }
  else nullValue

/-- Function `Value::toString` (lines 2610-2649) on a value that is not indirect. -/
def toString (env : ValueEnv) (v : Value) : Value :=
  if v.isString then v else makeStringRef env (env.format v)

/-- Function `Value::concatenateString` (lines 2672-2691); a null `getString()`
is read as the empty string. -/
def concatenateString (env : ValueEnv) (str1 str2 : Value) : Value :=
  if env.allocOk then
    { undefined with
      type := .STRING_REF, options := env.VALUE_OPTIONS_REF, refValue := env.newRef,
      strValue := some (str1.getString.getD "" ++ str2.getString.getD "") }
  else nullValue

/-- Function `Value::makeBlobRef` with two sources (lines 2761-2780). -/
def makeBlobRef2 (env : ValueEnv) (blob1 blob2 : List Nat) : Value :=
  if env.allocOk then
    { undefined with
      type := .BLOB_REF, options := env.VALUE_OPTIONS_REF, refValue := env.newRef,
      blobValue := some (blob1 ++ blob2) }
  else nullValue

/-- Function `Value::makeArrayElementRef` (lines 2710-2723); the reference keeps
the element index in `int32Value` and the size of the array in `arraySize`. -/
def makeArrayElementRef (env : ValueEnv) (arrayValue : Value) (elementIndex : Int) : Value :=
  if env.allocOk then
    { undefined with
      type := .ARRAY_ELEMENT_VALUE, options := env.VALUE_OPTIONS_REF, refValue := env.newRef,
      int32Value := elementIndex,
      arraySize := arrayValue.arraySize, blobValue := arrayValue.blobValue }
  else nullValue

end Value

/-- Function `op_add` (lines 4857-4907). -/
def op_add (env : ValueEnv) (a1 b1 : Value) : Value :=
  if a1.isError then a1
  else if b1.isError then b1
  else
    let a := a1.getValue env.resolve
    let b := b1.getValue env.resolve
    if a.isBlob || b.isBlob then
      if a.isBlob then
        if b.isUndefinedOrNull then a
        else if !b.isBlob then Value.makeError
        else Value.makeBlobRef2 env (a.blobValue.getD []) (b.blobValue.getD [])
      else
        if a.isUndefinedOrNull then b
        else Value.makeError
    else
      let a_valid := a.isString || a.isDouble || a.isFloat || a.isInt64 || a.isInt32OrLess
      let b_valid := b.isString || b.isDouble || b.isFloat || b.isInt64 || b.isInt32OrLess
      if !a_valid && !b_valid then Value.makeError
      else if a.isString || b.isString then
        Value.concatenateString env (a.toString env) (b.toString env)
      else if a.isDouble || b.isDouble then
        Value.ofDouble (Dbl.add .binary64 (a.toDouble env.strtod).1 (b.toDouble env.strtod).1)
          .DOUBLE
      else if a.isFloat || b.isFloat then
        Value.ofFloat (Dbl.add .binary32 (a.toFloat env.strtod).1 (b.toFloat env.strtod).1) .FLOAT
      else if a.isInt64 || b.isInt64 then
        Value.ofInt64 ((a.toInt64 env.strtol).1 + (b.toInt64 env.strtol).1) .INT64
      else Value.ofInt (a.int32Value + b.int32Value) .INT32

/-- Function `op_sub` (lines 4908-4933). -/
def op_sub (env : ValueEnv) (a1 b1 : Value) : Value :=
  if a1.isError then a1
  else if b1.isError then b1
  else
    let a := a1.getValue env.resolve
    let b := b1.getValue env.resolve
    if !(a.isDouble || a.isFloat || a.isInt64 || a.isInt32OrLess) then Value.makeError
    else if !(b.isDouble || b.isFloat || b.isInt64 || b.isInt32OrLess) then Value.makeError
    else if a.isDouble || b.isDouble then
      Value.ofDouble (Dbl.sub .binary64 (a.toDouble env.strtod).1 (b.toDouble env.strtod).1)
          .DOUBLE
    else if a.isFloat || b.isFloat then
      Value.ofFloat (Dbl.sub .binary32 (a.toFloat env.strtod).1 (b.toFloat env.strtod).1) .FLOAT
    else if a.isInt64 || b.isInt64 then
      Value.ofInt64 ((a.toInt64 env.strtol).1 - (b.toInt64 env.strtol).1) .INT64
    else Value.ofInt (a.int32Value - b.int32Value) .INT32

/-- Function `op_mul` (lines 4934-4959). -/
def op_mul (env : ValueEnv) (a1 b1 : Value) : Value :=
  if a1.isError then a1
  else if b1.isError then b1
  else
    let a := a1.getValue env.resolve
    let b := b1.getValue env.resolve
    if !(a.isDouble || a.isFloat || a.isInt64 || a.isInt32OrLess) then Value.makeError
    else if !(b.isDouble || b.isFloat || b.isInt64 || b.isInt32OrLess) then Value.makeError
    else if a.isDouble || b.isDouble then
      Value.ofDouble (Dbl.mul .binary64 (a.toDouble env.strtod).1 (b.toDouble env.strtod).1)
          .DOUBLE
    else if a.isFloat || b.isFloat then
      Value.ofFloat (Dbl.mul .binary32 (a.toFloat env.strtod).1 (b.toFloat env.strtod).1) .FLOAT
    else if a.isInt64 || b.isInt64 then
      Value.ofInt64 ((a.toInt64 env.strtol).1 * (b.toInt64 env.strtol).1) .INT64
    else Value.ofInt (a.int32Value * b.int32Value) .INT32

/-- Function `is_equal` (lines 5126-5162). -/
def is_equal (env : ValueEnv) (a1 b1 : Value) : Bool :=
  let a := a1.getValue env.resolve
  let b := b1.getValue env.resolve
  let aIsUndefinedOrNull := decide (a.type = .UNDEFINED ∨ a.type = .NULL)
  let bIsUndefinedOrNull := decide (b.type = .UNDEFINED ∨ b.type = .NULL)
  if aIsUndefinedOrNull then bIsUndefinedOrNull
  else if bIsUndefinedOrNull then false
  else if a.isString && b.isString then
    match a.getString, b.getString with
    | none, _ => true
    | some _, none => false
    | some aStr, some bStr => decide (aStr = bStr)
  else if a.isBlob && b.isBlob then
    match a.blobValue, b.blobValue with
    | none, _ => true
    | some _, none => false
    | some aBlob, some bBlob =>
      if aBlob.length ≠ bBlob.length then false else decide (aBlob = bBlob)
  else Dbl.eq (a.toDouble env.strtod).1 (b.toDouble env.strtod).1

/-- Function `is_less` (lines 5163-5175). -/
def is_less (env : ValueEnv) (a1 b1 : Value) : Bool :=
  let a := a1.getValue env.resolve
  let b := b1.getValue env.resolve
  if a.isString && b.isString then
    match a.getString, b.getString with
    | some aStr, some bStr => decide (aStr < bStr)
    | _, _ => false
  else Dbl.lt (a.toDouble env.strtod).1 (b.toDouble env.strtod).1

/-- Function `is_great` (lines 5176-5178). -/
def is_great (env : ValueEnv) (a1 b1 : Value) : Bool :=
  !is_less env a1 b1 && !is_equal env a1 b1

/-- Function `op_eq` (lines 5179-5187). -/
def op_eq (env : ValueEnv) (a1 b1 : Value) : Value :=
  if a1.isError then a1 else if b1.isError then b1
  else Value.ofBool (is_equal env a1 b1) .BOOLEAN

/-- Function `op_neq` (lines 5188-5196). -/
def op_neq (env : ValueEnv) (a1 b1 : Value) : Value :=
  if a1.isError then a1 else if b1.isError then b1
  else Value.ofBool (!is_equal env a1 b1) .BOOLEAN

/-- Function `op_less` (lines 5197-5205). -/
def op_less (env : ValueEnv) (a1 b1 : Value) : Value :=
  if a1.isError then a1 else if b1.isError then b1
  else Value.ofBool (is_less env a1 b1) .BOOLEAN

/-- Function `op_great` (lines 5206-5214). -/
def op_great (env : ValueEnv) (a1 b1 : Value) : Value :=
  if a1.isError then a1 else if b1.isError then b1
  else Value.ofBool (is_great env a1 b1) .BOOLEAN

/-- Function `op_less_eq` (lines 5215-5223). -/
def op_less_eq (env : ValueEnv) (a1 b1 : Value) : Value :=
  if a1.isError then a1 else if b1.isError then b1
  else Value.ofBool (is_less env a1 b1 || is_equal env a1 b1) .BOOLEAN

/-- Function `op_great_eq` (lines 5224-5232). -/
def op_great_eq (env : ValueEnv) (a1 b1 : Value) : Value :=
  if a1.isError then a1 else if b1.isError then b1
  else Value.ofBool (!is_less env a1 b1) .BOOLEAN

end eez

namespace eez
namespace flow

/-! ## flow/expression.cpp and flow/operations.cpp : the expression evaluator -/

/-- Modelled from the spec: the evaluation stack `EvalStack` of the missing
header, a stack of values (the top first) and the error message set by
`setErrorMessage` (empty when none was set).  No capacity limit is represented. -/
structure EvalStack where
  stack : List Value
  errorMessage : String
deriving DecidableEq

namespace EvalStack

/-- The stack at the start of `evalExpression` (lines 4020-4024). -/
def empty : EvalStack := { stack := [], errorMessage := "" }

/-- Member `sp`. -/
def sp (s : EvalStack) : Nat := s.stack.length

/-- Method `push`. -/
def push (s : EvalStack) (v : Value) : EvalStack := { s with stack := v :: s.stack }

/-- Method `pop`; `none` on an empty stack. -/
def pop (s : EvalStack) : Option (Value × EvalStack) :=
  match s.stack with
  | [] => none
  | v :: rest => some (v, { s with stack := rest })

/-- Method `setErrorMessage`. -/
def setErrorMessage (s : EvalStack) (str : String) : EvalStack := { s with errorMessage := str }

end EvalStack

/-- What an expression is evaluated against: the constants of the flow
definition, the flow state (its index and the `values` arrays of all flow
states), the global variables, and the environment of the value functions
(`resolveOther` reads an indirect value that is not a pointer to one of these). -/
structure EvalContext where
  constants : Nat → Value
  flowStateIndex : Nat
  flowStateValues : Nat → Nat → Value
  componentInputsCount : Nat
  globalVariablesCount : Nat
  hasGlobalVariables : Bool
  globalVariables : Nat → Value
  flowDefinitionGlobalVariables : Nat → Value
  resolveOther : Value → Value
  strtod : String → Option Dbl
  strtol : String → Option Int
  format : Value → String
  allocOk : Bool
  newRef : Nat
  VALUE_OPTIONS_REF : Nat

/-- The array `flowState->values` of the flow state of the context. -/
def EvalContext.values (ctx : EvalContext) (index : Nat) : Value :=
  ctx.flowStateValues ctx.flowStateIndex index

/-- What a value of an indirect type refers to in the context. -/
def EvalContext.resolve (ctx : EvalContext) (v : Value) : Value :=
  if v.type = .VALUE_PTR then
    match v.pValueValue with
    | some (.flowStateValue f i) => ctx.flowStateValues f i
    | some (.globalVariable i) => ctx.globalVariables i
    | some (.flowDefinitionGlobalVariable i) => ctx.flowDefinitionGlobalVariables i
    | none => ctx.resolveOther v
  else ctx.resolveOther v

/-- The environment of the value functions in the context. -/
def EvalContext.env (ctx : EvalContext) : ValueEnv :=
  { resolve := ctx.resolve, strtod := ctx.strtod, strtol := ctx.strtol, format := ctx.format,
    allocOk := ctx.allocOk, newRef := ctx.newRef, VALUE_OPTIONS_REF := ctx.VALUE_OPTIONS_REF }

/-- Constructor `Value(Value *pValue)` used by `push(Value *)`. -/
def valueOfPointer (p : ValuePtr) : Value :=
  { Value.undefined with type := .VALUE_PTR, pValueValue := some p }

/-- The shape shared by `do_OPERATION_TYPE_ADD`, `_SUB`, `_MUL`, `_DIV` and `_MOD`
(lines 5233-5277): pop `b`, pop `a`, apply `op`, turn an undefined result into an
Error, push. -/
def doArithmetic (op : ValueEnv → Value → Value → Value) (ctx : EvalContext) (stack : EvalStack) :
    Option EvalStack :=
  match stack.pop with
  | none => none
  | some (b, stack1) =>
    match stack1.pop with
    | none => none
    | some (a, stack2) =>
      let result := op ctx.env a b
      let result := if result.type = .UNDEFINED then Value.makeError else result
      some (stack2.push result)

/-- The shape shared by `do_OPERATION_TYPE_EQUAL` ... `_GREATER_OR_EQUAL` (lines
5323-5352): pop `b`, pop `a`, push `op(a, b)`. -/
def doComparison (op : ValueEnv → Value → Value → Value) (ctx : EvalContext) (stack : EvalStack) :
    Option EvalStack :=
  match stack.pop with
  | none => none
  | some (b, stack1) =>
    match stack1.pop with
    | none => none
    | some (a, stack2) => some (stack2.push (op ctx.env a b))

/-- Function `do_OPERATION_TYPE_ADD` (lines 5233-5241). -/
def do_OPERATION_TYPE_ADD := doArithmetic op_add
/-- Function `do_OPERATION_TYPE_SUB` (lines 5242-5250). -/
def do_OPERATION_TYPE_SUB := doArithmetic op_sub
/-- Function `do_OPERATION_TYPE_MUL` (lines 5251-5259). -/
def do_OPERATION_TYPE_MUL := doArithmetic op_mul
/-- Function `do_OPERATION_TYPE_DIV` (lines 5260-5268). -/
def do_OPERATION_TYPE_DIV := doArithmetic op_div
/-- Function `do_OPERATION_TYPE_MOD` (lines 5269-5277). -/
def do_OPERATION_TYPE_MOD := doArithmetic op_mod
/-- Function `do_OPERATION_TYPE_EQUAL` (lines 5323-5327). -/
def do_OPERATION_TYPE_EQUAL := doComparison op_eq
/-- Function `do_OPERATION_TYPE_NOT_EQUAL` (lines 5328-5332). -/
def do_OPERATION_TYPE_NOT_EQUAL := doComparison op_neq
/-- Function `do_OPERATION_TYPE_LESS` (lines 5333-5337). -/
def do_OPERATION_TYPE_LESS := doComparison op_less
/-- Function `do_OPERATION_TYPE_GREATER` (lines 5338-5342). -/
def do_OPERATION_TYPE_GREATER := doComparison op_great
/-- Function `do_OPERATION_TYPE_LESS_OR_EQUAL` (lines 5343-5347). -/
def do_OPERATION_TYPE_LESS_OR_EQUAL := doComparison op_less_eq
/-- Function `do_OPERATION_TYPE_GREATER_OR_EQUAL` (lines 5348-5352). -/
def do_OPERATION_TYPE_GREATER_OR_EQUAL := doComparison op_great_eq

/-- Function `do_OPERATION_TYPE_LOGICAL_AND` (lines 5353-5369). -/
def do_OPERATION_TYPE_LOGICAL_AND (ctx : EvalContext) (stack : EvalStack) : Option EvalStack :=
  match stack.pop with
  | none => none
  | some (b, stack1) =>
    match stack1.pop with
    | none => none
    | some (a, stack2) =>
      let bValue := b.getValue ctx.resolve
      let aValue := a.getValue ctx.resolve
      if aValue.isError then some (stack2.push aValue)
      else if !(aValue.toBool ctx.env).1 then some (stack2.push (Value.ofBool false .BOOLEAN))
      else if bValue.isError then some (stack2.push bValue)
      else some (stack2.push (Value.ofBool (bValue.toBool ctx.env).1 .BOOLEAN))

/-- Function `do_OPERATION_TYPE_LOGICAL_OR` (lines 5370-5386). -/
def do_OPERATION_TYPE_LOGICAL_OR (ctx : EvalContext) (stack : EvalStack) : Option EvalStack :=
  match stack.pop with
  | none => none
  | some (b, stack1) =>
    match stack1.pop with
    | none => none
    | some (a, stack2) =>
      let bValue := b.getValue ctx.resolve
      let aValue := a.getValue ctx.resolve
      if aValue.isError then some (stack2.push aValue)
      else if (aValue.toBool ctx.env).1 then some (stack2.push (Value.ofBool true .BOOLEAN))
      else if bValue.isError then some (stack2.push bValue)
      else some (stack2.push (Value.ofBool (bValue.toBool ctx.env).1 .BOOLEAN))

/-- Function `do_OPERATION_TYPE_NOT` (lines 5463-5476). -/
def do_OPERATION_TYPE_NOT (ctx : EvalContext) (stack : EvalStack) : Option EvalStack :=
  match stack.pop with
  | none => none
  | some (aValue, stack1) =>
    if aValue.isError then some (stack1.push aValue)
    else
      let (a, err) := aValue.toBool ctx.env
      if err then some (stack1.push Value.makeError)
      else some (stack1.push (Value.ofBool (!a) .BOOLEAN))

/-- Function `do_OPERATION_TYPE_CONDITIONAL` (lines 5477-5492). -/
def do_OPERATION_TYPE_CONDITIONAL (ctx : EvalContext) (stack : EvalStack) : Option EvalStack :=
  match stack.pop with
  | none => none
  | some (alternate, stack1) =>
    match stack1.pop with
    | none => none
    | some (consequent, stack2) =>
      match stack2.pop with
      | none => none
      | some (conditionValue, stack3) =>
        if conditionValue.isError then some (stack3.push conditionValue)
        else
          let (condition, err) := conditionValue.toBool ctx.env
          if err then some (stack3.push Value.makeError)
          else some (stack3.push (if condition then consequent else alternate))

/-- The table `g_evalOperations` (lines 6775-6855) at the indices of the
arithmetic, comparison and logical operations embedded above; `none` at any
other index (the string and array operations embedded further down are
functions of their own). -/
def g_evalOperations (index : Nat) : Option (EvalContext → EvalStack → Option EvalStack) :=
  match index with
  | 0 => some do_OPERATION_TYPE_ADD
  | 1 => some do_OPERATION_TYPE_SUB
  | 2 => some do_OPERATION_TYPE_MUL
  | 3 => some do_OPERATION_TYPE_DIV
  | 4 => some do_OPERATION_TYPE_MOD
  | 10 => some do_OPERATION_TYPE_EQUAL
  | 11 => some do_OPERATION_TYPE_NOT_EQUAL
  | 12 => some do_OPERATION_TYPE_LESS
  | 13 => some do_OPERATION_TYPE_GREATER
  | 14 => some do_OPERATION_TYPE_LESS_OR_EQUAL
  | 15 => some do_OPERATION_TYPE_GREATER_OR_EQUAL
  | 16 => some do_OPERATION_TYPE_LOGICAL_AND
  | 17 => some do_OPERATION_TYPE_LOGICAL_OR
  | 21 => some do_OPERATION_TYPE_NOT
  | 22 => some do_OPERATION_TYPE_CONDITIONAL
  | _ => none

/-- A decoded 16-bit instruction word: the type tag with its payload index.  The
word after `END_WITH_DST_VALUE_TYPE` is its 32-bit destination value type. -/
inductive Instruction
  | PUSH_CONSTANT (arg : Nat)
  | PUSH_INPUT (arg : Nat)
  | PUSH_LOCAL_VAR (arg : Nat)
  | PUSH_GLOBAL_VAR (arg : Nat)
  | PUSH_OUTPUT (arg : Nat)
  | ARRAY_ELEMENT
  | OPERATION (arg : Nat)
  | END
  | END_WITH_DST_VALUE_TYPE (dstValueType : Nat)
deriving DecidableEq, Repr

/-- The `EXPR_EVAL_INSTRUCTION_ARRAY_ELEMENT` branch (lines 3945-3985). -/
def evalArrayElement (ctx : EvalContext) (stack : EvalStack) : Option EvalStack :=
  match stack.pop with
  | none => none
  | some (e, stack1) =>
    match stack1.pop with
    | none => none
    | some (arr, stack2) =>
      let elementIndexValue := e.getValue ctx.resolve
      let arrayValue := arr.getValue ctx.resolve
      if arrayValue.type = .UNDEFINED ∨ arrayValue.type = .NULL then
        some (stack2.push (Value.ofInt 0 .UNDEFINED))
      else if arrayValue.isArray then
        let (elementIndex, err) := elementIndexValue.toInt32 ctx.strtol
        if !err then
          if 0 ≤ elementIndex ∧ elementIndex < toInt32 arrayValue.arraySize then
            some (stack2.push (Value.makeArrayElementRef ctx.env arrayValue elementIndex))
          else
            some ((stack2.push Value.makeError).setErrorMessage
              "Array element index out of bounds\n")
        else
          some ((stack2.push Value.makeError).setErrorMessage
            "Integer value expected for array element index\n")
      else if arrayValue.isBlob then
        let (elementIndex, err) := elementIndexValue.toInt32 ctx.strtol
        if !err then
          if 0 ≤ elementIndex ∧ elementIndex < toInt32 (arrayValue.blobValue.getD []).length then
            some (stack2.push (Value.makeArrayElementRef ctx.env arrayValue elementIndex))
          else
            some ((stack2.push Value.makeError).setErrorMessage
              "Blob element index out of bounds\n")
        else
          some ((stack2.push Value.makeError).setErrorMessage
            "Integer value expected for blob element index\n")
      else
        some ((stack2.push Value.makeError).setErrorMessage "Array value expected\n")

/-- One pass of the `while` loop of the static `evalExpression` (lines 3924-3987)
for an instruction that is not an end marker.  `none`: the C++ code would pop an
empty stack, or the operation is not embedded. -/
def evalInstruction (ctx : EvalContext) (instruction : Instruction) (stack : EvalStack) :
    Option EvalStack :=
  match instruction with
  | .PUSH_CONSTANT arg => some (stack.push (ctx.constants arg))
  | .PUSH_INPUT arg => some (stack.push (ctx.values arg))
  | .PUSH_LOCAL_VAR arg =>
    some (stack.push
      (valueOfPointer (.flowStateValue ctx.flowStateIndex (ctx.componentInputsCount + arg))))
  | .PUSH_GLOBAL_VAR arg =>
    if arg < ctx.globalVariablesCount then
      if ctx.hasGlobalVariables then some (stack.push (valueOfPointer (.globalVariable arg)))
      else some (stack.push (valueOfPointer (.flowDefinitionGlobalVariable arg)))
    else
      some (stack.push (Value.ofInt ((arg : Int) - ctx.globalVariablesCount + 1) .NATIVE_VARIABLE))
  | .PUSH_OUTPUT arg => some (stack.push (Value.ofInt (arg % 65536 : Nat) .FLOW_OUTPUT))
  | .ARRAY_ELEMENT => evalArrayElement ctx stack
  | .OPERATION arg =>
    match g_evalOperations arg with
    | none => none
    | some operation => operation ctx stack
  | .END => some stack
  | .END_WITH_DST_VALUE_TYPE _ => some stack

/-- The static function `evalExpression` (lines 3919-4014): the stack it leaves.
`none` also when the instructions end without an end marker. -/
def evalExpressionLoop (ctx : EvalContext) : List Instruction → EvalStack → Option EvalStack
  | [], _ => none
  | .END :: _, stack => some stack
  | .END_WITH_DST_VALUE_TYPE dstValueType :: _, stack =>
    if stack.sp = 1 then
      match stack.pop with
      | none => none
      | some (finalResult, stack1) =>
        let finalResult :=
          if finalResult.type = .VALUE_PTR then { finalResult with dstValueType := dstValueType }
          else finalResult
        some (stack1.push finalResult)
    else some stack
  | instruction :: rest, stack =>
    match evalInstruction ctx instruction stack with
    | none => none
    | some stack1 => evalExpressionLoop ctx rest stack1

/-- What `evalExpression` returns: the boolean, the value assigned to `result`
(if any), and the two message arguments of the `throwError` call (if made). -/
structure EvalOutcome where
  ok : Bool
  result : Option Value
  thrown : Option (String × Option String)
deriving DecidableEq

/-- Function `evalExpression` (lines 4018-4062, without `EEZ_OPTION_GUI`). -/
def evalExpression (ctx : EvalContext) (instructions : List Instruction) (errorMessage : String) :
    Option EvalOutcome :=
  match evalExpressionLoop ctx instructions EvalStack.empty with
  | none => none
  | some stack =>
    let description := if stack.errorMessage ≠ "" then some stack.errorMessage else none
    if stack.sp = 1 then
      match stack.pop with
      | none => none
      | some (top, _) =>
        let result := top.getValue ctx.resolve
        if !result.isError then some { ok := true, result := some result, thrown := none }
        else some { ok := false, result := some result, thrown := some (errorMessage, description) }
    else some { ok := false, result := none, thrown := some (errorMessage, description) }

/-- The stack after the instructions `pre`, none of which is an end marker, run
from `stack`. -/
def runInstructions (ctx : EvalContext) : List Instruction → EvalStack → Option EvalStack
  | [], stack => some stack
  | instruction :: rest, stack =>
    match evalInstruction ctx instruction stack with
    | none => none
    | some stack1 => runInstructions ctx rest stack1

end flow
end eez

namespace eez
namespace flow

/-! ## flow/private.cpp, flow/queue.cpp : flow states, the task queue, errors -/

/-- One wire of an output: the component and the input slot it leads to. -/
structure Connection where
  targetComponentIndex : Nat
  targetInputIndex : Nat
deriving DecidableEq, Repr

/-- One output of a component. -/
structure ComponentOutput where
  connections : List Connection
  isSeqOut : Bool
deriving DecidableEq, Repr

/-- A component of a flow: its type tag, the indexes of its input slots in
`flowState->values`, the instructions of its properties, its outputs and its
error-catch output (`-1` when not wired). -/
structure Component where
  type : Nat
  inputs : List Nat
  properties : List (List Instruction)
  outputs : List ComponentOutput
  errorCatchOutput : Int
deriving DecidableEq, Repr

/-- The flags of one entry of `flow->componentInputs`: the bits
`COMPONENT_INPUT_FLAG_IS_SEQ_INPUT` and `COMPONENT_INPUT_FLAG_IS_OPTIONAL`. -/
structure ComponentInput where
  isSeqInput : Bool
  isOptional : Bool
deriving DecidableEq, Repr

/-- A flow definition. -/
structure Flow where
  components : List Component
  componentInputs : List ComponentInput
deriving DecidableEq, Repr

/-- A `FlowState *`: the members of a flow state that the embedded code never
changes, with the chain of `parentFlowState` pointers.  `flowStateIndex` is its
identity; the members that change are kept in `Engine` under that index. -/
inductive FlowState
  | root (flowStateIndex : Nat) (flow : Flow) (isAction : Bool)
  | child (flowStateIndex : Nat) (flow : Flow) (isAction : Bool) (parentFlowState : FlowState)
      (parentComponentIndex : Nat)
deriving DecidableEq, Repr

namespace FlowState

/-- Member `flowStateIndex`. -/
def flowStateIndex : FlowState → Nat
  | root i _ _ => i
  | child i _ _ _ _ => i

/-- Member `flow`. -/
def flow : FlowState → Flow
  | root _ f _ => f
  | child _ f _ _ _ => f

/-- Member `isAction`. -/
def isAction : FlowState → Bool
  | root _ _ a => a
  | child _ _ a _ _ => a

/-- Member `parentFlowState` (`none` is the null pointer). -/
def parentFlowState : FlowState → Option FlowState
  | root _ _ _ => none
  | child _ _ _ p _ => some p

/-- Member `parentComponentIndex` (`-1` without a parent). -/
def parentComponentIndex : FlowState → Int
  | root _ _ _ => -1
  | child _ _ _ _ c => c

/-- Member `parentComponent` (`none` is the null pointer). -/
def parentComponent : FlowState → Option Component
  | root _ _ _ => none
  | child _ _ _ p c => p.flow.components[c]?

/-- The flow state followed by its ancestors along `parentFlowState`. -/
def chain : FlowState → List FlowState
  | root i f a => [root i f a]
  | child i f a p c => child i f a p c :: chain p

end FlowState

/-- The state a component keeps between executions. -/
inductive ComponenentExecutionState
  | catchError (message : Value)
  | delay (waitUntil : Nat)
  | loop (dstValue toValue currentValue : Value)
  | other
deriving DecidableEq

/-- One entry of `g_queue`. -/
structure QueueEntry where
  flowState : Option FlowState
  componentIndex : Nat
  continuousTask : Bool
deriving DecidableEq

/-- The calls the engine makes to its debugger and host hooks, and (`propagate`)
the calls of `propagateValue`, in the order made. -/
inductive Hook
  | onAddToQueue (flowStateIndex : Nat) (sourceComponentIndex sourceOutputIndex : Int)
      (targetComponentIndex : Nat) (targetInputIndex : Int)
  | onRemoveFromQueue
  | onValueChanged (pValue : ValuePtr)
  | onComponentExecutionStateChanged (flowStateIndex : Nat) (componentIndex : Nat)
  | onFlowError (flowStateIndex : Nat) (componentIndex : Nat) (errorMessage : String)
  | stopScriptHook
  | propagate (flowStateIndex : Nat) (componentIndex : Nat) (outputIndex : Nat) (value : Value)
  | onStopped
  | finishToDebuggerMessageHook
  | onFlowStateDestroyed (flowStateIndex : Nat)
  | startToDebuggerMessageHook
  | writeDebuggerBufferHook (buffer : String)
deriving DecidableEq

/-- Constant `QUEUE_SIZE` (lines 7483-7486, the default `EEZ_FLOW_QUEUE_SIZE`). -/
def QUEUE_SIZE : Nat := 1000

/-- Constant `NO_COMPONENT_INDEX` (line 6871). -/
def NO_COMPONENT_INDEX : Nat := 0xFFFFFFFF

/-- The globals of the engine and the changing members of the flow states, the
latter indexed by `flowStateIndex` (and by value or component index). -/
structure Engine where
  g_queue : Nat → QueueEntry
  g_queueHead : Nat
  g_queueTail : Nat
  g_queueMax : Nat
  g_queueIsFull : Bool
  g_numContinuousTaskInQueue : Nat
  g_enableThrowError : Bool
  refCounter : Nat → Int
  error : Nat → Bool
  values : Nat → Nat → Value
  componenentExecutionStates : Nat → Nat → Option ComponenentExecutionState
  executingComponentIndex : Nat → Nat
  hasGlobalVariables : Bool
  globalVariables : Nat → Value
  trace : List Hook

/-- What the embedded functions take from the parts of the repository that are
not under `src/` and from the loaded assets: the component type numbers of
`defs_v3` (the other action types follow `COMPONENT_TYPE_START_ACTION` in the
order of `g_executeComponentFunctions`) and its property indexes, the index
`NULL_VALUE_INDEX`, the macro `TRACK_REF_COUNTER_FOR_COMPONENT_STATE`,
`Value::operator==`, the constants and global variables of the flow definition,
and the environment of the value functions. -/
structure Host where
  COMPONENT_TYPE_START_ACTION : Nat
  FIRST_DASHBOARD_WIDGET_COMPONENT_TYPE : Nat
  DELAY_ACTION_COMPONENT_PROPERTY_MILLISECONDS : Nat
  LOOP_ACTION_COMPONENT_PROPERTY_VARIABLE : Nat
  LOOP_ACTION_COMPONENT_PROPERTY_FROM : Nat
  LOOP_ACTION_COMPONENT_PROPERTY_TO : Nat
  LOOP_ACTION_COMPONENT_PROPERTY_STEP : Nat
  NULL_VALUE_INDEX : Nat
  trackRefCounterForComponentState : Component → Bool
  valueEq : Value → Value → Bool
  constants : Nat → Value
  globalVariablesCount : Nat
  flowDefinitionGlobalVariables : Nat → Value
  resolveOther : Value → Value
  strtod : String → Option Dbl
  strtol : String → Option Int
  format : Value → String
  allocOk : Bool
  newRef : Nat
  VALUE_OPTIONS_REF : Nat

namespace Host

/-- Constant `defs_v3::COMPONENT_TYPE_OUTPUT_ACTION`. -/
def COMPONENT_TYPE_OUTPUT_ACTION (h : Host) : Nat := h.COMPONENT_TYPE_START_ACTION + 3
/-- Constant `defs_v3::COMPONENT_TYPE_DELAY_ACTION`. -/
def COMPONENT_TYPE_DELAY_ACTION (h : Host) : Nat := h.COMPONENT_TYPE_START_ACTION + 13
/-- Constant `defs_v3::COMPONENT_TYPE_ERROR_ACTION`. -/
def COMPONENT_TYPE_ERROR_ACTION (h : Host) : Nat := h.COMPONENT_TYPE_START_ACTION + 14
/-- Constant `defs_v3::COMPONENT_TYPE_CATCH_ERROR_ACTION`. -/
def COMPONENT_TYPE_CATCH_ERROR_ACTION (h : Host) : Nat := h.COMPONENT_TYPE_START_ACTION + 15
/-- Constant `defs_v3::COMPONENT_TYPE_LOOP_ACTION`. -/
def COMPONENT_TYPE_LOOP_ACTION (h : Host) : Nat := h.COMPONENT_TYPE_START_ACTION + 17
/-- Constant `defs_v3::COMPONENT_TYPE_ON_EVENT_ACTION`. -/
def COMPONENT_TYPE_ON_EVENT_ACTION (h : Host) : Nat := h.COMPONENT_TYPE_START_ACTION + 28
/-- Constant `defs_v3::COMPONENT_TYPE_LABEL_IN_ACTION`. -/
def COMPONENT_TYPE_LABEL_IN_ACTION (h : Host) : Nat := h.COMPONENT_TYPE_START_ACTION + 41

end Host

/-- How an embedded call can end without a result: the recursion budget of the
embedding is used up (the C++ call is still running), the C++ code would
dereference a null pointer or index outside an array, or it calls code that is
not embedded. -/
inductive Fault
  | outOfFuel
  | undefinedBehaviour
  | notEmbedded
deriving DecidableEq, Repr

/-- Assignment `f[i] = v` to a table. -/
def setAt {α : Type} (f : Nat → α) (i : Nat) (v : α) : Nat → α :=
  fun j => if j = i then v else f j

/-- Assignment `f[i][j] = v` to a table of tables. -/
def setAt2 {α : Type} (f : Nat → Nat → α) (i j : Nat) (v : α) : Nat → Nat → α :=
  fun i' j' => if i' = i ∧ j' = j then v else f i' j'

/-- The evaluation context of a flow state. -/
def evalContext (host : Host) (e : Engine) (flowState : FlowState) : EvalContext :=
  { constants := host.constants,
    flowStateIndex := flowState.flowStateIndex,
    flowStateValues := e.values,
    componentInputsCount := flowState.flow.componentInputs.length,
    globalVariablesCount := host.globalVariablesCount,
    hasGlobalVariables := e.hasGlobalVariables,
    globalVariables := e.globalVariables,
    flowDefinitionGlobalVariables := host.flowDefinitionGlobalVariables,
    resolveOther := host.resolveOther,
    strtod := host.strtod,
    strtol := host.strtol,
    format := host.format,
    allocOk := host.allocOk,
    newRef := host.newRef,
    VALUE_OPTIONS_REF := host.VALUE_OPTIONS_REF }

/-- Function `queueReset` (lines 7497-7503). -/
def queueReset (e : Engine) : Engine :=
  { e with g_queueHead := 0, g_queueTail := 0, g_queueMax := 0, g_queueIsFull := false,
           g_numContinuousTaskInQueue := 0 }

/-- Function `getQueueSize` (lines 7504-7515). -/
def getQueueSize (e : Engine) : Nat :=
  if e.g_queueHead = e.g_queueTail then
    if e.g_queueIsFull then QUEUE_SIZE else 0
  else if e.g_queueHead < e.g_queueTail then e.g_queueTail - e.g_queueHead
  else QUEUE_SIZE - e.g_queueHead + e.g_queueTail

/-- Function `incRefCounterForFlowState` (lines 7043-7048) on the table of
reference counters. -/
def incRefCounterForFlowState (refCounter : Nat → Int) : FlowState → Nat → Int
  | .root i _ _ => setAt refCounter i (refCounter i + 1)
  | .child i _ _ parent _ =>
    incRefCounterForFlowState (setAt refCounter i (refCounter i + 1)) parent

/-- Function `decRefCounterForFlowState` (lines 7049-7054) on the table of
reference counters. -/
def decRefCounterForFlowState (refCounter : Nat → Int) : FlowState → Nat → Int
  | .root i _ _ => setAt refCounter i (refCounter i - 1)
  | .child i _ _ parent _ =>
    decRefCounterForFlowState (setAt refCounter i (refCounter i - 1)) parent

/-- Function `canFreeFlowState` (lines 7055-7063). -/
def canFreeFlowState (e : Engine) (flowState : FlowState) : Bool :=
  if !flowState.isAction then false
  else if 0 < e.refCounter flowState.flowStateIndex then false
  else true

/-- Function `isInputEmpty` (lines 6873-6875). -/
def isInputEmpty (inputValue : Value) : Bool :=
  decide (inputValue.type = .UNDEFINED) && decide (0 < inputValue.int32Value)

/-- Function `getEmptyInputValue` (lines 6876-6880). -/
def getEmptyInputValue : Value := { Value.undefined with int32Value := 1 }

/-- The `for` loop of `isComponentReadyToRun` (lines 6922-6939) over the inputs
that are left: `none` is the `return false` of line 6935, otherwise the two
counters. -/
def countSeqInputs (e : Engine) (flowState : FlowState) :
    List Nat → Nat × Nat → Except Fault (Option (Nat × Nat))
  | [], counters => .ok (some counters)
  | inputValueIndex :: rest, (numSeqInputs, numDefinedSeqInputs) =>
    match flowState.flow.componentInputs[inputValueIndex]? with
    | none => .error .undefinedBehaviour
    | some input =>
      let value := e.values flowState.flowStateIndex inputValueIndex
      if input.isSeqInput then
        if !isInputEmpty value then
          countSeqInputs e flowState rest (numSeqInputs + 1, numDefinedSeqInputs + 1)
        else countSeqInputs e flowState rest (numSeqInputs + 1, numDefinedSeqInputs)
      else if !input.isOptional then
        if isInputEmpty value then .ok none
        else countSeqInputs e flowState rest (numSeqInputs, numDefinedSeqInputs)
      else countSeqInputs e flowState rest (numSeqInputs, numDefinedSeqInputs)

/-- Function `isComponentReadyToRun` (lines 6897-6944). -/
def isComponentReadyToRun (host : Host) (e : Engine) (flowState : FlowState)
    (componentIndex : Nat) : Except Fault Bool :=
  match flowState.flow.components[componentIndex]? with
  | none => .error .undefinedBehaviour
  | some component =>
    if component.type = host.COMPONENT_TYPE_CATCH_ERROR_ACTION then .ok false
    else if component.type = host.COMPONENT_TYPE_ON_EVENT_ACTION then .ok false
    else if component.type = host.COMPONENT_TYPE_LABEL_IN_ACTION then .ok false
    else if component.type < host.COMPONENT_TYPE_START_ACTION ∨
        host.FIRST_DASHBOARD_WIDGET_COMPONENT_TYPE ≤ component.type then .ok true
    else if component.type = host.COMPONENT_TYPE_START_ACTION then
      match flowState with
      | .child _ _ _ parent parentComponentIndex =>
        match parent.flow.components[parentComponentIndex]? with
        | none => .ok true
        | some parentComponent =>
          match parentComponent.inputs[0]? with
          | none => .error .undefinedBehaviour
          | some flowInputIndex =>
            .ok (decide ((e.values parent.flowStateIndex flowInputIndex).type ≠ .UNDEFINED))
      | .root _ _ _ => .ok true
    else
      match countSeqInputs e flowState component.inputs (0, 0) with
      | .error f => .error f
      | .ok none => .ok false
      | .ok (some (numSeqInputs, numDefinedSeqInputs)) =>
        if numSeqInputs ≠ 0 ∧ numDefinedSeqInputs = 0 then .ok false else .ok true

/-- Function `deallocateComponentExecutionState` (lines 7114-7125).  The destructor
that `ObjectAllocator::deallocate` runs on the state is in the missing header and
is not represented. -/
def deallocateComponentExecutionState (host : Host) (e : Engine) (flowState : FlowState)
    (componentIndex : Nat) : Except Fault Engine :=
  match e.componenentExecutionStates flowState.flowStateIndex componentIndex with
  | none => .ok e
  | some _ =>
    match flowState.flow.components[componentIndex]? with
    | none => .error .undefinedBehaviour
    | some component =>
      let refCounter :=
        if host.trackRefCounterForComponentState component then
          decRefCounterForFlowState e.refCounter flowState
        else e.refCounter
      .ok { e with
        refCounter := refCounter,
        componenentExecutionStates :=
          setAt2 e.componenentExecutionStates flowState.flowStateIndex componentIndex none,
        trace := e.trace ++
          [.onComponentExecutionStateChanged flowState.flowStateIndex componentIndex] }

/-- Modelled from the spec: the template `allocateComponentExecutionState` of the
missing header, the counterpart of `deallocateComponentExecutionState`: a state
that is still there is released first, the new state is stored, and the flow
state is referenced when the component type tracks its state. -/
def allocateComponentExecutionState (host : Host) (e : Engine) (flowState : FlowState)
    (componentIndex : Nat) (state : ComponenentExecutionState) : Except Fault Engine :=
  match deallocateComponentExecutionState host e flowState componentIndex with
  | .error f => .error f
  | .ok e1 =>
    match flowState.flow.components[componentIndex]? with
    | none => .error .undefinedBehaviour
    | some component =>
      let refCounter :=
        if host.trackRefCounterForComponentState component then
          incRefCounterForFlowState e1.refCounter flowState
        else e1.refCounter
      .ok { e1 with
        refCounter := refCounter,
        componenentExecutionStates :=
          setAt2 e1.componenentExecutionStates flowState.flowStateIndex componentIndex
            (some state),
        trace := e1.trace ++
          [.onComponentExecutionStateChanged flowState.flowStateIndex componentIndex] }

/-- The `for` loop of `resetSequenceInputs` (lines 7131-7140). -/
def resetSequenceInputsLoop (flowState : FlowState) : List Nat → Engine → Except Fault Engine
  | [], e => .ok e
  | inputIndex :: rest, e =>
    match flowState.flow.componentInputs[inputIndex]? with
    | none => .error .undefinedBehaviour
    | some input =>
      if input.isSeqInput ∧ !isInputEmpty (e.values flowState.flowStateIndex inputIndex) then
        resetSequenceInputsLoop flowState rest
          { e with
            values := setAt2 e.values flowState.flowStateIndex inputIndex getEmptyInputValue,
            trace := e.trace ++ [.onValueChanged (.flowStateValue flowState.flowStateIndex inputIndex)] }
      else resetSequenceInputsLoop flowState rest e

/-- Function `resetSequenceInputs` (lines 7126-7143). -/
def resetSequenceInputs (host : Host) (e : Engine) (flowState : FlowState) :
    Except Fault Engine :=
  let executing := e.executingComponentIndex flowState.flowStateIndex
  if executing ≠ NO_COMPONENT_INDEX then
    match flowState.flow.components[executing]? with
    | none => .error .undefinedBehaviour
    | some component =>
      let e1 :=
        { e with executingComponentIndex :=
            setAt e.executingComponentIndex flowState.flowStateIndex NO_COMPONENT_INDEX }
      if component.type ≠ host.COMPONENT_TYPE_OUTPUT_ACTION then
        resetSequenceInputsLoop flowState component.inputs e1
      else .ok e1
  else .ok e

/-- The type of `throwError` as a callee. -/
abbrev ThrowError := Engine → FlowState → Nat → String → Except Fault Engine

/-- Function `addToQueue` (lines 7519-7539); `raise` is the `throwError` it calls. -/
def addToQueueWith (raise : ThrowError) (e : Engine) (flowState : FlowState)
    (componentIndex : Nat) (sourceComponentIndex sourceOutputIndex targetInputIndex : Int)
    (continuousTask : Bool) : Except Fault (Engine × Bool) :=
  if e.g_queueIsFull then
    match raise e flowState componentIndex "Execution queue is full\n" with
    | .error f => .error f
    | .ok e1 => .ok (e1, false)
  else
    let e1 :=
      { e with
        g_queue := setAt e.g_queue e.g_queueTail
          { flowState := some flowState, componentIndex := componentIndex,
            continuousTask := continuousTask },
        g_queueTail := (e.g_queueTail + 1) % QUEUE_SIZE }
    let e2 := if e1.g_queueHead = e1.g_queueTail then { e1 with g_queueIsFull := true } else e1
    let queueSize := getQueueSize e2
    let e3 := { e2 with g_queueMax := if e2.g_queueMax < queueSize then queueSize else e2.g_queueMax }
    let e4 :=
      if !continuousTask then
        { e3 with
          g_numContinuousTaskInQueue := (e3.g_numContinuousTaskInQueue + 1) % WORD,
          trace := e3.trace ++
            [.onAddToQueue flowState.flowStateIndex sourceComponentIndex sourceOutputIndex
              componentIndex targetInputIndex] }
      else e3
    .ok ({ e4 with refCounter := incRefCounterForFlowState e4.refCounter flowState }, true)

/-- Function `peekNextTaskFromQueue` (lines 7540-7548): `none` is the result
false, otherwise the three values written through the references. -/
def peekNextTaskFromQueue (e : Engine) : Option (Option FlowState × Nat × Bool) :=
  if e.g_queueHead = e.g_queueTail ∧ !e.g_queueIsFull then none
  else
    some ((e.g_queue e.g_queueHead).flowState, (e.g_queue e.g_queueHead).componentIndex,
      (e.g_queue e.g_queueHead).continuousTask)

/-- Function `removeNextTaskFromQueue` (lines 7549-7559). -/
def removeNextTaskFromQueue (e : Engine) : Except Fault Engine :=
  match (e.g_queue e.g_queueHead).flowState with
  | none => .error .undefinedBehaviour
  | some flowState =>
    let e1 := { e with refCounter := decRefCounterForFlowState e.refCounter flowState }
    let continuousTask := (e1.g_queue e1.g_queueHead).continuousTask
    let e2 := { e1 with g_queueHead := (e1.g_queueHead + 1) % QUEUE_SIZE, g_queueIsFull := false }
    if !continuousTask then
      .ok { e2 with
        g_numContinuousTaskInQueue := (e2.g_numContinuousTaskInQueue + (WORD - 1)) % WORD,
        trace := e2.trace ++ [.onRemoveFromQueue] }
    else .ok e2

/-- Function `pingComponent` (lines 6945-6950); `raise` is the `throwError` reached. -/
def pingComponentWith (host : Host) (raise : ThrowError) (e : Engine) (flowState : FlowState)
    (componentIndex : Nat) (sourceComponentIndex sourceOutputIndex targetInputIndex : Int) :
    Except Fault (Engine × Bool) :=
  match isComponentReadyToRun host e flowState componentIndex with
  | .error f => .error f
  | .ok true =>
    addToQueueWith raise e flowState componentIndex sourceComponentIndex sourceOutputIndex
      targetInputIndex false
  | .ok false => .ok (e, false)

/-- The `for` loop of `propagateValue` (lines 7154-7162) over the connections
that are left. -/
def propagateValueLoop (host : Host) (raise : ThrowError) (flowState : FlowState)
    (componentIndex outputIndex : Nat) (value2 : Value) :
    List Connection → Engine → Except Fault Engine
  | [], e => .ok e
  | connection :: rest, e =>
    let e1 :=
      if !host.valueEq (e.values flowState.flowStateIndex connection.targetInputIndex) value2 then
        { e with
          values := setAt2 e.values flowState.flowStateIndex connection.targetInputIndex value2,
          trace := e.trace ++
            [.onValueChanged (.flowStateValue flowState.flowStateIndex connection.targetInputIndex)] }
      else e
    match pingComponentWith host raise e1 flowState connection.targetComponentIndex
        componentIndex outputIndex connection.targetInputIndex with
    | .error f => .error f
    | .ok (e2, _) =>
      propagateValueLoop host raise flowState componentIndex outputIndex value2 rest e2

/-- Function `propagateValue` (lines 7144-7163); `raise` is the `throwError` reached. -/
def propagateValueWith (host : Host) (raise : ThrowError) (e : Engine)
    (flowState : FlowState) (componentIndex outputIndex : Nat) (value : Value) :
    Except Fault Engine :=
  if componentIndex = NO_COMPONENT_INDEX then .error .notEmbedded
  else
    let e0 :=
      { e with trace := e.trace ++
          [.propagate flowState.flowStateIndex componentIndex outputIndex value] }
    match resetSequenceInputs host e0 flowState with
    | .error f => .error f
    | .ok e1 =>
      match flowState.flow.components[componentIndex]? with
      | none => .error .undefinedBehaviour
      | some component =>
        match component.outputs[outputIndex]? with
        | none => .error .undefinedBehaviour
        | some componentOutput =>
          let value2 := value.getValue (evalContext host e1 flowState).resolve
          propagateValueLoop host raise flowState componentIndex outputIndex value2
            componentOutput.connections e1

/-- The `for` loop of `findCatchErrorComponent` (lines 7325-7332) from component
`componentIndex` on. -/
def findCatchErrorLoop (host : Host) : List Component → Nat → Option Nat
  | [], _ => none
  | component :: rest, componentIndex =>
    if component.type = host.COMPONENT_TYPE_CATCH_ERROR_ACTION then some componentIndex
    else findCatchErrorLoop host rest (componentIndex + 1)

/-- Function `findCatchErrorComponent` (lines 7321-7339) on a non-null flow state:
`none` is the result false, otherwise `catchErrorFlowState` and
`catchErrorComponentIndex`. -/
def findCatchErrorComponent (host : Host) : FlowState → Option (FlowState × Nat)
  | .root i f a =>
    match findCatchErrorLoop host f.components 0 with
    | some componentIndex => some (.root i f a, componentIndex)
    | none => none
  | .child i f a parent parentComponentIndex =>
    match findCatchErrorLoop host f.components 0 with
    | some componentIndex => some (.child i f a parent parentComponentIndex, componentIndex)
    | none =>
      match parent.flow.components[parentComponentIndex]? with
      | some parentComponent =>
        if parentComponent.errorCatchOutput ≠ -1 then some (parent, parentComponentIndex)
        else findCatchErrorComponent host parent
      | none => findCatchErrorComponent host parent

/-- The `for` loop of `throwError` (lines 7368-7370): set the error flag from
`fs` up to, not including, the flow state `catchErrorFlowState`. -/
def setErrorFlags (catchErrorFlowState : FlowState) : FlowState → (Nat → Bool) →
    Except Fault (Nat → Bool)
  | .root i f a, error =>
    if FlowState.flowStateIndex (.root i f a) ≠ catchErrorFlowState.flowStateIndex then
      .error .undefinedBehaviour
    else .ok error
  | .child i f a parent c, error =>
    if FlowState.flowStateIndex (.child i f a parent c) ≠ catchErrorFlowState.flowStateIndex then
      setErrorFlags catchErrorFlowState parent (setAt error i true)
    else .ok error

/-- The body of `throwError` (lines 7340-7392); `raise` is the `throwError` that
the nested `addToQueue` calls reach.  The `int` member `errorCatchOutput` is
passed to `propagateValue` as an `unsigned`. -/
def throwErrorBody (host : Host) (raise : ThrowError) (e : Engine) (flowState : FlowState)
    (componentIndex : Nat) (errorMessage : String) : Except Fault Engine :=
  match flowState.flow.components[componentIndex]? with
  | none => .error .undefinedBehaviour
  | some component =>
    if !e.g_enableThrowError then .ok e
    else if component.errorCatchOutput ≠ -1 then
      propagateValueWith host raise e flowState componentIndex
        (component.errorCatchOutput % WORD).toNat
        (Value.makeStringRef (evalContext host e flowState).env errorMessage)
    else
      let start :=
        if component.type = host.COMPONENT_TYPE_ERROR_ACTION then flowState.parentFlowState
        else some flowState
      let onFlowErrorAndStop (e : Engine) : Engine :=
        { e with trace := e.trace ++
            [.onFlowError flowState.flowStateIndex componentIndex errorMessage, .stopScriptHook] }
      match start.bind (findCatchErrorComponent host) with
      | some (catchErrorFlowState, catchErrorComponentIndex) =>
        match setErrorFlags catchErrorFlowState flowState e.error with
        | .error f => .error f
        | .ok error =>
          let e1 := { e with error := error }
          match catchErrorFlowState.flow.components[catchErrorComponentIndex]? with
          | none => .error .undefinedBehaviour
          | some catchComponent =>
            if catchComponent.type = host.COMPONENT_TYPE_CATCH_ERROR_ACTION then
              match allocateComponentExecutionState host e1 catchErrorFlowState
                  catchErrorComponentIndex
                  (.catchError
                    (Value.makeStringRef (evalContext host e1 flowState).env errorMessage)) with
              | .error f => .error f
              | .ok e2 =>
                match addToQueueWith raise e2 catchErrorFlowState catchErrorComponentIndex
                    (-1) (-1) (-1) false with
                | .error f => .error f
                | .ok (e3, true) => .ok e3
                | .ok (e3, false) => .ok (onFlowErrorAndStop e3)
            else
              propagateValueWith host raise e1 catchErrorFlowState catchErrorComponentIndex
                (catchComponent.errorCatchOutput % WORD).toNat
                (Value.makeStringRef (evalContext host e1 flowState).env errorMessage)
      | none => .ok (onFlowErrorAndStop e)

end flow

/-- Function `throwError` (lines 7340-7392).  `fuel` bounds the depth of the
calls of `throwError` made from within `throwError` (through `addToQueue` on a
full queue). -/
def flow.throwError (host : flow.Host) : Nat → flow.ThrowError
  | 0 => fun _ _ _ _ => .error .outOfFuel
  | fuel + 1 => flow.throwErrorBody host (flow.throwError host fuel)

namespace flow

/-- Function `addToQueue` (lines 7519-7539). -/
def addToQueue (host : Host) (fuel : Nat) (e : Engine) (flowState : FlowState)
    (componentIndex : Nat) (sourceComponentIndex sourceOutputIndex targetInputIndex : Int)
    (continuousTask : Bool) : Except Fault (Engine × Bool) :=
  addToQueueWith (flow.throwError host fuel) e flowState componentIndex sourceComponentIndex
    sourceOutputIndex targetInputIndex continuousTask

/-- Function `propagateValue` (lines 7144-7163). -/
def propagateValue (host : Host) (fuel : Nat) (e : Engine) (flowState : FlowState)
    (componentIndex outputIndex : Nat) (value : Value) : Except Fault Engine :=
  propagateValueWith host (flow.throwError host fuel) e flowState componentIndex outputIndex value

end flow
end eez

namespace eez

/-- Modelled from the spec: `Value::isBoolean()` of the missing header. -/
def Value.isBoolean (v : Value) : Bool := decide (v.type = .BOOLEAN)

/-- The value-level function `assignValue` (lines 2255-2282, without
`EEZ_DASHBOARD_API`): the new content of the destination; the function returns
true. -/
def assignValueTo (env : ValueEnv) (dstValue srcValue : Value) : Value :=
  if dstValue.isBoolean then
    { dstValue with int32Value := if (srcValue.toBool env).1 then 1 else 0 }
  else if dstValue.isInt32OrLess then
    { dstValue with int32Value := ((srcValue.getValue env.resolve).toInt32 env.strtol).1 }
  else if dstValue.isFloat then
    { dstValue with floatValue := ((srcValue.getValue env.resolve).toFloat env.strtod).1 }
  else if dstValue.isDouble then
    { dstValue with doubleValue := ((srcValue.getValue env.resolve).toDouble env.strtod).1 }
  else if dstValue.isString then (srcValue.getValue env.resolve).toString env
  else srcValue

namespace flow

/-! ## flow/components/delay.cpp, flow/components/loop.cpp -/

/-- The overload of `throwError` with an error message and a description (lines
7393-7401) as called by the evaluator, whose error message is never null. -/
def throwErrorWithDescription (host : Host) (fuel : Nat) (e : Engine) (flowState : FlowState)
    (componentIndex : Nat) (errorMessage : String) (errorMessageDescription : Option String) :
    Except Fault Engine :=
  flow.throwError host fuel e flowState componentIndex
    (errorMessage ++ ": " ++ errorMessageDescription.getD "(null)")

/-- Function `evalExpression` (lines 4018-4062) with its call of `throwError`:
the value assigned to `result` when it returns true, `none` when it returns
false. -/
def evalExpressionIn (host : Host) (fuel : Nat) (e : Engine) (flowState : FlowState)
    (componentIndex : Nat) (instructions : List Instruction) (errorMessage : String) :
    Except Fault (Engine × Option Value) :=
  match evalExpression (evalContext host e flowState) instructions errorMessage with
  | none => .error .undefinedBehaviour
  | some outcome =>
    match outcome.thrown with
    | none => .ok (e, outcome.result)
    | some (message, description) =>
      match throwErrorWithDescription host fuel e flowState componentIndex message description with
      | .error f => .error f
      | .ok e1 => .ok (e1, none)

/-- Function `evalAssignableExpression` (lines 4063-4086) with its call of
`throwError`. -/
def evalAssignableExpressionIn (host : Host) (fuel : Nat) (e : Engine) (flowState : FlowState)
    (componentIndex : Nat) (instructions : List Instruction) (errorMessage : String) :
    Except Fault (Engine × Option Value) :=
  match evalExpressionLoop (evalContext host e flowState) instructions EvalStack.empty with
  | none => .error .undefinedBehaviour
  | some stack =>
    let description := if stack.errorMessage ≠ "" then some stack.errorMessage else none
    let failed : Except Fault (Engine × Option Value) :=
      match throwErrorWithDescription host fuel e flowState componentIndex errorMessage
          description with
      | .error f => .error f
      | .ok e1 => .ok (e1, none)
    if stack.sp = 1 then
      match stack.pop with
      | none => .error .undefinedBehaviour
      | some (finalResult, _) =>
        if finalResult.type = .VALUE_PTR ∨ finalResult.type = .NATIVE_VARIABLE ∨
            finalResult.type = .FLOW_OUTPUT ∨ finalResult.type = .ARRAY_ELEMENT_VALUE ∨
            finalResult.type = .JSON_MEMBER_VALUE then
          .ok (e, some finalResult)
        else failed
    else failed

/-- Function `evalProperty` (lines 4089-4108); the texts of the two descriptions
are abbreviated. -/
def evalProperty (host : Host) (fuel : Nat) (e : Engine) (flowState : FlowState)
    (componentIndex propertyIndex : Nat) (errorMessage : String) :
    Except Fault (Engine × Option Value) :=
  match flowState.flow.components[componentIndex]? with
  | none =>
    match throwErrorWithDescription host fuel e flowState componentIndex errorMessage
        (some "invalid component index") with
    | .error f => .error f
    | .ok e1 => .ok (e1, none)
  | some component =>
    match component.properties[propertyIndex]? with
    | none =>
      match throwErrorWithDescription host fuel e flowState componentIndex errorMessage
          (some "invalid property index") with
      | .error f => .error f
      | .ok e1 => .ok (e1, none)
    | some instructions =>
      evalExpressionIn host fuel e flowState componentIndex instructions errorMessage

/-- Function `evalAssignableProperty` (lines 4110-4126); the texts of the two
descriptions are abbreviated. -/
def evalAssignableProperty (host : Host) (fuel : Nat) (e : Engine) (flowState : FlowState)
    (componentIndex propertyIndex : Nat) (errorMessage : String) :
    Except Fault (Engine × Option Value) :=
  match flowState.flow.components[componentIndex]? with
  | none =>
    match throwErrorWithDescription host fuel e flowState componentIndex errorMessage
        (some "invalid component index") with
    | .error f => .error f
    | .ok e1 => .ok (e1, none)
  | some component =>
    match component.properties[propertyIndex]? with
    | none =>
      match throwErrorWithDescription host fuel e flowState componentIndex errorMessage
          (some "invalid property index") with
      | .error f => .error f
      | .ok e1 => .ok (e1, none)
    | some instructions =>
      evalAssignableExpressionIn host fuel e flowState componentIndex instructions errorMessage

/-- The overload of `propagateValue` without a value (lines 7164-7167). -/
def propagateNullValue (host : Host) (fuel : Nat) (e : Engine) (flowState : FlowState)
    (componentIndex outputIndex : Nat) : Except Fault Engine :=
  propagateValue host fuel e flowState componentIndex outputIndex
    (host.constants host.NULL_VALUE_INDEX)

/-- The `for` loop of `propagateValueThroughSeqout` (lines 7170-7175) from output
`i` on. -/
def propagateValueThroughSeqoutLoop (host : Host) (fuel : Nat) (e : Engine)
    (flowState : FlowState) (componentIndex : Nat) :
    List ComponentOutput → Nat → Except Fault Engine
  | [], _ => .ok e
  | output :: rest, i =>
    if output.isSeqOut then propagateNullValue host fuel e flowState componentIndex i
    else propagateValueThroughSeqoutLoop host fuel e flowState componentIndex rest (i + 1)

/-- Function `propagateValueThroughSeqout` (lines 7168-7176). -/
def propagateValueThroughSeqout (host : Host) (fuel : Nat) (e : Engine) (flowState : FlowState)
    (componentIndex : Nat) : Except Fault Engine :=
  match flowState.flow.components[componentIndex]? with
  | none => .error .undefinedBehaviour
  | some component =>
    propagateValueThroughSeqoutLoop host fuel e flowState componentIndex component.outputs 0

/-- The flow-level function `assignValue` (lines 7204-7270) for a destination
that is a flow output or a pointer to a value of a flow state or to a global
variable; the other destinations are not embedded. -/
def assignValue (host : Host) (fuel : Nat) (e : Engine) (flowState : FlowState)
    (componentIndex : Nat) (dstValue srcValue : Value) : Except Fault Engine :=
  if dstValue.type = .FLOW_OUTPUT then
    propagateValue host fuel e flowState componentIndex (dstValue.uint16Value.toNat) srcValue
  else if dstValue.type = .NATIVE_VARIABLE then .error .notEmbedded
  else if dstValue.type = .ARRAY_ELEMENT_VALUE then .error .notEmbedded
  else
    let env := (evalContext host e flowState).env
    match dstValue.pValueValue with
    | some (.flowStateValue f i) =>
      .ok { e with
        values := setAt2 e.values f i (assignValueTo env (e.values f i) srcValue),
        trace := e.trace ++ [.onValueChanged (.flowStateValue f i)] }
    | some (.globalVariable i) =>
      .ok { e with
        globalVariables := setAt e.globalVariables i
          (assignValueTo env (e.globalVariables i) srcValue),
        trace := e.trace ++ [.onValueChanged (.globalVariable i)] }
    | some (.flowDefinitionGlobalVariable _) => .error .notEmbedded
    | none => .error .undefinedBehaviour

/-- Function `executeDelayComponent` (lines 7777-7805); `now` is what `millis()`
returns during the call. -/
def executeDelayComponent (host : Host) (fuel : Nat) (now : Nat) (e : Engine)
    (flowState : FlowState) (componentIndex : Nat) : Except Fault Engine :=
  match e.componenentExecutionStates flowState.flowStateIndex componentIndex with
  | none =>
    match evalProperty host fuel e flowState componentIndex
        host.DELAY_ACTION_COMPONENT_PROPERTY_MILLISECONDS
        "Failed to evaluate Milliseconds in Delay" with
    | .error f => .error f
    | .ok (e1, none) => .ok e1
    | .ok (e1, some value) =>
      let milliseconds :=
        ((value.getValue (evalContext host e1 flowState).resolve).toDouble host.strtod).1
      if !milliseconds.isNaN then
        match allocateComponentExecutionState host e1 flowState componentIndex
            (.delay ((now + milliseconds.floor.toUInt32) % WORD)) with
        | .error f => .error f
        | .ok e2 =>
          match addToQueue host fuel e2 flowState componentIndex (-1) (-1) (-1) true with
          | .error f => .error f
          | .ok (e3, _) => .ok e3
      else
        flow.throwError host fuel e1 flowState componentIndex
          "Invalid Milliseconds value in Delay\n"
  | some (.delay waitUntil) =>
    if waitUntil ≤ now then
      match deallocateComponentExecutionState host e flowState componentIndex with
      | .error f => .error f
      | .ok e1 => propagateValueThroughSeqout host fuel e1 flowState componentIndex
    else
      match addToQueue host fuel e flowState componentIndex (-1) (-1) (-1) true with
      | .error f => .error f
      | .ok (e1, _) => .ok e1
  | some _ => .error .undefinedBehaviour

/-- Lines 8173-8192 of `executeLoopComponent`: what is done once the loop state
`(dstValue, toValue)` and the current value are known. -/
def executeLoopTail (host : Host) (fuel : Nat) (e : Engine) (flowState : FlowState)
    (componentIndex : Nat) (stepValue dstValue toValue currentValue : Value) :
    Except Fault Engine :=
  let assigned : Except Fault Engine :=
    if dstValue.type = .FLOW_OUTPUT then
      .ok { e with
        componenentExecutionStates :=
          setAt2 e.componenentExecutionStates flowState.flowStateIndex componentIndex
            (some (.loop dstValue toValue currentValue)) }
    else assignValue host fuel e flowState componentIndex dstValue currentValue
  match assigned with
  | .error f => .error f
  | .ok e1 =>
    let env := (evalContext host e1 flowState).env
    let condition :=
      if Dbl.lt (.fin 0) ((stepValue.getValue env.resolve).toDouble host.strtod).1 then
        ((op_great env currentValue toValue).toBool env).1
      else ((op_less env currentValue toValue).toBool env).1
    if condition then
      match deallocateComponentExecutionState host e1 flowState componentIndex with
      | .error f => .error f
      | .ok e2 => propagateNullValue host fuel e2 flowState componentIndex 1
    else
      let assignedOutput : Except Fault Engine :=
        if dstValue.type = .FLOW_OUTPUT then
          assignValue host fuel e1 flowState componentIndex dstValue currentValue
        else .ok e1
      match assignedOutput with
      | .error f => .error f
      | .ok e2 => propagateValueThroughSeqout host fuel e2 flowState componentIndex

/-- Function `executeLoopComponent` (lines 8129-8193). -/
def executeLoopComponent (host : Host) (fuel : Nat) (e : Engine) (flowState : FlowState)
    (componentIndex : Nat) : Except Fault Engine :=
  match flowState.flow.components[componentIndex]? with
  | none => .error .undefinedBehaviour
  | some component =>
    match component.inputs[0]? with
    | none => .error .undefinedBehaviour
    | some startInputIndex =>
      let started :=
        decide ((e.values flowState.flowStateIndex startInputIndex).type ≠ .UNDEFINED)
      let state := e.componenentExecutionStates flowState.flowStateIndex componentIndex
      if !started ∧ state = none then .ok e
      else
        let released : Except Fault Engine :=
          if started then deallocateComponentExecutionState host e flowState componentIndex
          else .ok e
        match released with
        | .error f => .error f
        | .ok e1 =>
          match evalProperty host fuel e1 flowState componentIndex
              host.LOOP_ACTION_COMPONENT_PROPERTY_STEP "Failed to evaluate Step in Loop" with
          | .error f => .error f
          | .ok (e2, none) => .ok e2
          | .ok (e2, some stepValue) =>
            match e2.componenentExecutionStates flowState.flowStateIndex componentIndex with
            | none =>
              match evalAssignableProperty host fuel e2 flowState componentIndex
                  host.LOOP_ACTION_COMPONENT_PROPERTY_VARIABLE
                  "Failed to evaluate Variable in Loop" with
              | .error f => .error f
              | .ok (e3, none) => .ok e3
              | .ok (e3, some dstValue) =>
                match evalProperty host fuel e3 flowState componentIndex
                    host.LOOP_ACTION_COMPONENT_PROPERTY_FROM
                    "Failed to evaluate From in Loop" with
                | .error f => .error f
                | .ok (e4, none) => .ok e4
                | .ok (e4, some fromValue) =>
                  match evalProperty host fuel e4 flowState componentIndex
                      host.LOOP_ACTION_COMPONENT_PROPERTY_TO
                      "Failed to evaluate To in Loop" with
                  | .error f => .error f
                  | .ok (e5, none) => .ok e5
                  | .ok (e5, some toValue) =>
                    match allocateComponentExecutionState host e5 flowState componentIndex
                        (.loop dstValue toValue Value.undefined) with
                    | .error f => .error f
                    | .ok e6 =>
                      executeLoopTail host fuel e6 flowState componentIndex stepValue dstValue
                        toValue fromValue
            | some (.loop dstValue toValue currentValue) =>
              let env := (evalContext host e2 flowState).env
              let next :=
                if dstValue.type = .FLOW_OUTPUT then op_add env currentValue stepValue
                else op_add env dstValue stepValue
              executeLoopTail host fuel e2 flowState componentIndex stepValue dstValue toValue
                next
            | some _ => .error .undefinedBehaviour

end flow
end eez

namespace eez

/-! ## core/value.cpp : the comparison functions of the value types (lines 1681-2232) -/

/-- What the comparison functions take from outside the two values: the target of
an indirect value (`getValue()`), the value a `Value *` points to, the operator
`Value::operator==` and the member read by `getEnum()` of the missing header (the
pair of `enumDefinition` and `enumValue`), the build option `EEZ_OPTION_GUI`, and
the native variables `get(g_widgetCursor, id)` of a build with that option. -/
structure CompareEnv where
  resolve : Value → Value
  deref : ValuePtr → Value
  valueEq : Value → Value → Bool
  getEnum : Value → Nat × Nat
  EEZ_OPTION_GUI : Bool
  nativeVariable : Int → Value

/-- Function `compare_UNDEFINED_value` (lines 1681-1683). -/
def compare_UNDEFINED_value (a b : Value) : Bool :=
  decide (b.type = .UNDEFINED) && decide (a.int32Value = b.int32Value)

/-- Function `compare_NULL_value` (lines 1690-1692). -/
def compare_NULL_value (_a b : Value) : Bool := decide (b.type = .NULL)

/-- Function `compare_BOOLEAN_value` (lines 1699-1701); `getInt()` reads
`int32Value`. -/
def compare_BOOLEAN_value (a b : Value) : Bool := decide (a.int32Value = b.int32Value)

/-- Function `compare_INT8_value` (lines 1712-1714). -/
def compare_INT8_value (a b : Value) : Bool := decide (a.int8Value = b.int8Value)

/-- Function `compare_UINT8_value` (lines 1721-1723). -/
def compare_UINT8_value (a b : Value) : Bool := decide (a.uint8Value = b.uint8Value)

/-- Function `compare_INT16_value` (lines 1730-1732). -/
def compare_INT16_value (a b : Value) : Bool := decide (a.int16Value = b.int16Value)

/-- Function `compare_UINT16_value` (lines 1739-1741). -/
def compare_UINT16_value (a b : Value) : Bool := decide (a.uint16Value = b.uint16Value)

/-- Function `compare_INT32_value` (lines 1748-1750). -/
def compare_INT32_value (a b : Value) : Bool := decide (a.int32Value = b.int32Value)

/-- Function `compare_UINT32_value` (lines 1757-1759). -/
def compare_UINT32_value (a b : Value) : Bool := decide (a.uint32Value = b.uint32Value)

/-- Function `compare_INT64_value` (lines 1766-1768). -/
def compare_INT64_value (a b : Value) : Bool := decide (a.int64Value = b.int64Value)

/-- Function `compare_UINT64_value` (lines 1775-1777). -/
def compare_UINT64_value (a b : Value) : Bool := decide (a.uint64Value = b.uint64Value)

/-- Function `compare_FLOAT_value` (lines 1784-1786). -/
def compare_FLOAT_value (a b : Value) : Bool :=
  decide (a.unit = b.unit) && Dbl.eq a.floatValue b.floatValue && decide (a.options = b.options)

/-- Function `compare_DOUBLE_value` (lines 1862-1864). -/
def compare_DOUBLE_value (a b : Value) : Bool :=
  decide (a.unit = b.unit) && Dbl.eq a.doubleValue b.doubleValue &&
    decide (a.options = b.options)

/-- Function `compare_STRING_value` (lines 1940-1950); `strcmp` gives 0 for equal
character sequences. -/
def compare_STRING_value (env : CompareEnv) (a b : Value) : Bool :=
  match (a.getValue env.resolve).getString, (b.getValue env.resolve).getString with
  | none, none => true
  | none, some _ => false
  | some _, none => false
  | some astr, some bstr => decide (astr = bstr)

/-- Function `compare_STRING_ASSET_value` (lines 1962-1964). -/
def compare_STRING_ASSET_value (env : CompareEnv) (a b : Value) : Bool :=
  compare_STRING_value env a b

/-- Function `compare_ARRAY_value` (lines 1971-1973). -/
def compare_ARRAY_value (a b : Value) : Bool := decide (a.arrayValue = b.arrayValue)

/-- Function `compare_ARRAY_ASSET_value` (lines 1980-1982). -/
def compare_ARRAY_ASSET_value (a b : Value) : Bool := decide (a.int32Value = b.int32Value)

/-- Function `compare_ARRAY_REF_value` (lines 1989-1991). -/
def compare_ARRAY_REF_value (a b : Value) : Bool := decide (a.refValue = b.refValue)

/-- Function `compare_STRING_REF_value` (lines 1998-2000). -/
def compare_STRING_REF_value (env : CompareEnv) (a b : Value) : Bool :=
  compare_STRING_value env a b

/-- Function `compare_BLOB_REF_value` (lines 2007-2009). -/
def compare_BLOB_REF_value (a b : Value) : Bool := decide (a.refValue = b.refValue)

/-- Function `compare_STREAM_value` (lines 2016-2018). -/
def compare_STREAM_value (a b : Value) : Bool := decide (a.int32Value = b.int32Value)

/-- Function `compare_WIDGET_value` (lines 2025-2027). -/
def compare_WIDGET_value (a b : Value) : Bool := decide (a.int32Value = b.int32Value)

/-- Function `compare_JSON_value` (lines 2034-2036). -/
def compare_JSON_value (a b : Value) : Bool := decide (a.int32Value = b.int32Value)

/-- Function `compare_JSON_MEMBER_VALUE_value` (lines 2043-2045). -/
def compare_JSON_MEMBER_VALUE_value (env : CompareEnv) (a b : Value) : Bool :=
  env.valueEq (a.getValue env.resolve) (b.getValue env.resolve)

/-- Function `compare_DATE_value` (lines 2053-2055). -/
def compare_DATE_value (a b : Value) : Bool := Dbl.eq a.doubleValue b.doubleValue

/-- Function `compare_VERSIONED_STRING_value` (lines 2062-2064). -/
def compare_VERSIONED_STRING_value (a b : Value) : Bool := decide (a.unit = b.unit)

/-- Function `compare_VALUE_PTR_value` (lines 2076-2078). -/
def compare_VALUE_PTR_value (env : CompareEnv) (a b : Value) : Bool :=
  decide (a.pValueValue = b.pValueValue) ||
    (match a.pValueValue, b.pValueValue with
     | some pa, some pb => env.valueEq (env.deref pa) (env.deref pb)
     | _, _ => false)

/-- Function `compare_ARRAY_ELEMENT_VALUE_value` (lines 2093-2095). -/
def compare_ARRAY_ELEMENT_VALUE_value (env : CompareEnv) (a b : Value) : Bool :=
  env.valueEq (a.getValue env.resolve) (b.getValue env.resolve)

/-- Function `compare_FLOW_OUTPUT_value` (lines 2103-2105). -/
def compare_FLOW_OUTPUT_value (a b : Value) : Bool := decide (a.uint16Value = b.uint16Value)

/-- Function `compare_NATIVE_VARIABLE_value` (lines 2112-2137), in its two
versions. -/
def compare_NATIVE_VARIABLE_value (env : CompareEnv) (a b : Value) : Bool :=
  if env.EEZ_OPTION_GUI then
    env.valueEq (env.nativeVariable a.int32Value) (env.nativeVariable b.int32Value)
  else false

/-- Function `compare_ERROR_value` (lines 2138-2140). -/
def compare_ERROR_value (_a _b : Value) : Bool := false

/-- Function `compare_RANGE_value` (lines 2147-2149). -/
def compare_RANGE_value (a b : Value) : Bool := decide (a.uint32Value = b.uint32Value)

/-- Function `compare_POINTER_value` (lines 2156-2158); `getVoidPointer()` reads
`pVoidValue`. -/
def compare_POINTER_value (a b : Value) : Bool := decide (a.pVoidValue = b.pVoidValue)

/-- Function `compare_ENUM_value` (lines 2165-2197), in its two versions. -/
def compare_ENUM_value (env : CompareEnv) (a b : Value) : Bool :=
  if env.EEZ_OPTION_GUI then
    decide ((env.getEnum a).1 = (env.getEnum b).1) && decide ((env.getEnum a).2 = (env.getEnum b).2)
  else false

/-- Function `compare_YT_DATA_GET_VALUE_FUNCTION_POINTER_value` (lines 2198-2200). -/
def compare_YT_DATA_GET_VALUE_FUNCTION_POINTER_value (a b : Value) : Bool :=
  decide (a.uint32Value = b.uint32Value)

/-- Function `compare_IP_ADDRESS_value` (lines 2201-2203). -/
def compare_IP_ADDRESS_value (a b : Value) : Bool := decide (a.uint32Value = b.uint32Value)

/-- Function `compare_TIME_ZONE_value` (lines 2210-2212). -/
def compare_TIME_ZONE_value (a b : Value) : Bool := decide (a.int16Value = b.int16Value)

/-- Table `g_valueTypeCompareFunctions` (lines 2225-2232): the comparison function
registered for a tag. -/
def g_valueTypeCompareFunctions (env : CompareEnv) : ValueType → Value → Value → Bool
  | .UNDEFINED => compare_UNDEFINED_value
  | .NULL => compare_NULL_value
  | .BOOLEAN => compare_BOOLEAN_value
  | .INT8 => compare_INT8_value
  | .UINT8 => compare_UINT8_value
  | .INT16 => compare_INT16_value
  | .UINT16 => compare_UINT16_value
  | .INT32 => compare_INT32_value
  | .UINT32 => compare_UINT32_value
  | .INT64 => compare_INT64_value
  | .UINT64 => compare_UINT64_value
  | .FLOAT => compare_FLOAT_value
  | .DOUBLE => compare_DOUBLE_value
  | .STRING => compare_STRING_value env
  | .STRING_ASSET => compare_STRING_ASSET_value env
  | .ARRAY => compare_ARRAY_value
  | .ARRAY_ASSET => compare_ARRAY_ASSET_value
  | .ARRAY_REF => compare_ARRAY_REF_value
  | .STRING_REF => compare_STRING_REF_value env
  | .BLOB_REF => compare_BLOB_REF_value
  | .STREAM => compare_STREAM_value
  | .WIDGET => compare_WIDGET_value
  | .JSON => compare_JSON_value
  | .JSON_MEMBER_VALUE => compare_JSON_MEMBER_VALUE_value env
  | .DATE => compare_DATE_value
  | .VERSIONED_STRING => compare_VERSIONED_STRING_value
  | .VALUE_PTR => compare_VALUE_PTR_value env
  | .ARRAY_ELEMENT_VALUE => compare_ARRAY_ELEMENT_VALUE_value env
  | .FLOW_OUTPUT => compare_FLOW_OUTPUT_value
  | .NATIVE_VARIABLE => compare_NATIVE_VARIABLE_value env
  | .ERROR => compare_ERROR_value
  | .RANGE => compare_RANGE_value
  | .POINTER => compare_POINTER_value
  | .ENUM => compare_ENUM_value env
  | .YT_DATA_GET_VALUE_FUNCTION_POINTER => compare_YT_DATA_GET_VALUE_FUNCTION_POINTER_value
  | .IP_ADDRESS => compare_IP_ADDRESS_value
  | .TIME_ZONE => compare_TIME_ZONE_value

namespace flow

/-! ## flow/components/catch_error.cpp -/

/-- Function `executeCatchErrorComponent` (lines 7717-7722); without an execution
state of the CatchError component the C++ code reads through a null pointer. -/
def executeCatchErrorComponent (host : Host) (fuel : Nat) (e : Engine) (flowState : FlowState)
    (componentIndex : Nat) : Except Fault Engine :=
  match e.componenentExecutionStates flowState.flowStateIndex componentIndex with
  | some (.catchError message) =>
    match propagateValue host fuel e flowState componentIndex 1 message with
    | .error f => .error f
    | .ok e1 =>
      match deallocateComponentExecutionState host e1 flowState componentIndex with
      | .error f => .error f
      | .ok e2 => propagateValueThroughSeqout host fuel e2 flowState componentIndex
  | _ => .error .undefinedBehaviour

/-! ## flow/flow.cpp, flow/private.cpp, flow/watch_list.cpp : stopping the engine -/

/-- The states of the debugger (`DebuggerState`, lines 3280-3285). -/
inductive DebuggerState
  | DEBUGGER_STATE_RESUMED
  | DEBUGGER_STATE_PAUSED
  | DEBUGGER_STATE_SINGLE_STEP
  | DEBUGGER_STATE_STOPPED
deriving DecidableEq, Repr

/-- A list of sibling flow states with their descendants: `null` is the null
pointer, a node is a flow state with the list `firstChild` of its children and
the list `nextSibling` of the siblings after it.  The members `lastChild` and
`previousSibling` are the same lists read backwards. -/
inductive FlowStateTree
  | null
  | node (flowState : FlowState) (firstChild nextSibling : FlowStateTree)
deriving DecidableEq

/-- A node of the watch list (lines 7413-7418), without its links. -/
structure WatchListNode where
  flowState : FlowState
  componentIndex : Nat
deriving DecidableEq

/-- The engine with the globals of `flow.cpp`, of the debugger and of the watch
list: `flowStates` is the list that starts at `g_firstFlowState` (and ends at
`g_lastFlowState`), `g_watchList` the nodes from `g_watchList.first` on.
`breakpoint` is the member `breakpoint` of the components of a flow and
`lastExecutedTime` the member of that name of the execution state of a
component of a flow state.  `clock` gives what the calls of `millis()` return,
in the order of the calls, and `clockReads` counts the calls made. -/
structure Runtime where
  engine : Engine
  g_isStopping : Bool
  g_isStopped : Bool
  g_debuggerIsConnected : Bool
  g_debuggerState : DebuggerState
  flowStates : FlowStateTree
  g_watchList : List WatchListNode
  g_messageSubsciptionFilter : Nat
  g_skipNextBreakpoint : Bool
  breakpoint : Flow → Nat → Bool
  lastExecutedTime : Nat → Nat → Nat
  clock : Nat → Nat
  clockReads : Nat

/-- The loop of `freeFlowState` over the components (lines 7097-7099), from
component `i` on. -/
def deallocateAllComponentExecutionStates (host : Host) (flowState : FlowState) :
    List Component → Nat → Engine → Except Fault Engine
  | [], _, e => .ok e
  | _ :: rest, i, e =>
    match deallocateComponentExecutionState host e flowState i with
    | .error f => .error f
    | .ok e1 => deallocateAllComponentExecutionStates host flowState rest (i + 1) e1

/-- Function `freeFlowState` (lines 7064-7104) for a flow state whose children
still linked are `children`; `freeChildren` is the `freeAllChildrenFlowStates`
it calls.  The result is the engine and, when the function returns at line 7070
with the flow state still linked, its children (`none` when the flow state was
unlinked and freed).  The release of the values and of the memory is not
represented. -/
def freeFlowStateWith (host : Host)
    (freeChildren : FlowStateTree → Engine → Except Fault (Engine × FlowStateTree))
    (flowState : FlowState) (children : FlowStateTree) (e : Engine) :
    Except Fault (Engine × Option FlowStateTree) :=
  let unlinkAndFree : Except Fault (Engine × Option FlowStateTree) :=
    match deallocateAllComponentExecutionStates host flowState flowState.flow.components 0 e with
    | .error f => .error f
    | .ok e1 =>
      match freeChildren children e1 with
      | .error f => .error f
      | .ok (e2, _) =>
        .ok ({ e2 with trace := e2.trace ++ [.onFlowStateDestroyed flowState.flowStateIndex] },
             none)
  match flowState with
  | .root _ _ _ => unlinkAndFree
  | .child _ _ _ parentFlowState parentComponentIndex =>
    match e.componenentExecutionStates parentFlowState.flowStateIndex parentComponentIndex with
    | some _ =>
      match deallocateComponentExecutionState host e parentFlowState parentComponentIndex with
      | .error f => .error f
      | .ok e1 => .ok (e1, some children)
    | none => unlinkAndFree

/-- Function `freeAllChildrenFlowStates` (lines 7105-7113) on the list that starts
at `firstChildFlowState`: the engine and the flow states of the list that are
still linked.  `fuel` bounds the depth of the calls. -/
def freeAllChildrenFlowStates (host : Host) :
    Nat → FlowStateTree → Engine → Except Fault (Engine × FlowStateTree)
  | 0, _, _ => .error .outOfFuel
  | _ + 1, .null, e => .ok (e, .null)
  | fuel + 1, .node flowState firstChild nextSibling, e =>
    match freeAllChildrenFlowStates host fuel firstChild e with
    | .error f => .error f
    | .ok (e1, children) =>
      match freeFlowStateWith host (freeAllChildrenFlowStates host fuel) flowState children e1 with
      | .error f => .error f
      | .ok (e2, kept) =>
        match freeAllChildrenFlowStates host fuel nextSibling e2 with
        | .error f => .error f
        | .ok (e3, siblings) =>
          match kept with
          | some children1 => .ok (e3, .node flowState children1 siblings)
          | none => .ok (e3, siblings)

/-- Function `watchListReset` (lines 7469-7475): every node is removed in turn. -/
def watchListReset : List WatchListNode → List WatchListNode
  | [] => []
  | _ :: rest => watchListReset rest

/-- Function `isFlowStopped` (lines 4258-4260). -/
def isFlowStopped (r : Runtime) : Bool := r.g_isStopped

/-- Function `stop` (lines 4244-4246). -/
def stop (r : Runtime) : Runtime := { r with g_isStopping := true }

/-- Function `doStop` (lines 4247-4257); `onStopped` (lines 3600-3602) sets the
state of the debugger. -/
def doStop (host : Host) (fuel : Nat) (r : Runtime) : Except Fault Runtime :=
  let e0 := { r.engine with trace := r.engine.trace ++ [.onStopped, .finishToDebuggerMessageHook] }
  match freeAllChildrenFlowStates host fuel r.flowStates e0 with
  | .error f => .error f
  | .ok (e1, _) =>
    .ok { r with
      engine := queueReset e1,
      g_debuggerState := .DEBUGGER_STATE_STOPPED,
      g_debuggerIsConnected := false,
      flowStates := .null,
      g_isStopped := true,
      g_watchList := watchListReset r.g_watchList }

/-- Constant `FLOW_TICK_MAX_DURATION_MS` (line 4168). -/
def FLOW_TICK_MAX_DURATION_MS : Nat := 5

/-- Constant `MESSAGE_TO_DEBUGGER_STATE_CHANGED` (line 3246). -/
def MESSAGE_TO_DEBUGGER_STATE_CHANGED : Nat := 0

/-- Constant `MESSAGE_TO_DEBUGGER_ADD_TO_QUEUE` (line 3247). -/
def MESSAGE_TO_DEBUGGER_ADD_TO_QUEUE : Nat := 1

/-- The number of a debugger state in `enum DebuggerState`. -/
def DebuggerState.toNat : DebuggerState → Nat
  | .DEBUGGER_STATE_RESUMED => 0
  | .DEBUGGER_STATE_PAUSED => 1
  | .DEBUGGER_STATE_SINGLE_STEP => 2
  | .DEBUGGER_STATE_STOPPED => 3

/-- Function `millis` (line 626): the next reading of the clock, a `uint32_t`. -/
def millis (r : Runtime) : Nat × Runtime :=
  (r.clock r.clockReads % WORD, { r with clockReads := r.clockReads + 1 })

/-- Function `isSubscribedTo` (lines 3296-3302), for a message type below 31. -/
def isSubscribedTo (r : Runtime) (messageType : Nat) : Bool × Runtime :=
  if r.g_debuggerIsConnected ∧ (r.g_messageSubsciptionFilter % WORD).testBit messageType then
    (true,
      { r with
        engine := { r.engine with trace := r.engine.trace ++ [.startToDebuggerMessageHook] } })
  else (false, r)

/-- Function `setDebuggerState` (lines 3303-3315). -/
def setDebuggerState (r : Runtime) (newState : DebuggerState) : Runtime :=
  if newState ≠ r.g_debuggerState then
    let subscribed := isSubscribedTo { r with g_debuggerState := newState }
      MESSAGE_TO_DEBUGGER_STATE_CHANGED
    if subscribed.1 then
      { subscribed.2 with
        engine :=
          { subscribed.2.engine with
            trace := subscribed.2.engine.trace ++
              [.writeDebuggerBufferHook
                (toString MESSAGE_TO_DEBUGGER_STATE_CHANGED ++ "\t" ++ toString newState.toNat
                  ++ "\n")] } }
    else subscribed.2
  else r

/-- Function `canExecuteStep` (lines 3373-3399); `flowState` is `none` for a null
pointer, which the function dereferences only when it looks for a breakpoint. -/
def canExecuteStep (r : Runtime) (flowState : Option FlowState) (componentIndex : Nat) :
    Except Fault (Bool × Runtime) :=
  if !r.g_debuggerIsConnected then .ok (true, r)
  else
    let subscribed := isSubscribedTo r MESSAGE_TO_DEBUGGER_ADD_TO_QUEUE
    let r1 := subscribed.2
    if !subscribed.1 then .ok (true, r1)
    else if r1.g_debuggerState = .DEBUGGER_STATE_PAUSED then .ok (false, r1)
    else if r1.g_debuggerState = .DEBUGGER_STATE_SINGLE_STEP then
      .ok (true, setDebuggerState { r1 with g_skipNextBreakpoint := false }
        .DEBUGGER_STATE_PAUSED)
    else if r1.g_skipNextBreakpoint then .ok (true, { r1 with g_skipNextBreakpoint := false })
    else
      match flowState with
      | none => .error .undefinedBehaviour
      | some flowState =>
        match flowState.flow.components[componentIndex]? with
        | none => .error .undefinedBehaviour
        | some _ =>
          if r1.breakpoint flowState.flow componentIndex then
            .ok (false, setDebuggerState { r1 with g_skipNextBreakpoint := true }
              .DEBUGGER_STATE_PAUSED)
          else .ok (true, r1)

/-- The children still linked of the flow state with index `i`, when that flow
state is in the list or among the descendants. -/
def FlowStateTree.childrenOf (i : Nat) : FlowStateTree → Option FlowStateTree
  | .null => none
  | .node flowState firstChild nextSibling =>
    if flowState.flowStateIndex = i then some firstChild
    else
      match firstChild.childrenOf i with
      | some children => some children
      | none => nextSibling.childrenOf i

/-- The list after `freeFlowState` for the flow state with index `i`: unlinked
when `kept` is `none`, otherwise still linked with the children `kept`. -/
def FlowStateTree.afterFree (i : Nat) (kept : Option FlowStateTree) :
    FlowStateTree → FlowStateTree
  | .null => .null
  | .node flowState firstChild nextSibling =>
    if flowState.flowStateIndex = i then
      match kept with
      | some children => .node flowState children nextSibling
      | none => nextSibling
    else .node flowState (firstChild.afterFree i kept) (nextSibling.afterFree i kept)

/-- Function `freeFlowState` (lines 7064-7104) on a flow state linked in the lists
of the runtime; `fuel` bounds the depth of the calls of
`freeAllChildrenFlowStates`. -/
def freeFlowState (host : Host) (fuel : Nat) (r : Runtime) (flowState : FlowState) :
    Except Fault Runtime :=
  match r.flowStates.childrenOf flowState.flowStateIndex with
  | none => .error .undefinedBehaviour
  | some children =>
    match freeFlowStateWith host (freeAllChildrenFlowStates host fuel) flowState children
        r.engine with
    | .error f => .error f
    | .ok (e1, kept) =>
      .ok { r with engine := e1,
                   flowStates := r.flowStates.afterFree flowState.flowStateIndex kept }

/-- The type of `executeComponent` (lines 2971-2998) as a callee. -/
abbrev ExecuteComponent := Runtime → FlowState → Nat → Except Fault Runtime

/-- The ways the loop of `tick` is left: its condition is false (line 4199), the
queue has no task (line 4203), the step may not be executed (line 4206), the
engine is stopped or stopping (line 4228), the time is up (line 4237). -/
inductive TickExit
  | loopCondition
  | queueEmpty
  | cannotExecuteStep
  | stopped
  | timeElapsed
deriving DecidableEq, Repr

/-- What the loop of `tick` leaves: the runtime, the way it was left, the number
of tasks it removed from the queue, and for each test of line 4236, in the order
made, the number of tasks removed so far and the elapsed time
`millis() - startTickCount` that was read. -/
structure TickLoopResult where
  runtime : Runtime
  exit : TickExit
  dequeued : Nat
  checks : List (Nat × Nat)

/-- Lines 4209-4227 of `tick`: the task just removed from the queue is marked as
executing and, unless its flow state has the error flag, executed; a continuous
task whose execution state was executed less than `FLOW_TICK_MAX_DURATION_MS`
before the start of the tick is only added to the queue again.
`executeComponent` is the function of that name. -/
def tickExecuteTask (host : Host) (executeComponent : ExecuteComponent) (fuel : Nat)
    (startTickCount : Nat) (r : Runtime) (flowState : FlowState) (componentIndex : Nat)
    (continuousTask : Bool) : Except Fault Runtime :=
  let e3 :=
    { r.engine with
      executingComponentIndex :=
        setAt r.engine.executingComponentIndex flowState.flowStateIndex componentIndex }
  let r3 := { r with engine := e3 }
  if e3.error flowState.flowStateIndex then
    match deallocateComponentExecutionState host e3 flowState componentIndex with
    | .error f => .error f
    | .ok e4 => .ok { r3 with engine := e4 }
  else if continuousTask then
    match e3.componenentExecutionStates flowState.flowStateIndex componentIndex with
    | none => executeComponent r3 flowState componentIndex
    | some _ =>
      if (r3.lastExecutedTime flowState.flowStateIndex componentIndex
          + FLOW_TICK_MAX_DURATION_MS) % WORD ≤ startTickCount then
        executeComponent
          { r3 with
            lastExecutedTime :=
              setAt2 r3.lastExecutedTime flowState.flowStateIndex componentIndex
                startTickCount }
          flowState componentIndex
      else
        match addToQueue host fuel e3 flowState componentIndex (-1) (-1) (-1) true with
        | .error f => .error f
        | .ok (e4, _) => .ok { r3 with engine := e4 }
  else executeComponent r3 flowState componentIndex

/-- Lines 4231-4234 of `tick`: the sequence inputs of the component executed are
reset and the flow state is freed when it can be. -/
def tickFinishTask (host : Host) (fuel : Nat) (r : Runtime) (flowState : FlowState) :
    Except Fault Runtime :=
  match resetSequenceInputs host r.engine flowState with
  | .error f => .error f
  | .ok e5 =>
    if canFreeFlowState e5 flowState then
      freeFlowState host fuel { r with engine := e5 } flowState
    else .ok { r with engine := e5 }

/-- Lines 4204-4207 of `tick`: a task that is not continuous is taken only when
`canExecuteStep` allows it. -/
def tickAllowed (r : Runtime) (flowState : Option FlowState) (componentIndex : Nat)
    (continuousTask : Bool) : Except Fault (Bool × Runtime) :=
  if continuousTask then .ok (true, r) else canExecuteStep r flowState componentIndex

/-- The `for` loop of `tick` (lines 4199-4240) from the iteration `i` on;
`executeComponent` is the function of that name, `steps` bounds the number of
iterations and `fuel` the depth of the calls made from an iteration.  The counter
`i`, a `size_t`, is taken without wrap-around. -/
def tickLoop (host : Host) (executeComponent : ExecuteComponent) (fuel : Nat)
    (startTickCount n : Nat) :
    Nat → Nat → List (Nat × Nat) → Runtime → Except Fault TickLoopResult
  | 0, _, _, _ => .error .outOfFuel
  | steps + 1, i, checks, r =>
    if ¬(i < n ∨ 0 < r.engine.g_numContinuousTaskInQueue) then
      .ok ⟨r, .loopCondition, i, checks⟩
    else
      match peekNextTaskFromQueue r.engine with
      | none => .ok ⟨r, .queueEmpty, i, checks⟩
      | some (flowStatePtr, componentIndex, continuousTask) =>
        match tickAllowed r flowStatePtr componentIndex continuousTask with
        | .error f => .error f
        | .ok (false, r1) => .ok ⟨r1, .cannotExecuteStep, i, checks⟩
        | .ok (true, r1) =>
          match flowStatePtr, removeNextTaskFromQueue r1.engine with
          | _, .error f => .error f
          | none, .ok _ => .error .undefinedBehaviour
          | some flowState, .ok e2 =>
            match tickExecuteTask host executeComponent fuel startTickCount
                { r1 with engine := e2 } flowState componentIndex continuousTask with
            | .error f => .error f
            | .ok r4 =>
              if isFlowStopped r4 ∨ r4.g_isStopping then .ok ⟨r4, .stopped, i + 1, checks⟩
              else
                match tickFinishTask host fuel r4 flowState with
                | .error f => .error f
                | .ok r6 =>
                  if (i + 1) % 5 = 0 then
                    let elapsed := wrapSub (millis r6).1 startTickCount
                    if FLOW_TICK_MAX_DURATION_MS ≤ elapsed then
                      .ok ⟨(millis r6).2, .timeElapsed, i + 1, checks ++ [(i + 1, elapsed)]⟩
                    else
                      tickLoop host executeComponent fuel startTickCount n steps (i + 1)
                        (checks ++ [(i + 1, elapsed)]) (millis r6).2
                  else
                    tickLoop host executeComponent fuel startTickCount n steps (i + 1) checks r6

/-- Function `visitWatchList` (lines 7453-7468) on an empty watch list; the visit
of a node is not embedded. -/
def visitWatchList (r : Runtime) : Except Fault Runtime :=
  match r.g_watchList with
  | [] => .ok r
  | _ :: _ => .error .notEmbedded

/-- Function `tick` (lines 4189-4243); `executeComponent` is the function of that
name, and `fuel` bounds the number of iterations of the loop and the depth of
the calls. -/
def tickWith (host : Host) (executeComponent : ExecuteComponent) (fuel : Nat) (r : Runtime) :
    Except Fault Runtime :=
  if isFlowStopped r then .ok r
  else if r.g_isStopping then doStop host fuel r
  else
    let startTickCount := (millis r).1
    let r1 := (millis r).2
    match tickLoop host executeComponent fuel startTickCount (getQueueSize r1.engine) fuel 0 []
        r1 with
    | .error f => .error f
    | .ok result =>
      match visitWatchList result.runtime with
      | .error f => .error f
      | .ok r2 =>
        .ok
          { r2 with
            engine :=
              { r2.engine with trace := r2.engine.trace ++ [.finishToDebuggerMessageHook] } }

/-- Function `tick` (lines 4189-4243) with the execution of a component not
embedded: what `tick` does when it executes no component. -/
def tick (host : Host) (fuel : Nat) (r : Runtime) : Except Fault Runtime :=
  tickWith host (fun _ _ _ => .error .notEmbedded) fuel r

end flow
end eez

/-! ## flow/date.cpp : dates (lines 3004-3134) -/

namespace eez
namespace flow
namespace date

/-- Macro `SECONDS_PER_MINUTE` (line 3010), an `unsigned long`. -/
def SECONDS_PER_MINUTE : Nat := 60

/-- Macro `SECONDS_PER_HOUR` (line 3011). -/
def SECONDS_PER_HOUR : Nat := SECONDS_PER_MINUTE * 60

/-- Macro `SECONDS_PER_DAY` (line 3012). -/
def SECONDS_PER_DAY : Nat := SECONDS_PER_HOUR * 24

/-- Macro `LEAP_YEAR` (lines 3013-3014) on an `int`. -/
def LEAP_YEAR (Y : Int) : Bool :=
  decide (0 < wrapInt32 (1970 + Y)) && decide (Int.tmod (wrapInt32 (1970 + Y)) 4 = 0) &&
    (decide (Int.tmod (wrapInt32 (1970 + Y)) 100 ≠ 0) ||
      decide (Int.tmod (wrapInt32 (1970 + Y)) 400 = 0))

/-- Table `monthDays` (line 3015). -/
def monthDays : List Nat := [31, 28, 31, 30, 31, 30, 31, 31, 30, 31, 30, 31]

/-- Conversion of an `int` to `unsigned long`, a type of 32 bits. -/
def toUnsignedLong (x : Int) : Nat := (x % (WORD : Int)).toNat

/-- Conversion of an `int` to the type `Date` of the missing header, an unsigned
integer type of `DATE` values that is not narrower than `unsigned long`. -/
def toDate (DATE : Nat) (x : Int) : Nat := (x % (DATE : Int)).toNat

/-- The first `for` loop of `makeDate` (lines 3073-3077) from the year `i` on,
`count` iterations being left. -/
def makeDateYearLoop (DATE : Nat) : Nat → Int → Nat → Nat
  | 0, _, time => time
  | count + 1, i, time =>
    makeDateYearLoop DATE count (i + 1)
      (if LEAP_YEAR i then (time + SECONDS_PER_DAY) % DATE else time)

/-- The second `for` loop of `makeDate` (lines 3078-3084) from the month `i` on,
`count` iterations being left; an index outside `monthDays` is undefined
behaviour. -/
def makeDateMonthLoop (DATE : Nat) (year : Int) : Nat → Nat → Nat → Except Fault Nat
  | 0, _, time => .ok time
  | count + 1, i, time =>
    if i = 2 ∧ LEAP_YEAR year = true then
      makeDateMonthLoop DATE year count (i + 1) ((time + SECONDS_PER_DAY * 29) % DATE)
    else
      match monthDays[i - 1]? with
      | none => .error .undefinedBehaviour
      | some days =>
        makeDateMonthLoop DATE year count (i + 1) ((time + SECONDS_PER_DAY * days) % DATE)

/-- Function `makeDate` (lines 3070-3092).  `DATE` is the number of values of the
unsigned type `Date` of the missing header.  The products with the
`unsigned long` constants are computed in 32 bits. -/
def makeDate (DATE : Nat) (year month day hours minutes seconds milliseconds : Int) :
    Except Fault Nat :=
  let year := wrapInt32 (year - 1970)
  let time := (toUnsignedLong (wrapInt32 (year * 365)) * SECONDS_PER_DAY) % WORD % DATE
  let time := makeDateYearLoop DATE year.toNat 0 time
  match makeDateMonthLoop DATE year (month - 1).toNat 1 time with
  | .error f => .error f
  | .ok time =>
    let time := (time + (toUnsignedLong (wrapInt32 (day - 1)) * SECONDS_PER_DAY) % WORD) % DATE
    let time := (time + (toUnsignedLong hours * SECONDS_PER_HOUR) % WORD) % DATE
    let time := (time + (toUnsignedLong minutes * SECONDS_PER_MINUTE) % WORD) % DATE
    let time := (time + toDate DATE seconds) % DATE
    let time := (time * 1000) % DATE
    .ok ((time + toDate DATE milliseconds) % DATE)

/-- The seven results of `breakDate`. -/
structure BrokenDate where
  year : Int
  month : Int
  day : Int
  hours : Int
  minutes : Int
  seconds : Int
  milliseconds : Int
deriving DecidableEq, Repr

/-- The `while` loop of `breakDate` (lines 3107-3109) from the `uint8_t` counter
`year` and the `uint32_t` sum `days` on: the two when the loop is left; `fuel`
bounds the number of iterations. -/
def breakDateYearLoop (time : Nat) : Nat → Nat → Nat → Option (Nat × Nat)
  | 0, _, _ => none
  | fuel + 1, year, days =>
    let days := (days + (if LEAP_YEAR (year : Int) then 366 else 365)) % WORD
    if days ≤ time then breakDateYearLoop time fuel ((year + 1) % 256) days
    else some (year, days)

/-- The `for` loop of `breakDate` (lines 3116-3131) from the month `month` on,
`count` iterations being left: the month and the days left when the loop is
left. -/
def breakDateMonthLoop (year : Nat) : Nat → Nat → Nat → Except Fault (Nat × Nat)
  | 0, month, time => .ok (month, time)
  | count + 1, month, time =>
    match (if month = 1 then some (if LEAP_YEAR (year : Int) then 29 else 28)
        else monthDays[month]?) with
    | none => .error .undefinedBehaviour
    | some monthLength =>
      if monthLength ≤ time then breakDateMonthLoop year count (month + 1) (time - monthLength)
      else .ok (month, time)

/-- Lines 3110-3133 of `breakDate`: the results from the whole days `time`, from
the counter `year` and the sum `days` with which the `while` loop is left, and
from the four results computed before the loop. -/
def breakDateOfYear (DATE time year days : Nat)
    (result_hours result_minutes result_seconds result_milliseconds : Int) :
    Except Fault BrokenDate :=
  let result_year := wrapInt32 ((year : Int) + 1970)
  let days := wrapSub days (if LEAP_YEAR (year : Int) then 366 else 365)
  let time := (time + (DATE - days % DATE)) % DATE
  (breakDateMonthLoop year 12 0 time).map fun r =>
    { year := result_year,
      month := wrapInt32 ((r.1 : Int) + 1),
      day := wrapInt32 (((r.2 + 1) % DATE : Nat) : Int),
      hours := result_hours, minutes := result_minutes, seconds := result_seconds,
      milliseconds := result_milliseconds }

/-- Function `breakDate` (lines 3093-3134); `fuel` bounds the number of iterations
of its `while` loop. -/
def breakDate (DATE : Nat) (fuel : Nat) (time : Nat) : Except Fault BrokenDate :=
  let result_milliseconds := wrapInt32 ((time % 1000 : Nat) : Int)
  let time := time / 1000
  let result_seconds := wrapInt32 ((time % 60 : Nat) : Int)
  let time := time / 60
  let result_minutes := wrapInt32 ((time % 60 : Nat) : Int)
  let time := time / 60
  let result_hours := wrapInt32 ((time % 24 : Nat) : Int)
  let time := time / 24
  match breakDateYearLoop time fuel 0 0 with
  | none => .error .outOfFuel
  | some r =>
    breakDateOfYear DATE time r.1 r.2 result_hours result_minutes result_seconds
      result_milliseconds

end date
end flow
end eez

/-! ## flow/debugger.cpp : the log messages (lines 3400-3416 and 3745-3774) -/

namespace eez
namespace flow

/-- Size of `outputBuffer` (line 3403, without `__EMSCRIPTEN__`). -/
def OUTPUT_BUFFER_SIZE : Nat := 64

/-- The output buffer of the debugger (lines 3400-3405): the characters of
`outputBuffer` below `outputBufferPosition`, and the buffers passed to
`writeDebuggerBufferHook` so far, in the order of the calls. -/
structure OutputBuffer where
  outputBuffer : List Char
  written : List String
deriving DecidableEq

/-- Macro `WRITE_TO_OUTPUT_BUFFER` (lines 3406-3411). -/
def WRITE_TO_OUTPUT_BUFFER (o : OutputBuffer) (ch : Char) : OutputBuffer :=
  let outputBuffer := o.outputBuffer ++ [ch]
  if outputBuffer.length = OUTPUT_BUFFER_SIZE then
    { outputBuffer := [], written := o.written ++ [String.mk outputBuffer] }
  else { o with outputBuffer := outputBuffer }

/-- Macro `FLUSH_OUTPUT_BUFFER` (lines 3412-3416). -/
def FLUSH_OUTPUT_BUFFER (o : OutputBuffer) : OutputBuffer :=
  if 0 < o.outputBuffer.length then
    { outputBuffer := [], written := o.written ++ [String.mk o.outputBuffer] }
  else o

/-- The body of the `for` loops of the two `writeLogMessage` functions (lines
3747-3755 and 3762-3770) for the character `ch`: an `if` for the tab, followed
by an `if` with an `else` for the newline. -/
def writeLogMessageChar (o : OutputBuffer) (ch : Char) : OutputBuffer :=
  let o1 :=
    if ch = '\t' then WRITE_TO_OUTPUT_BUFFER (WRITE_TO_OUTPUT_BUFFER o '\\') 't'
    else o
  if ch = '\n' then WRITE_TO_OUTPUT_BUFFER (WRITE_TO_OUTPUT_BUFFER o1 '\\') 'n'
  else WRITE_TO_OUTPUT_BUFFER o1 ch

/-- The `for` loop of `writeLogMessage(const char *)` (lines 3746-3756) over the
characters that are left before the terminating zero. -/
def writeLogMessageLoop : List Char → OutputBuffer → OutputBuffer
  | [], o => o
  | ch :: rest, o => writeLogMessageLoop rest (writeLogMessageChar o ch)

/-- Function `writeLogMessage(const char *str)` (lines 3745-3759). -/
def writeLogMessage (o : OutputBuffer) (str : String) : OutputBuffer :=
  FLUSH_OUTPUT_BUFFER (WRITE_TO_OUTPUT_BUFFER (writeLogMessageLoop str.data o) '\n')

/-- The `for` loop of `writeLogMessage(const char *, size_t)` (lines 3761-3771)
from index `i` on, `count` iterations being left; reading past the end of `str`
is undefined behaviour. -/
def writeLogMessageLenLoop (str : List Char) : Nat → Nat → OutputBuffer → Except Fault OutputBuffer
  | 0, _, o => .ok o
  | count + 1, i, o =>
    match str[i]? with
    | none => .error .undefinedBehaviour
    | some ch => writeLogMessageLenLoop str count (i + 1) (writeLogMessageChar o ch)

/-- Function `writeLogMessage(const char *str, size_t len)` (lines 3760-3774). -/
def writeLogMessageLen (o : OutputBuffer) (str : String) (len : Nat) : Except Fault OutputBuffer :=
  match writeLogMessageLenLoop str.data len 0 o with
  | .error f => .error f
  | .ok o1 => .ok (FLUSH_OUTPUT_BUFFER (WRITE_TO_OUTPUT_BUFFER o1 '\n'))

end flow
end eez

/-! ## flow/operations.cpp : the string and array operations (lines 6313-6362 and 6588-6678) -/

namespace eez
namespace flow

/-- The `for` loop of `do_OPERATION_TYPE_STRING_PAD_START` (lines 6358-6360) from
the index `i` on, `count` iterations being left: `resultStr[i]` becomes
`padStr[i % padStrLen]`; the remainder of a division by zero is undefined
behaviour. -/
def padStartLoop (padStr : List Char) : Nat → Nat → List Char → Except Fault (List Char)
  | 0, _, resultStr => .ok resultStr
  | count + 1, i, resultStr =>
    if padStr.length = 0 then .error .undefinedBehaviour
    else
      match padStr[i % padStr.length]? with
      | none => .error .undefinedBehaviour
      | some ch => padStartLoop padStr count (i + 1) (resultStr.set i ch)

/-- Function `do_OPERATION_TYPE_STRING_PAD_START` (lines 6313-6362).  The buffer of
the result is kept without its terminating zero: `targetLength` characters, all
zero after `makeStringRef`; `stringCopy` writes the string at its end and the loop
writes the padding. -/
def do_OPERATION_TYPE_STRING_PAD_START (ctx : EvalContext) (stack : EvalStack) :
    Except Fault EvalStack :=
  match stack.pop with
  | none => .error .undefinedBehaviour
  | some (a0, stack1) =>
    let a := a0.getValue ctx.resolve
    if a.isError then .ok (stack1.push a)
    else
      match stack1.pop with
      | none => .error .undefinedBehaviour
      | some (b0, stack2) =>
        let b := b0.getValue ctx.resolve
        if b.isError then .ok (stack2.push b)
        else
          match stack2.pop with
          | none => .error .undefinedBehaviour
          | some (c0, stack3) =>
            let c := c0.getValue ctx.resolve
            if c.isError then .ok (stack3.push c)
            else
              match (a.toString ctx.env).getString with
              | none => .ok (stack3.push Value.makeError)
              | some str =>
                let strLen : Int := str.length
                let (targetLength0, err) := b.toInt32 ctx.strtol
                if err then .ok (stack3.push Value.makeError)
                else
                  let targetLength := if targetLength0 < strLen then strLen else targetLength0
                  match (c.toString ctx.env).getString with
                  | none => .ok (stack3.push Value.makeError)
                  | some padStr =>
                    let resultValue := Value.makeStringRef ctx.env ""
                    if resultValue.type = .NULL then .ok (stack3.push Value.makeError)
                    else
                      let n := (targetLength - strLen).toNat
                      let resultStr := List.replicate n (Char.ofNat 0) ++ str.data
                      match padStartLoop padStr.data n 0 resultStr with
                      | .error f => .error f
                      | .ok resultStr1 =>
                        .ok (stack3.push { resultValue with strValue := some (String.mk resultStr1) })

/-- An array in memory (`ArrayValue`): the members `arraySize` and `arrayType`
and the elements `values`. -/
structure ArrayValue where
  arraySize : Nat
  arrayType : Nat
  values : List Value
deriving DecidableEq

/-- The arrays in memory: `arrays` gives the array at an address (`none` where
there is none), `assetArray` the array that a value of type
`VALUE_TYPE_ARRAY_ASSET` holds at an offset from itself. -/
structure ArrayMemory where
  arrays : Nat → Option ArrayValue
  assetArray : Value → Option ArrayValue

/-- Function `Value::getArray` (lines 2311-2328); `none` when the pointer returned
does not point to an array (for the null value it is the address of a member of
the null pointer). -/
def getArray (mem : ArrayMemory) (v : Value) : Option ArrayValue :=
  if v.type = .ARRAY then mem.arrays v.arrayValue
  else if v.type = .ARRAY_ASSET then mem.assetArray v
  else if v.refValue = 0 then none
  else mem.arrays v.refValue

/-- Function `Value::makeArrayRef` (lines 2692-2709) for an `arraySize` that is not
negative: the value and the memory with the new array, whose elements are
undefined values.  The member `arraySize` of
the value is the size of the array it refers to. -/
def makeArrayRef (env : ValueEnv) (mem : ArrayMemory) (arraySize arrayType : Nat) :
    Value × ArrayMemory :=
  if env.allocOk then
    ({ Value.undefined with
        type := .ARRAY_REF, options := env.VALUE_OPTIONS_REF, refValue := env.newRef,
        arraySize := arraySize },
     { mem with
        arrays := setAt mem.arrays env.newRef
          (some { arraySize := arraySize, arrayType := arrayType,
                  values := List.replicate arraySize Value.undefined }) })
  else (Value.nullValue, mem)

/-- A copy loop of the array operations (lines 6628-6630, 6632-6634, 6668-6670 and
6671-6673): `count` times, `resultArray->values[j] = array->values[i]` with both
indexes going up by one.  An index outside the array it is used on is undefined
behaviour. -/
def copyElements (array : List Value) : Nat → Nat → Nat → List Value → Except Fault (List Value)
  | 0, _, _, result => .ok result
  | count + 1, i, j, result =>
    match array[i]? with
    | none => .error .undefinedBehaviour
    | some v =>
      if j < result.length then copyElements array count (i + 1) (j + 1) (result.set j v)
      else .error .undefinedBehaviour

/-- Function `do_OPERATION_TYPE_ARRAY_INSERT` (lines 6588-6636, without
`EEZ_DASHBOARD_API`): the stack and the memory it leaves. -/
def do_OPERATION_TYPE_ARRAY_INSERT (ctx : EvalContext) (mem : ArrayMemory) (stack : EvalStack) :
    Except Fault (EvalStack × ArrayMemory) :=
  match stack.pop with
  | none => .error .undefinedBehaviour
  | some (arrayValue0, stack1) =>
    let arrayValue := arrayValue0.getValue ctx.resolve
    if arrayValue.isError then .ok (stack1.push arrayValue, mem)
    else
      match stack1.pop with
      | none => .error .undefinedBehaviour
      | some (positionValue0, stack2) =>
        let positionValue := positionValue0.getValue ctx.resolve
        if positionValue.isError then .ok (stack2.push positionValue, mem)
        else
          match stack2.pop with
          | none => .error .undefinedBehaviour
          | some (value0, stack3) =>
            let value := value0.getValue ctx.resolve
            if value.isError then .ok (stack3.push value, mem)
            else
              let (position0, err) := positionValue.toInt32 ctx.strtol
              if err then .ok (stack3.push Value.makeError, mem)
              else if !arrayValue.isArray then .ok (stack3.push Value.makeError, mem)
              else
                match getArray mem arrayValue with
                | none => .error .undefinedBehaviour
                | some array =>
                  let (resultArrayValue, mem1) :=
                    makeArrayRef ctx.env mem (toInt32 (array.arraySize + 1)).toNat array.arrayType
                  match getArray mem1 resultArrayValue with
                  | none => .error .undefinedBehaviour
                  | some resultArray =>
                    let position : Int :=
                      if position0 < 0 then 0
                      else if array.arraySize < (position0 % (WORD : Int)).toNat then
                        toInt32 array.arraySize
                      else position0
                    match copyElements array.values position.toNat 0 0 resultArray.values with
                    | .error f => .error f
                    | .ok values1 =>
                      if ¬(0 ≤ position ∧ position.toNat < values1.length) then
                        .error .undefinedBehaviour
                      else
                        let values2 := values1.set position.toNat value
                        match copyElements array.values
                            (array.arraySize - (position % (WORD : Int)).toNat)
                            (position % (WORD : Int)).toNat
                            ((position % (WORD : Int)).toNat + 1) values2 with
                        | .error f => .error f
                        | .ok values3 =>
                          .ok (stack3.push resultArrayValue,
                               { mem1 with
                                 arrays := setAt mem1.arrays resultArrayValue.refValue
                                   (some { resultArray with values := values3 }) })

/-- Function `do_OPERATION_TYPE_ARRAY_REMOVE` (lines 6637-6678, without
`EEZ_DASHBOARD_API`): the stack and the memory it leaves. -/
def do_OPERATION_TYPE_ARRAY_REMOVE (ctx : EvalContext) (mem : ArrayMemory) (stack : EvalStack) :
    Except Fault (EvalStack × ArrayMemory) :=
  match stack.pop with
  | none => .error .undefinedBehaviour
  | some (arrayValue0, stack1) =>
    let arrayValue := arrayValue0.getValue ctx.resolve
    if arrayValue.isError then .ok (stack1.push arrayValue, mem)
    else
      match stack1.pop with
      | none => .error .undefinedBehaviour
      | some (positionValue0, stack2) =>
        let positionValue := positionValue0.getValue ctx.resolve
        if positionValue.isError then .ok (stack2.push positionValue, mem)
        else
          let (position, err) := positionValue.toInt32 ctx.strtol
          if err then .ok (stack2.push Value.makeError, mem)
          else if !arrayValue.isArray then .ok (stack2.push Value.makeError, mem)
          else
            match getArray mem arrayValue with
            | none => .error .undefinedBehaviour
            | some array =>
              if 0 ≤ position ∧ position < toInt32 array.arraySize then
                let (resultArrayValue, mem1) :=
                  makeArrayRef ctx.env mem (toInt32 (array.arraySize - 1)).toNat array.arrayType
                match getArray mem1 resultArrayValue with
                | none => .error .undefinedBehaviour
                | some resultArray =>
                  match copyElements array.values position.toNat 0 0 resultArray.values with
                  | .error f => .error f
                  | .ok values1 =>
                    match copyElements array.values
                        (array.arraySize - (position.toNat + 1)) (position.toNat + 1)
                        position.toNat values1 with
                    | .error f => .error f
                    | .ok values2 =>
                      .ok (stack2.push resultArrayValue,
                           { mem1 with
                             arrays := setAt mem1.arrays resultArrayValue.refValue
                               (some { resultArray with values := values2 }) })
              else .ok (stack2.push Value.makeError, mem)

end flow
end eez

/-! ## Specification-side definitions and example inputs -/

namespace eez

/-- Invariant of a block list ending at offset `limit`: consecutive blocks are
contiguous and never both free. -/
def heapInv (limit : Nat) : List AllocBlock → Prop
  | [] => True
  | [b] => b.addr + SIZEOF_ALLOC_BLOCK + b.size = limit
  | b :: c :: rest =>
    b.addr + SIZEOF_ALLOC_BLOCK + b.size = c.addr ∧ ¬(b.free = true ∧ c.free = true) ∧
      heapInv limit (c :: rest)

/-- The fields of a block that `getAllocInfo` and the list structure depend on. -/
def blockShape (b : AllocBlock) : Nat × Bool × Nat := (b.addr, b.free, b.size)

/-- A numeric value in the sense of the specification: int32-or-smaller, int64, float or
double. -/
def Value.isNumeric (v : Value) : Bool :=
  v.isInt32OrLess || v.isInt64 || v.isFloat || v.isDouble

/-- An integer-typed value (int32-or-smaller or int64). -/
def Value.isIntegerTyped (v : Value) : Bool := v.isInt32OrLess || v.isInt64

/-- An integer-typed value whose stored integer is zero. -/
def Value.isIntegerZero (env : ValueEnv) (v : Value) : Bool :=
  (v.isInt32OrLess && decide (v.int32Value = 0)) ||
    (v.isInt64 && decide ((v.toInt64 env.strtol).1 = 0))

/-- An environment without indirect values, in which no string parses. -/
def ValueEnv.plain : ValueEnv :=
  { resolve := fun v => v, strtod := fun _ => none, strtol := fun _ => none,
    format := fun _ => "", allocOk := true, newRef := 4096, VALUE_OPTIONS_REF := 1 }

end eez

namespace eez
namespace flow

/-- The two end markers of an instruction sequence. -/
def Instruction.isEndMarker : Instruction → Bool
  | .END => true
  | .END_WITH_DST_VALUE_TYPE _ => true
  | _ => false

/-- The operation `OPERATION k`, executed after the instructions `pre`, leaves an
Error value on top of the stack. -/
def producesError (ctx : EvalContext) (pre : List Instruction) (k : Nat) : Prop :=
  ∃ s1 s2 v rest, runInstructions ctx pre EvalStack.empty = some s1 ∧
    evalInstruction ctx (.OPERATION k) s1 = some s2 ∧ s2.stack = v :: rest ∧ v.isError = true

/-- The instructions that cannot remove an Error value from the stack: the
pushes, the end markers, and the arithmetic, comparison and NOT operations. -/
def Instruction.keepsError : Instruction → Bool
  | .PUSH_CONSTANT _ => true
  | .PUSH_INPUT _ => true
  | .PUSH_LOCAL_VAR _ => true
  | .PUSH_GLOBAL_VAR _ => true
  | .PUSH_OUTPUT _ => true
  | .ARRAY_ELEMENT => false
  | .OPERATION k => decide (k ∈ [0, 1, 2, 3, 4, 10, 11, 12, 13, 14, 15, 21])
  | .END => true
  | .END_WITH_DST_VALUE_TYPE _ => true

/-- Some value on the stack is an Error. -/
def EvalStack.hasError (s : EvalStack) : Prop := ∃ v ∈ s.stack, v.isError = true

/-- The evaluation context of the example `false && (1 / 0)`: constant 0 is the
boolean false, constant 1 the int32 1 and every other constant the int32 0. -/
def exampleContext : EvalContext :=
  { constants := fun i =>
      if i = 0 then Value.ofBool false .BOOLEAN
      else if i = 1 then Value.ofInt 1 .INT32 else Value.ofInt 0 .INT32,
    flowStateIndex := 0,
    flowStateValues := fun _ _ => Value.undefined,
    componentInputsCount := 0,
    globalVariablesCount := 0,
    hasGlobalVariables := false,
    globalVariables := fun _ => Value.undefined,
    flowDefinitionGlobalVariables := fun _ => Value.undefined,
    resolveOther := fun v => v,
    strtod := fun _ => none,
    strtol := fun _ => none,
    format := fun _ => "",
    allocOk := true,
    newRef := 4096,
    VALUE_OPTIONS_REF := 1 }

/-- How many times the flow state with index `i` occurs among `flowState` and its
ancestors (once, for a flow state of that chain, in a well-formed tree). -/
def FlowState.chainCount (flowState : FlowState) (i : Nat) : Nat :=
  (flowState.chain.map FlowState.flowStateIndex).count i

/-- The queue of `e` holds exactly the entries `tasks`, oldest first. -/
def QueueHolds (e : Engine) (tasks : List QueueEntry) : Prop :=
  e.g_queueHead < QUEUE_SIZE ∧ tasks.length ≤ QUEUE_SIZE ∧
  e.g_queueTail = (e.g_queueHead + tasks.length) % QUEUE_SIZE ∧
  (e.g_queueIsFull = true ↔ tasks.length = QUEUE_SIZE) ∧
  ∀ k (hk : k < tasks.length), e.g_queue ((e.g_queueHead + k) % QUEUE_SIZE) = tasks[k]

/-- The arguments of one `addToQueue` call. -/
structure Task where
  flowState : FlowState
  componentIndex : Nat
  sourceComponentIndex : Int
  sourceOutputIndex : Int
  targetInputIndex : Int
  continuousTask : Bool

/-- The queue entry that a successful `addToQueue` call stores. -/
def Task.entry (t : Task) : QueueEntry :=
  QueueEntry.mk (some t.flowState) t.componentIndex t.continuousTask

/-- The calls `addToQueue` for the tasks in turn, up to the first one that
returns false; the boolean tells whether all returned true. -/
def addAllToQueue (host : Host) (fuel : Nat) : List Task → Engine → Except Fault (Engine × Bool)
  | [], e => .ok (e, true)
  | t :: rest, e =>
    match addToQueue host fuel e t.flowState t.componentIndex t.sourceComponentIndex
        t.sourceOutputIndex t.targetInputIndex t.continuousTask with
    | .error f => .error f
    | .ok (e1, false) => .ok (e1, false)
    | .ok (e1, true) => addAllToQueue host fuel rest e1

/-- At most `n` pairs of `peekNextTaskFromQueue` and `removeNextTaskFromQueue`,
as long as the peek returns true: the triples peeked, in that order. -/
def peekAndRemove : Nat → Engine → Except Fault (List (Option FlowState × Nat × Bool) × Engine)
  | 0, e => .ok ([], e)
  | n + 1, e =>
    match peekNextTaskFromQueue e with
    | none => .ok ([], e)
    | some task =>
      match removeNextTaskFromQueue e with
      | .error f => .error f
      | .ok e1 =>
        match peekAndRemove n e1 with
        | .error f => .error f
        | .ok (tasks, e2) => .ok (task :: tasks, e2)

/-- The engine `e'` has the queue of `e` (entries, indexes, flags and counters)
and no reference counter below that of `e`. -/
def SameQueue (e e' : Engine) : Prop :=
  e'.g_queue = e.g_queue ∧ e'.g_queueHead = e.g_queueHead ∧ e'.g_queueTail = e.g_queueTail ∧
  e'.g_queueMax = e.g_queueMax ∧ e'.g_queueIsFull = e.g_queueIsFull ∧
  e'.g_numContinuousTaskInQueue = e.g_numContinuousTaskInQueue ∧
  ∀ i, e.refCounter i ≤ e'.refCounter i

/-- A `throwError` that, called on a full queue, leaves the queue as it is. -/
def KeepsFullQueue (raise : ThrowError) : Prop :=
  ∀ e flowState componentIndex errorMessage e', e.g_queueIsFull = true →
    raise e flowState componentIndex errorMessage = .ok e' → SameQueue e e'

/-- The indexes of the flow state and of its ancestors. -/
def FlowState.chainIndexes (flowState : FlowState) : List Nat :=
  flowState.chain.map FlowState.flowStateIndex

/-- A host for the examples: `COMPONENT_TYPE_START_ACTION` is 1001, the execution
states of the Input, Loop, Counter and WatchVariable components are not
reference-tracked, values are equal when identical, constant `i` is the int32
`i` (constant 1000 is the null value), and the arena has room. -/
def exampleHost : Host :=
  { COMPONENT_TYPE_START_ACTION := 1001,
    FIRST_DASHBOARD_WIDGET_COMPONENT_TYPE := 20000,
    DELAY_ACTION_COMPONENT_PROPERTY_MILLISECONDS := 0,
    LOOP_ACTION_COMPONENT_PROPERTY_VARIABLE := 0,
    LOOP_ACTION_COMPONENT_PROPERTY_FROM := 1,
    LOOP_ACTION_COMPONENT_PROPERTY_TO := 2,
    LOOP_ACTION_COMPONENT_PROPERTY_STEP := 3,
    NULL_VALUE_INDEX := 1000,
    trackRefCounterForComponentState := fun c =>
      !(c.type = 1003 || c.type = 1018 || c.type = 1017 || c.type = 1005),
    valueEq := fun a b => decide (a = b),
    constants := fun i => if i = 1000 then Value.nullValue else Value.ofInt i .INT32,
    globalVariablesCount := 0,
    flowDefinitionGlobalVariables := fun _ => Value.undefined,
    resolveOther := fun v => v,
    strtod := fun _ => none,
    strtol := fun _ => none,
    format := fun _ => "",
    allocOk := true,
    newRef := 4096,
    VALUE_OPTIONS_REF := 1 }

/-- A flow of a Log component without inputs, outputs or wired error output
(component 0) and a CatchError component (component 1). -/
def catchErrorFlow : Flow :=
  { components :=
      [{ type := 1012, inputs := [], properties := [], outputs := [], errorCatchOutput := -1 },
       { type := 1016, inputs := [], properties := [], outputs := [], errorCatchOutput := -1 }],
    componentInputs := [] }

/-- A page flow state of `catchErrorFlow`, without parent. -/
def catchErrorFlowState : FlowState := .root 0 catchErrorFlow false

/-- An engine after `start()`: empty queue, no reference, no value, no state. -/
def initialEngine : Engine :=
  { g_queue := fun _ => QueueEntry.mk none 0 false,
    g_queueHead := 0, g_queueTail := 0, g_queueMax := 0, g_queueIsFull := false,
    g_numContinuousTaskInQueue := 0,
    g_enableThrowError := true,
    refCounter := fun _ => 0,
    error := fun _ => false,
    values := fun _ _ => getEmptyInputValue,
    componenentExecutionStates := fun _ _ => none,
    executingComponentIndex := fun _ => NO_COMPONENT_INDEX,
    hasGlobalVariables := false,
    globalVariables := fun _ => Value.undefined,
    trace := [] }

/-- An engine whose queue is full: `QUEUE_SIZE` tasks of component 0 of
`catchErrorFlowState`. -/
def fullQueueEngine : Engine :=
  { initialEngine with
    g_queue := fun _ => QueueEntry.mk (some catchErrorFlowState) 0 false,
    g_queueMax := QUEUE_SIZE, g_queueIsFull := true,
    g_numContinuousTaskInQueue := QUEUE_SIZE,
    refCounter := fun i => if i = 0 then QUEUE_SIZE else 0 }

/-- The engine states reachable from `queueReset` with all reference counters
zero through `addToQueue` and `removeNextTaskFromQueue` calls that return; with
`guarded`, `removeNextTaskFromQueue` is called only when
`peekNextTaskFromQueue` returns true (as `tick` does). -/
inductive QueueReachable (host : Host) (guarded : Bool) : Engine → Prop
  | reset (e : Engine) (h : ∀ i, e.refCounter i = 0) : QueueReachable host guarded (queueReset e)
  | add (e e' : Engine) (fuel : Nat) (flowState : FlowState) (componentIndex : Nat)
      (s1 s2 t : Int) (continuousTask ok : Bool) :
      QueueReachable host guarded e →
      addToQueue host fuel e flowState componentIndex s1 s2 t continuousTask = .ok (e', ok) →
      QueueReachable host guarded e'
  | remove (e e' : Engine) :
      QueueReachable host guarded e →
      (guarded = true → (peekNextTaskFromQueue e).isSome = true) →
      removeNextTaskFromQueue e = .ok e' → QueueReachable host guarded e'

/-- Some entry of the queue refers to the flow state with index `i` or to one of
its descendants. -/
def queueReferences (e : Engine) (i : Nat) : Prop :=
  ∃ k flowState, k < getQueueSize e ∧
    (e.g_queue ((e.g_queueHead + k) % QUEUE_SIZE)).flowState = some flowState ∧
    i ∈ flowState.chainIndexes

/-- The number of references that the entries `tasks` hold on the flow state with
index `i`. -/
def queueCount (tasks : List QueueEntry) (i : Nat) : Int :=
  (tasks.map (fun x =>
    match x.flowState with
    | some flowState => (flowState.chainCount i : Int)
    | none => 0)).sum

/-- The invariant behind C9: the queue holds a list of entries with non-null flow
states, and every reference counter is at least the number of references held
by these entries. -/
def QueueInvariant (e : Engine) : Prop :=
  ∃ tasks, QueueHolds e tasks ∧ (∀ x ∈ tasks, ∃ flowState, x.flowState = some flowState) ∧
    ∀ i, queueCount tasks i ≤ e.refCounter i

/-- The engine after one `addToQueue` for component 0 of `catchErrorFlowState` on
the reset queue of `initialEngine`. -/
def oneTaskEngine : Engine :=
  match addToQueue exampleHost 0 (queueReset initialEngine) catchErrorFlowState 0 (-1) (-1) (-1)
      false with
  | .ok (e, _) => e
  | .error _ => initialEngine

/-- Some input that is neither a sequence input nor optional is empty. -/
def hasEmptyMandatoryInput (e : Engine) (flowState : FlowState) (inputs : List Nat) : Bool :=
  inputs.any (fun idx =>
    match flowState.flow.componentInputs[idx]? with
    | some input =>
      !input.isSeqInput && !input.isOptional && isInputEmpty (e.values flowState.flowStateIndex idx)
    | none => false)

/-- The number of sequence inputs among `inputs`. -/
def numSeqInputs (flowState : FlowState) (inputs : List Nat) : Nat :=
  inputs.countP (fun idx =>
    match flowState.flow.componentInputs[idx]? with
    | some input => input.isSeqInput
    | none => false)

/-- The number of non-empty sequence inputs among `inputs`. -/
def numDefinedSeqInputs (e : Engine) (flowState : FlowState) (inputs : List Nat) : Nat :=
  inputs.countP (fun idx =>
    match flowState.flow.componentInputs[idx]? with
    | some input => input.isSeqInput && !isInputEmpty (e.values flowState.flowStateIndex idx)
    | none => false)

/-- The outputs through which a component propagated, oldest first. -/
def propagatedOutputs (componentIndex : Nat) : List Hook → List Nat
  | [] => []
  | .propagate _ c outputIndex _ :: rest =>
    if c = componentIndex then outputIndex :: propagatedOutputs componentIndex rest
    else propagatedOutputs componentIndex rest
  | _ :: rest => propagatedOutputs componentIndex rest

/-- The outputs through which component 0 propagated in a run, when the run
returned. -/
def outputsOfRun : Except Fault Engine → Option (List Nat)
  | .ok e => some (propagatedOutputs 0 e.trace)
  | .error _ => none

/-- A Loop component: the inputs `start` (value 0) and `next` (value 1), the
properties Variable (the local variable, value 2), From (constant 0), To
(constant 5) and Step (constant 1), the sequence output (output 0) and the
completed output (output 1), neither wired. -/
def loopComponent : Component :=
  { type := 1018, inputs := [0, 1],
    properties := [[.PUSH_LOCAL_VAR 0, .END], [.PUSH_CONSTANT 0, .END],
                   [.PUSH_CONSTANT 5, .END], [.PUSH_CONSTANT 1, .END]],
    outputs := [{ connections := [], isSeqOut := true },
                { connections := [], isSeqOut := false }],
    errorCatchOutput := -1 }

/-- A flow with `loopComponent` alone, both of its inputs sequence inputs. -/
def loopFlow : Flow :=
  { components := [loopComponent],
    componentInputs := [{ isSeqInput := true, isOptional := false },
                        { isSeqInput := true, isOptional := false }] }

/-- A page flow state of `loopFlow`. -/
def loopFlowState : FlowState := .root 0 loopFlow false

/-- The engine when the Loop component has received its start pulse: the input
`start` holds the null value, the input `next` is empty, the local variable is
the int32 0. -/
def loopStartEngine : Engine :=
  { initialEngine with
    values := fun _ i =>
      if i = 0 then Value.nullValue
      else if i = 2 then Value.ofInt 0 .INT32 else getEmptyInputValue }

/-- One execution of the Loop component the way `tick` runs a task (lines
4211-4231): the component is marked as executing, it is executed, and the
sequence inputs are reset. -/
def executeLoopTask (host : Host) (fuel : Nat) (e : Engine) : Except Fault Engine :=
  match executeLoopComponent host fuel
      { e with executingComponentIndex := setAt e.executingComponentIndex 0 0 }
      loopFlowState 0 with
  | .error f => .error f
  | .ok e1 => resetSequenceInputs host e1 loopFlowState

/-- The Loop component re-triggered: a value arrives at its input `next`. -/
def retriggerLoop (e : Engine) : Engine :=
  { e with values := setAt2 e.values 0 1 Value.nullValue }

/-- The first `n` executions of the Loop component: the first one after the start
pulse, each later one after a re-trigger through `next`. -/
def runLoop (host : Host) (fuel : Nat) : Nat → Engine → Except Fault Engine
  | 0, e => .ok e
  | n + 1, e =>
    match executeLoopTask host fuel e with
    | .error f => .error f
    | .ok e1 => runLoop host fuel n (retriggerLoop e1)

/-- The int32 held by the local variable of `loopFlowState` after a run. -/
def loopVariableOfRun : Except Fault Engine → Option Int
  | .ok e => some (e.values 0 2).int32Value
  | .error _ => none

/-- A flow with one Delay component: one sequence input (value 0), the property
Milliseconds (constant 500) and the sequence output (output 0), not wired. -/
def delayFlow : Flow :=
  { components :=
      [{ type := 1014, inputs := [0],
         properties := [[.PUSH_CONSTANT 500, .END]],
         outputs := [{ connections := [], isSeqOut := true }],
         errorCatchOutput := -1 }],
    componentInputs := [{ isSeqInput := true, isOptional := false }] }

/-- A page flow state of `delayFlow`. -/
def delayFlowState : FlowState := .root 0 delayFlow false

/-- The executions of the Delay component at the given readings of `millis()`,
one after the other. -/
def runDelay (host : Host) (fuel : Nat) : List Nat → Engine → Except Fault Engine
  | [], e => .ok e
  | now :: rest, e =>
    match executeDelayComponent host fuel now e delayFlowState 0 with
    | .error f => .error f
    | .ok e1 => runDelay host fuel rest e1

end flow
end eez

namespace eez

/-- The result type that the numeric promotion order of the specification gives
for two operands: double if either is a double, otherwise float if either is a
float, otherwise int64 if either is a 64-bit integer, otherwise int32. -/
def promotedType (a b : Value) : ValueType :=
  if a.isDouble || b.isDouble then .DOUBLE
  else if a.isFloat || b.isFloat then .FLOAT
  else if a.isInt64 || b.isInt64 then .INT64
  else .INT32

/-- The divisor of `op_mod(a, b)` is not zero: an operand is a float or a double
(no zero test is made), or the divisor as the integer branch taken reads it
(`b.toInt64()` when an operand is a 64-bit integer, `b.int32Value` otherwise) is
not zero. -/
def divisorNonZero (env : ValueEnv) (a b : Value) : Bool :=
  a.isDouble || b.isDouble || a.isFloat || b.isFloat ||
    (if a.isInt64 || b.isInt64 then decide ((b.toInt64 env.strtol).1 ≠ 0)
     else decide (b.int32Value ≠ 0))

/-- The 32-bit word of the value is in the range of `int`. -/
def Value.int32InRange (v : Value) : Prop :=
  -2147483648 ≤ v.int32Value ∧ v.int32Value < 2147483648

end eez

namespace eez
namespace flow

/-- The number of elements that the array-element instruction reads from an
array or blob value: `getArray()->arraySize` or `getBlob()->len`. -/
def elementCount (arrayValue : Value) : Nat :=
  if arrayValue.isArray then arrayValue.arraySize else (arrayValue.blobValue.getD []).length

/-- The message of the array-element instruction for an index out of bounds. -/
def outOfBoundsMessage (arrayValue : Value) : String :=
  if arrayValue.isArray then "Array element index out of bounds\n"
  else "Blob element index out of bounds\n"

/-- The message of the array-element instruction for an index that is not an
integer. -/
def integerExpectedMessage (arrayValue : Value) : String :=
  if arrayValue.isArray then "Integer value expected for array element index\n"
  else "Integer value expected for blob element index\n"

/-- The example context with an exhausted arena. -/
def exhaustedContext : EvalContext := { exampleContext with allocOk := false }

/-- An array of one element. -/
def oneElementArray : Value := { Value.undefined with type := .ARRAY_REF, arraySize := 1 }

end flow
end eez

namespace eez

/-- A comparison environment without indirect values, in a build without
`EEZ_OPTION_GUI`, whose `operator==` is identity of the record. -/
def CompareEnv.plain : CompareEnv :=
  { resolve := fun v => v, deref := fun _ => Value.undefined,
    valueEq := fun a b => decide (a = b), getEnum := fun _ => (0, 0),
    EEZ_OPTION_GUI := false, nativeVariable := fun _ => Value.undefined }

/-- What the comparison function registered for the tag of `v` returns on the
pair `(v, v)`, tag by tag. -/
def reflexiveAt (env : CompareEnv) (v : Value) : Bool :=
  match v.type with
  | .ERROR => false
  | .NATIVE_VARIABLE =>
    env.EEZ_OPTION_GUI &&
      env.valueEq (env.nativeVariable v.int32Value) (env.nativeVariable v.int32Value)
  | .ENUM => env.EEZ_OPTION_GUI
  | .JSON_MEMBER_VALUE => env.valueEq (v.getValue env.resolve) (v.getValue env.resolve)
  | .ARRAY_ELEMENT_VALUE => env.valueEq (v.getValue env.resolve) (v.getValue env.resolve)
  | .FLOAT => !v.floatValue.isNaN
  | .DOUBLE => !v.doubleValue.isNaN
  | .DATE => !v.doubleValue.isNaN
  | _ => true

/-- A blob value of three bytes held in the `BlobRef` object at address 4096. -/
def blobAt4096 : Value :=
  { Value.undefined with type := .BLOB_REF, options := 1, refValue := 4096,
                         blobValue := some [1, 2, 3] }

/-- A blob value of the same three bytes held in the `BlobRef` object at address
8192. -/
def blobAt8192 : Value :=
  { Value.undefined with type := .BLOB_REF, options := 1, refValue := 8192,
                         blobValue := some [1, 2, 3] }

end eez

namespace eez
namespace flow

/-- The hook calls of a propagation that raises no error: a changed input value
and a task added to the queue. -/
def Hook.isQuiet : Hook → Bool
  | .onValueChanged _ => true
  | .onAddToQueue _ _ _ _ _ => true
  | _ => false

/-- The indexes stored in a flow are in range: a component index is not
`NO_COMPONENT_INDEX`, every input of a component is a slot of `componentInputs`,
and every wire leads to a component of the flow that is not a Start component
(which has no input). -/
def Flow.wellFormed (host : Host) (flow : Flow) : Bool :=
  decide (flow.components.length ≤ NO_COMPONENT_INDEX) &&
  flow.components.all fun c =>
    c.inputs.all (fun idx => decide (idx < flow.componentInputs.length)) &&
    c.outputs.all fun o => o.connections.all fun k =>
      match flow.components[k.targetComponentIndex]? with
      | some t => decide (t.type ≠ host.COMPONENT_TYPE_START_ACTION)
      | none => false

/-- No component of the flow state is marked as executing, or the one marked is a
component of its flow. -/
def executingOk (e : Engine) (flowState : FlowState) : Prop :=
  e.executingComponentIndex flowState.flowStateIndex = NO_COMPONENT_INDEX ∨
  e.executingComponentIndex flowState.flowStateIndex < flowState.flow.components.length

/-- The engine `e'` comes from `e` by steps that raise no error: the error flags,
the execution states and the head of the queue are those of `e`, and the hook
calls added are only changed values and added tasks. -/
def Quiet (e e' : Engine) : Prop :=
  e'.error = e.error ∧ e'.componenentExecutionStates = e.componenentExecutionStates ∧
  e'.g_enableThrowError = e.g_enableThrowError ∧ e'.g_queueHead = e.g_queueHead ∧
  ∃ evs, e'.trace = e.trace ++ evs ∧ ∀ h ∈ evs, Hook.isQuiet h = true

/-- The queue entries `added` are ordinary tasks of `flowState` for components
that are not CatchError components. -/
def AddedBy (host : Host) (flowState : FlowState) (added : List QueueEntry) : Prop :=
  ∀ q ∈ added, q.flowState = some flowState ∧ q.continuousTask = false ∧
    ∀ c, flowState.flow.components[q.componentIndex]? = some c →
      c.type ≠ host.COMPONENT_TYPE_CATCH_ERROR_ACTION

/-- A flow of two Log components: the error output of component 0 is its output 0,
wired to input 0 of component 1, which has no wired error output; the flow has no
CatchError component. -/
def wiredErrorFlow : Flow :=
  { components :=
      [{ type := 1012, inputs := [], properties := [],
         outputs := [{ connections := [{ targetComponentIndex := 1, targetInputIndex := 0 }],
                       isSeqOut := false }],
         errorCatchOutput := 0 },
       { type := 1012, inputs := [0], properties := [], outputs := [], errorCatchOutput := -1 }],
    componentInputs := [{ isSeqInput := false, isOptional := false }] }

/-- A page flow state of `wiredErrorFlow`. -/
def wiredErrorFlowState : FlowState := .root 0 wiredErrorFlow false

/-- The hook calls recorded by a run, when the run returned. -/
def hooksOfRun : Except Fault Engine → Option (List Hook)
  | .ok e => some e.trace
  | .error _ => none

/-- The first output of the list, counted from `i`, that is a sequence output. -/
def firstSeqout : List ComponentOutput → Nat → Option (Nat × ComponentOutput)
  | [], _ => none
  | output :: rest, i => if output.isSeqOut then some (i, output) else firstSeqout rest (i + 1)

/-- The values propagated through output `outputIndex` of component
`componentIndex`, oldest first. -/
def propagatedValues (componentIndex outputIndex : Nat) : List Hook → List Value
  | [] => []
  | .propagate _ c o value :: rest =>
    if c = componentIndex ∧ o = outputIndex then
      value :: propagatedValues componentIndex outputIndex rest
    else propagatedValues componentIndex outputIndex rest
  | _ :: rest => propagatedValues componentIndex outputIndex rest

/-- The flow of a caller: a CallAction component (component 0), a CatchError
component (component 1) whose sequence output is output 0 and whose message
output, output 1, is wired to input 0 of a Log component (component 2); no
component has a wired error output. -/
def callerFlow : Flow :=
  { components :=
      [{ type := 1013, inputs := [], properties := [],
         outputs := [{ connections := [], isSeqOut := true }], errorCatchOutput := -1 },
       { type := 1016, inputs := [], properties := [],
         outputs := [{ connections := [], isSeqOut := true },
                     { connections := [{ targetComponentIndex := 2, targetInputIndex := 0 }],
                       isSeqOut := false }],
         errorCatchOutput := -1 },
       { type := 1012, inputs := [0], properties := [], outputs := [], errorCatchOutput := -1 }],
    componentInputs := [{ isSeqInput := false, isOptional := false }] }

/-- The flow of the called action: one component, without wired error output. -/
def calledFlow : Flow :=
  { components :=
      [{ type := 1012, inputs := [], properties := [], outputs := [], errorCatchOutput := -1 }],
    componentInputs := [] }

/-- The page flow state of `callerFlow`. -/
def callerFlowState : FlowState := .root 0 callerFlow false

/-- The flow state of the action called by component 0 of `callerFlowState`. -/
def calledFlowState : FlowState := .child 1 calledFlow true callerFlowState 0

/-- The engine after one `addToQueue` for component 0 of `calledFlowState`, the
flow state of an action with a parent, on the reset queue of `initialEngine`. -/
def calledTaskEngine : Engine :=
  match addToQueue exampleHost 0 (queueReset initialEngine) calledFlowState 0 (-1) (-1) (-1)
      false with
  | .ok (e, _) => e
  | .error _ => initialEngine

/-- The reference counters of the flow states 0, 1 and 2 after
`removeNextTaskFromQueue`, when it returned. -/
def refCountersAfterRemove (e : Engine) : Option (Int × Int × Int) :=
  match removeNextTaskFromQueue e with
  | .ok e' => some (e'.refCounter 0, e'.refCounter 1, e'.refCounter 2)
  | .error _ => none

/-- The example host with an exhausted arena. -/
def exhaustedHost : Host := { exampleHost with allocOk := false }

/-- Component 0 of the called action throws "boom" on a fresh engine; the task
queued for the CatchError component of the caller is then removed and the
component executed, as `tick` does (lines 4211-4231). -/
def runCaughtError (host : Host) : Except Fault Engine :=
  match flow.throwError host 1 initialEngine calledFlowState 0 "boom" with
  | .error f => .error f
  | .ok e1 =>
    match removeNextTaskFromQueue e1 with
    | .error f => .error f
    | .ok e2 =>
      executeCatchErrorComponent host 1
        { e2 with executingComponentIndex := setAt e2.executingComponentIndex 0 1 }
        callerFlowState 1

/-- The values propagated through output 1 of component 1 in a run, when the run
returned. -/
def messagesOfRun : Except Fault Engine → Option (List Value)
  | .ok e => some (propagatedValues 1 1 e.trace)
  | .error _ => none

/-- The number of flow states of a list of flow states with their descendants. -/
def FlowStateTree.size : FlowStateTree → Nat
  | .null => 0
  | .node _ firstChild nextSibling => 1 + firstChild.size + nextSibling.size

/-- The component of the parent that a flow state names as its caller is a
component of the flow of the parent. -/
def FlowState.parentOk : FlowState → Bool
  | .root _ _ _ => true
  | .child _ _ _ parentFlowState parentComponentIndex =>
    decide (parentComponentIndex < parentFlowState.flow.components.length)

/-- Every flow state of the list and of its descendants names a component of its
parent. -/
def FlowStateTree.wellFormed : FlowStateTree → Bool
  | .null => true
  | .node flowState firstChild nextSibling =>
    flowState.parentOk && firstChild.wellFormed && nextSibling.wellFormed

/-- The hook calls of the teardown: the engine stopped, the end of a message to
the debugger, an execution state released, a flow state destroyed. -/
def Hook.isTeardown : Hook → Bool
  | .onStopped => true
  | .finishToDebuggerMessageHook => true
  | .onComponentExecutionStateChanged _ _ => true
  | .onFlowStateDestroyed _ => true
  | _ => false

/-- The engine `e'` comes from `e` by hook calls of the teardown only. -/
def TornDown (e e' : Engine) : Prop :=
  ∃ evs, e'.trace = e.trace ++ evs ∧ ∀ h ∈ evs, Hook.isTeardown h = true

/-- A running engine with one task in the queue, a flow state with one child
and one node in the watch list. -/
def runningRuntime : Runtime :=
  { engine := oneTaskEngine,
    g_isStopping := false,
    g_isStopped := false,
    g_debuggerIsConnected := true,
    g_debuggerState := .DEBUGGER_STATE_RESUMED,
    flowStates :=
      .node catchErrorFlowState
        (.node (.child 1 catchErrorFlow false catchErrorFlowState 0) .null .null) .null,
    g_watchList := [WatchListNode.mk catchErrorFlowState 0],
    g_messageSubsciptionFilter := 0xFFFFFFFF,
    g_skipNextBreakpoint := false,
    breakpoint := fun _ _ => false,
    lastExecutedTime := fun _ _ => 0,
    clock := fun k => 1000 + k,
    clockReads := 0 }

end flow
end eez

namespace eez

/-- The size `S` rounded up to a multiple of 64, as a number (without the
wrap-around of `size_t`). -/
def roundUp64 (S : Nat) : Nat := (S + 63) / 64 * 64

/-- No free block of the heap has a size of at least `R`. -/
def noFreeBlockOfSize (h : Heap) (R : Nat) : Prop :=
  ∀ b ∈ h, b.free = true → b.size < R

/-- No two blocks that are adjacent in the block list are both free. -/
def noAdjacentFree (h : Heap) : Prop :=
  h.Chain' (fun b c => ¬(b.free = true ∧ c.free = true))

/-- The heap after two allocations of 100 and 40 bytes from a buffer of 1000
bytes and the release of the first: a free block of 128 bytes, a used block of
64 bytes and a free block of 760 bytes. -/
def exampleHeap : Heap :=
  [{ addr := 0, free := true, size := 128, id := some 7 },
   { addr := 144, free := false, size := 64, id := some 8 },
   { addr := 224, free := true, size := 760, id := none }]

/-- An environment of the value functions whose arena has no room. -/
def ValueEnv.exhausted : ValueEnv := { ValueEnv.plain with allocOk := false }

/-- The number of bytes of a blob value (`getBlob()->len`). -/
def Value.blobLength (v : Value) : Nat := (v.blobValue.getD []).length

end eez

namespace eez
namespace flow

/-- A flow with one Delay component: one sequence input (value 0), the property
Milliseconds (constant 0) and the sequence output (output 0), not wired. -/
def zeroDelayFlow : Flow :=
  { components :=
      [{ type := 1014, inputs := [0],
         properties := [[.PUSH_CONSTANT 0, .END]],
         outputs := [{ connections := [], isSeqOut := true }],
         errorCatchOutput := -1 }],
    componentInputs := [{ isSeqInput := true, isOptional := false }] }

/-- A page flow state of `zeroDelayFlow`. -/
def zeroDelayFlowState : FlowState := .root 0 zeroDelayFlow false

/-- The numbers of removed tasks, among `i + 1, ..., d`, that are multiples of 5. -/
def checkPoints (i d : Nat) : List Nat :=
  (List.range' (i + 1) (d - i)).filter (fun k => k % 5 = 0)

/-- The number of removed tasks after which the loop of `tick` got as far as the
test of the time: all of them, but for the last one when the loop was left
because the engine is stopped or stopping. -/
def TickLoopResult.tested (res : TickLoopResult) : Nat :=
  if res.exit = .stopped then res.dequeued - 1 else res.dequeued

/-- An engine whose queue holds twelve ordinary tasks of component 0 of
`catchErrorFlowState`. -/
def twelveTaskEngine : Engine :=
  { initialEngine with
    g_queue := fun _ => QueueEntry.mk (some catchErrorFlowState) 0 false,
    g_queueTail := 12, g_queueMax := 12, g_numContinuousTaskInQueue := 12,
    refCounter := fun i => if i = 0 then 12 else 0 }

/-- A running engine without debugger and with an empty watch list whose queue
holds twelve tasks; the clock advances by 3 ms from one reading to the next. -/
def twelveTaskRuntime : Runtime :=
  { runningRuntime with
    engine := twelveTaskEngine, g_debuggerIsConnected := false, g_watchList := [],
    clock := fun k => 100 + 3 * k }

/-- An `executeComponent` that does nothing. -/
def executeNothing : ExecuteComponent := fun r _ _ => .ok r

/-- The way the loop of `tick` was left, the number of tasks removed and the tests
of the time made, when the loop returned. -/
def tickLoopSummary : Except Fault TickLoopResult → Option (TickExit × Nat × List (Nat × Nat))
  | .ok res => some (res.exit, res.dequeued, res.checks)
  | .error _ => none

/-- A running engine whose debugger is connected and paused, with one task in the
queue and an empty watch list. -/
def pausedRuntime : Runtime :=
  { runningRuntime with
    g_debuggerState := .DEBUGGER_STATE_PAUSED, g_watchList := [] }

/-- The runtime `r'` is `r` but for the hook calls made, the state of the
debugger, the flag `g_skipNextBreakpoint` and the number of clock readings. -/
def SameButDebugger (r r' : Runtime) : Prop :=
  (∃ evs, r'.engine = { r.engine with trace := r.engine.trace ++ evs }) ∧
  r'.g_isStopping = r.g_isStopping ∧ r'.g_isStopped = r.g_isStopped ∧
  r'.flowStates = r.flowStates ∧ r'.g_watchList = r.g_watchList

/-- The example host with the constants that `loopComponent` reads replaced:
constant 0 (From) is the int32 `f`, constant 5 (To) the int32 `t` and constant 1
(Step) the int32 `s`. -/
def loopHost (f t s : Int) : Host :=
  { exampleHost with
    constants := fun i =>
      if i = 0 then Value.ofInt f .INT32
      else if i = 5 then Value.ofInt t .INT32
      else if i = 1 then Value.ofInt s .INT32
      else exampleHost.constants i }

/-- The integer is in the range of `int32_t`. -/
def inInt32 (x : Int) : Prop := -2147483648 ≤ x ∧ x < 2147483648

/-- The pointer to the local variable of `loopFlowState` that the property
Variable of `loopComponent` evaluates to. -/
def loopVariable : Value := valueOfPointer (.flowStateValue 0 2)

/-- The test of `executeLoopComponent` that ends the loop, on the int32 current
value `c`: above `t` with a step above zero, below `t` otherwise. -/
def loopDone (t s c : Int) : Bool :=
  if 0 < wrapInt32 s then decide (wrapInt32 t < wrapInt32 c) else decide (wrapInt32 c < wrapInt32 t)

/-- The state of the engine before an execution of the running loop: the input
`start` is empty, the input `next` holds a value, the variable is the int32 `y`,
the execution state of the Loop component holds the variable and the value of To,
and the component has propagated through the outputs `outs` so far. -/
def LoopRunning (t y : Int) (outs : List Nat) (e : Engine) : Prop :=
  e.values 0 0 = getEmptyInputValue ∧ e.values 0 1 = Value.nullValue ∧
  e.values 0 2 = Value.ofInt y .INT32 ∧
  e.componenentExecutionStates 0 0
    = some (.loop loopVariable (Value.ofInt t .INT32) Value.undefined) ∧
  propagatedOutputs 0 e.trace = outs

/-- The value `c` is beyond To: above `t` for a step above zero, below `t` for a
step below zero. -/
def loopBeyond (t s c : Int) : Prop := if 0 < s then t < c else c < t

end flow
end eez

namespace eez
namespace flow

/-- The component at index `k` of the flow is a CatchError component. -/
def isCatchErrorAt (host : Host) (flow : Flow) (k : Nat) : Bool :=
  match flow.components[k]? with
  | some c => decide (c.type = host.COMPONENT_TYPE_CATCH_ERROR_ACTION)
  | none => false

/-- The catch points that one flow state contributes, in the order in which they
are tried: the CatchError components of its flow by index, then the component
that called it (in the parent flow state) when that component has a wired error
output. -/
def catchPointsAt (host : Host) (flowState : FlowState) : List (FlowState × Nat) :=
  ((List.range flowState.flow.components.length).filter (isCatchErrorAt host flowState.flow)).map
      (fun k => (flowState, k)) ++
    match flowState with
    | .root _ _ _ => []
    | .child _ _ _ parent parentComponentIndex =>
      match parent.flow.components[parentComponentIndex]? with
      | some c => if c.errorCatchOutput ≠ -1 then [(parent, parentComponentIndex)] else []
      | none => []

/-- The catch points of the chain that starts at the flow state and goes towards
the root, in the order in which they are tried. -/
def catchPoints (host : Host) (flowState : FlowState) : List (FlowState × Nat) :=
  flowState.chain.flatMap (catchPointsAt host)

/-- The indexes of the flow states from `flowState` up to, but not including, the
flow state `catchErrorFlowState`. -/
def flaggedIndexes (catchErrorFlowState flowState : FlowState) : List Nat :=
  (flowState.chain.takeWhile
    (fun fs => decide (fs.flowStateIndex ≠ catchErrorFlowState.flowStateIndex))).map
    FlowState.flowStateIndex

/-- The flow state in which `throwError` starts to look for a catch point: the
parent for an Error component, the flow state itself otherwise (lines
7362-7366). -/
def catchSearchStart (host : Host) (flowState : FlowState) (component : Component) :
    Option FlowState :=
  if component.type = host.COMPONENT_TYPE_ERROR_ACTION then flowState.parentFlowState
  else some flowState

/-- The queue of `e` holds `tasks` and has room for what `throwError` adds when it
uses the catch point `cc` of `catchErrorFlowState`: for a CatchError component
one task, for a component with a wired error output one task per wire of that
output, in a well-formed flow. -/
def RoomForCatch (host : Host) (e : Engine) (tasks : List QueueEntry)
    (catchErrorFlowState : FlowState) (cc : Component) : Prop :=
  QueueHolds e tasks ∧ tasks.length < QUEUE_SIZE ∧
  (cc.type ≠ host.COMPONENT_TYPE_CATCH_ERROR_ACTION →
    catchErrorFlowState.flow.wellFormed host = true ∧ executingOk e catchErrorFlowState ∧
    ∃ output, cc.outputs[(cc.errorCatchOutput % (WORD : Int)).toNat]? = some output ∧
      tasks.length + output.connections.length ≤ QUEUE_SIZE)

/-- The flow state of an action called by component 0 of `calledFlowState`: a
flow of one Log component without wired error output. -/
def innerFlowState : FlowState := .child 2 calledFlow true calledFlowState 0

/-- An `executeComponent` that only adds the component executed to the queue
again, as a continuous task. -/
def executeRequeue (host : Host) (fuel : Nat) : ExecuteComponent :=
  fun r flowState componentIndex =>
    match addToQueue host fuel r.engine flowState componentIndex (-1) (-1) (-1) true with
    | .error f => .error f
    | .ok (e, _) => .ok { r with engine := e }

/-- Every entry of `tasks` is a continuous task for a component of a well-formed
flow, of a flow state that has no error flag and a positive reference
counter. -/
def ContinuousTasks (host : Host) (e : Engine) (tasks : List QueueEntry) : Prop :=
  ∀ x ∈ tasks, x.continuousTask = true ∧ ∃ flowState, x.flowState = some flowState ∧
    e.error flowState.flowStateIndex = false ∧ 0 < e.refCounter flowState.flowStateIndex ∧
    flowState.flow.wellFormed host = true ∧
    x.componentIndex < flowState.flow.components.length

/-- A running engine whose queue holds exactly the continuous tasks `tasks` and
no ordinary task. -/
def ContinuousQueue (host : Host) (r : Runtime) (tasks : List QueueEntry) : Prop :=
  QueueHolds r.engine tasks ∧ r.engine.g_numContinuousTaskInQueue = 0 ∧
  r.g_isStopped = false ∧ r.g_isStopping = false ∧ ContinuousTasks host r.engine tasks

/-- An engine whose queue holds six continuous tasks of component 0 of
`zeroDelayFlowState`. -/
def sixContinuousEngine : Engine :=
  { initialEngine with
    g_queue := fun _ => QueueEntry.mk (some zeroDelayFlowState) 0 true,
    g_queueTail := 6, g_queueMax := 6,
    refCounter := fun i => if i = 0 then 6 else 0 }

/-- A running engine without debugger and with an empty watch list whose queue
holds six continuous tasks; the clock advances by `step` ms from one reading to
the next. -/
def sixContinuousRuntime (step : Nat) : Runtime :=
  { runningRuntime with
    engine := sixContinuousEngine, g_debuggerIsConnected := false, g_watchList := [],
    flowStates := .node zeroDelayFlowState .null .null,
    clock := fun k => 100 + step * k }

/-- The six entries of the queue of `sixContinuousEngine`. -/
def sixContinuousTasks : List QueueEntry :=
  List.replicate 6 (QueueEntry.mk (some zeroDelayFlowState) 0 true)

end flow
end eez

namespace eez

/-- One call of the allocator: `alloc(size, id)` or `free(ptr)`. -/
inductive HeapCall
  | alloc (size id : Nat)
  | free (ptr : Option Nat)
deriving DecidableEq, Repr

/-- The heap after the calls in turn.  A `free` that fails its assertion leaves the
heap as it is (the function returns at line 178). -/
def runHeapCalls : List HeapCall → Heap → Heap
  | [], h => h
  | .alloc size id :: rest, h => runHeapCalls rest (alloc h size id).1
  | .free ptr :: rest, h =>
    match free h ptr with
    | some h' => runHeapCalls rest h'
    | none => runHeapCalls rest h

/-- The bytes that the blocks of the list take: for each block its header and its
payload. -/
def heapBytes (h : Heap) : Nat := (h.map (fun b => SIZEOF_ALLOC_BLOCK + b.size)).sum

/-- Each block that has a successor in the list (its `next` link) is followed by
it at the address just past its payload. -/
def nextLinksContiguous (h : Heap) : Prop :=
  h.Chain' (fun b c => c.addr = b.addr + SIZEOF_ALLOC_BLOCK + b.size)

end eez

namespace eez
namespace flow

/-- The engine states reachable from `queueReset` through `addToQueue` calls that
return and `removeNextTaskFromQueue` calls made when `peekNextTaskFromQueue`
returns true (the queue is not empty). -/
inductive QueueCallsReachable (host : Host) : Engine → Prop
  | reset (e : Engine) : QueueCallsReachable host (queueReset e)
  | add (e e' : Engine) (fuel : Nat) (flowState : FlowState) (componentIndex : Nat)
      (s1 s2 t : Int) (continuousTask ok : Bool) :
      QueueCallsReachable host e →
      addToQueue host fuel e flowState componentIndex s1 s2 t continuousTask = .ok (e', ok) →
      QueueCallsReachable host e'
  | remove (e e' : Engine) :
      QueueCallsReachable host e →
      (peekNextTaskFromQueue e).isSome = true →
      removeNextTaskFromQueue e = .ok e' → QueueCallsReachable host e'

/-- The entries that the queue holds, oldest first: the `getQueueSize()` entries
of `g_queue` from `g_queueHead` on. -/
def queuedEntries (e : Engine) : List QueueEntry :=
  (List.range (getQueueSize e)).map (fun k => e.g_queue ((e.g_queueHead + k) % QUEUE_SIZE))

/-- The number of queued entries whose `continuousTask` flag is false. -/
def ordinaryTaskCount (e : Engine) : Nat :=
  ((queuedEntries e).filter (fun x => !x.continuousTask)).length

/-- The engine after `queueReset` and two `addToQueue` calls for component 0 of
`catchErrorFlowState`, the first for a continuous task, the second for an
ordinary one. -/
def mixedQueueEngine : Engine :=
  match addToQueue exampleHost 0 (queueReset initialEngine) catchErrorFlowState 0 (-1) (-1) (-1)
      true with
  | .ok (e1, _) =>
    match addToQueue exampleHost 0 e1 catchErrorFlowState 0 (-1) (-1) (-1) false with
    | .ok (e2, _) => e2
    | .error _ => initialEngine
  | .error _ => initialEngine

/-- A running engine without debugger and with an empty watch list whose queue
holds one task, component 0 of `catchErrorFlowState`; the flow state has its
error flag set and the component has an execution state. -/
def erroredRuntime : Runtime :=
  { runningRuntime with
    engine :=
      { oneTaskEngine with
        error := fun i => decide (i = 0),
        componenentExecutionStates := fun i k => if i = 0 ∧ k = 0 then some .other else none },
    g_debuggerIsConnected := false, g_watchList := [] }

/-- The execution state of component 0 of flow state 0 and the hook calls made,
when the call returned. -/
def stateAndHooksOfTick : Except Fault Runtime → Option (Option ComponenentExecutionState × List Hook)
  | .ok r => some (r.engine.componenentExecutionStates 0 0, r.engine.trace)
  | .error _ => none

end flow
end eez

namespace eez

/-- The operands on which `op_great` and `op_less` mirror each other: after
`getValue`, either both are strings with a text, or they are not both strings
and the conversion to `double` of each of them is a number (not NaN). -/
def mirrorComparable (env : ValueEnv) (a1 b1 : Value) : Prop :=
  ((a1.getValue env.resolve).isString = true ∧ (b1.getValue env.resolve).isString = true ∧
    (a1.getValue env.resolve).getString.isSome = true ∧
    (b1.getValue env.resolve).getString.isSome = true) ∨
  (¬((a1.getValue env.resolve).isString = true ∧ (b1.getValue env.resolve).isString = true) ∧
    ((a1.getValue env.resolve).toDouble env.strtod).1.isNaN = false ∧
    ((b1.getValue env.resolve).toDouble env.strtod).1.isNaN = false)

end eez

namespace eez
namespace flow

/-- An inline string value (`VALUE_TYPE_STRING`) with the text `s`. -/
def stringValue (s : String) : Value := { Value.undefined with type := .STRING, strValue := some s }

/-- The first `n` characters of the pad string `p` repeated cyclically. -/
def cyclicPad (p : List Char) (n : Nat) : List Char :=
  (List.range n).map (fun i => p.getD (i % p.length) (Char.ofNat 0))

/-- A memory with one array, at address 8192: the int32 values 10 and 20. -/
def exampleArrayMemory : ArrayMemory :=
  { arrays := fun address =>
      if address = 8192 then
        some { arraySize := 2, arrayType := 0,
               values := [Value.ofInt 10 .INT32, Value.ofInt 20 .INT32] }
      else none,
    assetArray := fun _ => none }

/-- The array value that refers to the array of `exampleArrayMemory`. -/
def exampleArray : Value :=
  { Value.undefined with type := .ARRAY_REF, options := 1, refValue := 8192, arraySize := 2 }

/-- The array that the top of the stack refers to, when the operation returned. -/
def arrayOfResult : Except Fault (EvalStack × ArrayMemory) → Option ArrayValue
  | .ok (stack, mem) =>
    match stack.stack with
    | v :: _ => getArray mem v
    | [] => none
  | .error _ => none

end flow
end eez

namespace eez
namespace flow
namespace date

/-- The leap years of the Gregorian calendar. -/
def isLeapYear (year : Int) : Bool :=
  decide (year % 4 = 0) && (decide (year % 100 ≠ 0) || decide (year % 400 = 0))

/-- The number of days of a month of a year. -/
def daysInMonth (year month : Int) : Int :=
  if month = 2 then (if isLeapYear year then 29 else 28)
  else if month = 4 ∨ month = 6 ∨ month = 9 ∨ month = 11 then 30
  else 31

/-- A valid calendar date and time: month 1-12, day within the length of the
month, hours 0-23, minutes and seconds 0-59, milliseconds 0-999. -/
def validDateTime (year month day hours minutes seconds milliseconds : Int) : Prop :=
  1 ≤ month ∧ month ≤ 12 ∧ 1 ≤ day ∧ day ≤ daysInMonth year month ∧
  0 ≤ hours ∧ hours ≤ 23 ∧ 0 ≤ minutes ∧ minutes ≤ 59 ∧ 0 ≤ seconds ∧ seconds ≤ 59 ∧
  0 ≤ milliseconds ∧ milliseconds ≤ 999

/-- The number of values of an unsigned type of 64 bits. -/
def DATE64 : Nat := 18446744073709551616

/-- The number of days of the year `1970 + Y`. -/
def yearDays (Y : Nat) : Nat := if isLeapYear (1970 + (Y : Int)) then 366 else 365

/-- The number of days from 1970-01-01 to the first day of the year `1970 + Y`. -/
def daysBeforeYear : Nat → Nat
  | 0 => 0
  | Y + 1 => daysBeforeYear Y + yearDays Y

/-- The number of days of the month `month + 1` (January is month 0) of a leap
or common year. -/
def monthLength (leap : Bool) (month : Nat) : Nat :=
  if month = 1 then (if leap then 29 else 28) else monthDays.getD month 0

/-- The number of days of the `count` months from the month `month + 1` on. -/
def daysOfMonths (leap : Bool) : Nat → Nat → Nat
  | 0, _ => 0
  | count + 1, month => monthLength leap month + daysOfMonths leap count (month + 1)

end date
end flow
end eez

namespace eez
namespace flow

/-- The characters emitted through the output buffer so far: those passed to
`writeDebuggerBufferHook`, followed by those still in `outputBuffer`. -/
def OutputBuffer.emitted (o : OutputBuffer) : List Char :=
  (o.written.map String.data).flatten ++ o.outputBuffer

/-- The escape of the specification for one character of a log message:
backslash-t for a tab, backslash-n for a newline, the character itself
otherwise. -/
def logEscape (ch : Char) : List Char :=
  if ch = '\t' then ['\\', 't'] else if ch = '\n' then ['\\', 'n'] else [ch]

/-- What `writeLogMessage` writes for one character of the message: after the
escape of a tab, the tab itself. -/
def logWritten (ch : Char) : List Char :=
  if ch = '\t' then ['\\', 't', '\t'] else if ch = '\n' then ['\\', 'n'] else [ch]

/-- An output buffer in which nothing waits and through which nothing was
written. -/
def emptyOutputBuffer : OutputBuffer := { outputBuffer := [], written := [] }

end flow
end eez

/-! ## Theorems -/

namespace eez

theorem heapInv_tail {limit : Nat} {b : AllocBlock} {l : List AllocBlock}
    (h : heapInv limit (b :: l)) : heapInv limit l := by
  cases l with
  | nil => trivial
  | cons c rest => exact h.2.2

theorem heapInv_end_le {limit : Nat} : ∀ {l : List AllocBlock} {b : AllocBlock},
    heapInv limit (b :: l) → b.addr + SIZEOF_ALLOC_BLOCK + b.size ≤ limit
  | [], b, h => le_of_eq h
  | c :: rest, b, h => by
    have := heapInv_end_le (l := rest) (b := c) h.2.2
    have h1 := h.1
    omega

theorem remaining_exact {B sz : Nat} (hB : B < WORD) (hsz : sz ≤ B)
    (h : (MIN_BLOCK_SIZE : Int) ≤ toInt32 (wrapSub (wrapSub B sz) SIZEOF_ALLOC_BLOCK)) :
    sz + SIZEOF_ALLOC_BLOCK + (toInt32 (wrapSub (wrapSub B sz) SIZEOF_ALLOC_BLOCK)).toNat = B := by
  unfold toInt32 wrapSub at *
  unfold WORD MIN_BLOCK_SIZE SIZEOF_ALLOC_BLOCK at *
  split at h <;> rename_i hc
  · rw [if_pos hc]; omega
  · omega

theorem allocLoop_inv {limit sz id : Nat} (hl : limit < WORD) :
    ∀ {l : List AllocBlock} {b : AllocBlock} {l' : List AllocBlock} {p : Nat},
      heapInv limit (b :: l) → allocLoop sz id (b :: l) = some (l', p) →
      ∃ b' rest', l' = b' :: rest' ∧ b'.addr = b.addr ∧ (b'.free = true → b.free = true) ∧
        heapInv limit (b' :: rest') ∧ b.addr + SIZEOF_ALLOC_BLOCK ≤ p := by
  intro l
  induction l with
  | nil =>
    intro b l' p hinv h
    simp only [allocLoop] at h
    split at h
    · rename_i hc
      have hB : b.size < WORD := by
        have : b.addr + SIZEOF_ALLOC_BLOCK + b.size = limit := hinv
        omega
      split at h
      · rename_i hr
        have hx := remaining_exact hB hc.2 hr
        simp only [Option.some.injEq, Prod.mk.injEq] at h
        obtain ⟨rfl, rfl⟩ := h
        refine ⟨_, _, rfl, rfl, by simp, ?_, le_refl _⟩
        have : b.addr + SIZEOF_ALLOC_BLOCK + b.size = limit := hinv
        refine ⟨rfl, by simp, ?_⟩
        show _ + _ + _ = limit
        simp only
        omega
      · simp only [Option.some.injEq, Prod.mk.injEq] at h
        obtain ⟨rfl, rfl⟩ := h
        exact ⟨_, _, rfl, rfl, by simp, hinv, le_refl _⟩
    · simp at h
  | cons c rest ih =>
    intro b l' p hinv h
    have hend := heapInv_end_le hinv
    simp only [allocLoop] at h
    split at h
    · rename_i hc
      have hB : b.size < WORD := by omega
      split at h
      · rename_i hr
        have hx := remaining_exact hB hc.2 hr
        simp only [Option.some.injEq, Prod.mk.injEq] at h
        obtain ⟨rfl, rfl⟩ := h
        refine ⟨_, _, rfl, rfl, by simp, ?_, le_refl _⟩
        obtain ⟨h1, h2, h3⟩ := hinv
        refine ⟨rfl, by simp, ?_, ?_, h3⟩
        · show _ + _ + _ = c.addr
          simp only
          omega
        · simp only [true_and]
          intro hcf
          exact h2 ⟨hc.1, hcf⟩
      · simp only [Option.some.injEq, Prod.mk.injEq] at h
        obtain ⟨rfl, rfl⟩ := h
        obtain ⟨h1, h2, h3⟩ := hinv
        exact ⟨_, _, rfl, rfl, by simp, ⟨h1, by simp, h3⟩, le_refl _⟩
    · rename_i hc
      obtain ⟨h1, h2, h3⟩ := hinv
      cases hrec : allocLoop sz id (c :: rest) with
      | none => simp only [allocLoop] at hrec; simp [allocLoop, hrec] at h
      | some r =>
        obtain ⟨rest', q⟩ := r
        have hrec' := hrec
        simp only [allocLoop] at hrec'
        rw [hrec'] at h
        simp only [Option.some.injEq, Prod.mk.injEq] at h
        obtain ⟨rfl, rfl⟩ := h
        obtain ⟨c', r', rfl, ha, hf, hi, hp⟩ := ih h3 hrec
        refine ⟨b, c' :: r', rfl, rfl, fun x => x, ⟨by omega, ?_, hi⟩, by omega⟩
        intro hh
        exact h2 ⟨hh.1, hf hh.2⟩

theorem freeMerge_some_inv {limit : Nat} (hl : limit < WORD) {p block : AllocBlock}
    {rest : List AllocBlock} (hinv : heapInv limit (p :: block :: rest)) :
    ∃ p' tl, freeMerge (some p) block rest = p' :: tl ∧ p'.addr = p.addr ∧ p'.free = p.free ∧
      heapInv limit (p' :: tl) := by
  obtain ⟨h1, h2, h3⟩ := hinv
  have e3 := heapInv_end_le h3
  cases rest with
  | nil =>
    have h3' : block.addr + SIZEOF_ALLOC_BLOCK + block.size = limit := h3
    simp only [freeMerge]
    split
    · refine ⟨_, _, rfl, rfl, rfl, ?_⟩
      show _ + _ + _ = limit
      simp only
      rw [Nat.mod_eq_of_lt (by omega)]
      omega
    · refine ⟨_, _, rfl, rfl, rfl, ⟨h1, by simp_all, h3'⟩⟩
  | cons n r =>
    obtain ⟨h4, h5, h6⟩ := h3
    have e6 := heapInv_end_le h6
    simp only [freeMerge]
    split
    · rename_i hn
      split
      · rename_i hp
        refine ⟨_, _, rfl, rfl, rfl, ?_⟩
        cases r with
        | nil =>
          have h6' : n.addr + SIZEOF_ALLOC_BLOCK + n.size = limit := h6
          show _ + _ + _ = limit
          simp only
          rw [Nat.mod_eq_of_lt (by omega)]
          omega
        | cons d r' =>
          obtain ⟨h7, h8, h9⟩ := h6
          refine ⟨?_, ?_, h9⟩
          · show _ + _ + _ = d.addr
            simp only
            rw [Nat.mod_eq_of_lt (by omega)]
            omega
          · simp only
            intro hh
            exact h8 ⟨hn, hh.2⟩
      · rename_i hp
        refine ⟨_, _, rfl, rfl, rfl, h1, by simp_all, ?_⟩
        cases r with
        | nil =>
          have h6' : n.addr + SIZEOF_ALLOC_BLOCK + n.size = limit := h6
          show _ + _ + _ = limit
          simp only
          rw [Nat.mod_eq_of_lt (by omega)]
          omega
        | cons d r' =>
          obtain ⟨h7, h8, h9⟩ := h6
          refine ⟨?_, ?_, h9⟩
          · show _ + _ + _ = d.addr
            simp only
            rw [Nat.mod_eq_of_lt (by omega)]
            omega
          · simp only
            intro hh
            exact h8 ⟨hn, hh.2⟩
    · rename_i hn
      split
      · rename_i hp
        refine ⟨_, _, rfl, rfl, rfl, ?_, ?_, h6⟩
        · show _ + _ + _ = n.addr
          simp only
          rw [Nat.mod_eq_of_lt (by omega)]
          omega
        · simp only
          intro hh
          exact hn hh.2
      · rename_i hp
        refine ⟨_, _, rfl, rfl, rfl, h1, by simp_all, h4, ?_, h6⟩
        simp only
        intro hh
        exact hn hh.2

theorem freeMerge_none_inv {limit : Nat} (hl : limit < WORD) {block : AllocBlock}
    {rest : List AllocBlock} (hinv : heapInv limit (block :: rest)) :
    ∃ b' tl, freeMerge none block rest = b' :: tl ∧ b'.addr = block.addr ∧
      heapInv limit (b' :: tl) := by
  have e3 := heapInv_end_le hinv
  cases rest with
  | nil => exact ⟨_, _, rfl, rfl, hinv⟩
  | cons n r =>
    obtain ⟨h4, h5, h6⟩ := hinv
    have e6 := heapInv_end_le h6
    simp only [freeMerge]
    split
    · rename_i hn
      refine ⟨_, _, rfl, rfl, ?_⟩
      cases r with
      | nil =>
        have h6' : n.addr + SIZEOF_ALLOC_BLOCK + n.size = limit := h6
        show _ + _ + _ = limit
        simp only
        rw [Nat.mod_eq_of_lt (by omega)]
        omega
      | cons d r' =>
        obtain ⟨h7, h8, h9⟩ := h6
        refine ⟨?_, ?_, h9⟩
        · show _ + _ + _ = d.addr
          simp only
          rw [Nat.mod_eq_of_lt (by omega)]
          omega
        · simp only
          intro hh
          exact h8 ⟨hn, hh.2⟩
    · rename_i hn
      refine ⟨_, _, rfl, rfl, h4, ?_, h6⟩
      simp only
      intro hh
      exact hn hh.2

theorem freeLoop_inv {limit ptr : Nat} (hl : limit < WORD) :
    ∀ {l : List AllocBlock} {prev : AllocBlock} {l' : List AllocBlock},
      heapInv limit (prev :: l) → freeLoop ptr prev l = some l' →
      ∃ p' tl, l' = p' :: tl ∧ p'.addr = prev.addr ∧ p'.free = prev.free ∧
        heapInv limit (p' :: tl) := by
  intro l
  induction l with
  | nil => intro prev l' _ h; simp [freeLoop] at h
  | cons block rest ih =>
    intro prev l' hinv h
    simp only [freeLoop] at h
    split at h
    · cases hrec : freeLoop ptr block rest with
      | none => rw [hrec] at h; simp at h
      | some r =>
        rw [hrec] at h
        simp only [Option.some.injEq] at h
        subst h
        obtain ⟨h1, h2, h3⟩ := hinv
        obtain ⟨b', tl, rfl, ha, hf, hi⟩ := ih h3 hrec
        refine ⟨prev, b' :: tl, rfl, rfl, rfl, by omega, ?_, hi⟩
        rw [hf]; exact h2
    · split at h
      · simp at h
      · simp only [Option.some.injEq] at h
        subst h
        exact freeMerge_some_inv hl hinv

theorem free_inv {limit : Nat} (hl : limit < WORD) {h h' : Heap} {ptr : Option Nat}
    (hinv : heapInv limit h) (hne : ∃ b tl, h = b :: tl ∧ b.addr = 0)
    (hf : free h ptr = some h') :
    heapInv limit h' ∧ ∃ b tl, h' = b :: tl ∧ b.addr = 0 := by
  cases ptr with
  | none =>
    simp only [free, Option.some.injEq] at hf
    subst hf
    exact ⟨hinv, hne⟩
  | some p =>
    obtain ⟨b, tl, rfl, hb⟩ := hne
    simp only [free] at hf
    split at hf
    · obtain ⟨p', tl', rfl, ha, _, hi⟩ := freeLoop_inv hl hinv hf
      exact ⟨hi, p', tl', rfl, by omega⟩
    · split at hf
      · simp at hf
      · simp only [Option.some.injEq] at hf
        subst hf
        obtain ⟨b', tl', he, ha, hi⟩ := freeMerge_none_inv hl hinv
        rw [he]
        exact ⟨hi, b', tl', rfl, by omega⟩

theorem alloc_inv {limit : Nat} (hl : limit < WORD) {h : Heap} {size id : Nat}
    (hinv : heapInv limit h) (hne : ∃ b tl, h = b :: tl ∧ b.addr = 0) :
    heapInv limit (alloc h size id).1 ∧ ∃ b tl, (alloc h size id).1 = b :: tl ∧ b.addr = 0 := by
  unfold alloc
  split
  · exact ⟨hinv, hne⟩
  · split
    · exact ⟨hinv, hne⟩
    · rename_i h' p heq
      obtain ⟨b, tl, rfl, hb⟩ := hne
      obtain ⟨b', rest', rfl, ha, _, hi, _⟩ := allocLoop_inv hl hinv heq
      exact ⟨hi, b', rest', rfl, by omega⟩

theorem heapReachable_inv {h : Heap} (hr : HeapReachable h) :
    ∃ limit, limit < WORD ∧ heapInv limit h ∧ ∃ b tl, h = b :: tl ∧ b.addr = 0 := by
  induction hr with
  | init heapSize h₁ h₂ =>
    refine ⟨heapSize, h₂, ?_, _, _, rfl, rfl⟩
    show _ + _ + _ = heapSize
    simp only [wrapSub]
    unfold WORD SIZEOF_ALLOC_BLOCK at *
    omega
  | alloc h size id _ ih =>
    obtain ⟨limit, hl, hi, hne⟩ := ih
    exact ⟨limit, hl, alloc_inv hl hi hne⟩
  | free h h' ptr _ hf ih =>
    obtain ⟨limit, hl, hi, hne⟩ := ih
    exact ⟨limit, hl, free_inv hl hi hne hf⟩

theorem freeLoop_here (prev block : AllocBlock) (rest : List AllocBlock)
    (hf : block.free = false) :
    freeLoop (block.addr + SIZEOF_ALLOC_BLOCK) prev (block :: rest)
      = some (freeMerge (some prev) block rest) := by
  rw [freeLoop, if_neg (lt_irrefl _), if_neg]
  simp [hf]

theorem free_here (block : AllocBlock) (rest : List AllocBlock) (hf : block.free = false) :
    free (block :: rest) (some (block.addr + SIZEOF_ALLOC_BLOCK))
      = some (freeMerge none block rest) := by
  simp only [free]
  rw [if_neg (lt_irrefl _), if_neg]
  simp [hf]

theorem freeMerge_next_free (prev : Option AllocBlock) (block n : AllocBlock)
    (rest : List AllocBlock) (hp : ∀ p, prev = some p → p.free = false) (hn : n.free = true) :
    freeMerge prev block (n :: rest)
      = prev.toList ++ { block with size := (block.size + (SIZEOF_ALLOC_BLOCK + n.size)) % WORD,
                                    free := true } :: rest := by
  cases prev with
  | none => simp [freeMerge, hn]
  | some p => simp [freeMerge, hn, hp p rfl]

theorem freeMerge_next_used (prev : Option AllocBlock) (block : AllocBlock)
    (rest : List AllocBlock) (hp : ∀ p, prev = some p → p.free = false)
    (hn : ∀ n, rest.head? = some n → n.free = false) :
    freeMerge prev block rest = prev.toList ++ { block with free := true } :: rest := by
  cases rest with
  | nil =>
    cases prev with
    | none => simp [freeMerge]
    | some p => simp [freeMerge, hp p rfl]
  | cons n r =>
    have := hn n rfl
    cases prev with
    | none => simp [freeMerge, this]
    | some p => simp [freeMerge, this, hp p rfl]

/-- What `alloc` does to the block it takes, followed by `free` of that block,
gives back the shapes of the original blocks. -/
theorem alloc_free_here {limit sz id : Nat} (hl : limit < WORD) (prev : Option AllocBlock)
    (hp : ∀ p, prev = some p → p.free = false)
    {block : AllocBlock} {rest l' : List AllocBlock} {p : Nat}
    (hinv : heapInv limit (block :: rest)) (hc : block.free = true ∧ sz ≤ block.size)
    (h : allocLoop sz id (block :: rest) = some (l', p)) :
    ∃ b' r' l'', l' = b' :: r' ∧ b'.free = false ∧ b'.addr = block.addr ∧
      p = block.addr + SIZEOF_ALLOC_BLOCK ∧
      freeMerge prev b' r' = prev.toList ++ l'' ∧
      l''.map blockShape = (block :: rest).map blockShape := by
  have hend := heapInv_end_le hinv
  have hB : block.size < WORD := by omega
  simp only [allocLoop] at h
  rw [if_pos hc] at h
  split at h
  · rename_i hr
    have hx := remaining_exact hB hc.2 hr
    simp only [Option.some.injEq, Prod.mk.injEq] at h
    obtain ⟨rfl, rfl⟩ := h
    refine ⟨_, _, _, rfl, rfl, rfl, rfl, freeMerge_next_free prev _ _ _ hp rfl, ?_⟩
    simp only [List.map_cons, blockShape, List.cons.injEq, Prod.mk.injEq, and_true, true_and]
    refine ⟨hc.1.symm, ?_⟩
    rw [Nat.mod_eq_of_lt (by omega)]
    omega
  · simp only [Option.some.injEq, Prod.mk.injEq] at h
    obtain ⟨rfl, rfl⟩ := h
    refine ⟨_, _, _, rfl, rfl, rfl, rfl, freeMerge_next_used prev _ _ hp ?_, ?_⟩
    · intro n hn
      cases rest with
      | nil => simp at hn
      | cons c r =>
        simp only [List.head?_cons, Option.some.injEq] at hn
        subst hn
        have := hinv.2.1
        cases hcf : c.free with
        | false => rfl
        | true => exact absurd ⟨hc.1, hcf⟩ this
    · simp [blockShape, hc.1]

theorem alloc_free_loop {limit sz id : Nat} (hl : limit < WORD) :
    ∀ {l : List AllocBlock} {prev : AllocBlock} {l' : List AllocBlock} {p : Nat},
      heapInv limit (prev :: l) → allocLoop sz id l = some (l', p) →
      ∃ l'', freeLoop p prev l' = some (prev :: l'') ∧
        l''.map blockShape = l.map blockShape := by
  intro l
  induction l with
  | nil => intro prev l' p _ h; simp [allocLoop] at h
  | cons block rest ih =>
    intro prev l' p hinv h
    obtain ⟨h1, h2, h3⟩ := hinv
    by_cases hc : block.free = true ∧ block.size ≥ sz
    · have hpf : ∀ q, some prev = some q → q.free = false := by
        intro q hq
        simp only [Option.some.injEq] at hq
        subst hq
        cases hpf : prev.free with
        | false => rfl
        | true => exact absurd ⟨hpf, hc.1⟩ h2
      obtain ⟨b', r', l'', rfl, hbf, hba, rfl, hm, hs⟩ :=
        alloc_free_here hl (some prev) hpf h3 hc h
      rw [← hba, freeLoop_here prev b' r' hbf, hm]
      exact ⟨l'', rfl, hs⟩
    · cases rest with
      | nil => simp [allocLoop, hc] at h
      | cons c r =>
        cases hrec : allocLoop sz id (c :: r) with
        | none => rw [allocLoop, if_neg hc, hrec] at h; simp at h
        | some res =>
          obtain ⟨rest', q⟩ := res
          rw [allocLoop, if_neg hc, hrec] at h
          simp only [Option.some.injEq, Prod.mk.injEq] at h
          obtain ⟨rfl, rfl⟩ := h
          obtain ⟨c', r', _, _, _, _, hp⟩ := allocLoop_inv hl h3.2.2 hrec
          obtain ⟨l'', hfl, hshape⟩ := ih h3 hrec
          refine ⟨block :: l'', ?_, ?_⟩
          · have hlt : block.addr + SIZEOF_ALLOC_BLOCK < q := by
              have := h3.1
              unfold SIZEOF_ALLOC_BLOCK at *
              omega
            rw [freeLoop, if_pos hlt, hfl]
          · simp only [List.map_cons, hshape]

theorem alloc_free_shape {limit : Nat} (hl : limit < WORD) {h : Heap} (hinv : heapInv limit h)
    (S id : Nat) :
    ∃ h'', free (alloc h S id).1 (alloc h S id).2 = some h'' ∧
      h''.map blockShape = h.map blockShape := by
  unfold alloc
  split
  · exact ⟨h, rfl, rfl⟩
  · split
    · exact ⟨h, rfl, rfl⟩
    · rename_i h' p heq
      cases h with
      | nil => simp [allocLoop] at heq
      | cons block rest =>
        by_cases hc : block.free = true ∧ block.size ≥ alignSize S
        · obtain ⟨b', r', l'', rfl, hbf, hba, rfl, hm, hs⟩ :=
            alloc_free_here hl none (by simp) hinv hc heq
          show ∃ h'', free (b' :: r') (some (block.addr + SIZEOF_ALLOC_BLOCK)) = some h'' ∧ _
          rw [← hba, free_here b' r' hbf, hm]
          exact ⟨l'', rfl, hs⟩
        · cases rest with
          | nil => simp [allocLoop, hc] at heq
          | cons c r =>
            cases hrec : allocLoop (alignSize S) id (c :: r) with
            | none => rw [allocLoop, if_neg hc, hrec] at heq; simp at heq
            | some res =>
              obtain ⟨rest', q⟩ := res
              rw [allocLoop, if_neg hc, hrec] at heq
              simp only [Option.some.injEq, Prod.mk.injEq] at heq
              obtain ⟨rfl, rfl⟩ := heq
              obtain ⟨c', r', _, _, _, _, hp⟩ := allocLoop_inv hl hinv.2.2 hrec
              obtain ⟨l'', hfl, hshape⟩ := alloc_free_loop hl hinv hrec
              refine ⟨block :: l'', ?_, ?_⟩
              · have hlt : block.addr + SIZEOF_ALLOC_BLOCK < q := by
                  have := hinv.1
                  unfold SIZEOF_ALLOC_BLOCK at *
                  omega
                show free (block :: rest') (some q) = _
                rw [free, if_pos hlt, hfl]
              · simp only [List.map_cons, hshape]

theorem getAllocInfoLoop_shape : ∀ (l₁ l₂ : List AllocBlock) (acc : Nat × Nat),
    l₁.map blockShape = l₂.map blockShape → getAllocInfoLoop l₁ acc = getAllocInfoLoop l₂ acc
  | [], [], _, _ => rfl
  | [], _ :: _, _, h => by simp at h
  | _ :: _, [], _, h => by simp at h
  | a :: l₁, b :: l₂, (f, al), h => by
    simp only [List.map_cons, List.cons.injEq, blockShape, Prod.mk.injEq] at h
    obtain ⟨⟨_, hf, hs⟩, ht⟩ := h
    simp only [getAllocInfoLoop, hf, hs]
    split
    · exact getAllocInfoLoop_shape l₁ l₂ _ ht
    · exact getAllocInfoLoop_shape l₁ l₂ _ ht

/-- C3. From any heap state reachable from `initAllocHeap` by `alloc` and `free`
calls, and for every size `S`, `p = alloc(S, id)` followed by `free(p)` succeeds
and leaves the pair (free bytes, allocated bytes) of `getAllocInfo` as it was
before the two calls. -/
theorem alloc_free_getAllocInfo (h : Heap) (hr : HeapReachable h) (S id : Nat) :
    ∃ h'', free (alloc h S id).1 (alloc h S id).2 = some h'' ∧
      getAllocInfo h'' = getAllocInfo h := by
  obtain ⟨limit, hl, hinv, _⟩ := heapReachable_inv hr
  obtain ⟨h'', hf, hs⟩ := alloc_free_shape hl hinv S id
  exact ⟨h'', hf, getAllocInfoLoop_shape _ _ _ hs⟩

theorem alloc_free_getAllocInfo_witness :
    HeapReachable (alloc (initAllocHeap 1000) 100 7).1 ∧
    ∃ h'', free (alloc (alloc (initAllocHeap 1000) 100 7).1 63 9).1
             (alloc (alloc (initAllocHeap 1000) 100 7).1 63 9).2 = some h'' ∧
      getAllocInfo h'' = getAllocInfo (alloc (initAllocHeap 1000) 100 7).1 :=
  ⟨HeapReachable.alloc _ _ _ (HeapReachable.init 1000 (by decide) (by decide)),
   alloc_free_getAllocInfo _
     (HeapReachable.alloc _ _ _ (HeapReachable.init 1000 (by decide) (by decide))) 63 9⟩

theorem Value.getValue_of_numeric {env : ValueEnv} {v : Value}
    (h : (v.isDouble || v.isFloat || v.isInt64 || v.isInt32OrLess) = true) :
    v.getValue env.resolve = v ∧ v.isError = false := by
  simp only [Value.isDouble, Value.isFloat, Value.isInt64, Value.isInt32OrLess, Bool.or_eq_true,
    decide_eq_true_eq] at h
  simp only [Value.getValue, Value.isIndirectValueType, Value.isError]
  rcases h with ((h | h) | h) | h <;> (try rcases h with h | h | h | h | h | h | h) <;>
    (try rcases h with h | h) <;> simp [h]

theorem Value.toInt64_of_int32_zero {env : ValueEnv} {v : Value}
    (h : v.isInt32OrLess = true) (hz : v.int32Value = 0) : (v.toInt64 env.strtol).1 = 0 := by
  simp only [Value.isInt32OrLess, decide_eq_true_eq] at h
  rcases h with h | h | h | h | h | h | h <;>
    simp [Value.toInt64, h, hz, Value.int8Value, Value.uint8Value, Value.int16Value,
      Value.uint16Value, Value.uint32Value, wrapInt8, wrapInt16]

theorem Value.isError_makeError : Value.makeError.isError = true := rfl

/-- C4 (counterexample). The double `1.0` divided by the int32 `0`: neither
`op_div` nor `op_mod` returns an Error, so the claim fails for a floating-point
dividend. -/
theorem op_div_mod_zero_counterexample :
    ¬ (∀ (env : ValueEnv) (a b : Value), a.isNumeric = true → b.isIntegerZero env = true →
        (op_div env a b).isError = true ∧ (op_mod env a b).isError = true) := by
  intro h
  have := (h ValueEnv.plain (Value.ofDouble (.fin 1) .DOUBLE) (Value.ofInt 0 .INT32)
    (by decide) (by decide)).1
  revert this
  decide

/-- C4 (amended). For an integer-typed dividend `a` and an integer-typed divisor
`b` whose stored integer is zero, `op_div` and `op_mod` both return an Error;
for a float or double dividend and such a divisor the result is not an Error but
a value of type double (if `a` is a double) or float. -/
theorem op_div_mod_integer_zero (env : ValueEnv) (a b : Value)
    (hb : b.isIntegerZero env = true) :
    (a.isIntegerTyped = true →
      (op_div env a b).isError = true ∧ (op_mod env a b).isError = true) ∧
    (a.isDouble = true →
      (op_div env a b).type = .DOUBLE ∧ (op_mod env a b).type = .DOUBLE) ∧
    (a.isFloat = true →
      (op_div env a b).type = .FLOAT ∧ (op_mod env a b).type = .FLOAT) := by
  have hbn : (b.isDouble || b.isFloat || b.isInt64 || b.isInt32OrLess) = true := by
    simp only [Value.isIntegerZero, Bool.or_eq_true, Bool.and_eq_true] at hb
    rcases hb with hb | hb <;> simp [hb.1]
  obtain ⟨hgb, heb⟩ := @Value.getValue_of_numeric env _ hbn
  have hbd : b.isDouble = false ∧ b.isFloat = false := by
    simp only [Value.isIntegerZero, Bool.or_eq_true, Bool.and_eq_true, Value.isInt32OrLess,
      Value.isInt64, decide_eq_true_eq] at hb
    simp only [Value.isDouble, Value.isFloat, decide_eq_false_iff_not]
    rcases hb with ⟨hb, _⟩ | ⟨hb, _⟩
    · rcases hb with h | h | h | h | h | h | h <;> simp [h]
    · rcases hb with h | h <;> simp [h]
  refine ⟨?_, ?_, ?_⟩
  · intro ha
    have han : (a.isDouble || a.isFloat || a.isInt64 || a.isInt32OrLess) = true := by
      simp only [Value.isIntegerTyped, Bool.or_eq_true] at ha
      rcases ha with ha | ha <;> simp [ha]
    obtain ⟨hga, hea⟩ := @Value.getValue_of_numeric env _ han
    have had : a.isDouble = false ∧ a.isFloat = false := by
      simp only [Value.isIntegerTyped, Bool.or_eq_true, Value.isInt32OrLess,
        Value.isInt64, decide_eq_true_eq] at ha
      simp only [Value.isDouble, Value.isFloat, decide_eq_false_iff_not]
      rcases ha with ha | ha
      · rcases ha with h | h | h | h | h | h | h <;> simp [h]
      · rcases ha with h | h <;> simp [h]
    simp only [Value.isIntegerZero, Bool.or_eq_true, Bool.and_eq_true, decide_eq_true_eq] at hb
    by_cases h64 : (a.isInt64 || b.isInt64) = true
    · have hd : (b.toInt64 env.strtol).1 = 0 := by
        rcases hb with ⟨h1, h2⟩ | ⟨_, h2⟩
        · exact Value.toInt64_of_int32_zero h1 h2
        · exact h2
      simp [op_div, op_mod, hea, heb, hga, hgb, han, hbn, had.1, had.2, hbd.1, hbd.2, h64, hd,
        Value.isError_makeError]
    · have hb0 : b.int32Value = 0 := by
        simp only [Bool.or_eq_true, not_or, Bool.not_eq_true] at h64
        rcases hb with ⟨_, h2⟩ | ⟨h1, _⟩
        · exact h2
        · rw [h64.2] at h1; exact absurd h1 (by simp)
      simp [op_div, op_mod, hea, heb, hga, hgb, han, hbn, had.1, had.2, hbd.1, hbd.2, h64, hb0,
        Value.isError_makeError]
  · intro ha
    have han : (a.isDouble || a.isFloat || a.isInt64 || a.isInt32OrLess) = true := by simp [ha]
    obtain ⟨hga, hea⟩ := @Value.getValue_of_numeric env _ han
    simp [op_div, op_mod, hea, heb, hga, hgb, han, hbn, ha, Value.ofDouble]
  · intro ha
    have han : (a.isDouble || a.isFloat || a.isInt64 || a.isInt32OrLess) = true := by simp [ha]
    obtain ⟨hga, hea⟩ := @Value.getValue_of_numeric env _ han
    have had : a.isDouble = false := by
      simp only [Value.isFloat, decide_eq_true_eq] at ha
      simp [Value.isDouble, ha]
    simp only [Value.isIntegerZero, Bool.or_eq_true, Bool.and_eq_true] at hb
    rcases hb with ⟨h1, _⟩ | ⟨h1, _⟩ <;>
      simp [op_div, op_mod, hea, heb, hga, hgb, han, h1, ha, had, hbd.1, hbd.2, Value.ofFloat]

theorem op_div_mod_integer_zero_witness :
    (Value.ofInt 0 .INT32).isIntegerZero ValueEnv.plain = true ∧
    ((Value.ofInt 7 .INT32).isIntegerTyped = true →
      (op_div ValueEnv.plain (Value.ofInt 7 .INT32) (Value.ofInt 0 .INT32)).isError = true ∧
      (op_mod ValueEnv.plain (Value.ofInt 7 .INT32) (Value.ofInt 0 .INT32)).isError = true) :=
  ⟨by decide,
   (op_div_mod_integer_zero ValueEnv.plain (Value.ofInt 7 .INT32) (Value.ofInt 0 .INT32)
     (by decide)).1⟩

end eez

namespace eez
namespace flow

theorem evalExpressionLoop_append (ctx : EvalContext) :
    ∀ (pre rest : List Instruction) (s : EvalStack),
      (∀ i ∈ pre, i.isEndMarker = false) →
      evalExpressionLoop ctx (pre ++ rest) s
        = (runInstructions ctx pre s).bind (evalExpressionLoop ctx rest)
  | [], rest, s, _ => rfl
  | i :: pre, rest, s, h => by
    have hi := h i (List.mem_cons_self _ _)
    have ih := fun s' => evalExpressionLoop_append ctx pre rest s'
      (fun j hj => h j (List.mem_cons_of_mem _ hj))
    cases i <;> simp only [Instruction.isEndMarker, Bool.true_eq_false] at hi <;>
      simp only [List.cons_append, evalExpressionLoop, runInstructions] <;>
      (split <;> simp [ih])

theorem hasError_push {s : EvalStack} {v : Value} (h : s.hasError ∨ v.isError = true) :
    (s.push v).hasError := by
  rcases h with ⟨w, hw, he⟩ | h
  · exact ⟨w, List.mem_cons_of_mem _ hw, he⟩
  · exact ⟨v, List.mem_cons_self _ _, h⟩

theorem hasError_pop {s s' : EvalStack} {v : Value} (h : s.hasError)
    (hp : s.pop = some (v, s')) : v.isError = true ∨ s'.hasError := by
  obtain ⟨w, hw, he⟩ := h
  unfold EvalStack.pop at hp
  split at hp
  · simp at hp
  · rename_i x rest hs
    simp only [Option.some.injEq, Prod.mk.injEq] at hp
    obtain ⟨rfl, rfl⟩ := hp
    rw [hs] at hw
    rcases List.mem_cons.mp hw with rfl | hw
    · exact Or.inl he
    · exact Or.inr ⟨w, hw, he⟩

theorem hasError_binary {op : ValueEnv → Value → Value → Value} {ctx : EvalContext}
    (hop : ∀ env a b, a.isError = true ∨ b.isError = true → (op env a b).isError = true)
    {s s' : EvalStack} (h : s.hasError) (adjust : Value → Value)
    (hadj : ∀ v, v.isError = true → (adjust v).isError = true)
    (hs : (match s.pop with
      | none => none
      | some (b, stack1) =>
        match stack1.pop with
        | none => none
        | some (a, stack2) => some (stack2.push (adjust (op ctx.env a b)))) = some s') :
    s'.hasError := by
  cases hp1 : s.pop with
  | none => simp [hp1] at hs
  | some r1 =>
    obtain ⟨b, s1⟩ := r1
    cases hp2 : s1.pop with
    | none => simp [hp1, hp2] at hs
    | some r2 =>
      obtain ⟨a, s2⟩ := r2
      simp only [hp1, hp2, Option.some.injEq] at hs
      subst hs
      apply hasError_push
      rcases hasError_pop h hp1 with hb | h1
      · exact Or.inr (hadj _ (hop _ _ _ (Or.inr hb)))
      · rcases hasError_pop h1 hp2 with ha | h2
        · exact Or.inr (hadj _ (hop _ _ _ (Or.inl ha)))
        · exact Or.inl h2

theorem hasError_doArithmetic {op : ValueEnv → Value → Value → Value} {ctx : EvalContext}
    (hop : ∀ env a b, a.isError = true ∨ b.isError = true → (op env a b).isError = true)
    {s s' : EvalStack} (h : s.hasError) (hs : doArithmetic op ctx s = some s') :
    s'.hasError := by
  refine hasError_binary hop h
    (fun r => if r.type = .UNDEFINED then Value.makeError else r) ?_ hs
  intro v hv
  show (if v.type = .UNDEFINED then Value.makeError else v).isError = true
  split
  · rfl
  · exact hv

theorem hasError_doComparison {op : ValueEnv → Value → Value → Value} {ctx : EvalContext}
    (hop : ∀ env a b, a.isError = true ∨ b.isError = true → (op env a b).isError = true)
    {s s' : EvalStack} (h : s.hasError) (hs : doComparison op ctx s = some s') :
    s'.hasError :=
  hasError_binary hop h (fun r => r) (fun _ hv => hv) hs

theorem op_strict_of_error_first {op : ValueEnv → Value → Value → Value}
    {f : ValueEnv → Value → Value → Value}
    (hdef : ∀ env a b, op env a b
      = if a.isError = true then a else if b.isError = true then b else f env a b) :
    ∀ env a b, a.isError = true ∨ b.isError = true → (op env a b).isError = true := by
  intro env a b h
  rw [hdef]
  by_cases ha : a.isError = true
  · rw [if_pos ha]; exact ha
  · rw [if_neg ha]
    rcases h with h | hb
    · exact absurd h ha
    · rw [if_pos hb]; exact hb

theorem op_add_strict : ∀ env a b, a.isError = true ∨ b.isError = true →
    (op_add env a b).isError = true := op_strict_of_error_first (fun _ _ _ => rfl)

theorem op_sub_strict : ∀ env a b, a.isError = true ∨ b.isError = true →
    (op_sub env a b).isError = true := op_strict_of_error_first (fun _ _ _ => rfl)

theorem op_mul_strict : ∀ env a b, a.isError = true ∨ b.isError = true →
    (op_mul env a b).isError = true := op_strict_of_error_first (fun _ _ _ => rfl)

theorem op_div_strict : ∀ env a b, a.isError = true ∨ b.isError = true →
    (op_div env a b).isError = true := op_strict_of_error_first (fun _ _ _ => rfl)

theorem op_mod_strict : ∀ env a b, a.isError = true ∨ b.isError = true →
    (op_mod env a b).isError = true := op_strict_of_error_first (fun _ _ _ => rfl)

theorem op_eq_strict : ∀ env a b, a.isError = true ∨ b.isError = true →
    (op_eq env a b).isError = true := op_strict_of_error_first (fun _ _ _ => rfl)

theorem op_neq_strict : ∀ env a b, a.isError = true ∨ b.isError = true →
    (op_neq env a b).isError = true := op_strict_of_error_first (fun _ _ _ => rfl)

theorem op_less_strict : ∀ env a b, a.isError = true ∨ b.isError = true →
    (op_less env a b).isError = true := op_strict_of_error_first (fun _ _ _ => rfl)

theorem op_great_strict : ∀ env a b, a.isError = true ∨ b.isError = true →
    (op_great env a b).isError = true := op_strict_of_error_first (fun _ _ _ => rfl)

theorem op_less_eq_strict : ∀ env a b, a.isError = true ∨ b.isError = true →
    (op_less_eq env a b).isError = true := op_strict_of_error_first (fun _ _ _ => rfl)

theorem op_great_eq_strict : ∀ env a b, a.isError = true ∨ b.isError = true →
    (op_great_eq env a b).isError = true := op_strict_of_error_first (fun _ _ _ => rfl)

theorem hasError_not {ctx : EvalContext} {s s' : EvalStack} (h : s.hasError)
    (hs : do_OPERATION_TYPE_NOT ctx s = some s') : s'.hasError := by
  unfold do_OPERATION_TYPE_NOT at hs
  cases hp : s.pop with
  | none => simp [hp] at hs
  | some r =>
    obtain ⟨a, s1⟩ := r
    simp only [hp] at hs
    rcases hasError_pop h hp with ha | h1
    · rw [if_pos ha] at hs
      simp only [Option.some.injEq] at hs
      subst hs
      exact hasError_push (Or.inr ha)
    · split at hs
      · simp only [Option.some.injEq] at hs
        subst hs
        exact hasError_push (Or.inl h1)
      · split at hs <;>
        · simp only [Option.some.injEq] at hs
          subst hs
          exact hasError_push (Or.inl h1)

theorem hasError_evalInstruction {ctx : EvalContext} {i : Instruction} {s s' : EvalStack}
    (hi : i.keepsError = true) (h : s.hasError) (hs : evalInstruction ctx i s = some s') :
    s'.hasError := by
  cases i with
  | PUSH_CONSTANT arg =>
    simp only [evalInstruction, Option.some.injEq] at hs; subst hs
    exact hasError_push (Or.inl h)
  | PUSH_INPUT arg =>
    simp only [evalInstruction, Option.some.injEq] at hs; subst hs
    exact hasError_push (Or.inl h)
  | PUSH_LOCAL_VAR arg =>
    simp only [evalInstruction, Option.some.injEq] at hs; subst hs
    exact hasError_push (Or.inl h)
  | PUSH_GLOBAL_VAR arg =>
    simp only [evalInstruction] at hs
    split at hs
    · split at hs <;>
      · simp only [Option.some.injEq] at hs; subst hs
        exact hasError_push (Or.inl h)
    · simp only [Option.some.injEq] at hs; subst hs
      exact hasError_push (Or.inl h)
  | PUSH_OUTPUT arg =>
    simp only [evalInstruction, Option.some.injEq] at hs; subst hs
    exact hasError_push (Or.inl h)
  | ARRAY_ELEMENT => simp [Instruction.keepsError] at hi
  | END => simp only [evalInstruction, Option.some.injEq] at hs; subst hs; exact h
  | END_WITH_DST_VALUE_TYPE d =>
    simp only [evalInstruction, Option.some.injEq] at hs; subst hs; exact h
  | OPERATION k =>
    simp only [Instruction.keepsError, List.mem_cons, List.mem_singleton, List.not_mem_nil,
      or_false, decide_eq_true_eq] at hi
    simp only [evalInstruction] at hs
    rcases hi with rfl | rfl | rfl | rfl | rfl | rfl | rfl | rfl | rfl | rfl | rfl | rfl <;>
      simp only [g_evalOperations] at hs
    · exact hasError_doArithmetic op_add_strict h hs
    · exact hasError_doArithmetic op_sub_strict h hs
    · exact hasError_doArithmetic op_mul_strict h hs
    · exact hasError_doArithmetic op_div_strict h hs
    · exact hasError_doArithmetic op_mod_strict h hs
    · exact hasError_doComparison op_eq_strict h hs
    · exact hasError_doComparison op_neq_strict h hs
    · exact hasError_doComparison op_less_strict h hs
    · exact hasError_doComparison op_great_strict h hs
    · exact hasError_doComparison op_less_eq_strict h hs
    · exact hasError_doComparison op_great_eq_strict h hs
    · exact hasError_not h hs

theorem hasError_evalExpressionLoop {ctx : EvalContext} :
    ∀ (post : List Instruction) (s s' : EvalStack),
      (∀ i ∈ post, i.keepsError = true) → s.hasError →
      evalExpressionLoop ctx post s = some s' → s'.hasError
  | [], _, _, _, _, hs => by simp [evalExpressionLoop] at hs
  | i :: post, s, s', hk, h, hs => by
    have ih := fun s1 (h1 : EvalStack.hasError s1) (hs1 : evalExpressionLoop ctx post s1 = some s') =>
      hasError_evalExpressionLoop post s1 s' (fun j hj => hk j (List.mem_cons_of_mem _ hj)) h1 hs1
    have hstep : ∀ (hne : i.isEndMarker = false),
        (match evalInstruction ctx i s with
          | none => none
          | some stack1 => evalExpressionLoop ctx post stack1) = some s' → s'.hasError := by
      intro _ hm
      cases he : evalInstruction ctx i s with
      | none => simp [he] at hm
      | some s1 =>
        simp only [he] at hm
        exact ih s1 (hasError_evalInstruction (hk i (List.mem_cons_self _ _)) h he) hm
    cases i with
    | END => simp only [evalExpressionLoop, Option.some.injEq] at hs; subst hs; exact h
    | END_WITH_DST_VALUE_TYPE d =>
      simp only [evalExpressionLoop] at hs
      split at hs
      · cases hp : s.pop with
        | none => simp [hp] at hs
        | some r =>
          obtain ⟨v, s1⟩ := r
          simp only [hp, Option.some.injEq] at hs
          subst hs
          apply hasError_push
          rcases hasError_pop h hp with hv | h1
          · right
            split
            · exact hv
            · exact hv
          · exact Or.inl h1
      · simp only [Option.some.injEq] at hs; subst hs; exact h
    | PUSH_CONSTANT a => exact hstep rfl (by simpa only [evalExpressionLoop] using hs)
    | PUSH_INPUT a => exact hstep rfl (by simpa only [evalExpressionLoop] using hs)
    | PUSH_LOCAL_VAR a => exact hstep rfl (by simpa only [evalExpressionLoop] using hs)
    | PUSH_GLOBAL_VAR a => exact hstep rfl (by simpa only [evalExpressionLoop] using hs)
    | PUSH_OUTPUT a => exact hstep rfl (by simpa only [evalExpressionLoop] using hs)
    | ARRAY_ELEMENT => exact hstep rfl (by simpa only [evalExpressionLoop] using hs)
    | OPERATION a => exact hstep rfl (by simpa only [evalExpressionLoop] using hs)

theorem evalExpression_of_hasError {ctx : EvalContext} {instructions : List Instruction}
    {errorMessage : String}
    (h : ∀ s, evalExpressionLoop ctx instructions EvalStack.empty = some s → s.hasError)
    (out : EvalOutcome) (ho : evalExpression ctx instructions errorMessage = some out) :
    out.ok = false ∧ out.thrown.isSome = true ∧ ∀ r, out.result = some r → r.isError = true := by
  unfold evalExpression at ho
  cases hl : evalExpressionLoop ctx instructions EvalStack.empty with
  | none => simp [hl] at ho
  | some s =>
    have hse := h s hl
    simp only [hl] at ho
    split at ho
    · rename_i hsp
      cases hp : s.pop with
      | none => simp [hp] at ho
      | some r =>
        obtain ⟨top, s1⟩ := r
        simp only [hp] at ho
        have htop : top.isError = true := by
          rcases hasError_pop hse hp with ht | ⟨w, hw, _⟩
          · exact ht
          · exfalso
            unfold EvalStack.pop at hp
            split at hp
            · simp at hp
            · rename_i x rest hst
              simp only [Option.some.injEq, Prod.mk.injEq] at hp
              obtain ⟨_, rfl⟩ := hp
              simp only [EvalStack.sp, hst, List.length_cons, add_left_eq_self,
                List.length_eq_zero] at hsp
              rw [hsp] at hw
              simp at hw
        have hg : (top.getValue ctx.resolve).isError = true := by
          have : top.isIndirectValueType = false := by
            simp only [Value.isError, decide_eq_true_eq] at htop
            simp [Value.isIndirectValueType, htop]
          simp [Value.getValue, this, htop]
        simp only [hg, Bool.not_true, Bool.false_eq_true, if_false, Option.some.injEq] at ho
        subst ho
        simp [hg]
    · simp only [Option.some.injEq] at ho
      subst ho
      simp

/-- C5 (counterexample). In `false && (1 / 0)` the division produces an Error,
the LOGICAL_AND that follows discards it, and `evalExpression` returns true with
a boolean result: an Error produced by an operation need not reach the result. -/
theorem evalExpression_error_discarded :
    ¬ (∀ (ctx : EvalContext) (pre post : List Instruction) (k : Nat) (errorMessage : String),
        (∀ i ∈ pre, i.isEndMarker = false) → producesError ctx pre k →
        ∀ out, evalExpression ctx (pre ++ .OPERATION k :: post) errorMessage = some out →
          out.ok = false) := by
  intro h
  have hp : producesError exampleContext
      [.PUSH_CONSTANT 0, .PUSH_CONSTANT 1, .PUSH_CONSTANT 2] 3 :=
    ⟨_, _, _, _, rfl, rfl, rfl, by decide⟩
  have := h exampleContext [.PUSH_CONSTANT 0, .PUSH_CONSTANT 1, .PUSH_CONSTANT 2]
    [.OPERATION 16, .END] 3 "" (by decide) hp
    { ok := true, result := some (Value.ofBool false .BOOLEAN), thrown := none } (by decide)
  exact absurd this (by decide)

/-- C5 (amended). If an operation executed during the evaluation of an expression
leaves an Error value on the stack, and every instruction after it is a push, an
end marker, or one of the arithmetic, comparison and NOT operations (ADD, SUB,
MUL, DIV, MOD, EQUAL, NOT_EQUAL, LESS, GREATER, LESS_OR_EQUAL, GREATER_OR_EQUAL,
NOT), then `evalExpression` returns false, calls `throwError`, and any value it
assigns to the result is an Error. -/
theorem evalExpression_error_propagates (ctx : EvalContext) (pre post : List Instruction)
    (k : Nat) (errorMessage : String)
    (hpre : ∀ i ∈ pre, i.isEndMarker = false) (hprod : producesError ctx pre k)
    (hpost : ∀ i ∈ post, i.keepsError = true)
    (out : EvalOutcome)
    (hout : evalExpression ctx (pre ++ .OPERATION k :: post) errorMessage = some out) :
    out.ok = false ∧ out.thrown.isSome = true ∧ ∀ r, out.result = some r → r.isError = true := by
  refine evalExpression_of_hasError ?_ out hout
  intro s hs
  obtain ⟨s1, s2, v, rest, h1, h2, h3, h4⟩ := hprod
  rw [evalExpressionLoop_append ctx pre _ _ hpre, h1] at hs
  simp only [Option.some_bind, evalExpressionLoop, h2] at hs
  exact hasError_evalExpressionLoop post s2 s hpost ⟨v, by rw [h3]; exact List.mem_cons_self _ _, h4⟩ hs

theorem evalExpression_error_propagates_witness :
    (∀ i ∈ [Instruction.PUSH_CONSTANT 1, .PUSH_CONSTANT 2], i.isEndMarker = false) ∧
    producesError exampleContext [.PUSH_CONSTANT 1, .PUSH_CONSTANT 2] 3 ∧
    (∀ i ∈ [Instruction.PUSH_CONSTANT 1, .OPERATION 0, .END], i.keepsError = true) ∧
    evalExpression exampleContext
        ([.PUSH_CONSTANT 1, .PUSH_CONSTANT 2] ++ .OPERATION 3 ::
          [.PUSH_CONSTANT 1, .OPERATION 0, .END]) "msg"
      = some { ok := false, result := some Value.makeError, thrown := some ("msg", none) } ∧
    (({ ok := false, result := some Value.makeError, thrown := some ("msg", none) } :
        EvalOutcome).ok = false ∧
      ({ ok := false, result := some Value.makeError, thrown := some ("msg", none) } :
        EvalOutcome).thrown.isSome = true ∧
      ∀ r, ({ ok := false, result := some Value.makeError, thrown := some ("msg", none) } :
        EvalOutcome).result = some r → r.isError = true) :=
  ⟨by decide, ⟨_, _, _, _, rfl, rfl, rfl, by decide⟩, by decide, by decide,
   evalExpression_error_propagates exampleContext [.PUSH_CONSTANT 1, .PUSH_CONSTANT 2]
     [.PUSH_CONSTANT 1, .OPERATION 0, .END] 3 "msg" (by decide)
     ⟨_, _, _, _, rfl, rfl, rfl, by decide⟩ (by decide) _ (by decide)⟩

theorem chainCount_root (i : Nat) (f : Flow) (a : Bool) (j : Nat) :
    (FlowState.root i f a).chainCount j = if j = i then 1 else 0 := by
  simp only [FlowState.chainCount, FlowState.chain, List.map_cons, List.map_nil,
    FlowState.flowStateIndex, List.count_cons, List.count_nil, zero_add, beq_iff_eq]
  by_cases h : j = i
  · simp [h]
  · have : ¬ i = j := fun hh => h hh.symm
    simp [h, this]

theorem chainCount_child (i : Nat) (f : Flow) (a : Bool) (p : FlowState) (c : Nat) (j : Nat) :
    (FlowState.child i f a p c).chainCount j = p.chainCount j + if j = i then 1 else 0 := by
  simp only [FlowState.chainCount, FlowState.chain, List.map_cons,
    FlowState.flowStateIndex, List.count_cons, beq_iff_eq]
  by_cases h : j = i
  · simp [h]
  · have : ¬ i = j := fun hh => h hh.symm
    simp [h, this]

theorem incRefCounterForFlowState_apply :
    ∀ (flowState : FlowState) (refCounter : Nat → Int) (i : Nat),
      incRefCounterForFlowState refCounter flowState i = refCounter i + flowState.chainCount i
  | .root j f a, rc, i => by
    rw [chainCount_root]
    simp only [incRefCounterForFlowState, setAt]
    by_cases h : i = j
    · simp [h]
    · simp [h]
  | .child j f a p c, rc, i => by
    rw [chainCount_child]
    simp only [incRefCounterForFlowState]
    rw [incRefCounterForFlowState_apply p]
    simp only [setAt]
    by_cases h : i = j
    · simp [h]; ring
    · simp [h]

theorem decRefCounterForFlowState_apply :
    ∀ (flowState : FlowState) (refCounter : Nat → Int) (i : Nat),
      decRefCounterForFlowState refCounter flowState i = refCounter i - flowState.chainCount i
  | .root j f a, rc, i => by
    rw [chainCount_root]
    simp only [decRefCounterForFlowState, setAt]
    by_cases h : i = j
    · simp [h]
    · simp [h]
  | .child j f a p c, rc, i => by
    rw [chainCount_child]
    simp only [decRefCounterForFlowState]
    rw [decRefCounterForFlowState_apply p]
    simp only [setAt]
    by_cases h : i = j
    · simp [h]; ring
    · simp [h]

/-- What a successful `addToQueue` does to each member of the engine. -/
theorem addToQueueWith_notFull (raise : ThrowError) (e : Engine) (flowState : FlowState)
    (componentIndex : Nat) (s1 s2 t : Int) (continuousTask : Bool)
    (h : e.g_queueIsFull = false) :
    ∃ e', addToQueueWith raise e flowState componentIndex s1 s2 t continuousTask = .ok (e', true) ∧
      e'.g_queue = setAt e.g_queue e.g_queueTail
        { flowState := some flowState, componentIndex := componentIndex,
          continuousTask := continuousTask } ∧
      e'.g_queueHead = e.g_queueHead ∧
      e'.g_queueTail = (e.g_queueTail + 1) % QUEUE_SIZE ∧
      (e'.g_queueIsFull = true ↔ e.g_queueHead = (e.g_queueTail + 1) % QUEUE_SIZE) ∧
      e'.g_numContinuousTaskInQueue =
        (if continuousTask then e.g_numContinuousTaskInQueue
         else (e.g_numContinuousTaskInQueue + 1) % WORD) ∧
      e'.refCounter = incRefCounterForFlowState e.refCounter flowState ∧
      e'.g_enableThrowError = e.g_enableThrowError ∧ e'.error = e.error ∧
      e'.values = e.values ∧ e'.componenentExecutionStates = e.componenentExecutionStates ∧
      e'.executingComponentIndex = e.executingComponentIndex := by
  simp only [addToQueueWith, h, Bool.false_eq_true, if_false]
  refine ⟨_, rfl, ?_, ?_, ?_, ?_, ?_, ?_, ?_, ?_, ?_, ?_, ?_⟩ <;>
    cases continuousTask <;> simp only [Bool.not_false, Bool.not_true, if_true, if_false,
      Bool.false_eq_true] <;> split <;> simp_all

theorem QueueHolds.notFull {e : Engine} {tasks : List QueueEntry} (h : QueueHolds e tasks)
    (hl : tasks.length < QUEUE_SIZE) : e.g_queueIsFull = false := by
  obtain ⟨_, _, _, hf, _⟩ := h
  cases hq : e.g_queueIsFull with
  | false => rfl
  | true => have := hf.mp hq; omega

theorem QueueHolds.add {raise : ThrowError} {e : Engine} {tasks : List QueueEntry}
    (h : QueueHolds e tasks) (hl : tasks.length < QUEUE_SIZE) (flowState : FlowState)
    (componentIndex : Nat) (s1 s2 t : Int) (continuousTask : Bool) :
    ∃ e', addToQueueWith raise e flowState componentIndex s1 s2 t continuousTask = .ok (e', true) ∧
      QueueHolds e' (tasks ++ [QueueEntry.mk (some flowState) componentIndex continuousTask]) ∧
      e'.refCounter = incRefCounterForFlowState e.refCounter flowState ∧
      e'.g_queueHead = e.g_queueHead := by
  obtain ⟨e', he, hq, hh, ht, hf, _, hr, _⟩ :=
    addToQueueWith_notFull raise e flowState componentIndex s1 s2 t continuousTask (h.notFull hl)
  refine ⟨e', he, ?_, hr, hh⟩
  obtain ⟨h1, h2, h3, h4, h5⟩ := h
  unfold QueueHolds
  unfold QUEUE_SIZE at *
  refine ⟨by omega, by simp only [List.length_append, List.length_singleton]; omega, ?_, ?_, ?_⟩
  · simp only [List.length_append, List.length_singleton]; omega
  · rw [hf]
    simp only [List.length_append, List.length_singleton]
    omega
  · intro k hk
    simp only [List.length_append, List.length_singleton] at hk
    rw [hq, hh]
    simp only [setAt]
    by_cases hkl : k < tasks.length
    · have hne : ¬ (e.g_queueHead + k) % 1000 = e.g_queueTail := by omega
      rw [if_neg hne, h5 k hkl, List.getElem_append_left hkl]
    · have hk' : k = tasks.length := by omega
      subst hk'
      rw [if_pos h3.symm]
      simp

theorem QueueHolds.peek_cons {e : Engine} {x : QueueEntry} {tasks : List QueueEntry}
    (h : QueueHolds e (x :: tasks)) :
    peekNextTaskFromQueue e = some (x.flowState, x.componentIndex, x.continuousTask) := by
  obtain ⟨h1, h2, h3, h4, h5⟩ := h
  have hx := h5 0 (by simp)
  simp only [add_zero, List.getElem_cons_zero] at hx
  rw [Nat.mod_eq_of_lt h1] at hx
  simp only [List.length_cons] at h2 h3 h4
  unfold peekNextTaskFromQueue
  rw [if_neg, hx]
  intro ⟨ht, hf⟩
  cases hq : e.g_queueIsFull with
  | true => simp [hq] at hf
  | false =>
    have : ¬ tasks.length + 1 = QUEUE_SIZE := fun hh => by
      have := h4.mpr hh; rw [hq] at this; exact absurd this (by simp)
    unfold QUEUE_SIZE at *
    omega

theorem QueueHolds.peek_nil {e : Engine} (h : QueueHolds e []) :
    peekNextTaskFromQueue e = none := by
  obtain ⟨h1, h2, h3, h4, h5⟩ := h
  simp only [List.length_nil, add_zero] at h3 h4
  rw [Nat.mod_eq_of_lt h1] at h3
  unfold peekNextTaskFromQueue
  rw [if_pos]
  refine ⟨h3.symm, ?_⟩
  cases hq : e.g_queueIsFull with
  | false => rfl
  | true => have := h4.mp hq; unfold QUEUE_SIZE at this; omega

/-- What `removeNextTaskFromQueue` does to each member of the engine. -/
theorem removeNextTaskFromQueue_ok (e : Engine) (flowState : FlowState)
    (h : (e.g_queue e.g_queueHead).flowState = some flowState) :
    ∃ e', removeNextTaskFromQueue e = .ok e' ∧
      e'.g_queue = e.g_queue ∧ e'.g_queueHead = (e.g_queueHead + 1) % QUEUE_SIZE ∧
      e'.g_queueTail = e.g_queueTail ∧ e'.g_queueIsFull = false ∧
      e'.g_numContinuousTaskInQueue =
        (if (e.g_queue e.g_queueHead).continuousTask then e.g_numContinuousTaskInQueue
         else (e.g_numContinuousTaskInQueue + (WORD - 1)) % WORD) ∧
      e'.refCounter = decRefCounterForFlowState e.refCounter flowState ∧
      e'.g_enableThrowError = e.g_enableThrowError ∧ e'.error = e.error ∧
      e'.values = e.values ∧ e'.componenentExecutionStates = e.componenentExecutionStates ∧
      e'.executingComponentIndex = e.executingComponentIndex := by
  simp only [removeNextTaskFromQueue, h]
  cases (e.g_queue e.g_queueHead).continuousTask <;> simp

theorem QueueHolds.remove {e : Engine} {x : QueueEntry} {tasks : List QueueEntry}
    (h : QueueHolds e (x :: tasks)) (flowState : FlowState) (hx : x.flowState = some flowState) :
    ∃ e', removeNextTaskFromQueue e = .ok e' ∧ QueueHolds e' tasks ∧
      e'.refCounter = decRefCounterForFlowState e.refCounter flowState ∧
      e'.g_queue = e.g_queue ∧ e'.g_queueHead = (e.g_queueHead + 1) % QUEUE_SIZE := by
  obtain ⟨h1, h2, h3, h4, h5⟩ := h
  have hx0 := h5 0 (by simp)
  simp only [add_zero, List.getElem_cons_zero] at hx0
  rw [Nat.mod_eq_of_lt h1] at hx0
  obtain ⟨e', he, hq, hh, ht, hf, _, hr, _⟩ :=
    removeNextTaskFromQueue_ok e flowState (by rw [hx0]; exact hx)
  refine ⟨e', he, ?_, hr, hq, hh⟩
  simp only [List.length_cons] at h2 h3 h4
  unfold QueueHolds
  unfold QUEUE_SIZE at *
  refine ⟨by omega, by omega, by omega, ?_, ?_⟩
  · rw [hf]
    constructor
    · intro hh; exact absurd hh (by simp)
    · intro hh; omega
  · intro k hk
    have := h5 (k + 1) (by simp only [List.length_cons]; omega)
    simp only [List.getElem_cons_succ] at this
    rw [hq, hh, ← this]
    congr 1
    omega

theorem QueueHolds.queueReset (e : Engine) : QueueHolds (queueReset e) [] := by
  refine ⟨?_, ?_, rfl, ?_, ?_⟩
  · show 0 < QUEUE_SIZE
    decide
  · show 0 ≤ QUEUE_SIZE
    decide
  · simp [flow.queueReset, QUEUE_SIZE]
  · intro k hk; simp at hk

theorem QueueHolds.addAll (host : Host) (fuel : Nat) :
    ∀ (tasks : List Task) (e : Engine) (held : List QueueEntry),
      QueueHolds e held → held.length + tasks.length ≤ QUEUE_SIZE →
      ∃ e1, addAllToQueue host fuel tasks e = .ok (e1, true) ∧
        QueueHolds e1 (held ++ tasks.map Task.entry)
  | [], e, held, h, _ => ⟨e, rfl, by simpa using h⟩
  | t :: rest, e, held, h, hl => by
    simp only [List.length_cons] at hl
    obtain ⟨e1, he1, hq1, _⟩ := @QueueHolds.add (flow.throwError host fuel) _ _ h (by omega)
      t.flowState t.componentIndex t.sourceComponentIndex t.sourceOutputIndex
      t.targetInputIndex t.continuousTask
    obtain ⟨e2, he2, hq2⟩ := QueueHolds.addAll host fuel rest e1 _ hq1
      (by simp only [List.length_append, List.length_singleton]; omega)
    refine ⟨e2, ?_, ?_⟩
    · simp only [addAllToQueue, addToQueue, he1, he2]
    · simpa [Task.entry] using hq2

theorem QueueHolds.peekAndRemove :
    ∀ (tasks : List Task) (e : Engine), QueueHolds e (tasks.map Task.entry) →
      ∃ e2, peekAndRemove tasks.length e
          = .ok (tasks.map (fun t => (some t.flowState, t.componentIndex, t.continuousTask)), e2) ∧
        QueueHolds e2 []
  | [], e, h => ⟨e, rfl, h⟩
  | t :: rest, e, h => by
    simp only [List.map_cons] at h
    have hp := h.peek_cons
    obtain ⟨e1, he1, hq1, _⟩ := h.remove t.flowState rfl
    obtain ⟨e2, he2, hq2⟩ := QueueHolds.peekAndRemove rest e1 hq1
    refine ⟨e2, ?_, hq2⟩
    simp only [List.length_cons, flow.peekAndRemove, hp, he1, he2, List.map_cons, Task.entry]

/-- C2. Any `k <= QUEUE_SIZE` calls of `addToQueue` on a reset queue all succeed,
the `k` pairs of `peekNextTaskFromQueue` / `removeNextTaskFromQueue` that follow
return the (flowState, componentIndex, continuousTask) triples in the order in
which they were added, and the next `peekNextTaskFromQueue` returns false. -/
theorem queue_is_fifo (host : Host) (fuel : Nat) (e : Engine) (tasks : List Task)
    (hk : tasks.length ≤ QUEUE_SIZE) :
    ∃ e1 e2, addAllToQueue host fuel tasks (queueReset e) = .ok (e1, true) ∧
      peekAndRemove tasks.length e1
        = .ok (tasks.map (fun t => (some t.flowState, t.componentIndex, t.continuousTask)), e2) ∧
      peekNextTaskFromQueue e2 = none := by
  obtain ⟨e1, he1, hq1⟩ := QueueHolds.addAll host fuel tasks (queueReset e) []
    (QueueHolds.queueReset e) (by simpa using hk)
  obtain ⟨e2, he2, hq2⟩ := QueueHolds.peekAndRemove tasks e1 (by simpa using hq1)
  exact ⟨e1, e2, he1, he2, hq2.peek_nil⟩

theorem SameQueue.refl (e : Engine) : SameQueue e e :=
  ⟨rfl, rfl, rfl, rfl, rfl, rfl, fun _ => le_refl _⟩

theorem SameQueue.trans {a b c : Engine} (h1 : SameQueue a b) (h2 : SameQueue b c) :
    SameQueue a c := by
  obtain ⟨a1, a2, a3, a4, a5, a6, a7⟩ := h1
  obtain ⟨b1, b2, b3, b4, b5, b6, b7⟩ := h2
  exact ⟨b1.trans a1, b2.trans a2, b3.trans a3, b4.trans a4, b5.trans a5, b6.trans a6,
    fun i => le_trans (a7 i) (b7 i)⟩

theorem SameQueue.full {a b : Engine} (h : SameQueue a b) (hf : a.g_queueIsFull = true) :
    b.g_queueIsFull = true := by rw [h.2.2.2.2.1, hf]

theorem allocateComponentExecutionState_sameQueue {host : Host} {e e' : Engine}
    {flowState : FlowState} {componentIndex : Nat} {state : ComponenentExecutionState}
    (h : allocateComponentExecutionState host e flowState componentIndex state = .ok e') :
    SameQueue e e' := by
  unfold allocateComponentExecutionState deallocateComponentExecutionState at h
  cases hs : e.componenentExecutionStates flowState.flowStateIndex componentIndex with
  | none =>
    simp only [hs] at h
    cases hc : flowState.flow.components[componentIndex]? with
    | none => simp [hc] at h
    | some component =>
      simp only [hc, Except.ok.injEq] at h
      subst h
      refine ⟨rfl, rfl, rfl, rfl, rfl, rfl, ?_⟩
      intro i
      simp only
      split
      · rw [incRefCounterForFlowState_apply]; omega
      · exact le_refl _
  | some st =>
    simp only [hs] at h
    cases hc : flowState.flow.components[componentIndex]? with
    | none => simp [hc] at h
    | some component =>
      simp only [hc, Except.ok.injEq] at h
      subst h
      refine ⟨rfl, rfl, rfl, rfl, rfl, rfl, ?_⟩
      intro i
      simp only
      split
      · rw [incRefCounterForFlowState_apply, decRefCounterForFlowState_apply]; omega
      · exact le_refl _

theorem resetSequenceInputsLoop_sameQueue {flowState : FlowState} :
    ∀ (inputs : List Nat) (e e' : Engine),
      resetSequenceInputsLoop flowState inputs e = .ok e' → SameQueue e e'
  | [], e, e', h => by
    simp only [resetSequenceInputsLoop, Except.ok.injEq] at h
    subst h; exact SameQueue.refl e
  | i :: rest, e, e', h => by
    simp only [resetSequenceInputsLoop] at h
    cases hc : flowState.flow.componentInputs[i]? with
    | none => simp [hc] at h
    | some input =>
      simp only [hc] at h
      split at h
      · have hs := resetSequenceInputsLoop_sameQueue rest _ e' h
        exact SameQueue.trans ⟨rfl, rfl, rfl, rfl, rfl, rfl, fun _ => le_refl _⟩ hs
      · exact resetSequenceInputsLoop_sameQueue rest e e' h

theorem resetSequenceInputs_sameQueue {host : Host} {flowState : FlowState} {e e' : Engine}
    (h : resetSequenceInputs host e flowState = .ok e') : SameQueue e e' := by
  unfold resetSequenceInputs at h
  simp only at h
  split at h
  · cases hc : flowState.flow.components[e.executingComponentIndex flowState.flowStateIndex]? with
    | none => simp [hc] at h
    | some component =>
      simp only [hc] at h
      split at h
      · have hs := resetSequenceInputsLoop_sameQueue _ _ e' h
        exact SameQueue.trans ⟨rfl, rfl, rfl, rfl, rfl, rfl, fun _ => le_refl _⟩ hs
      · simp only [Except.ok.injEq] at h
        subst h
        exact ⟨rfl, rfl, rfl, rfl, rfl, rfl, fun _ => le_refl _⟩
  · simp only [Except.ok.injEq] at h
    subst h; exact SameQueue.refl e

theorem addToQueueWith_full {raise : ThrowError} (hr : KeepsFullQueue raise) {e : Engine}
    {flowState : FlowState} {componentIndex : Nat} {s1 s2 t : Int} {continuousTask : Bool}
    {r : Engine × Bool} (hf : e.g_queueIsFull = true)
    (h : addToQueueWith raise e flowState componentIndex s1 s2 t continuousTask = .ok r) :
    r.2 = false ∧ SameQueue e r.1 ∧
      raise e flowState componentIndex "Execution queue is full\n" = .ok r.1 := by
  simp only [addToQueueWith, hf, if_true] at h
  cases hc : raise e flowState componentIndex "Execution queue is full\n" with
  | error f => simp [hc] at h
  | ok e1 =>
    simp only [hc, Except.ok.injEq] at h
    subst h
    exact ⟨rfl, hr _ _ _ _ _ hf hc, rfl⟩

theorem pingComponentWith_full {host : Host} {raise : ThrowError} (hr : KeepsFullQueue raise)
    {e : Engine} {flowState : FlowState} {componentIndex : Nat} {s1 s2 t : Int}
    {r : Engine × Bool} (hf : e.g_queueIsFull = true)
    (h : pingComponentWith host raise e flowState componentIndex s1 s2 t = .ok r) :
    r.2 = false ∧ SameQueue e r.1 := by
  unfold pingComponentWith at h
  split at h
  · simp at h
  · exact ⟨(addToQueueWith_full hr hf h).1, (addToQueueWith_full hr hf h).2.1⟩
  · simp only [Except.ok.injEq] at h
    subst h
    exact ⟨rfl, SameQueue.refl e⟩

theorem propagateValueLoop_full {host : Host} {raise : ThrowError} (hr : KeepsFullQueue raise)
    {flowState : FlowState} {componentIndex outputIndex : Nat} {value2 : Value} :
    ∀ (connections : List Connection) (e e' : Engine), e.g_queueIsFull = true →
      propagateValueLoop host raise flowState componentIndex outputIndex value2 connections e
        = .ok e' → SameQueue e e'
  | [], e, e', _, h => by
    simp only [propagateValueLoop, Except.ok.injEq] at h
    subst h; exact SameQueue.refl e
  | c :: rest, e, e', hf, h => by
    simp only [propagateValueLoop] at h
    split at h
    · simp at h
    · rename_i e2 b hp
      have hs1 : SameQueue e (if (!host.valueEq (e.values flowState.flowStateIndex
          c.targetInputIndex) value2) = true then
            { e with
              values := setAt2 e.values flowState.flowStateIndex c.targetInputIndex value2,
              trace := e.trace ++
                [.onValueChanged (.flowStateValue flowState.flowStateIndex c.targetInputIndex)] }
          else e) := by
        split
        · exact ⟨rfl, rfl, rfl, rfl, rfl, rfl, fun _ => le_refl _⟩
        · exact SameQueue.refl e
      have hs2 := (pingComponentWith_full hr (hs1.full hf) hp).2
      have hs3 := propagateValueLoop_full hr rest e2 e' ((hs1.trans hs2).full hf) h
      exact (hs1.trans hs2).trans hs3

theorem propagateValueWith_full {host : Host} {raise : ThrowError} (hr : KeepsFullQueue raise)
    {e e' : Engine} {flowState : FlowState} {componentIndex outputIndex : Nat} {value : Value}
    (hf : e.g_queueIsFull = true)
    (h : propagateValueWith host raise e flowState componentIndex outputIndex value = .ok e') :
    SameQueue e e' := by
  unfold propagateValueWith at h
  split at h
  · simp at h
  · simp only at h
    split at h
    · simp at h
    · rename_i e1 hr1
      have hs0 : SameQueue e { e with trace := e.trace ++
          [.propagate flowState.flowStateIndex componentIndex outputIndex value] } :=
        ⟨rfl, rfl, rfl, rfl, rfl, rfl, fun _ => le_refl _⟩
      have hs1 := hs0.trans (resetSequenceInputs_sameQueue hr1)
      split at h
      · simp at h
      · split at h
        · simp at h
        · exact hs1.trans (propagateValueLoop_full hr _ _ _ (hs1.full hf) h)

theorem throwErrorBody_full {host : Host} {raise : ThrowError} (hr : KeepsFullQueue raise) :
    KeepsFullQueue (throwErrorBody host raise) := by
  intro e flowState componentIndex errorMessage e' hf h
  unfold throwErrorBody at h
  split at h
  · simp at h
  · split at h
    · simp only [Except.ok.injEq] at h
      subst h; exact SameQueue.refl e
    · split at h
      · exact propagateValueWith_full hr hf h
      · simp only at h
        split at h
        · rename_i catchFs catchCi hfind
          split at h
          · simp at h
          · rename_i error herr
            have hs1 : SameQueue e { e with error := error } :=
              ⟨rfl, rfl, rfl, rfl, rfl, rfl, fun _ => le_refl _⟩
            split at h
            · simp at h
            · split at h
              · split at h
                · simp at h
                · rename_i e2 ha
                  have hs2 := hs1.trans (allocateComponentExecutionState_sameQueue ha)
                  split at h
                  · simp at h
                  · rename_i e3 hadd
                    simp only [Except.ok.injEq] at h
                    subst h
                    exact hs2.trans (addToQueueWith_full hr (hs2.full hf) hadd).2.1
                  · rename_i e3 hadd
                    simp only [Except.ok.injEq] at h
                    subst h
                    exact (hs2.trans (addToQueueWith_full hr (hs2.full hf) hadd).2.1).trans
                      ⟨rfl, rfl, rfl, rfl, rfl, rfl, fun _ => le_refl _⟩
              · exact hs1.trans (propagateValueWith_full hr (hs1.full hf) h)
        · simp only [Except.ok.injEq] at h
          subst h
          exact ⟨rfl, rfl, rfl, rfl, rfl, rfl, fun _ => le_refl _⟩

theorem throwError_full (host : Host) : ∀ fuel, KeepsFullQueue (flow.throwError host fuel)
  | 0 => by
    intro e flowState componentIndex errorMessage e' _ h
    simp [flow.throwError] at h
  | fuel + 1 => by
    have := @throwErrorBody_full host _ (throwError_full host fuel)
    simpa only [flow.throwError] using this

/-- On a full queue `addToQueue`, if it returns, returns false after raising the
error "Execution queue is full" on the given flow state and component, with the
queue entries, the indexes, the flags and the counters of the queue unchanged. -/
theorem addToQueue_full_of_returns (host : Host) (fuel : Nat) (e : Engine)
    (flowState : FlowState) (componentIndex : Nat) (s1 s2 t : Int) (continuousTask : Bool)
    (r : Engine × Bool) (hf : e.g_queueIsFull = true)
    (h : addToQueue host fuel e flowState componentIndex s1 s2 t continuousTask = .ok r) :
    r.2 = false ∧ SameQueue e r.1 ∧
      flow.throwError host fuel e flowState componentIndex "Execution queue is full\n" = .ok r.1 :=
  addToQueueWith_full (throwError_full host fuel) hf h

theorem chainCount_of_nodup {flowState : FlowState} (h : flowState.chainIndexes.Nodup) (i : Nat) :
    flowState.chainCount i = if i ∈ flowState.chainIndexes then 1 else 0 := by
  unfold FlowState.chainCount
  by_cases hi : i ∈ flowState.chainIndexes
  · rw [if_pos hi]; exact List.count_eq_one_of_mem h hi
  · rw [if_neg hi]; exact List.count_eq_zero_of_not_mem hi

/-- C10. On a queue that is not full `addToQueue(F, ...)` is successful: it stores
the entry at the tail of the queue and adds exactly 1 to the refCounter of `F`
and of each of its ancestors and nothing to any other refCounter; and whenever
`addToQueue` is successful the queue was not full and the counters have changed
in this way.  The `removeNextTaskFromQueue` that dequeues an entry of `F`, that
is, one called when that entry is at the head of the queue, returns and
subtracts exactly 1 from the same counters and nothing from the others. -/
theorem addToQueue_removeNextTaskFromQueue_refCounter (host : Host) (fuel : Nat)
    (flowState : FlowState) (componentIndex : Nat) (s1 s2 t : Int) (continuousTask : Bool)
    (e e2 : Engine) (hn : flowState.chainIndexes.Nodup) (hf : e.g_queueIsFull = false)
    (h2 : (e2.g_queue e2.g_queueHead).flowState = some flowState) :
    (∃ e1, addToQueue host fuel e flowState componentIndex s1 s2 t continuousTask
        = .ok (e1, true) ∧
      e1.g_queue e.g_queueTail = QueueEntry.mk (some flowState) componentIndex continuousTask ∧
      ∀ i, e1.refCounter i = e.refCounter i + if i ∈ flowState.chainIndexes then 1 else 0) ∧
    (∀ (e0 e' : Engine),
      addToQueue host fuel e0 flowState componentIndex s1 s2 t continuousTask = .ok (e', true) →
      e0.g_queueIsFull = false ∧
      ∀ i, e'.refCounter i = e0.refCounter i + if i ∈ flowState.chainIndexes then 1 else 0) ∧
    (∃ e3, removeNextTaskFromQueue e2 = .ok e3 ∧
      ∀ i, e3.refCounter i = e2.refCounter i - if i ∈ flowState.chainIndexes then 1 else 0) := by
  have hadd : ∀ e0 : Engine, e0.g_queueIsFull = false →
      ∃ e1, addToQueue host fuel e0 flowState componentIndex s1 s2 t continuousTask
          = .ok (e1, true) ∧
        e1.g_queue e0.g_queueTail
          = QueueEntry.mk (some flowState) componentIndex continuousTask ∧
        ∀ i, e1.refCounter i
          = e0.refCounter i + if i ∈ flowState.chainIndexes then 1 else 0 := by
    intro e0 h0
    obtain ⟨e1, he1, hq, _, _, _, _, hr, _⟩ := addToQueueWith_notFull
      (flow.throwError host fuel) e0 flowState componentIndex s1 s2 t continuousTask h0
    refine ⟨e1, he1, by rw [hq]; simp [setAt], fun i => ?_⟩
    rw [hr, incRefCounterForFlowState_apply, chainCount_of_nodup hn]
    split <;> simp
  refine ⟨hadd e hf, ?_, ?_⟩
  · intro e0 e' h
    cases h0 : e0.g_queueIsFull with
    | true =>
      simp only [addToQueue, addToQueueWith, h0, if_true] at h
      split at h <;> simp at h
    | false =>
      obtain ⟨e1, he1, _, hr⟩ := hadd e0 h0
      rw [he1] at h
      simp only [Except.ok.injEq, Prod.mk.injEq, and_true] at h
      subst h
      exact ⟨rfl, hr⟩
  · obtain ⟨e', he, _, _, _, _, _, hr, _⟩ := removeNextTaskFromQueue_ok e2 flowState h2
    refine ⟨e', he, fun i => ?_⟩
    rw [hr, decRefCounterForFlowState_apply, chainCount_of_nodup hn]
    split <;> simp

/-- C10 (witness). A task of `calledFlowState`, flow state 1 with the parent 0, is
added to the reset queue and removed again: the counters of the flow states 0
and 1 go from 0 to 1 and back to 0, the counter of flow state 2 stays 0. -/
theorem addToQueue_removeNextTaskFromQueue_refCounter_witness :
    calledFlowState.chainIndexes = [1, 0] ∧
    calledFlowState.chainIndexes.Nodup ∧ (queueReset initialEngine).g_queueIsFull = false ∧
    (calledTaskEngine.g_queue calledTaskEngine.g_queueHead).flowState = some calledFlowState ∧
    ((queueReset initialEngine).refCounter 0, (queueReset initialEngine).refCounter 1,
      (queueReset initialEngine).refCounter 2) = (0, 0, 0) ∧
    (addToQueue exampleHost 0 (queueReset initialEngine) calledFlowState 0 (-1) (-1) (-1) false
      = .ok (calledTaskEngine, true)) ∧
    (calledTaskEngine.refCounter 0, calledTaskEngine.refCounter 1, calledTaskEngine.refCounter 2)
      = (1, 1, 0) ∧
    refCountersAfterRemove calledTaskEngine = some (0, 0, 0) ∧
    (∃ e1, addToQueue exampleHost 0 (queueReset initialEngine) calledFlowState 0 (-1) (-1) (-1)
        false = .ok (e1, true) ∧
      e1.g_queue (queueReset initialEngine).g_queueTail
        = QueueEntry.mk (some calledFlowState) 0 false ∧
      ∀ i, e1.refCounter i = (queueReset initialEngine).refCounter i
        + if i ∈ calledFlowState.chainIndexes then 1 else 0) ∧
    (∃ e3, removeNextTaskFromQueue calledTaskEngine = .ok e3 ∧
      ∀ i, e3.refCounter i = calledTaskEngine.refCounter i
        - if i ∈ calledFlowState.chainIndexes then 1 else 0) :=
  ⟨by decide, by decide, rfl, by decide, by decide, by rfl, by decide, by decide,
    (addToQueue_removeNextTaskFromQueue_refCounter exampleHost 0 calledFlowState 0 (-1) (-1) (-1)
      false (queueReset initialEngine) calledTaskEngine (by decide) rfl (by decide)).1,
    (addToQueue_removeNextTaskFromQueue_refCounter exampleHost 0 calledFlowState 0 (-1) (-1) (-1)
      false (queueReset initialEngine) calledTaskEngine (by decide) rfl (by decide)).2.2⟩

theorem findCatchErrorComponent_self {host : Host} {flowState : FlowState} {k : Nat}
    (h : findCatchErrorLoop host flowState.flow.components 0 = some k) :
    findCatchErrorComponent host flowState = some (flowState, k) := by
  cases flowState with
  | root i f a =>
    simp only [FlowState.flow] at h
    simp only [findCatchErrorComponent, h]
  | child i f a p c =>
    simp only [FlowState.flow] at h
    simp only [findCatchErrorComponent, h]

theorem setErrorFlags_self (flowState : FlowState) (error : Nat → Bool) :
    setErrorFlags flowState flowState error = .ok error := by
  cases flowState <;> simp [setErrorFlags]

theorem allocateComponentExecutionState_ok (host : Host) (e : Engine) {flowState : FlowState}
    {k : Nat} {c : Component} (hc : flowState.flow.components[k]? = some c)
    (state : ComponenentExecutionState) :
    ∃ e', allocateComponentExecutionState host e flowState k state = .ok e' ∧
      e'.g_queueIsFull = e.g_queueIsFull ∧ e'.g_enableThrowError = e.g_enableThrowError := by
  unfold allocateComponentExecutionState deallocateComponentExecutionState
  cases hs : e.componenentExecutionStates flowState.flowStateIndex k with
  | none => simp only [hc]; exact ⟨_, rfl, rfl, rfl⟩
  | some st => simp only [hc]; exact ⟨_, rfl, rfl, rfl⟩

/-- On a full queue, `throwError` for a component without wired error output,
other than an Error component, of a flow whose first CatchError component `k` has
no wired error output either, reaches `throwError` for component `k`. -/
theorem throwError_succ_of_catchError {host : Host} {flowState : FlowState} {k : Nat}
    {c : Component} (hfind : findCatchErrorLoop host flowState.flow.components 0 = some k)
    (hc : flowState.flow.components[k]? = some c)
    (hct : c.type = host.COMPONENT_TYPE_CATCH_ERROR_ACTION)
    (fuel : Nat) (e : Engine) (componentIndex : Nat) (component : Component)
    (errorMessage : String)
    (hcomp : flowState.flow.components[componentIndex]? = some component)
    (hout : component.errorCatchOutput = -1)
    (hty : component.type ≠ host.COMPONENT_TYPE_ERROR_ACTION)
    (hf : e.g_queueIsFull = true) (he : e.g_enableThrowError = true)
    (ih : ∀ e2 : Engine, e2.g_queueIsFull = true → e2.g_enableThrowError = true →
      flow.throwError host fuel e2 flowState k "Execution queue is full\n" = .error .outOfFuel) :
    flow.throwError host (fuel + 1) e flowState componentIndex errorMessage
      = .error .outOfFuel := by
  cases e with
  | mk q h t m f n en rc er v st ex hg gv tr =>
    simp only at hf he
    subst hf he
    obtain ⟨e2, ha, hf2, he2⟩ := allocateComponentExecutionState_ok host
      (Engine.mk q h t m true n true rc er v st ex hg gv tr) hc
      (.catchError (Value.makeStringRef
        (evalContext host (Engine.mk q h t m true n true rc er v st ex hg gv tr) flowState).env
        errorMessage))
    have hadd : addToQueueWith (flow.throwError host fuel) e2 flowState k
        (-1) (-1) (-1) false = .error .outOfFuel := by
      simp only [addToQueueWith, show e2.g_queueIsFull = true from hf2, if_true,
        ih e2 hf2 he2]
    simp only [flow.throwError, throwErrorBody, hcomp, Bool.not_true, Bool.false_eq_true,
      if_false, hout, ne_eq, not_true_eq_false, hty, Option.some_bind,
      findCatchErrorComponent_self hfind, setErrorFlags_self, hc, hct, if_true, ha, hadd]

theorem throwError_catchError_diverges {host : Host} {flowState : FlowState} {k : Nat}
    {c : Component} (hfind : findCatchErrorLoop host flowState.flow.components 0 = some k)
    (hc : flowState.flow.components[k]? = some c)
    (hct : c.type = host.COMPONENT_TYPE_CATCH_ERROR_ACTION) (hout : c.errorCatchOutput = -1) :
    ∀ (fuel : Nat) (e : Engine) (errorMessage : String), e.g_queueIsFull = true →
      e.g_enableThrowError = true →
      flow.throwError host fuel e flowState k errorMessage = .error .outOfFuel
  | 0, _, _, _, _ => rfl
  | fuel + 1, e, errorMessage, hf, he =>
    throwError_succ_of_catchError hfind hc hct fuel e k c errorMessage hc hout
      (by rw [hct]; simp [Host.COMPONENT_TYPE_CATCH_ERROR_ACTION, Host.COMPONENT_TYPE_ERROR_ACTION])
      hf he
      (fun e2 h1 h2 => throwError_catchError_diverges hfind hc hct hout fuel e2 _ h1 h2)

/-- C1 (the code at the failing input). With a full queue and a CatchError
component in the flow, `addToQueue` for a component without wired error output
does not return, whatever the recursion budget: `throwError` reaches
`addToQueue` for the CatchError component, which calls `throwError` again. -/
theorem addToQueue_full_catchError_never_returns (fuel : Nat) :
    getQueueSize fullQueueEngine = QUEUE_SIZE ∧
    addToQueue exampleHost fuel fullQueueEngine catchErrorFlowState 0 (-1) (-1) (-1) false
      = .error .outOfFuel := by
  refine ⟨by decide, ?_⟩
  have hfind : findCatchErrorLoop exampleHost catchErrorFlowState.flow.components 0 = some 1 := by
    decide
  have hdiv := @throwError_catchError_diverges exampleHost catchErrorFlowState 1
    ⟨1016, [], [], [], -1⟩ hfind rfl rfl rfl
  have : flow.throwError exampleHost fuel fullQueueEngine catchErrorFlowState 0
      "Execution queue is full\n" = .error .outOfFuel := by
    cases fuel with
    | zero => rfl
    | succ fuel =>
      exact throwError_succ_of_catchError hfind (c := ⟨1016, [], [], [], -1⟩) rfl rfl fuel
        fullQueueEngine 0 ⟨1012, [], [], [], -1⟩ _ rfl rfl (by decide) rfl rfl
        (fun e2 h1 h2 => hdiv fuel e2 _ h1 h2)
  simp only [addToQueue, addToQueueWith, show fullQueueEngine.g_queueIsFull = true from rfl,
    if_true, this]

theorem QueueHolds.getQueueSize {e : Engine} {tasks : List QueueEntry} (h : QueueHolds e tasks) :
    getQueueSize e = tasks.length := by
  obtain ⟨h1, h2, h3, h4, _⟩ := h
  unfold flow.getQueueSize
  unfold QUEUE_SIZE at *
  by_cases hf : e.g_queueIsFull = true
  · have := h4.mp hf
    simp only [hf, if_true]
    split
    · omega
    · split <;> omega
  · have hne : ¬ tasks.length = 1000 := fun hh => hf (h4.mpr hh)
    simp only [hf, Bool.false_eq_true, if_false]
    split
    · omega
    · split <;> omega

theorem QueueHolds.of_sameQueue {e e' : Engine} {tasks : List QueueEntry}
    (h : QueueHolds e tasks) (hs : SameQueue e e') : QueueHolds e' tasks := by
  obtain ⟨s1, s2, s3, _, s5, _, _⟩ := hs
  unfold QueueHolds at *
  rw [s1, s2, s3, s5]
  exact h

theorem queueInvariant_of_reachable {host : Host} {e : Engine}
    (hr : QueueReachable host true e) : QueueInvariant e := by
  induction hr with
  | reset e h =>
    refine ⟨[], QueueHolds.queueReset e, by simp, fun i => ?_⟩
    simp [queueCount, flow.queueReset, h i]
  | add e e' fuel flowState componentIndex s1 s2 t continuousTask ok _ hadd ih =>
    obtain ⟨tasks, hq, hsome, hcount⟩ := ih
    by_cases hf : e.g_queueIsFull = true
    · have hs := (addToQueue_full_of_returns host fuel e flowState componentIndex s1 s2 t
        continuousTask _ hf hadd).2.1
      exact ⟨tasks, hq.of_sameQueue hs, hsome, fun i => le_trans (hcount i) (hs.2.2.2.2.2.2 i)⟩
    · have hl : tasks.length < QUEUE_SIZE := by
        obtain ⟨_, h2, _, h4, _⟩ := hq
        have : ¬ tasks.length = QUEUE_SIZE := fun hh => hf (h4.mpr hh)
        omega
      obtain ⟨e1, he1, hq1, hr1, _⟩ := @QueueHolds.add (flow.throwError host fuel) _ _ hq hl flowState
        componentIndex s1 s2 t continuousTask
      simp only [addToQueue, he1, Except.ok.injEq, Prod.mk.injEq] at hadd
      obtain ⟨rfl, _⟩ := hadd
      refine ⟨_, hq1, ?_, fun i => ?_⟩
      · intro x hx
        rcases List.mem_append.mp hx with hx | hx
        · exact hsome x hx
        · simp only [List.mem_singleton] at hx
          exact ⟨flowState, by rw [hx]⟩
      · rw [hr1, incRefCounterForFlowState_apply]
        have := hcount i
        simp only [queueCount, List.map_append, List.sum_append, List.map_cons, List.map_nil,
          List.sum_cons, List.sum_nil, add_zero] at this ⊢
        omega
  | remove e e' _ hg hrem ih =>
    obtain ⟨tasks, hq, hsome, hcount⟩ := ih
    cases tasks with
    | nil =>
      have := hg rfl
      rw [hq.peek_nil] at this
      simp at this
    | cons x rest =>
      obtain ⟨flowState, hx⟩ := hsome x (List.mem_cons_self _ _)
      obtain ⟨e1, he1, hq1, hr1, _⟩ := hq.remove flowState hx
      rw [he1, Except.ok.injEq] at hrem
      subst hrem
      refine ⟨rest, hq1, fun y hy => hsome y (List.mem_cons_of_mem _ hy), fun i => ?_⟩
      rw [hr1, decRefCounterForFlowState_apply]
      have := hcount i
      simp only [queueCount, List.map_cons, List.sum_cons, hx] at this ⊢
      omega

theorem queueCount_pos {tasks : List QueueEntry} {k : Nat} (hk : k < tasks.length)
    {flowState : FlowState} (hx : tasks[k].flowState = some flowState) {i : Nat}
    (hi : i ∈ flowState.chainIndexes) : 0 < queueCount tasks i := by
  induction tasks generalizing k with
  | nil => simp at hk
  | cons x rest ih =>
    have hnonneg : ∀ (l : List QueueEntry), 0 ≤ queueCount l i := by
      intro l
      induction l with
      | nil => simp [queueCount]
      | cons y l ihl =>
        simp only [queueCount, List.map_cons, List.sum_cons] at ihl ⊢
        have : (0 : Int) ≤ (match y.flowState with
            | some flowState => (flowState.chainCount i : Int)
            | none => 0) := by
          split
          · exact Int.natCast_nonneg _
          · exact le_refl _
        omega
    cases k with
    | zero =>
      simp only [List.getElem_cons_zero] at hx
      have hc : 0 < flowState.chainCount i := List.count_pos_iff.mpr hi
      have := hnonneg rest
      simp only [queueCount, List.map_cons, List.sum_cons, hx] at this ⊢
      omega
    | succ k =>
      simp only [List.getElem_cons_succ] at hx
      have := ih (by simpa using hk) hx
      simp only [queueCount, List.map_cons, List.sum_cons] at this ⊢
      have : (0 : Int) ≤ (match x.flowState with
          | some flowState => (flowState.chainCount i : Int)
          | none => 0) := by
        split
        · exact Int.natCast_nonneg _
        · exact le_refl _
      omega

/-- C9. In every state reachable from `queueReset` with all reference counters
zero through `addToQueue` and `removeNextTaskFromQueue` (called, as `tick` calls
it, after `peekNextTaskFromQueue` returned true), a flow state that a queue
entry refers to, or an ancestor of such a flow state, has `refCounter > 0`, and
`canFreeFlowState` returns false for it. -/
theorem refCounter_pos_of_queued (host : Host) (e : Engine) (hr : QueueReachable host true e)
    (flowState : FlowState) (hq : queueReferences e flowState.flowStateIndex) :
    0 < e.refCounter flowState.flowStateIndex ∧ canFreeFlowState e flowState = false := by
  obtain ⟨tasks, hh, _, hcount⟩ := queueInvariant_of_reachable hr
  obtain ⟨k, fs, hk, hfs, hi⟩ := hq
  rw [hh.getQueueSize] at hk
  rw [hh.2.2.2.2 k hk] at hfs
  have hpos := lt_of_lt_of_le (queueCount_pos hk hfs hi) (hcount _)
  refine ⟨hpos, ?_⟩
  simp [canFreeFlowState, hpos]

/-- C9 (witness). After a task of `calledFlowState` is added to the reset queue,
its parent `callerFlowState`, to which no queue entry refers itself, has a
positive reference counter and cannot be freed. -/
theorem refCounter_pos_of_queued_witness :
    QueueReachable exampleHost true calledTaskEngine ∧
    queueReferences calledTaskEngine callerFlowState.flowStateIndex ∧
    calledFlowState.parentFlowState = some callerFlowState ∧
    (0 < calledTaskEngine.refCounter callerFlowState.flowStateIndex ∧
      canFreeFlowState calledTaskEngine callerFlowState = false) :=
  have hr : QueueReachable exampleHost true calledTaskEngine :=
    QueueReachable.add (queueReset initialEngine) calledTaskEngine 0 calledFlowState 0
      (-1) (-1) (-1) false true (QueueReachable.reset initialEngine (fun _ => rfl)) rfl
  have hq : queueReferences calledTaskEngine callerFlowState.flowStateIndex :=
    ⟨0, calledFlowState, by decide, by decide, by decide⟩
  ⟨hr, hq, rfl, refCounter_pos_of_queued exampleHost calledTaskEngine hr callerFlowState hq⟩

theorem queue_is_fifo_witness :
    ([⟨catchErrorFlowState, 0, -1, -1, -1, false⟩, ⟨catchErrorFlowState, 1, -1, -1, -1, true⟩] :
      List Task).length ≤ QUEUE_SIZE ∧
    ∃ e1 e2, addAllToQueue exampleHost 0
        [⟨catchErrorFlowState, 0, -1, -1, -1, false⟩, ⟨catchErrorFlowState, 1, -1, -1, -1, true⟩]
        (queueReset initialEngine) = .ok (e1, true) ∧
      peekAndRemove 2 e1
        = .ok ([(some catchErrorFlowState, 0, false), (some catchErrorFlowState, 1, true)], e2) ∧
      peekNextTaskFromQueue e2 = none :=
  ⟨by decide,
   queue_is_fifo exampleHost 0 initialEngine
     [⟨catchErrorFlowState, 0, -1, -1, -1, false⟩, ⟨catchErrorFlowState, 1, -1, -1, -1, true⟩]
     (by decide)⟩

theorem countSeqInputs_eq (e : Engine) (flowState : FlowState) :
    ∀ (inputs : List Nat) (n d : Nat),
      (∀ idx ∈ inputs, idx < flowState.flow.componentInputs.length) →
      countSeqInputs e flowState inputs (n, d)
        = .ok (if hasEmptyMandatoryInput e flowState inputs then none
               else some (n + numSeqInputs flowState inputs,
                          d + numDefinedSeqInputs e flowState inputs))
  | [], n, d, _ => by simp [countSeqInputs, hasEmptyMandatoryInput, numSeqInputs,
      numDefinedSeqInputs]
  | idx :: rest, n, d, h => by
    have hlt := h idx (List.mem_cons_self _ _)
    have hrest : ∀ j ∈ rest, j < flowState.flow.componentInputs.length :=
      fun j hj => h j (List.mem_cons_of_mem _ hj)
    obtain ⟨input, hin⟩ : ∃ input, flowState.flow.componentInputs[idx]? = some input :=
      ⟨_, List.getElem?_eq_getElem hlt⟩
    simp only [countSeqInputs, hin, hasEmptyMandatoryInput, numSeqInputs, numDefinedSeqInputs,
      List.any_cons, List.countP_cons]
    cases hs : input.isSeqInput <;> cases ho : input.isOptional <;>
      cases hem : isInputEmpty (e.values flowState.flowStateIndex idx) <;>
      simp [countSeqInputs_eq e flowState rest _ _ hrest, hasEmptyMandatoryInput, numSeqInputs,
        numDefinedSeqInputs, Nat.add_assoc, Nat.add_comm 1]

/-- C8. For a component of an action type other than Start, CatchError, OnEvent
and LabelIn, `isComponentReadyToRun` returns true exactly when every input that
is neither a sequence input nor optional is non-empty and, if the component has
a sequence input, at least one of its sequence inputs is non-empty. -/
theorem isComponentReadyToRun_iff (host : Host) (e : Engine) (flowState : FlowState)
    (componentIndex : Nat) (component : Component)
    (hc : flowState.flow.components[componentIndex]? = some component)
    (haction : host.COMPONENT_TYPE_START_ACTION < component.type ∧
      component.type < host.FIRST_DASHBOARD_WIDGET_COMPONENT_TYPE)
    (h1 : component.type ≠ host.COMPONENT_TYPE_CATCH_ERROR_ACTION)
    (h2 : component.type ≠ host.COMPONENT_TYPE_ON_EVENT_ACTION)
    (h3 : component.type ≠ host.COMPONENT_TYPE_LABEL_IN_ACTION)
    (hin : ∀ idx ∈ component.inputs, idx < flowState.flow.componentInputs.length) :
    ∃ ready, isComponentReadyToRun host e flowState componentIndex = .ok ready ∧
      (ready = true ↔
        (∀ idx ∈ component.inputs, ∀ input, flowState.flow.componentInputs[idx]? = some input →
          input.isSeqInput = false → input.isOptional = false →
          isInputEmpty (e.values flowState.flowStateIndex idx) = false) ∧
        ((∃ idx ∈ component.inputs, ∃ input,
            flowState.flow.componentInputs[idx]? = some input ∧ input.isSeqInput = true) →
          ∃ idx ∈ component.inputs, ∃ input,
            flowState.flow.componentInputs[idx]? = some input ∧ input.isSeqInput = true ∧
            isInputEmpty (e.values flowState.flowStateIndex idx) = false)) := by
  have hA : hasEmptyMandatoryInput e flowState component.inputs = false ↔
      ∀ idx ∈ component.inputs, ∀ input, flowState.flow.componentInputs[idx]? = some input →
        input.isSeqInput = false → input.isOptional = false →
        isInputEmpty (e.values flowState.flowStateIndex idx) = false := by
    simp only [hasEmptyMandatoryInput, List.any_eq_false]
    constructor
    · intro h idx hidx input hi hs ho
      have := h idx hidx
      simp only [hi, hs, ho, Bool.not_false, Bool.true_and, Bool.not_eq_true] at this
      exact this
    · intro h idx hidx
      cases hi : flowState.flow.componentInputs[idx]? with
      | none => simp
      | some input =>
        have := h idx hidx input hi
        simpa using this
  have hB : (0 < numSeqInputs flowState component.inputs) ↔
      ∃ idx ∈ component.inputs, ∃ input,
        flowState.flow.componentInputs[idx]? = some input ∧ input.isSeqInput = true := by
    simp only [numSeqInputs, List.countP_pos_iff]
    constructor
    · rintro ⟨idx, hidx, h⟩
      cases hi : flowState.flow.componentInputs[idx]? with
      | none => simp [hi] at h
      | some input => exact ⟨idx, hidx, input, hi, by simpa [hi] using h⟩
    · rintro ⟨idx, hidx, input, hi, hs⟩
      exact ⟨idx, hidx, by simp [hi, hs]⟩
  have hC : (0 < numDefinedSeqInputs e flowState component.inputs) ↔
      ∃ idx ∈ component.inputs, ∃ input,
        flowState.flow.componentInputs[idx]? = some input ∧ input.isSeqInput = true ∧
        isInputEmpty (e.values flowState.flowStateIndex idx) = false := by
    simp only [numDefinedSeqInputs, List.countP_pos_iff]
    constructor
    · rintro ⟨idx, hidx, h⟩
      cases hi : flowState.flow.componentInputs[idx]? with
      | none => simp [hi] at h
      | some input => exact ⟨idx, hidx, input, hi, by simpa [hi] using h⟩
    · rintro ⟨idx, hidx, input, hi, hs, hem⟩
      exact ⟨idx, hidx, by simp [hi, hs, hem]⟩
  have hlt : ¬ (component.type < host.COMPONENT_TYPE_START_ACTION ∨
      host.FIRST_DASHBOARD_WIDGET_COMPONENT_TYPE ≤ component.type) := by omega
  have hne : ¬ component.type = host.COMPONENT_TYPE_START_ACTION := by omega
  simp only [isComponentReadyToRun, hc, h1, h2, h3, hlt, hne, if_false,
    countSeqInputs_eq e flowState component.inputs 0 0 hin, zero_add]
  rw [← hA, ← hB, ← hC]
  cases hE : hasEmptyMandatoryInput e flowState component.inputs
  · simp only [Bool.false_eq_true, if_false]
    by_cases hz : numSeqInputs flowState component.inputs ≠ 0 ∧
        numDefinedSeqInputs e flowState component.inputs = 0
    · refine ⟨false, by rw [if_pos hz], ?_⟩
      simp only [Bool.false_eq_true, true_and, false_iff, not_forall]
      exact ⟨by omega, by omega⟩
    · refine ⟨true, by rw [if_neg hz], ?_⟩
      simp only [true_and, true_iff]
      intro hp
      omega
  · exact ⟨false, by simp, by simp⟩

/-- C6 (counterexample). The Loop component with From = 0, To = 5 and Step = 1,
started by one start pulse and re-triggered after each sequence output,
propagates through its sequence output at its sixth execution too: after six
executions it has propagated six times through output 0 and not yet through the
completed output, the variable holding 5. -/
theorem loop_sixth_execution_propagates_seqout :
    outputsOfRun (runLoop exampleHost 1 6 loopStartEngine) = some [0, 0, 0, 0, 0, 0] ∧
    loopVariableOfRun (runLoop exampleHost 1 6 loopStartEngine) = some 5 := by
  decide

/-- C6 (amended). The Loop component with From = 0, To = 5 and Step = 1 assigning
to a variable, started by one start pulse and re-triggered after each sequence
output, propagates through its sequence output exactly 6 times, the variable
holding 0, 1, 2, 3, 4 and 5 in turn, and then, at its seventh execution,
propagates through its completed output (output 1) once; an execution after
that propagates nothing. -/
theorem loop_from_0_to_5_propagates_six_times :
    outputsOfRun (runLoop exampleHost 1 7 loopStartEngine) = some [0, 0, 0, 0, 0, 0, 1] ∧
    (List.range 7).map (fun n => loopVariableOfRun (runLoop exampleHost 1 n loopStartEngine))
      = [some 0, some 0, some 1, some 2, some 3, some 4, some 5] ∧
    outputsOfRun (runLoop exampleHost 1 8 loopStartEngine) = some [0, 0, 0, 0, 0, 0, 1] := by
  decide

/-- C7 (the code at the failing input). A Delay component of 500 ms started at
the clock reading 4294967000 propagates through its sequence output when it is
executed at the reading 4294967100, 100 ms after its start: the deadline
`millis() + 500` wrapped around to 204, which the reading already exceeds.
Started at the reading 1000 it does not propagate at the readings 1100 and 1499,
and propagates at 1500. -/
theorem executeDelayComponent_propagates_before_deadline :
    wrapSub 4294967100 4294967000 = 100 ∧
    outputsOfRun (runDelay exampleHost 1 [4294967000] initialEngine) = some [] ∧
    outputsOfRun (runDelay exampleHost 1 [4294967000, 4294967100] initialEngine) = some [0] ∧
    outputsOfRun (runDelay exampleHost 1 [1000, 1100, 1499] initialEngine) = some [] ∧
    outputsOfRun (runDelay exampleHost 1 [1000, 1100, 1499, 1500] initialEngine) = some [0] := by
  decide

theorem isComponentReadyToRun_iff_witness :
    (exampleHost.COMPONENT_TYPE_START_ACTION < loopComponent.type ∧
      loopComponent.type < exampleHost.FIRST_DASHBOARD_WIDGET_COMPONENT_TYPE) ∧
    ∃ ready, isComponentReadyToRun exampleHost loopStartEngine loopFlowState 0 = .ok ready ∧
      (ready = true ↔
        (∀ idx ∈ loopComponent.inputs, ∀ input, loopFlowState.flow.componentInputs[idx]? = some input →
          input.isSeqInput = false → input.isOptional = false →
          isInputEmpty (loopStartEngine.values loopFlowState.flowStateIndex idx) = false) ∧
        ((∃ idx ∈ loopComponent.inputs, ∃ input,
            loopFlowState.flow.componentInputs[idx]? = some input ∧ input.isSeqInput = true) →
          ∃ idx ∈ loopComponent.inputs, ∃ input,
            loopFlowState.flow.componentInputs[idx]? = some input ∧ input.isSeqInput = true ∧
            isInputEmpty (loopStartEngine.values loopFlowState.flowStateIndex idx) = false)) :=
  ⟨by decide,
   isComponentReadyToRun_iff exampleHost loopStartEngine loopFlowState 0
     loopComponent rfl (by decide) (by decide) (by decide) (by decide) (by decide)⟩

end flow
end eez

namespace eez

theorem Value.getValue_of_int32 {env : ValueEnv} {v : Value} (h : v.type = .INT32) :
    v.getValue env.resolve = v ∧ v.isError = false ∧ v.isDouble = false ∧ v.isFloat = false ∧
      v.isInt64 = false ∧ v.isInt32OrLess = true ∧ v.isBlob = false ∧ v.isString = false := by
  simp [Value.getValue, Value.isIndirectValueType, Value.isError, Value.isDouble, Value.isFloat,
    Value.isInt64, Value.isInt32OrLess, Value.isBlob, Value.isString, h]

theorem wrapInt32_range (x : Int) :
    -2147483648 ≤ wrapInt32 x ∧ wrapInt32 x < 2147483648 := by
  unfold wrapInt32; omega

theorem wrapInt32_modEq (x : Int) : wrapInt32 x % 4294967296 = x % 4294967296 := by
  unfold wrapInt32; omega

theorem tmod_int32_range {a b : Int} (ha1 : -2147483648 ≤ a) (ha2 : a < 2147483648) :
    -2147483648 ≤ Int.tmod a b ∧ Int.tmod a b < 2147483648 := by
  rcases a with m | m <;> rcases b with n | n
  · have := Nat.mod_le m n
    simp only [Int.tmod, Int.ofNat_eq_coe] at *
    omega
  · have := Nat.mod_le m (Nat.succ n)
    simp only [Int.tmod, Int.ofNat_eq_coe] at *
    omega
  · have := Nat.mod_le (Nat.succ m) n
    simp only [Int.tmod, Int.ofNat_eq_coe, Int.negSucc_eq] at *
    omega
  · have := Nat.mod_le (Nat.succ m) (Nat.succ n)
    simp only [Int.tmod, Int.ofNat_eq_coe, Int.negSucc_eq] at *
    omega

theorem wrapInt32_of_range {x : Int} (h1 : -2147483648 ≤ x) (h2 : x < 2147483648) :
    wrapInt32 x = x := by
  unfold wrapInt32; omega

namespace Dbl

theorem roundHalfEven_sub_le (x : ℚ) : |(roundHalfEven x : ℚ) - x| ≤ 1 / 2 := by
  have h0 := Int.fract_nonneg x
  have h1 := Int.fract_lt_one x
  have hx : x = ⌊x⌋ + Int.fract x := (Int.floor_add_fract x).symm
  unfold roundHalfEven
  split_ifs with a b c
  · rw [abs_le]; constructor <;> linarith
  · push_cast; rw [abs_le]; constructor <;> linarith
  · rw [abs_le]; constructor <;> linarith
  · push_cast; rw [abs_le]; constructor <;> linarith

theorem roundHalfEven_intCast (n : ℤ) : roundHalfEven (n : ℚ) = n := by
  unfold roundHalfEven
  simp

theorem roundHalfEven_le {x : ℚ} {n : ℤ} (h : x ≤ n) : roundHalfEven x ≤ n := by
  have := roundHalfEven_sub_le x
  rw [abs_le] at this
  have h2 : (roundHalfEven x : ℚ) < n + 1 := by linarith
  have : roundHalfEven x < n + 1 := by exact_mod_cast h2
  omega

theorem le_roundHalfEven {x : ℚ} {n : ℤ} (h : (n : ℚ) ≤ x) : n ≤ roundHalfEven x := by
  have := roundHalfEven_sub_le x
  rw [abs_le] at this
  have h2 : (n : ℚ) - 1 < roundHalfEven x := by linarith
  have : n - 1 < roundHalfEven x := by exact_mod_cast h2
  omega

theorem roundHalfEven_eq {x : ℚ} {k : ℤ} (h : |x - k| < 1 / 2) : roundHalfEven x = k := by
  have := roundHalfEven_sub_le x
  rw [abs_le] at this
  rw [abs_lt] at h
  have h1 : (roundHalfEven x : ℚ) < k + 1 := by linarith
  have h2 : (k : ℚ) - 1 < roundHalfEven x := by linarith
  have h1' : roundHalfEven x < k + 1 := by exact_mod_cast h1
  have h2' : k - 1 < roundHalfEven x := by exact_mod_cast h2
  omega


theorem Format.precision_pos (f : Format) : 1 ≤ f.precision := by
  cases f <;> decide

theorem Format.emin_lt_emax (f : Format) : f.emin + 1 < f.emax := by
  cases f <;> decide

theorem two_zpow_toNat {P : ℤ} (hP : 0 ≤ P) : (((2 : ℤ) ^ P.toNat : ℤ) : ℚ) = (2 : ℚ) ^ P := by
  have h : ((P.toNat : ℤ)) = P := Int.toNat_of_nonneg hP
  rw [← h, zpow_natCast]
  push_cast
  rw [Int.toNat_natCast]

/-- The scaled value `q / 2 ^ quantum` is below `2 ^ precision` in magnitude. -/
theorem abs_div_quantum_lt (f : Format) (q : ℚ) :
    |q / 2 ^ f.quantum q| < (2 : ℚ) ^ f.precision := by
  have hp : (0 : ℚ) < 2 ^ f.quantum q := zpow_pos (by norm_num) _
  have h1 : |q| < (2 : ℚ) ^ (Int.log 2 |q| + 1) := by
    have := Int.lt_zpow_succ_log_self (b := 2) (by norm_num) |q|
    exact_mod_cast this
  have h2 : (2 : ℚ) ^ (Int.log 2 |q| + 1) ≤ 2 ^ (f.quantum q + f.precision) := by
    apply zpow_le_zpow_right₀ (by norm_num)
    unfold Format.quantum
    have := le_max_left (Int.log 2 |q|) f.emin
    omega
  rw [abs_div, abs_of_pos hp, div_lt_iff₀ hp, ← zpow_add₀ (by norm_num : (2 : ℚ) ≠ 0),
    add_comm]
  exact lt_of_lt_of_le h1 h2

/-- What `roundRat` returns for a number whose magnitude is below the largest
power of two of the format: a multiple `k * 2 ^ quantum` with `|k| ≤ 2 ^ precision`
that is within half a unit in the last place of `q`. -/
theorem roundRat_spec (f : Format) (q : ℚ) (h : max (Int.log 2 |q|) f.emin + 1 < f.emax) :
    ∃ k : ℤ, roundRat f q = fin ((k : ℚ) * 2 ^ f.quantum q) ∧
      |(k : ℚ)| ≤ 2 ^ f.precision ∧
      |(k : ℚ) * 2 ^ f.quantum q - q| ≤ 2 ^ f.quantum q / 2 := by
  have hp : (0 : ℚ) < 2 ^ f.quantum q := zpow_pos (by norm_num) _
  have hP : 0 ≤ f.precision := le_trans (by decide) f.precision_pos
  have hx := abs_div_quantum_lt f q
  rw [← two_zpow_toNat hP, abs_lt] at hx
  have hk1 : roundHalfEven (q / 2 ^ f.quantum q) ≤ (2 : ℤ) ^ f.precision.toNat :=
    roundHalfEven_le (le_of_lt hx.2)
  have hk2 : -((2 : ℤ) ^ f.precision.toNat) ≤ roundHalfEven (q / 2 ^ f.quantum q) :=
    le_roundHalfEven (by push_cast; push_cast at hx; exact le_of_lt hx.1)
  have hk : |((roundHalfEven (q / 2 ^ f.quantum q) : ℤ) : ℚ)| ≤ 2 ^ f.precision := by
    rw [← two_zpow_toNat hP, abs_le]
    constructor
    · exact_mod_cast hk2
    · exact_mod_cast hk1
  have herr : |((roundHalfEven (q / 2 ^ f.quantum q) : ℤ) : ℚ) * 2 ^ f.quantum q - q|
      ≤ 2 ^ f.quantum q / 2 := by
    have := roundHalfEven_sub_le (q / 2 ^ f.quantum q)
    have h3 : ((roundHalfEven (q / 2 ^ f.quantum q) : ℤ) : ℚ) * 2 ^ f.quantum q - q
        = ((roundHalfEven (q / 2 ^ f.quantum q) : ℚ) - q / 2 ^ f.quantum q) * 2 ^ f.quantum q := by
      field_simp
    rw [h3, abs_mul, abs_of_pos hp]
    calc _ ≤ 1 / 2 * 2 ^ f.quantum q := mul_le_mul_of_nonneg_right this (le_of_lt hp)
      _ = 2 ^ f.quantum q / 2 := by ring
  have hov : ¬ (2 : ℚ) ^ f.emax ≤
      |((roundHalfEven (q / 2 ^ f.quantum q) : ℤ) : ℚ) * 2 ^ f.quantum q| := by
    rw [not_le, abs_mul, abs_of_pos hp]
    calc _ ≤ (2 : ℚ) ^ f.precision * 2 ^ f.quantum q :=
          mul_le_mul_of_nonneg_right hk (le_of_lt hp)
      _ = 2 ^ (max (Int.log 2 |q|) f.emin + 1) := by
          rw [← zpow_add₀ (by norm_num : (2 : ℚ) ≠ 0)]
          congr 1
          unfold Format.quantum
          omega
      _ < 2 ^ f.emax := zpow_lt_zpow_right₀ (by norm_num) h
  refine ⟨roundHalfEven (q / 2 ^ f.quantum q), ?_, hk, herr⟩
  unfold roundRat
  simp only [if_neg hov]


theorem log_two_abs_eq {q : ℚ} {e : ℤ} (h1 : (2 : ℚ) ^ e ≤ |q|) (h2 : |q| < 2 ^ (e + 1)) :
    Int.log 2 |q| = e := by
  have hpos : 0 < |q| := lt_of_lt_of_le (zpow_pos (by norm_num) _) h1
  have a1 : e ≤ Int.log 2 |q| :=
    (Int.zpow_le_iff_le_log (b := 2) (by norm_num) hpos).mp (by exact_mod_cast h1)
  have a2 : Int.log 2 |q| < e + 1 :=
    (Int.lt_zpow_iff_log_lt (b := 2) (by norm_num) hpos).mp (by exact_mod_cast h2)
  omega

/-- The value `roundRat` returns when the exponent and the nearest multiple of the
unit in the last place are known. -/
theorem roundRat_eq_of (f : Format) (q : ℚ) (e k : ℤ) (h1 : (2 : ℚ) ^ e ≤ |q|)
    (h2 : |q| < 2 ^ (e + 1)) (he : f.emin ≤ e)
    (hk : |q / 2 ^ (e - (f.precision - 1)) - k| < 1 / 2)
    (hov : |(k : ℚ) * 2 ^ (e - (f.precision - 1))| < 2 ^ f.emax) :
    roundRat f q = fin ((k : ℚ) * 2 ^ (e - (f.precision - 1))) := by
  have hq : f.quantum q = e - (f.precision - 1) := by
    unfold Format.quantum
    rw [log_two_abs_eq h1 h2, max_eq_left he]
  unfold roundRat
  simp only [hq, roundHalfEven_eq hk, if_neg (not_le.mpr hov)]

theorem roundRat_zero (f : Format) : roundRat f 0 = fin 0 := by
  have h : ¬ (2 : ℚ) ^ f.emax ≤ 0 := not_le.mpr (zpow_pos (by norm_num) _)
  unfold roundRat
  simp [roundHalfEven, h]

/-- A number of the format is rounded to itself. -/
theorem roundRat_of_represents (f : Format) (q : ℚ) (h : f.represents q) :
    roundRat f q = fin q := by
  obtain ⟨hmax, m, t, hm, ht, rfl⟩ := h
  by_cases hq0 : (m : ℚ) * 2 ^ t = 0
  · rw [hq0]; exact roundRat_zero f
  have h2t : (0 : ℚ) < 2 ^ t := zpow_pos (by norm_num) _
  have hpos : 0 < |(m : ℚ) * 2 ^ t| := abs_pos.mpr hq0
  have hpt : f.quantum ((m : ℚ) * 2 ^ t) ≤ t := by
    have h1 : (2 : ℚ) ^ Int.log 2 |(m : ℚ) * 2 ^ t| ≤ |(m : ℚ) * 2 ^ t| := by
      have := Int.zpow_log_le_self (b := 2) (by norm_num) hpos
      exact_mod_cast this
    have h3 : |(m : ℚ) * 2 ^ t| < 2 ^ (f.precision + t) := by
      rw [abs_mul, abs_of_pos h2t, zpow_add₀ (by norm_num : (2 : ℚ) ≠ 0)]
      exact mul_lt_mul_of_pos_right hm h2t
    have h4 : Int.log 2 |(m : ℚ) * 2 ^ t| < f.precision + t :=
      (zpow_lt_zpow_iff_right₀ (by norm_num : (1 : ℚ) < 2)).mp (lt_of_le_of_lt h1 h3)
    unfold Format.quantum
    rcases max_cases (Int.log 2 |(m : ℚ) * 2 ^ t|) f.emin with ⟨hm1, _⟩ | ⟨hm1, _⟩ <;>
      rw [hm1] <;> omega
  have hx : (m : ℚ) * 2 ^ t / 2 ^ f.quantum ((m : ℚ) * 2 ^ t)
      = ((m * 2 ^ (t - f.quantum ((m : ℚ) * 2 ^ t)).toNat : ℤ) : ℚ) := by
    push_cast
    rw [mul_div_assoc, ← zpow_sub₀ (by norm_num : (2 : ℚ) ≠ 0), ← zpow_natCast,
      Int.toNat_of_nonneg (by omega)]
  have hv : ((m * 2 ^ (t - f.quantum ((m : ℚ) * 2 ^ t)).toNat : ℤ) : ℚ)
      * 2 ^ f.quantum ((m : ℚ) * 2 ^ t) = (m : ℚ) * 2 ^ t := by
    rw [← hx]
    field_simp
  unfold roundRat
  simp only [hx, roundHalfEven_intCast, hv, if_neg (not_le.mpr hmax)]

/-- The multiples `k * 2 ^ quantum` with `|k| ≤ 2 ^ precision` below `2 ^ emax` are
numbers of the format. -/
theorem represents_of_multiple (f : Format) (q : ℚ) (k : ℤ) (hk : |(k : ℚ)| ≤ 2 ^ f.precision)
    (hmax : |(k : ℚ) * 2 ^ f.quantum q| < 2 ^ f.emax) :
    f.represents ((k : ℚ) * 2 ^ f.quantum q) := by
  have hP := f.precision_pos
  have hq : f.emin - (f.precision - 1) ≤ f.quantum q := by
    unfold Format.quantum
    have := le_max_right (Int.log 2 |q|) f.emin
    omega
  refine ⟨hmax, ?_⟩
  rcases lt_or_eq_of_le hk with hlt | heq
  · exact ⟨k, f.quantum q, hlt, hq, rfl⟩
  · have h2 : (2 : ℚ) ^ f.precision = ((2 ^ (f.precision - 1).toNat * 2 : ℤ) : ℚ) := by
      push_cast
      rw [← zpow_natCast, Int.toNat_of_nonneg (by omega), ← zpow_add_one₀ (by norm_num)]
      congr 1
      omega
    rw [h2] at heq
    have hk' : |k| = 2 ^ (f.precision - 1).toNat * 2 := by exact_mod_cast heq
    have hhalf : |((2 : ℚ) ^ (f.precision - 1))| < 2 ^ f.precision := by
      rw [abs_of_pos (zpow_pos (by norm_num) _)]
      exact zpow_lt_zpow_right₀ (by norm_num) (by omega)
    have hcast : (((2 : ℤ) ^ (f.precision - 1).toNat : ℤ) : ℚ) = (2 : ℚ) ^ (f.precision - 1) :=
      two_zpow_toNat (by omega)
    have hcast' : ((2 : ℚ) ^ (f.precision - 1).toNat) = (2 : ℚ) ^ (f.precision - 1) := by
      have := hcast
      push_cast at this
      exact this
    rcases abs_choice k with hc | hc
    · have hkq : (k : ℚ) = 2 ^ (f.precision - 1) * 2 := by
        have h3 : k = 2 ^ (f.precision - 1).toNat * 2 := hc.symm.trans hk'
        rw [h3]
        push_cast
        rw [hcast']
      refine ⟨2 ^ (f.precision - 1).toNat, f.quantum q + 1, ?_, by omega, ?_⟩
      · rw [hcast]; exact hhalf
      · rw [hcast, zpow_add_one₀ (by norm_num), hkq]
        ring
    · have hkq : (k : ℚ) = -(2 ^ (f.precision - 1) * 2) := by
        have h3 : k = -(2 ^ (f.precision - 1).toNat * 2) := by omega
        rw [h3]
        push_cast
        rw [hcast']
      refine ⟨-2 ^ (f.precision - 1).toNat, f.quantum q + 1, ?_, by omega, ?_⟩
      · push_cast
        rw [abs_neg, hcast']
        exact hhalf
      · rw [zpow_add_one₀ (by norm_num), hkq]
        push_cast
        rw [hcast']
        ring

/-- Rounding of a number in the normal range that is below the largest power of
two of the format: the result is a number of the format within the relative
error `2 ^ -precision` of `q`. -/
theorem roundRat_near (f : Format) (q : ℚ) (hmin : (2 : ℚ) ^ f.emin ≤ |q|)
    (hmax : |q| < 2 ^ (f.emax - 1)) :
    ∃ v : ℚ, roundRat f q = fin v ∧ f.represents v ∧ |v - q| ≤ |q| / 2 ^ f.precision := by
  have hpos : 0 < |q| := lt_of_lt_of_le (zpow_pos (by norm_num) _) hmin
  have a1 : f.emin ≤ Int.log 2 |q| :=
    (Int.zpow_le_iff_le_log (b := 2) (by norm_num) hpos).mp (by exact_mod_cast hmin)
  have a2 : Int.log 2 |q| < f.emax - 1 :=
    (Int.lt_zpow_iff_log_lt (b := 2) (by norm_num) hpos).mp (by exact_mod_cast hmax)
  have hlog : max (Int.log 2 |q|) f.emin + 1 < f.emax := by
    rw [max_eq_left a1]; omega
  obtain ⟨k, hr, hk, herr⟩ := roundRat_spec f q hlog
  have hfin : |(k : ℚ) * 2 ^ f.quantum q| < 2 ^ f.emax := by
    have hp : (0 : ℚ) < 2 ^ f.quantum q := zpow_pos (by norm_num) _
    rw [abs_mul, abs_of_pos hp]
    calc _ ≤ (2 : ℚ) ^ f.precision * 2 ^ f.quantum q :=
          mul_le_mul_of_nonneg_right hk (le_of_lt hp)
      _ = 2 ^ (max (Int.log 2 |q|) f.emin + 1) := by
          rw [← zpow_add₀ (by norm_num : (2 : ℚ) ≠ 0)]
          congr 1
          unfold Format.quantum
          omega
      _ < 2 ^ f.emax := zpow_lt_zpow_right₀ (by norm_num) hlog
  refine ⟨_, hr, represents_of_multiple f q k hk hfin, le_trans herr ?_⟩
  have h1 : (2 : ℚ) ^ Int.log 2 |q| ≤ |q| := by
    have := Int.zpow_log_le_self (b := 2) (by norm_num) hpos
    exact_mod_cast this
  have hqe : f.quantum q = Int.log 2 |q| + (1 - f.precision) := by
    unfold Format.quantum
    rw [max_eq_left a1]; omega
  have hPpos : (0 : ℚ) < 2 ^ f.precision := zpow_pos (by norm_num) _
  rw [hqe, zpow_add₀ (by norm_num : (2 : ℚ) ≠ 0), zpow_sub₀ (by norm_num : (2 : ℚ) ≠ 0), zpow_one]
  rw [div_le_div_iff₀ (by norm_num) hPpos]
  have : (2 : ℚ) ^ Int.log 2 |q| * (2 / 2 ^ f.precision) * 2 ^ f.precision
      = 2 ^ Int.log 2 |q| * 2 := by field_simp
  rw [this]
  linarith


theorem roundHalfEven_nearest (x : ℚ) (j : ℤ) :
    |(roundHalfEven x : ℚ) - x| ≤ |(j : ℚ) - x| := by
  have h := roundHalfEven_sub_le x
  by_cases hj : j = roundHalfEven x
  · rw [hj]
  · have h1 : (1 : ℤ) ≤ |j - roundHalfEven x| := Int.one_le_abs (sub_ne_zero.mpr hj)
    have h2 : (1 : ℚ) ≤ |(j : ℚ) - (roundHalfEven x : ℚ)| := by exact_mod_cast h1
    have h3 : |(j : ℚ) - (roundHalfEven x : ℚ)|
        ≤ |(j : ℚ) - x| + |(roundHalfEven x : ℚ) - x| := by
      have := abs_sub_le (j : ℚ) x (roundHalfEven x : ℚ)
      rwa [abs_sub_comm x (roundHalfEven x : ℚ)] at this
    linarith

/-- The finite result of `roundRat` is a number of the form `k * 2 ^ quantum` that
is nearest to `q` among these. -/
theorem roundRat_fin {f : Format} {q v : ℚ} (h : roundRat f q = fin v) :
    v = (roundHalfEven (q / 2 ^ f.quantum q) : ℚ) * 2 ^ f.quantum q ∧
    ∀ j : ℤ, |v - q| ≤ |(j : ℚ) * 2 ^ f.quantum q - q| := by
  have hp : (0 : ℚ) < 2 ^ f.quantum q := zpow_pos (by norm_num) _
  unfold roundRat at h
  simp only at h
  split at h
  · split at h <;> cases h
  · have hv := (Dbl.fin.inj h).symm
    refine ⟨hv, fun j => ?_⟩
    have e1 : v - q = ((roundHalfEven (q / 2 ^ f.quantum q) : ℚ) - q / 2 ^ f.quantum q)
        * 2 ^ f.quantum q := by
      rw [hv]; field_simp
    have e2 : (j : ℚ) * 2 ^ f.quantum q - q = ((j : ℚ) - q / 2 ^ f.quantum q)
        * 2 ^ f.quantum q := by
      field_simp
    rw [e1, e2, abs_mul, abs_mul, abs_of_pos hp]
    exact mul_le_mul_of_nonneg_right (roundHalfEven_nearest _ j) (le_of_lt hp)

/-- Rounding is to nearest: no number of the format is nearer to `q` than the
finite result of `roundRat`. -/
theorem roundRat_nearest (f : Format) (q v d : ℚ) (h : roundRat f q = fin v)
    (hd : f.represents d) : |v - q| ≤ |d - q| := by
  obtain ⟨hv, hnear⟩ := roundRat_fin h
  obtain ⟨_, m, t, hm, ht, rfl⟩ := hd
  have hP := f.precision_pos
  have h2t : (0 : ℚ) < 2 ^ t := zpow_pos (by norm_num) _
  by_cases htp : f.quantum q ≤ t
  · have hx : (m : ℚ) * 2 ^ t = ((m * 2 ^ (t - f.quantum q).toNat : ℤ) : ℚ) * 2 ^ f.quantum q := by
      push_cast
      rw [mul_assoc, ← zpow_natCast, Int.toNat_of_nonneg (by omega),
        ← zpow_add₀ (by norm_num : (2 : ℚ) ≠ 0)]
      congr 2
      omega
    rw [hx]
    exact hnear _
  · by_cases hq0 : q = 0
    · subst hq0
      rw [hv]
      simp [roundHalfEven]
    have hpos : 0 < |q| := abs_pos.mpr hq0
    have hlog : f.quantum q = Int.log 2 |q| - (f.precision - 1) := by
      unfold Format.quantum at htp ⊢
      rcases max_cases (Int.log 2 |q|) f.emin with ⟨hm1, _⟩ | ⟨hm1, _⟩
      · rw [hm1]
      · rw [hm1] at htp; omega
    have h1 : (2 : ℚ) ^ Int.log 2 |q| ≤ |q| := by
      have := Int.zpow_log_le_self (b := 2) (by norm_num) hpos
      exact_mod_cast this
    have hdlt : |(m : ℚ) * 2 ^ t| < 2 ^ Int.log 2 |q| := by
      rw [abs_mul, abs_of_pos h2t]
      calc |(m : ℚ)| * 2 ^ t < 2 ^ f.precision * 2 ^ t := mul_lt_mul_of_pos_right hm h2t
        _ = 2 ^ (f.precision + t) := (zpow_add₀ (by norm_num : (2 : ℚ) ≠ 0) _ _).symm
        _ ≤ 2 ^ Int.log 2 |q| := zpow_le_zpow_right₀ (by norm_num) (by omega)
    have hpow : (2 : ℚ) ^ Int.log 2 |q|
        = ((2 ^ (f.precision - 1).toNat : ℤ) : ℚ) * 2 ^ f.quantum q := by
      rw [two_zpow_toNat (by omega), ← zpow_add₀ (by norm_num : (2 : ℚ) ≠ 0)]
      congr 1
      omega
    rcases lt_or_gt_of_ne hq0 with hneg | hposq
    · have hg := hnear (-(2 ^ (f.precision - 1).toNat))
      have hge : ((-(2 ^ (f.precision - 1).toNat) : ℤ) : ℚ) * 2 ^ f.quantum q
          = -(2 : ℚ) ^ Int.log 2 |q| := by
        rw [hpow]; push_cast; ring
      rw [hge] at hg
      have h1 : (2 : ℚ) ^ Int.log 2 |q| ≤ -q := h1.trans (le_of_eq (abs_of_neg hneg))
      rw [abs_lt] at hdlt
      have hg2 : |-(2 : ℚ) ^ Int.log 2 |q| - q| = -(2 : ℚ) ^ Int.log 2 |q| - q :=
        abs_of_nonneg (by linarith)
      rw [hg2] at hg
      have : -(2 : ℚ) ^ Int.log 2 |q| - q ≤ |(m : ℚ) * 2 ^ t - q| :=
        le_trans (by linarith) (le_abs_self _)
      linarith
    · have hg := hnear (2 ^ (f.precision - 1).toNat)
      rw [← hpow] at hg
      have h1 : (2 : ℚ) ^ Int.log 2 |q| ≤ q := h1.trans (le_of_eq (abs_of_pos hposq))
      rw [abs_lt] at hdlt
      have hg2 : |(2 : ℚ) ^ Int.log 2 |q| - q| = q - (2 : ℚ) ^ Int.log 2 |q| := by
        rw [abs_sub_comm]
        exact abs_of_nonneg (by linarith)
      rw [hg2] at hg
      have : q - (2 : ℚ) ^ Int.log 2 |q| ≤ |(m : ℚ) * 2 ^ t - q| := by
        rw [abs_sub_comm]
        exact le_trans (by linarith) (le_abs_self _)
      linarith

end Dbl
/-- The double that `op_div` holds for two int32 operands in the range of `int`,
the second one not zero: the quotient of the two integers rounded to
binary64. -/
theorem op_div_int32_value (env : ValueEnv) (a b : Value) (ha : a.type = .INT32)
    (hb : b.type = .INT32) (hnz : b.int32Value ≠ 0) (ra : a.int32InRange) :
    (op_div env a b).type = .DOUBLE ∧
    (op_div env a b).doubleValue
      = Dbl.roundRat .binary64 ((a.int32Value : ℚ) / (b.int32Value : ℚ)) := by
  obtain ⟨ga, ea, da, fa, ia, sa, _, _⟩ := @Value.getValue_of_int32 env a ha
  obtain ⟨gb, eb, db, fb, ib, sb, _, _⟩ := @Value.getValue_of_int32 env b hb
  have hq : ((b.int32Value : ℚ)) ≠ 0 := by exact_mod_cast hnz
  have hrep : Dbl.Format.binary64.represents ((1 : ℚ) * (a.int32Value : ℚ)) := by
    have h1 : |(a.int32Value : ℚ)| < 2 ^ (53 : ℤ) := by
      have : |a.int32Value| < 2 ^ 53 := by
        have := ra.1
        have := ra.2
        rw [abs_lt]
        constructor <;> omega
      have h2 : ((|a.int32Value| : ℤ) : ℚ) < ((2 ^ 53 : ℤ) : ℚ) := by exact_mod_cast this
      push_cast at h2
      exact_mod_cast h2
    refine ⟨?_, a.int32Value, 0, h1, by decide, by simp⟩
    rw [one_mul]
    exact lt_trans h1 (zpow_lt_zpow_right₀ (by norm_num) (by decide))
  have hmul : Dbl.mul .binary64 (Dbl.fin 1) (Dbl.ofInt a.int32Value)
      = Dbl.fin (a.int32Value : ℚ) := by
    simp only [Dbl.mul, Dbl.ofInt]
    rw [Dbl.roundRat_of_represents _ _ hrep, one_mul]
  have hval : op_div env a b = Value.ofDouble
      (Dbl.roundRat .binary64 ((a.int32Value : ℚ) / (b.int32Value : ℚ))) .DOUBLE := by
    simp only [op_div, ga, ea, da, fa, ia, sa, gb, eb, db, fb, ib, sb, hnz, hmul,
      Bool.false_eq_true, if_false, Bool.or_false, Bool.or_true, Bool.not_true,
      Bool.or_self, if_true]
    simp only [Dbl.div, Dbl.ofInt, hq, if_false]
  rw [hval]
  exact ⟨rfl, rfl⟩

theorem represents_binary64_zero : Dbl.Format.binary64.represents 0 :=
  ⟨by rw [abs_zero]; exact zpow_pos (by norm_num) _, 0, 0,
    by rw [Int.cast_zero, abs_zero]; exact zpow_pos (by norm_num) _, by decide, by simp⟩

theorem roundRat_one_third :
    Dbl.roundRat .binary64 (1 / 3) = Dbl.fin (6004799503160661 / 18014398509481984) := by
  have h := Dbl.roundRat_eq_of .binary64 (1 / 3) (-2) 6004799503160661
    (by rw [abs_of_pos (by norm_num)]; norm_num)
    (by rw [abs_of_pos (by norm_num)]; norm_num) (by decide)
    (by simp only [Dbl.Format.precision]; norm_num [abs_lt])
    (by simp only [Dbl.Format.precision, Dbl.Format.emax]; norm_num [abs_lt])
  rw [h]
  simp only [Dbl.Format.precision]
  norm_num

/-- C15 (counterexample). For the int32 values 1 and 3, `op_div` returns a value of
type double that holds 6004799503160661 / 2^54, the double nearest to 1/3: it
does not hold the real quotient 1/3, which is not a double. -/
theorem op_div_one_by_three_is_rounded :
    (Value.ofInt 1 .INT32).type = .INT32 ∧ (Value.ofInt 3 .INT32).type = .INT32 ∧
    (Value.ofInt 3 .INT32).int32Value ≠ 0 ∧
    (op_div ValueEnv.plain (Value.ofInt 1 .INT32) (Value.ofInt 3 .INT32)).type = .DOUBLE ∧
    (op_div ValueEnv.plain (Value.ofInt 1 .INT32) (Value.ofInt 3 .INT32)).doubleValue
      = Dbl.fin (6004799503160661 / 18014398509481984) ∧
    (op_div ValueEnv.plain (Value.ofInt 1 .INT32) (Value.ofInt 3 .INT32)).doubleValue
      ≠ Dbl.fin (1 / 3) ∧
    ¬ Dbl.Format.binary64.represents (1 / 3) := by
  have h1 : (Value.ofInt 1 .INT32).int32Value = 1 := by decide
  have h3 : (Value.ofInt 3 .INT32).int32Value = 3 := by decide
  obtain ⟨ht, hv⟩ := op_div_int32_value ValueEnv.plain (Value.ofInt 1 .INT32)
    (Value.ofInt 3 .INT32) rfl rfl (by decide) ⟨by decide, by decide⟩
  rw [h1, h3] at hv
  have hv' : (op_div ValueEnv.plain (Value.ofInt 1 .INT32) (Value.ofInt 3 .INT32)).doubleValue
      = Dbl.fin (6004799503160661 / 18014398509481984) := by
    rw [hv]
    have : ((1 : ℤ) : ℚ) / ((3 : ℤ) : ℚ) = 1 / 3 := by norm_num
    rw [this, roundRat_one_third]
  have hne : Dbl.fin (6004799503160661 / 18014398509481984) ≠ Dbl.fin (1 / 3) := by
    intro h
    have := Dbl.fin.inj h
    norm_num at this
  refine ⟨rfl, rfl, by decide, ht, hv', by rw [hv']; exact hne, ?_⟩
  intro hrep
  have := Dbl.roundRat_of_represents .binary64 (1 / 3) hrep
  rw [roundRat_one_third] at this
  exact hne this

/-- C15 (amended). For every pair of int32 values `a` and `b` in the range of `int`
with `b != 0`, `op_div(a, b)` is a value of type double that holds the quotient
`a/b` rounded to a double: a double nearest to the real quotient, within the
relative error 2^-53 of it, the quotient itself whenever that is a double (3.5
for 7 and 2), and never an integer when `b` does not divide `a`. -/
theorem op_div_int32 (env : ValueEnv) (a b : Value) (ha : a.type = .INT32)
    (hb : b.type = .INT32) (hnz : b.int32Value ≠ 0) (ra : a.int32InRange)
    (rb : b.int32InRange) :
    (op_div env a b).type = .DOUBLE ∧
    ∃ v : ℚ, (op_div env a b).doubleValue = Dbl.fin v ∧
      Dbl.Format.binary64.represents v ∧
      (∀ d : ℚ, Dbl.Format.binary64.represents d →
        |v - (a.int32Value : ℚ) / (b.int32Value : ℚ)|
          ≤ |d - (a.int32Value : ℚ) / (b.int32Value : ℚ)|) ∧
      |v - (a.int32Value : ℚ) / (b.int32Value : ℚ)|
        ≤ |(a.int32Value : ℚ) / (b.int32Value : ℚ)| / 2 ^ 53 ∧
      (Dbl.Format.binary64.represents ((a.int32Value : ℚ) / (b.int32Value : ℚ)) →
        v = (a.int32Value : ℚ) / (b.int32Value : ℚ)) ∧
      (¬ b.int32Value ∣ a.int32Value → ∀ n : ℤ, v ≠ (n : ℚ)) := by
  obtain ⟨ht, hv⟩ := op_div_int32_value env a b ha hb hnz ra
  refine ⟨ht, ?_⟩
  unfold Value.int32InRange at ra rb
  generalize a.int32Value = x at *
  generalize b.int32Value = y at *
  obtain ⟨ra1, ra2⟩ := ra
  obtain ⟨rb1, rb2⟩ := rb
  have hy : (y : ℚ) ≠ 0 := by exact_mod_cast hnz
  have hyabs : (0 : ℚ) < |(y : ℚ)| := abs_pos.mpr hy
  have hyle : |(y : ℚ)| ≤ 2147483648 := by
    rw [abs_le]
    constructor
    · exact_mod_cast rb1
    · exact_mod_cast le_of_lt rb2
  have hxle : |(x : ℚ)| ≤ 2147483648 := by
    rw [abs_le]
    constructor
    · exact_mod_cast ra1
    · exact_mod_cast le_of_lt ra2
  have hy1 : (1 : ℚ) ≤ |(y : ℚ)| := by
    have : (1 : ℤ) ≤ |y| := Int.one_le_abs hnz
    exact_mod_cast this
  by_cases hx0 : x = 0
  · subst hx0
    simp only [Int.cast_zero, zero_div] at hv ⊢
    rw [Dbl.roundRat_zero] at hv
    exact ⟨0, hv, represents_binary64_zero, fun d _ => by simp, by simp, fun _ => rfl,
      fun h => absurd (dvd_zero y) h⟩
  have hx1 : (1 : ℚ) ≤ |(x : ℚ)| := by
    have : (1 : ℤ) ≤ |x| := Int.one_le_abs hx0
    exact_mod_cast this
  have hqabs : |(x : ℚ) / (y : ℚ)| = |(x : ℚ)| / |(y : ℚ)| := abs_div _ _
  have hmin : (2 : ℚ) ^ Dbl.Format.binary64.emin ≤ |(x : ℚ) / (y : ℚ)| := by
    rw [hqabs, le_div_iff₀ hyabs]
    have h1 : (2 : ℚ) ^ Dbl.Format.binary64.emin ≤ 1 / 2147483648 := by
      simp only [Dbl.Format.emin]
      rw [show (1 : ℚ) / 2147483648 = 2 ^ (-31 : ℤ) by norm_num]
      exact zpow_le_zpow_right₀ (by norm_num) (by decide)
    calc (2 : ℚ) ^ Dbl.Format.binary64.emin * |(y : ℚ)|
        ≤ 1 / 2147483648 * 2147483648 := mul_le_mul h1 hyle (abs_nonneg _) (by norm_num)
      _ = 1 := by norm_num
      _ ≤ |(x : ℚ)| := hx1
  have hmax : |(x : ℚ) / (y : ℚ)| < 2 ^ (Dbl.Format.binary64.emax - 1) := by
    rw [hqabs, div_lt_iff₀ hyabs]
    have h1 : (2147483648 : ℚ) < 2 ^ (Dbl.Format.binary64.emax - 1) := by
      simp only [Dbl.Format.emax]
      rw [show (2147483648 : ℚ) = 2 ^ (31 : ℤ) by norm_num]
      exact zpow_lt_zpow_right₀ (by norm_num) (by decide)
    calc |(x : ℚ)| ≤ 2147483648 := hxle
      _ < 2 ^ (Dbl.Format.binary64.emax - 1) := h1
      _ = 2 ^ (Dbl.Format.binary64.emax - 1) * 1 := (mul_one _).symm
      _ ≤ 2 ^ (Dbl.Format.binary64.emax - 1) * |(y : ℚ)| :=
          mul_le_mul_of_nonneg_left hy1 (le_of_lt (zpow_pos (by norm_num) _))
  obtain ⟨v, hr, hrep, herr⟩ := Dbl.roundRat_near .binary64 _ hmin hmax
  have hP : (2 : ℚ) ^ Dbl.Format.binary64.precision = 2 ^ 53 := by
    simp only [Dbl.Format.precision]
    norm_num
  rw [hP] at herr
  refine ⟨v, hv.trans hr, hrep, fun d hd => Dbl.roundRat_nearest .binary64 _ v d hr hd, herr,
    ?_, ?_⟩
  · intro hq
    have := Dbl.roundRat_of_represents .binary64 _ hq
    rw [hr] at this
    exact Dbl.fin.inj this
  · intro hdvd n hn
    subst hn
    have hnum : (x - n * y : ℤ) ≠ 0 := by
      intro h0
      exact hdvd ⟨n, by linarith⟩
    have h1 : (1 : ℚ) ≤ |((x - n * y : ℤ) : ℚ)| := by
      have : (1 : ℤ) ≤ |x - n * y| := Int.one_le_abs hnum
      exact_mod_cast this
    have h2 : (n : ℚ) - (x : ℚ) / (y : ℚ) = -(((x - n * y : ℤ) : ℚ) / (y : ℚ)) := by
      push_cast
      field_simp
    rw [h2, abs_neg, abs_div, hqabs, div_div, div_le_div_iff₀ hyabs (by positivity)] at herr
    have h3 : |(x : ℚ)| * |(y : ℚ)| < 1 * (|(y : ℚ)| * 2 ^ 53) := by
      have : |(x : ℚ)| < 2 ^ 53 := lt_of_le_of_lt hxle (by norm_num)
      nlinarith
    have h4 : 1 * (|(y : ℚ)| * 2 ^ 53) ≤ |((x - n * y : ℤ) : ℚ)| * (|(y : ℚ)| * 2 ^ 53) :=
      mul_le_mul_of_nonneg_right h1 (by positivity)
    linarith

/-- C15 (witness). For the int32 values 7 and 2 the value held is 7/2. -/
theorem op_div_int32_witness :
    (Value.ofInt 7 .INT32).type = .INT32 ∧ (Value.ofInt 2 .INT32).type = .INT32 ∧
    (Value.ofInt 2 .INT32).int32Value ≠ 0 ∧ (Value.ofInt 7 .INT32).int32InRange ∧
    (Value.ofInt 2 .INT32).int32InRange ∧
    (op_div ValueEnv.plain (Value.ofInt 7 .INT32) (Value.ofInt 2 .INT32)).type = .DOUBLE ∧
    (op_div ValueEnv.plain (Value.ofInt 7 .INT32) (Value.ofInt 2 .INT32)).doubleValue
      = Dbl.fin (7 / 2) := by
  have h7 : (Value.ofInt 7 .INT32).int32Value = 7 := by decide
  have h2 : (Value.ofInt 2 .INT32).int32Value = 2 := by decide
  have hr7 : (Value.ofInt 7 .INT32).int32InRange := ⟨by decide, by decide⟩
  have hr2 : (Value.ofInt 2 .INT32).int32InRange := ⟨by decide, by decide⟩
  obtain ⟨ht, v, hv, _, _, _, hexact, _⟩ :=
    op_div_int32 ValueEnv.plain (Value.ofInt 7 .INT32) (Value.ofInt 2 .INT32) rfl rfl
      (by decide) hr7 hr2
  rw [h7, h2] at hexact
  have hrep : Dbl.Format.binary64.represents (((7 : ℤ) : ℚ) / ((2 : ℤ) : ℚ)) := by
    refine ⟨?_, 7, -1, ?_, by decide, by norm_num⟩
    · simp only [Dbl.Format.emax]
      have : (2 : ℚ) ^ (10 : ℤ) ≤ 2 ^ (1024 : ℤ) := zpow_le_zpow_right₀ (by norm_num) (by decide)
      norm_num at this ⊢
      rw [abs_lt]
      constructor <;> linarith
    · simp only [Dbl.Format.precision]
      norm_num
  refine ⟨rfl, rfl, by decide, hr7, hr2, ht, ?_⟩
  rw [hv, hexact hrep]
  norm_num

/-- C16. For two int32 values `a` and `b`, `op_add`, `op_sub` and `op_mul` return a
value of type int32 whose word is the sum, difference or product reduced modulo
2^32 into the range of `int`, and `op_mod` with `b != 0` returns a value of type
int32 holding the truncated remainder (for a dividend in the range of `int`);
the type of none of the results is int64, float or double.  The overflow of the
`int` operation, undefined in C, is taken to wrap as the target does. -/
theorem op_int32_closed (env : ValueEnv) (a b : Value) (ha : a.type = .INT32)
    (hb : b.type = .INT32) :
    ((op_add env a b).type = .INT32 ∧
      (op_add env a b).int32Value % 4294967296 = (a.int32Value + b.int32Value) % 4294967296 ∧
      (op_add env a b).int32InRange) ∧
    ((op_sub env a b).type = .INT32 ∧
      (op_sub env a b).int32Value % 4294967296 = (a.int32Value - b.int32Value) % 4294967296 ∧
      (op_sub env a b).int32InRange) ∧
    ((op_mul env a b).type = .INT32 ∧
      (op_mul env a b).int32Value % 4294967296 = (a.int32Value * b.int32Value) % 4294967296 ∧
      (op_mul env a b).int32InRange) ∧
    (b.int32Value ≠ 0 →
      (op_mod env a b).type = .INT32 ∧
      (a.int32InRange →
        (op_mod env a b).int32Value = Int.tmod a.int32Value b.int32Value)) := by
  obtain ⟨ga, ea, da, fa, ia, sa, ba, ta⟩ := @Value.getValue_of_int32 env a ha
  obtain ⟨gb, eb, db, fb, ib, sb, bb, tb⟩ := @Value.getValue_of_int32 env b hb
  refine ⟨?_, ?_, ?_, ?_⟩
  · have h : op_add env a b = Value.ofInt (a.int32Value + b.int32Value) .INT32 := by
      simp [op_add, ga, ea, da, fa, ia, sa, ba, ta, gb, eb, db, fb, ib, sb, bb, tb]
    rw [h]
    exact ⟨rfl, wrapInt32_modEq _, wrapInt32_range _⟩
  · have h : op_sub env a b = Value.ofInt (a.int32Value - b.int32Value) .INT32 := by
      simp [op_sub, ga, ea, da, fa, ia, sa, gb, eb, db, fb, ib, sb]
    rw [h]
    exact ⟨rfl, wrapInt32_modEq _, wrapInt32_range _⟩
  · have h : op_mul env a b = Value.ofInt (a.int32Value * b.int32Value) .INT32 := by
      simp [op_mul, ga, ea, da, fa, ia, sa, gb, eb, db, fb, ib, sb]
    rw [h]
    exact ⟨rfl, wrapInt32_modEq _, wrapInt32_range _⟩
  · intro hnz
    have h : op_mod env a b = Value.ofInt (Int.tmod a.int32Value b.int32Value) .INT32 := by
      simp [op_mod, ga, ea, da, fa, ia, sa, gb, eb, db, fb, ib, sb, hnz]
    rw [h]
    refine ⟨rfl, ?_⟩
    intro ra
    obtain ⟨r1, r2⟩ := @tmod_int32_range a.int32Value b.int32Value ra.1 ra.2
    exact wrapInt32_of_range r1 r2

theorem op_int32_closed_witness :
    (Value.ofInt 2147483647 .INT32).type = .INT32 ∧ (Value.ofInt 1 .INT32).type = .INT32 ∧
    (op_add ValueEnv.plain (Value.ofInt 2147483647 .INT32) (Value.ofInt 1 .INT32)).type = .INT32 ∧
    (op_add ValueEnv.plain (Value.ofInt 2147483647 .INT32) (Value.ofInt 1 .INT32)).int32Value
      = -2147483648 :=
  ⟨rfl, rfl,
   (op_int32_closed ValueEnv.plain (Value.ofInt 2147483647 .INT32) (Value.ofInt 1 .INT32)
     rfl rfl).1.1,
   by decide⟩

theorem Value.numeric_cases {v : Value} (h : v.isNumeric = true) :
    v.isBlob = false ∧ v.isString = false := by
  simp only [Value.isNumeric, Value.isInt32OrLess, Value.isInt64, Value.isFloat, Value.isDouble,
    Bool.or_eq_true, decide_eq_true_eq] at h
  simp only [Value.isBlob, Value.isString, decide_eq_false_iff_not]
  rcases h with ((h | h) | h) | h
  · rcases h with h | h | h | h | h | h | h <;> simp [h]
  · rcases h with h | h <;> simp [h]
  · simp [h]
  · simp [h]

/-- C17. For two numeric operands (int32-or-smaller, int64, float or double, so
neither a string nor a blob), the type of the result of `op_add`, `op_sub` and
`op_mul`, and of `op_mod` when the divisor is not zero, is double if either
operand is a double, otherwise float if either is a float, otherwise int64 if
either is a 64-bit integer, otherwise int32. -/
theorem op_result_type_promotion (env : ValueEnv) (a b : Value) (ha : a.isNumeric = true)
    (hb : b.isNumeric = true) :
    (op_add env a b).type = promotedType a b ∧
    (op_sub env a b).type = promotedType a b ∧
    (op_mul env a b).type = promotedType a b ∧
    (divisorNonZero env a b = true → (op_mod env a b).type = promotedType a b) := by
  have han : (a.isDouble || a.isFloat || a.isInt64 || a.isInt32OrLess) = true := by
    simp only [Value.isNumeric, Bool.or_eq_true] at ha ⊢; tauto
  have hbn : (b.isDouble || b.isFloat || b.isInt64 || b.isInt32OrLess) = true := by
    simp only [Value.isNumeric, Bool.or_eq_true] at hb ⊢; tauto
  obtain ⟨ga, ea⟩ := @Value.getValue_of_numeric env _ han
  obtain ⟨gb, eb⟩ := @Value.getValue_of_numeric env _ hbn
  obtain ⟨ba, sa⟩ := Value.numeric_cases ha
  obtain ⟨bb, sb⟩ := Value.numeric_cases hb
  refine ⟨?_, ?_, ?_, ?_⟩
  · simp only [op_add, ea, eb, ga, gb, ba, bb, sa, sb, promotedType]
    cases h1 : a.isDouble <;> cases h2 : b.isDouble <;> cases h3 : a.isFloat <;>
      cases h4 : b.isFloat <;> cases h5 : a.isInt64 <;> cases h6 : b.isInt64 <;>
      simp [h1, h3, h5] at han <;>
      simp [Value.ofDouble, Value.ofFloat, Value.ofInt64, Value.ofInt, han]
  · simp only [op_sub, ea, eb, ga, gb, han, hbn, promotedType]
    cases a.isDouble <;> cases b.isDouble <;> cases a.isFloat <;> cases b.isFloat <;>
      cases a.isInt64 <;> cases b.isInt64 <;>
      simp [Value.ofDouble, Value.ofFloat, Value.ofInt64, Value.ofInt]
  · simp only [op_mul, ea, eb, ga, gb, han, hbn, promotedType]
    cases a.isDouble <;> cases b.isDouble <;> cases a.isFloat <;> cases b.isFloat <;>
      cases a.isInt64 <;> cases b.isInt64 <;>
      simp [Value.ofDouble, Value.ofFloat, Value.ofInt64, Value.ofInt]
  · intro hd
    simp only [op_mod, ea, eb, ga, gb, han, hbn, promotedType]
    simp only [divisorNonZero] at hd
    cases h1 : a.isDouble <;> cases h2 : b.isDouble <;> cases h3 : a.isFloat <;>
      cases h4 : b.isFloat <;> cases h5 : a.isInt64 <;> cases h6 : b.isInt64 <;>
      simp [h1, h2, h3, h4, h5, h6] at hd <;>
      simp [Value.ofDouble, Value.ofFloat, Value.ofInt64, Value.ofInt, hd]

theorem op_result_type_promotion_witness :
    (Value.ofInt 7 .INT32).isNumeric = true ∧ (Value.ofInt64 3 .INT64).isNumeric = true ∧
    divisorNonZero ValueEnv.plain (Value.ofInt 7 .INT32) (Value.ofInt64 3 .INT64) = true ∧
    (op_add ValueEnv.plain (Value.ofInt 7 .INT32) (Value.ofInt64 3 .INT64)).type
      = promotedType (Value.ofInt 7 .INT32) (Value.ofInt64 3 .INT64) ∧
    (op_mod ValueEnv.plain (Value.ofInt 7 .INT32) (Value.ofInt64 3 .INT64)).type
      = promotedType (Value.ofInt 7 .INT32) (Value.ofInt64 3 .INT64) ∧
    promotedType (Value.ofInt 7 .INT32) (Value.ofInt64 3 .INT64) = .INT64 :=
  ⟨by decide, by decide, by decide,
   (op_result_type_promotion ValueEnv.plain (Value.ofInt 7 .INT32) (Value.ofInt64 3 .INT64)
     (by decide) (by decide)).1,
   (op_result_type_promotion ValueEnv.plain (Value.ofInt 7 .INT32) (Value.ofInt64 3 .INT64)
     (by decide) (by decide)).2.2.2 (by decide),
   by decide⟩

end eez

namespace eez
namespace flow

/-- C20 (counterexample). With the index 0 and an array of one element on the
stack, and no room in the arena for the reference object, the array-element
instruction pushes the null value: neither an Error nor an element reference. -/
theorem evalArrayElement_null_when_exhausted :
    ¬ (∀ (ctx : EvalContext) (index arr : Value) (rest : List Value) (s : EvalStack),
        (arr.getValue ctx.resolve).isArray = true →
        ((index.getValue ctx.resolve).toInt32 ctx.strtol).2 = false →
        0 ≤ ((index.getValue ctx.resolve).toInt32 ctx.strtol).1 →
        ((index.getValue ctx.resolve).toInt32 ctx.strtol).1
          < (elementCount (arr.getValue ctx.resolve) : Int) →
        evalInstruction ctx .ARRAY_ELEMENT { stack := index :: arr :: rest, errorMessage := "" }
          = some s →
        ∃ top, s.stack = top :: rest ∧ top.type = .ARRAY_ELEMENT_VALUE) := by
  intro h
  obtain ⟨top, h1, h2⟩ := h exhaustedContext (Value.ofInt 0 .INT32) oneElementArray []
    { stack := [Value.nullValue], errorMessage := "" } (by decide) (by decide) (by decide)
    (by decide) (by decide)
  simp only [List.cons.injEq, and_true] at h1
  subst h1
  exact absurd h2 (by decide)

theorem toInt32_lt_of_lt {n : Nat} (hn : n < 2147483648) : toInt32 n = (n : Int) := by
  unfold toInt32 WORD
  have : n % 4294967296 = n := Nat.mod_eq_of_lt (by omega)
  rw [this]
  simp [hn]

/-- C20 (amended). For an array of `n` elements or a blob of `n` bytes (`n < 2^31`)
and an index value on top of it: if the index converts to the integer `i`, the
array-element instruction replaces the two by an Error, with the message
"Array (or Blob) element index out of bounds", exactly when `i < 0` or `i >= n`,
and otherwise by the value that `makeArrayElementRef` returns for position `i`:
an element reference when the arena has room for it, the null value when it has
not; if the index does not convert to an integer it replaces them by an Error
with the message "Integer value expected for array (or blob) element index". -/
theorem evalArrayElement_bounds (ctx : EvalContext) (index arr : Value) (rest : List Value)
    (msg : String) (n : Nat) (hn : n < 2147483648)
    (harr : (arr.getValue ctx.resolve).isArray = true ∨ (arr.getValue ctx.resolve).isBlob = true)
    (hcount : elementCount (arr.getValue ctx.resolve) = n) :
    ∃ top s, evalInstruction ctx .ARRAY_ELEMENT { stack := index :: arr :: rest, errorMessage := msg }
        = some s ∧ s.stack = top :: rest ∧
      (((index.getValue ctx.resolve).toInt32 ctx.strtol).2 = true →
        top = Value.makeError ∧
        s.errorMessage = integerExpectedMessage (arr.getValue ctx.resolve)) ∧
      (((index.getValue ctx.resolve).toInt32 ctx.strtol).2 = false →
        (top.isError = true ↔
          (((index.getValue ctx.resolve).toInt32 ctx.strtol).1 < 0 ∨
            (n : Int) ≤ ((index.getValue ctx.resolve).toInt32 ctx.strtol).1)) ∧
        (top.isError = true →
          s.errorMessage = outOfBoundsMessage (arr.getValue ctx.resolve)) ∧
        (top.isError = false →
          top = Value.makeArrayElementRef ctx.env (arr.getValue ctx.resolve)
            ((index.getValue ctx.resolve).toInt32 ctx.strtol).1 ∧
          s.errorMessage = msg ∧
          (ctx.allocOk = true → top.type = .ARRAY_ELEMENT_VALUE ∧
            top.int32Value = ((index.getValue ctx.resolve).toInt32 ctx.strtol).1) ∧
          (ctx.allocOk = false → top = Value.nullValue))) := by
  generalize ha : arr.getValue ctx.resolve = a at harr hcount ⊢
  generalize hi : (index.getValue ctx.resolve).toInt32 ctx.strtol = r
  obtain ⟨i, err⟩ := r
  have hty : ¬ (a.type = .UNDEFINED ∨ a.type = .NULL) := by
    rcases harr with h | h
    · simp only [Value.isArray, decide_eq_true_eq] at h
      rcases h with h | h | h <;> simp [h]
    · simp only [Value.isBlob, decide_eq_true_eq] at h
      simp [h]
  have hnerr : (Value.makeArrayElementRef ctx.env a i).isError = false := by
    unfold Value.makeArrayElementRef
    split <;> rfl
  have hmk : (ctx.allocOk = true → (Value.makeArrayElementRef ctx.env a i).type
        = .ARRAY_ELEMENT_VALUE ∧ (Value.makeArrayElementRef ctx.env a i).int32Value = i) ∧
      (ctx.allocOk = false → Value.makeArrayElementRef ctx.env a i = Value.nullValue) := by
    constructor <;> intro h <;> simp [Value.makeArrayElementRef, EvalContext.env, h]
  have hcast : toInt32 n = (n : Int) := toInt32_lt_of_lt hn
  have hcomp : evalInstruction ctx .ARRAY_ELEMENT
      { stack := index :: arr :: rest, errorMessage := msg }
      = some (if err = true then
          { stack := Value.makeError :: rest, errorMessage := integerExpectedMessage a }
        else if 0 ≤ i ∧ i < (n : Int) then
          { stack := Value.makeArrayElementRef ctx.env a i :: rest, errorMessage := msg }
        else { stack := Value.makeError :: rest, errorMessage := outOfBoundsMessage a }) := by
    cases harray : a.isArray with
    | true =>
      have hc : a.arraySize = n := by simpa [elementCount, harray] using hcount
      cases err <;> by_cases hin : 0 ≤ i ∧ i < (n : Int) <;>
        simp [evalInstruction, evalArrayElement, EvalStack.pop, ha, hi, hty, harray,
          EvalStack.push, EvalStack.setErrorMessage, hc, hcast, hin, integerExpectedMessage,
          outOfBoundsMessage]
    | false =>
      have hblob : a.isBlob = true := by
        rcases harr with h | h
        · rw [harray] at h; simp at h
        · exact h
      have hc : (a.blobValue.getD []).length = n := by simpa [elementCount, harray] using hcount
      cases err <;> by_cases hin : 0 ≤ i ∧ i < (n : Int) <;>
        simp [evalInstruction, evalArrayElement, EvalStack.pop, ha, hi, hty, harray, hblob,
          EvalStack.push, EvalStack.setErrorMessage, hc, hcast, hin, integerExpectedMessage,
          outOfBoundsMessage]
  cases err with
  | true =>
    refine ⟨Value.makeError, _, hcomp, by simp, ?_, ?_⟩
    · intro _; simp
    · intro h; simp at h
  | false =>
    by_cases hin : 0 ≤ i ∧ i < (n : Int)
    · refine ⟨Value.makeArrayElementRef ctx.env a i, _, hcomp, by simp [hin], ?_, ?_⟩
      · intro h; simp at h
      · intro _
        refine ⟨?_, ?_, ?_⟩
        · rw [hnerr]; simp; omega
        · intro h; rw [hnerr] at h; simp at h
        · intro _; exact ⟨rfl, by simp [hin], hmk.1, hmk.2⟩
    · refine ⟨Value.makeError, _, hcomp, by simp [hin], ?_, ?_⟩
      · intro h; simp at h
      · intro _
        refine ⟨?_, ?_, ?_⟩
        · simp [Value.isError_makeError]; omega
        · intro _; simp [hin]
        · intro h; simp [Value.isError_makeError] at h

theorem evalArrayElement_bounds_witness :
    (1 : Nat) < 2147483648 ∧
    ((oneElementArray.getValue exampleContext.resolve).isArray = true ∨
      (oneElementArray.getValue exampleContext.resolve).isBlob = true) ∧
    elementCount (oneElementArray.getValue exampleContext.resolve) = 1 ∧
    ∃ top s, evalInstruction exampleContext .ARRAY_ELEMENT { stack := Value.ofInt 0 .INT32 :: oneElementArray :: [], errorMessage := "" }
        = some s ∧ s.stack = top :: [] ∧
      ((((Value.ofInt 0 .INT32).getValue exampleContext.resolve).toInt32 exampleContext.strtol).2 = true →
        top = Value.makeError ∧
        s.errorMessage = integerExpectedMessage (oneElementArray.getValue exampleContext.resolve)) ∧
      ((((Value.ofInt 0 .INT32).getValue exampleContext.resolve).toInt32 exampleContext.strtol).2 = false →
        (top.isError = true ↔
          ((((Value.ofInt 0 .INT32).getValue exampleContext.resolve).toInt32 exampleContext.strtol).1 < 0 ∨
            ((1 : Nat) : Int) ≤ (((Value.ofInt 0 .INT32).getValue exampleContext.resolve).toInt32 exampleContext.strtol).1)) ∧
        (top.isError = true →
          s.errorMessage = outOfBoundsMessage (oneElementArray.getValue exampleContext.resolve)) ∧
        (top.isError = false →
          top = Value.makeArrayElementRef exampleContext.env (oneElementArray.getValue exampleContext.resolve)
            (((Value.ofInt 0 .INT32).getValue exampleContext.resolve).toInt32 exampleContext.strtol).1 ∧
          s.errorMessage = "" ∧
          (exampleContext.allocOk = true → top.type = .ARRAY_ELEMENT_VALUE ∧
            top.int32Value = (((Value.ofInt 0 .INT32).getValue exampleContext.resolve).toInt32 exampleContext.strtol).1) ∧
          (exampleContext.allocOk = false → top = Value.nullValue))) :=
  ⟨by decide, Or.inl (by decide), by decide,
   evalArrayElement_bounds exampleContext (Value.ofInt 0 .INT32) oneElementArray [] "" 1
     (by decide) (Or.inl (by decide)) (by decide)⟩

end flow
end eez

namespace eez

theorem Dbl.eq_self (x : Dbl) : Dbl.eq x x = !x.isNaN := by
  cases x <;> simp [Dbl.eq, Dbl.isNaN]

theorem compare_STRING_value_self (env : CompareEnv) (v : Value) :
    compare_STRING_value env v v = true := by
  unfold compare_STRING_value
  cases (v.getValue env.resolve).getString <;> simp

/-- C18 (counterexample). The comparison function registered for the tag ERROR
returns false on the pair of an Error value with itself. -/
theorem compare_ERROR_value_not_reflexive :
    ¬ (∀ (env : CompareEnv) (T : ValueType) (v : Value), v.type = T →
        g_valueTypeCompareFunctions env T v v = true) := by
  intro h
  exact absurd (h CompareEnv.plain .ERROR Value.makeError rfl) (by decide)

/-- C18 (amended). The comparison function registered for the tag of a value `v`
returns true on the pair `(v, v)` for every tag other than ERROR,
NATIVE_VARIABLE, ENUM, JSON_MEMBER_VALUE and ARRAY_ELEMENT_VALUE, provided the
payload of a FLOAT, DOUBLE or DATE value is not NaN (in particular undefined
equals undefined and null equals null).  For ERROR it returns false; for a NaN
payload it returns false; for NATIVE_VARIABLE and ENUM it returns false in a
build without `EEZ_OPTION_GUI`; for JSON_MEMBER_VALUE and ARRAY_ELEMENT_VALUE it
returns what `operator==` returns on the value referred to. -/
theorem compare_reflexive (env : CompareEnv) (v : Value) :
    g_valueTypeCompareFunctions env v.type v v = reflexiveAt env v ∧
    (v.type ≠ .ERROR → v.type ≠ .NATIVE_VARIABLE → v.type ≠ .ENUM →
      v.type ≠ .JSON_MEMBER_VALUE → v.type ≠ .ARRAY_ELEMENT_VALUE →
      (v.type = .FLOAT → v.floatValue.isNaN = false) →
      (v.type = .DOUBLE ∨ v.type = .DATE → v.doubleValue.isNaN = false) →
      g_valueTypeCompareFunctions env v.type v v = true) := by
  have h1 : g_valueTypeCompareFunctions env v.type v v = reflexiveAt env v := by
    unfold reflexiveAt
    cases ht : v.type <;>
      simp [g_valueTypeCompareFunctions, compare_UNDEFINED_value, compare_NULL_value,
        compare_BOOLEAN_value, compare_INT8_value, compare_UINT8_value, compare_INT16_value,
        compare_UINT16_value, compare_INT32_value, compare_UINT32_value, compare_INT64_value,
        compare_UINT64_value, compare_FLOAT_value, compare_DOUBLE_value,
        compare_STRING_value_self, compare_STRING_ASSET_value, compare_ARRAY_value,
        compare_ARRAY_ASSET_value, compare_ARRAY_REF_value, compare_STRING_REF_value,
        compare_BLOB_REF_value, compare_STREAM_value, compare_WIDGET_value, compare_JSON_value,
        compare_JSON_MEMBER_VALUE_value, compare_DATE_value, compare_VERSIONED_STRING_value,
        compare_VALUE_PTR_value, compare_ARRAY_ELEMENT_VALUE_value, compare_FLOW_OUTPUT_value,
        compare_NATIVE_VARIABLE_value, compare_ERROR_value, compare_RANGE_value,
        compare_POINTER_value, compare_ENUM_value,
        compare_YT_DATA_GET_VALUE_FUNCTION_POINTER_value, compare_IP_ADDRESS_value,
        compare_TIME_ZONE_value, Dbl.eq_self, ht]
  refine ⟨h1, ?_⟩
  intro e1 e2 e3 e4 e5 hf hd
  rw [h1]
  unfold reflexiveAt
  cases ht : v.type <;> simp_all

theorem compare_reflexive_witness :
    g_valueTypeCompareFunctions CompareEnv.plain Value.undefined.type Value.undefined
        Value.undefined = true ∧
    g_valueTypeCompareFunctions CompareEnv.plain Value.nullValue.type Value.nullValue
        Value.nullValue = true ∧
    g_valueTypeCompareFunctions CompareEnv.plain (Value.ofDouble .nan .DOUBLE).type
        (Value.ofDouble .nan .DOUBLE) (Value.ofDouble .nan .DOUBLE) = false :=
  ⟨(compare_reflexive CompareEnv.plain Value.undefined).2 (by decide) (by decide) (by decide)
      (by decide) (by decide) (by decide) (by decide),
   (compare_reflexive CompareEnv.plain Value.nullValue).2 (by decide) (by decide) (by decide)
      (by decide) (by decide) (by decide) (by decide),
   by decide⟩

/-- C19 (counterexample). Two blob values that hold the same three bytes in two
distinct `BlobRef` objects are not equal for `compare_BLOB_REF_value`. -/
theorem compare_BLOB_REF_value_by_identity :
    blobAt4096.blobValue = blobAt8192.blobValue ∧ blobAt4096.refValue ≠ blobAt8192.refValue ∧
    compare_BLOB_REF_value blobAt4096 blobAt8192 = false ∧
    g_valueTypeCompareFunctions CompareEnv.plain .BLOB_REF blobAt4096 blobAt8192 = false := by
  decide

/-- C19 (amended). Two blob values are equal for `compare_BLOB_REF_value`, the
comparison function of the tag BLOB_REF, exactly when they hold the same
`BlobRef` object: the pointers are compared, not the bytes.  Two blobs with the
same bytes are equal for `is_equal`, the `==` of the expression evaluator, and
two strings are equal for `compare_STRING_value` exactly when they have the same
characters. -/
theorem compare_BLOB_REF_value_iff (cenv : CompareEnv) (env : ValueEnv) (a b : Value) :
    (compare_BLOB_REF_value a b = true ↔ a.refValue = b.refValue) ∧
    (g_valueTypeCompareFunctions cenv .BLOB_REF a b = true ↔ a.refValue = b.refValue) ∧
    (a.type = .BLOB_REF → b.type = .BLOB_REF → a.blobValue.isSome = true →
      a.blobValue = b.blobValue → is_equal env a b = true) ∧
    (∀ astr bstr, (a.getValue cenv.resolve).getString = some astr →
      (b.getValue cenv.resolve).getString = some bstr →
      (compare_STRING_value cenv a b = true ↔ astr = bstr)) := by
  refine ⟨by simp [compare_BLOB_REF_value], by simp [g_valueTypeCompareFunctions,
    compare_BLOB_REF_value], ?_, ?_⟩
  · intro ha hb hs hab
    have ga : a.getValue env.resolve = a := by
      simp [Value.getValue, Value.isIndirectValueType, ha]
    have gb : b.getValue env.resolve = b := by
      simp [Value.getValue, Value.isIndirectValueType, hb]
    obtain ⟨x, hx⟩ := Option.isSome_iff_exists.mp hs
    have hy : b.blobValue = some x := by rw [← hab, hx]
    simp [is_equal, ga, gb, ha, hb, Value.isString, Value.isBlob, hx, hy]
  · intro astr bstr h1 h2
    simp [compare_STRING_value, h1, h2]

theorem compare_BLOB_REF_value_iff_witness :
    blobAt4096.type = .BLOB_REF ∧ blobAt8192.type = .BLOB_REF ∧
    blobAt4096.blobValue.isSome = true ∧ blobAt4096.blobValue = blobAt8192.blobValue ∧
    is_equal ValueEnv.plain blobAt4096 blobAt8192 = true ∧
    (compare_BLOB_REF_value blobAt4096 blobAt8192 = true ↔
      blobAt4096.refValue = blobAt8192.refValue) :=
  ⟨rfl, rfl, rfl, rfl,
   (compare_BLOB_REF_value_iff CompareEnv.plain ValueEnv.plain blobAt4096 blobAt8192).2.2.1
     rfl rfl rfl rfl,
   (compare_BLOB_REF_value_iff CompareEnv.plain ValueEnv.plain blobAt4096 blobAt8192).1⟩

end eez

namespace eez
namespace flow

theorem quiet_refl (e : Engine) : Quiet e e :=
  ⟨rfl, rfl, rfl, rfl, [], by simp, by simp⟩

theorem quiet_trans {a b c : Engine} (h1 : Quiet a b) (h2 : Quiet b c) : Quiet a c := by
  obtain ⟨a1, a2, a3, a4, ev1, a5, a6⟩ := h1
  obtain ⟨b1, b2, b3, b4, ev2, b5, b6⟩ := h2
  refine ⟨b1.trans a1, b2.trans a2, b3.trans a3, b4.trans a4, ev1 ++ ev2, ?_, ?_⟩
  · rw [b5, a5, List.append_assoc]
  · intro h hh
    rcases List.mem_append.mp hh with hh | hh
    · exact a6 h hh
    · exact b6 h hh

theorem Flow.wellFormed_inputs {host : Host} {flow : Flow} (hw : flow.wellFormed host = true)
    {k : Nat} {c : Component} (hc : flow.components[k]? = some c) :
    ∀ idx ∈ c.inputs, idx < flow.componentInputs.length := by
  have hmem : c ∈ flow.components := List.getElem?_mem hc
  simp only [Flow.wellFormed, List.all_eq_true, Bool.and_eq_true, decide_eq_true_eq] at hw
  exact (hw.2 c hmem).1

theorem Flow.wellFormed_target {host : Host} {flow : Flow} (hw : flow.wellFormed host = true)
    {k : Nat} {c : Component} (hc : flow.components[k]? = some c)
    {o : ComponentOutput} (ho : o ∈ c.outputs) {w : Connection} (hk : w ∈ o.connections) :
    ∃ t, flow.components[w.targetComponentIndex]? = some t ∧
      t.type ≠ host.COMPONENT_TYPE_START_ACTION := by
  have hmem : c ∈ flow.components := List.getElem?_mem hc
  simp only [Flow.wellFormed, List.all_eq_true, Bool.and_eq_true, decide_eq_true_eq] at hw
  have := (hw.2 c hmem).2 o ho w hk
  cases ht : flow.components[w.targetComponentIndex]? with
  | none => simp [ht] at this
  | some t =>
    simp only [ht, decide_eq_true_eq] at this
    exact ⟨t, rfl, this⟩

theorem isComponentReadyToRun_total {host : Host} (e : Engine) {flowState : FlowState}
    (hw : flowState.flow.wellFormed host = true) {k : Nat} {t : Component}
    (ht : flowState.flow.components[k]? = some t)
    (hstart : t.type ≠ host.COMPONENT_TYPE_START_ACTION) :
    ∃ ready, isComponentReadyToRun host e flowState k = .ok ready ∧
      (ready = true → t.type ≠ host.COMPONENT_TYPE_CATCH_ERROR_ACTION) := by
  have hin := Flow.wellFormed_inputs hw ht
  unfold isComponentReadyToRun
  simp only [ht]
  split
  · exact ⟨false, rfl, by simp⟩
  · rename_i hcatch
    split
    · exact ⟨false, rfl, by simp⟩
    · split
      · exact ⟨false, rfl, by simp⟩
      · split
        · exact ⟨true, rfl, fun _ => hcatch⟩
        · rw [countSeqInputs_eq e flowState t.inputs 0 0 hin]
          by_cases hm : hasEmptyMandatoryInput e flowState t.inputs = true
          · rw [if_pos hm]; exact ⟨false, rfl, by simp⟩
          · rw [if_neg hm]
            simp only
            split
            · exact ⟨false, rfl, by simp⟩
            · exact ⟨true, rfl, fun _ => hcatch⟩

theorem Flow.wellFormed_index {host : Host} {flow : Flow} (hw : flow.wellFormed host = true)
    {k : Nat} {c : Component} (hc : flow.components[k]? = some c) : k ≠ NO_COMPONENT_INDEX := by
  simp only [Flow.wellFormed, Bool.and_eq_true, decide_eq_true_eq] at hw
  have hk : k < flow.components.length := by
    by_contra hcon
    rw [List.getElem?_eq_none (by omega)] at hc
    exact absurd hc (by simp)
  omega

theorem resetSequenceInputsLoop_total (flowState : FlowState) :
    ∀ (inputs : List Nat) (e : Engine),
      (∀ idx ∈ inputs, idx < flowState.flow.componentInputs.length) →
      ∃ e', resetSequenceInputsLoop flowState inputs e = .ok e' ∧ Quiet e e' ∧
        e'.executingComponentIndex = e.executingComponentIndex
  | [], e, _ => ⟨e, rfl, quiet_refl e, rfl⟩
  | i :: rest, e, h => by
    have hlt := h i (List.mem_cons_self _ _)
    have hrest : ∀ j ∈ rest, j < flowState.flow.componentInputs.length :=
      fun j hj => h j (List.mem_cons_of_mem _ hj)
    obtain ⟨input, hin⟩ : ∃ input, flowState.flow.componentInputs[i]? = some input :=
      ⟨_, List.getElem?_eq_getElem hlt⟩
    simp only [resetSequenceInputsLoop, hin]
    split
    · obtain ⟨e', he, hq, hx⟩ := resetSequenceInputsLoop_total flowState rest
        { e with
          values := setAt2 e.values flowState.flowStateIndex i getEmptyInputValue,
          trace := e.trace ++ [.onValueChanged (.flowStateValue flowState.flowStateIndex i)] }
        hrest
      have hstep : Quiet e
          { e with
            values := setAt2 e.values flowState.flowStateIndex i getEmptyInputValue,
            trace := e.trace ++
              [.onValueChanged (.flowStateValue flowState.flowStateIndex i)] } := by
        refine ⟨rfl, rfl, rfl, rfl, _, rfl, ?_⟩
        intro h hh
        simp only [List.mem_singleton] at hh
        subst hh; rfl
      exact ⟨e', he, quiet_trans hstep hq, hx⟩
    · exact resetSequenceInputsLoop_total flowState rest e hrest

theorem resetSequenceInputs_total {host : Host} {flowState : FlowState}
    (hw : flowState.flow.wellFormed host = true) {e : Engine} (hx : executingOk e flowState) :
    ∃ e', resetSequenceInputs host e flowState = .ok e' ∧ Quiet e e' ∧
      e'.executingComponentIndex flowState.flowStateIndex = NO_COMPONENT_INDEX := by
  unfold resetSequenceInputs
  simp only
  split
  · rename_i hne
    rcases hx with hx | hx
    · exact absurd hx hne
    · obtain ⟨component, hc⟩ : ∃ c, flowState.flow.components[
          e.executingComponentIndex flowState.flowStateIndex]? = some c :=
        ⟨_, List.getElem?_eq_getElem hx⟩
      simp only [hc]
      split
      · obtain ⟨e', he, hq, hxe⟩ := resetSequenceInputsLoop_total flowState component.inputs
          { e with executingComponentIndex :=
              setAt e.executingComponentIndex flowState.flowStateIndex NO_COMPONENT_INDEX }
          (Flow.wellFormed_inputs hw hc)
        have hstep : Quiet e
            { e with executingComponentIndex :=
                setAt e.executingComponentIndex flowState.flowStateIndex NO_COMPONENT_INDEX } :=
          ⟨rfl, rfl, rfl, rfl, [], by simp, by simp⟩
        refine ⟨e', he, quiet_trans hstep hq, ?_⟩
        rw [hxe]; simp [setAt]
      · exact ⟨_, rfl, ⟨rfl, rfl, rfl, rfl, [], by simp, by simp⟩, by simp [setAt]⟩
  · rename_i hne
    exact ⟨e, rfl, quiet_refl e, by simpa using hne⟩

theorem addToQueueWith_room (raise : ThrowError) {e : Engine} {tasks : List QueueEntry}
    (hq : QueueHolds e tasks) (hl : tasks.length < QUEUE_SIZE) (flowState : FlowState)
    (componentIndex : Nat) (s1 s2 t : Int) :
    ∃ e', addToQueueWith raise e flowState componentIndex s1 s2 t false = .ok (e', true) ∧
      QueueHolds e' (tasks ++ [QueueEntry.mk (some flowState) componentIndex false]) ∧
      Quiet e e' ∧ e'.executingComponentIndex = e.executingComponentIndex ∧
      e'.values = e.values ∧
      e'.trace = e.trace ++
        [.onAddToQueue flowState.flowStateIndex s1 s2 componentIndex t] := by
  obtain ⟨e1, he1, hq1, _, hh1⟩ := @QueueHolds.add raise _ _ hq hl flowState componentIndex
    s1 s2 t false
  obtain ⟨e2, he2, _, _, _, _, _, _, hen, her, hv, hst, hex⟩ :=
    addToQueueWith_notFull raise e flowState componentIndex s1 s2 t false (hq.notFull hl)
  have heq : e2 = e1 := by
    rw [he2] at he1
    simpa using he1
  subst heq
  have htr : e2.trace = e.trace ++
      [.onAddToQueue flowState.flowStateIndex s1 s2 componentIndex t] := by
    have hf := hq.notFull hl
    simp only [addToQueueWith, hf, Bool.false_eq_true, if_false, Bool.not_false, if_true,
      Except.ok.injEq, Prod.mk.injEq, and_true] at he2
    subst he2
    split <;> rfl
  refine ⟨e2, he2, hq1, ⟨her, hst, hen, hh1, _, htr, ?_⟩, hex, hv, htr⟩
  intro h hh
  simp only [List.mem_singleton] at hh
  subst hh; rfl

theorem pingComponentWith_room {host : Host} (raise : ThrowError) {e : Engine}
    {tasks : List QueueEntry} {flowState : FlowState}
    (hw : flowState.flow.wellFormed host = true) (hq : QueueHolds e tasks)
    (hl : tasks.length < QUEUE_SIZE) {k : Nat} {t : Component}
    (ht : flowState.flow.components[k]? = some t)
    (hstart : t.type ≠ host.COMPONENT_TYPE_START_ACTION) (s1 s2 s3 : Int) :
    ∃ e' ok added, pingComponentWith host raise e flowState k s1 s2 s3 = .ok (e', ok) ∧
      QueueHolds e' (tasks ++ added) ∧ added.length ≤ 1 ∧ AddedBy host flowState added ∧
      Quiet e e' ∧ e'.executingComponentIndex = e.executingComponentIndex := by
  obtain ⟨ready, hr, hcatch⟩ := isComponentReadyToRun_total e hw ht hstart
  unfold pingComponentWith
  rw [hr]
  cases ready with
  | false =>
    exact ⟨e, false, [], rfl, by simpa using hq, by simp, by intro q hq; simp at hq,
      quiet_refl e, rfl⟩
  | true =>
    obtain ⟨e', he, hq', hquiet, hx, _, _⟩ := addToQueueWith_room raise hq hl flowState k s1 s2 s3
    refine ⟨e', true, _, he, hq', by simp, ?_, hquiet, hx⟩
    intro q hmem
    simp only [List.mem_singleton] at hmem
    subst hmem
    refine ⟨rfl, rfl, ?_⟩
    intro c hc
    simp only at hc
    rw [ht] at hc
    simp only [Option.some.injEq] at hc
    subst hc
    exact hcatch rfl

theorem propagateValueLoop_room {host : Host} (raise : ThrowError) {flowState : FlowState}
    (hw : flowState.flow.wellFormed host = true) (componentIndex outputIndex : Nat)
    (value2 : Value) :
    ∀ (connections : List Connection) (e : Engine) (tasks : List QueueEntry),
      (∀ w ∈ connections, ∃ t, flowState.flow.components[w.targetComponentIndex]? = some t ∧
        t.type ≠ host.COMPONENT_TYPE_START_ACTION) →
      QueueHolds e tasks → tasks.length + connections.length ≤ QUEUE_SIZE →
      ∃ e' added, propagateValueLoop host raise flowState componentIndex outputIndex value2
          connections e = .ok e' ∧
        QueueHolds e' (tasks ++ added) ∧ added.length ≤ connections.length ∧
        AddedBy host flowState added ∧ Quiet e e' ∧
        e'.executingComponentIndex = e.executingComponentIndex
  | [], e, tasks, _, hq, _ =>
    ⟨e, [], rfl, by simpa using hq, by simp, by intro q hq; simp at hq, quiet_refl e, rfl⟩
  | w :: rest, e, tasks, ht, hq, hl => by
    simp only [List.length_cons] at hl
    obtain ⟨t, htc, hts⟩ := ht w (List.mem_cons_self _ _)
    have hrest : ∀ w' ∈ rest, ∃ t, flowState.flow.components[w'.targetComponentIndex]? = some t ∧
        t.type ≠ host.COMPONENT_TYPE_START_ACTION :=
      fun w' hw' => ht w' (List.mem_cons_of_mem _ hw')
    simp only [propagateValueLoop]
    generalize he1 : (if (!host.valueEq (e.values flowState.flowStateIndex w.targetInputIndex)
        value2) = true then
          { e with
            values := setAt2 e.values flowState.flowStateIndex w.targetInputIndex value2,
            trace := e.trace ++
              [.onValueChanged (.flowStateValue flowState.flowStateIndex w.targetInputIndex)] }
        else e) = e1
    have hstep : Quiet e e1 ∧ QueueHolds e1 tasks ∧
        e1.executingComponentIndex = e.executingComponentIndex := by
      subst he1
      split
      · refine ⟨⟨rfl, rfl, rfl, rfl, _, rfl, ?_⟩, hq, rfl⟩
        intro h hh
        simp only [List.mem_singleton] at hh
        subst hh; rfl
      · exact ⟨quiet_refl e, hq, rfl⟩
    obtain ⟨hqu1, hq1, hx1⟩ := hstep
    obtain ⟨e2, ok, added1, hp, hq2, hlen1, hadd1, hqu2, hx2⟩ :=
      pingComponentWith_room raise hw hq1 (by omega) htc hts componentIndex outputIndex
        w.targetInputIndex
    rw [hp]
    simp only
    obtain ⟨e3, added2, hl3, hq3, hlen2, hadd2, hqu3, hx3⟩ :=
      propagateValueLoop_room raise hw componentIndex outputIndex value2 rest e2
        (tasks ++ added1) hrest hq2 (by simp only [List.length_append]; omega)
    refine ⟨e3, added1 ++ added2, hl3, by simpa [List.append_assoc] using hq3, ?_, ?_,
      quiet_trans hqu1 (quiet_trans hqu2 hqu3), by rw [hx3, hx2, hx1]⟩
    · simp only [List.length_append, List.length_cons]; omega
    · intro q hmem
      rcases List.mem_append.mp hmem with hmem | hmem
      · exact hadd1 q hmem
      · exact hadd2 q hmem

/-- A propagation through an output whose wires find room in the queue raises no
error: the call returns, the queue holds the former tasks followed by at most
one ordinary task per wire, none of them for a CatchError component, and after
the record of the call only changed values and added tasks are reported. -/
theorem propagateValueWith_room {host : Host} (raise : ThrowError) {e : Engine}
    {tasks : List QueueEntry} {flowState : FlowState}
    (hw : flowState.flow.wellFormed host = true) (hx : executingOk e flowState)
    {componentIndex outputIndex : Nat} {component : Component} {output : ComponentOutput}
    (hc : flowState.flow.components[componentIndex]? = some component)
    (ho : component.outputs[outputIndex]? = some output)
    (hq : QueueHolds e tasks) (hl : tasks.length + output.connections.length ≤ QUEUE_SIZE)
    (value : Value) :
    ∃ e' added evs, propagateValueWith host raise e flowState componentIndex outputIndex value
        = .ok e' ∧
      QueueHolds e' (tasks ++ added) ∧ added.length ≤ output.connections.length ∧
      AddedBy host flowState added ∧
      e'.error = e.error ∧ e'.componenentExecutionStates = e.componenentExecutionStates ∧
      e'.g_enableThrowError = e.g_enableThrowError ∧
      e'.trace = e.trace ++
        .propagate flowState.flowStateIndex componentIndex outputIndex value :: evs ∧
      (∀ h ∈ evs, Hook.isQuiet h = true) ∧
      e'.executingComponentIndex flowState.flowStateIndex = NO_COMPONENT_INDEX := by
  have hci := Flow.wellFormed_index hw hc
  unfold propagateValueWith
  rw [if_neg hci]
  simp only
  have hx0 : executingOk
      { e with trace := e.trace ++
          [.propagate flowState.flowStateIndex componentIndex outputIndex value] } flowState := hx
  obtain ⟨e1, hr, hqu1, hx1⟩ := resetSequenceInputs_total hw hx0
  rw [hr]
  simp only [hc, ho]
  have hq1 : QueueHolds e1 tasks :=
    QueueHolds.of_sameQueue (e := { e with trace := e.trace ++
      [.propagate flowState.flowStateIndex componentIndex outputIndex value] })
      hq (resetSequenceInputs_sameQueue hr)
  have htargets : ∀ w ∈ output.connections, ∃ t,
      flowState.flow.components[w.targetComponentIndex]? = some t ∧
        t.type ≠ host.COMPONENT_TYPE_START_ACTION :=
    fun w hwm => Flow.wellFormed_target hw hc (List.getElem?_mem ho) hwm
  obtain ⟨e2, added, hl2, hq2, hlen, hadd, hqu2, hx2⟩ :=
    propagateValueLoop_room raise hw componentIndex outputIndex
      (value.getValue (evalContext host e1 flowState).resolve) output.connections e1 tasks
      htargets hq1 hl
  obtain ⟨a1, a2, a3, _, ev1, a5, a6⟩ := hqu1
  obtain ⟨b1, b2, b3, _, ev2, b5, b6⟩ := hqu2
  refine ⟨e2, added, ev1 ++ ev2, hl2, hq2, hlen, hadd, b1.trans a1, b2.trans a2, b3.trans a3,
    ?_, ?_, by rw [hx2, hx1]⟩
  · rw [b5, a5]; simp
  · intro h hh
    rcases List.mem_append.mp hh with hh | hh
    · exact a6 h hh
    · exact b6 h hh

theorem queueHolds_initialEngine : QueueHolds initialEngine [] := by
  refine ⟨by decide, by decide, by decide, by decide, ?_⟩
  intro k hk
  simp at hk

/-- C12. When `throwError` is called, with throwing enabled, for a component
without wired error output and `findCatchErrorComponent` finds no catch point,
the call returns after `onFlowError` (with the throwing flow state, the component
index and the message) and then `stopScriptHook`, each called once; nothing else
of the engine changes: no value is propagated, no task is enqueued. -/
theorem throwError_uncaught (host : Host) (fuel : Nat) (e : Engine) (flowState : FlowState)
    (componentIndex : Nat) (component : Component) (errorMessage : String)
    (hc : flowState.flow.components[componentIndex]? = some component)
    (he : e.g_enableThrowError = true) (hout : component.errorCatchOutput = -1)
    (hnone : (if component.type = host.COMPONENT_TYPE_ERROR_ACTION then flowState.parentFlowState
        else some flowState).bind (findCatchErrorComponent host) = none) :
    flow.throwError host (fuel + 1) e flowState componentIndex errorMessage
      = .ok { e with trace := e.trace ++
          [.onFlowError flowState.flowStateIndex componentIndex errorMessage,
           .stopScriptHook] } := by
  simp only [flow.throwError, throwErrorBody, hc, he, hout, hnone]
  simp

theorem throwError_uncaught_witness :
    wiredErrorFlowState.flow.components[1]?
      = some { type := 1012, inputs := [0], properties := [], outputs := [],
               errorCatchOutput := -1 } ∧
    flow.throwError exampleHost 1 initialEngine wiredErrorFlowState 1 "boom"
      = .ok { initialEngine with trace := initialEngine.trace ++
          [.onFlowError wiredErrorFlowState.flowStateIndex 1 "boom", .stopScriptHook] } :=
  ⟨rfl,
   throwError_uncaught exampleHost 0 initialEngine wiredErrorFlowState 1
     { type := 1012, inputs := [0], properties := [], outputs := [], errorCatchOutput := -1 }
     "boom" rfl rfl rfl (by decide)⟩

/-- C11 (counterexample). With a full queue, `throwError` for component 0 of
`wiredErrorFlow`, whose error output is wired to component 1, propagates the
message; component 1 becomes ready, `addToQueue` finds the queue full and raises
"Execution queue is full" for component 1, which has no catch point: the
flow-error hook and `stopScriptHook` are called. -/
theorem throwError_wired_full_queue_calls_hooks :
    wiredErrorFlowState.flow.components[0]?.map Component.errorCatchOutput = some 0 ∧
    fullQueueEngine.g_enableThrowError = true ∧
    hooksOfRun (flow.throwError exampleHost 2 fullQueueEngine wiredErrorFlowState 0 "boom")
      = some
        [.propagate 0 0 0
          (Value.makeStringRef (evalContext exampleHost fullQueueEngine wiredErrorFlowState).env
            "boom"),
         .onValueChanged (.flowStateValue 0 0),
         .onFlowError 0 1 "Execution queue is full\n", .stopScriptHook] := by
  decide

/-- C11 (amended). When `throwError` is called, with throwing enabled, for a
component whose `errorCatchOutput` is wired (the output `k`), and the queue has
room for one task per wire of that output, the call returns after propagating
through output `k` of the same component the value that `makeStringRef` makes of
the message (a string holding the message when the arena has room for it, the
null value when it has not); no error flag is set, the tasks added to the queue
are ordinary tasks for wired components of the flow, none of them a CatchError
component, and after the propagation only changed values and added tasks are
reported: neither the flow-error hook nor `stopScriptHook` is called. -/
theorem throwError_wired (host : Host) (fuel : Nat) (e : Engine) (flowState : FlowState)
    (componentIndex : Nat) (component : Component) (errorMessage : String)
    (tasks : List QueueEntry) (k : Nat) (output : ComponentOutput)
    (hw : flowState.flow.wellFormed host = true) (hx : executingOk e flowState)
    (hc : flowState.flow.components[componentIndex]? = some component)
    (he : e.g_enableThrowError = true)
    (hout : component.errorCatchOutput = (k : Int)) (hk : k < 2147483648)
    (ho : component.outputs[k]? = some output)
    (hq : QueueHolds e tasks) (hl : tasks.length + output.connections.length ≤ QUEUE_SIZE) :
    ∃ e' added evs,
      flow.throwError host (fuel + 1) e flowState componentIndex errorMessage = .ok e' ∧
      e'.trace = e.trace ++
        .propagate flowState.flowStateIndex componentIndex k
          (Value.makeStringRef (evalContext host e flowState).env errorMessage) :: evs ∧
      (∀ h ∈ evs, Hook.isQuiet h = true) ∧
      e'.error = e.error ∧
      QueueHolds e' (tasks ++ added) ∧ added.length ≤ output.connections.length ∧
      AddedBy host flowState added ∧
      (host.allocOk = true →
        (Value.makeStringRef (evalContext host e flowState).env errorMessage).getString
          = some errorMessage) ∧
      (host.allocOk = false →
        Value.makeStringRef (evalContext host e flowState).env errorMessage = Value.nullValue) := by
  have hne : component.errorCatchOutput ≠ -1 := by rw [hout]; omega
  have hidx : (component.errorCatchOutput % (WORD : Int)).toNat = k := by
    rw [hout]; unfold WORD; omega
  obtain ⟨e', added, evs, hp, hq', hlen, hadd, herr, _, _, htr, hquiet, _⟩ :=
    propagateValueWith_room (flow.throwError host fuel) hw hx hc ho hq hl
      (Value.makeStringRef (evalContext host e flowState).env errorMessage)
  refine ⟨e', added, evs, ?_, htr, hquiet, herr, hq', hlen, hadd, ?_, ?_⟩
  · simp only [flow.throwError, throwErrorBody, hc, he, Bool.not_true, Bool.false_eq_true,
      if_false, hne, ne_eq, not_false_eq_true, if_true, hidx]
    exact hp
  · intro h
    simp [Value.makeStringRef, evalContext, EvalContext.env, h, Value.getString]
  · intro h
    simp [Value.makeStringRef, evalContext, EvalContext.env, h]

theorem throwError_wired_witness :
    wiredErrorFlowState.flow.wellFormed exampleHost = true ∧
    executingOk initialEngine wiredErrorFlowState ∧
    QueueHolds initialEngine [] ∧
    ∃ e' added evs,
      flow.throwError exampleHost 1 initialEngine wiredErrorFlowState 0 "boom" = .ok e' ∧
      e'.trace = initialEngine.trace ++
        .propagate wiredErrorFlowState.flowStateIndex 0 0
          (Value.makeStringRef (evalContext exampleHost initialEngine wiredErrorFlowState).env
            "boom") :: evs ∧
      (∀ h ∈ evs, Hook.isQuiet h = true) ∧
      e'.error = initialEngine.error ∧
      QueueHolds e' ([] ++ added) ∧
      added.length ≤ ({ connections := [{ targetComponentIndex := 1, targetInputIndex := 0 }],
                        isSeqOut := false } : ComponentOutput).connections.length ∧
      AddedBy exampleHost wiredErrorFlowState added ∧
      (exampleHost.allocOk = true →
        (Value.makeStringRef (evalContext exampleHost initialEngine wiredErrorFlowState).env
          "boom").getString = some "boom") ∧
      (exampleHost.allocOk = false →
        Value.makeStringRef (evalContext exampleHost initialEngine wiredErrorFlowState).env "boom"
          = Value.nullValue) :=
  ⟨by decide, Or.inl rfl, queueHolds_initialEngine,
   throwError_wired exampleHost 0 initialEngine wiredErrorFlowState 0 _ "boom" [] 0 _
     (by decide) (Or.inl rfl) rfl rfl rfl (by decide) rfl queueHolds_initialEngine (by decide)⟩

theorem findCatchErrorLoop_spec (host : Host) :
    ∀ (l : List Component) (n k : Nat), findCatchErrorLoop host l n = some k →
      n ≤ k ∧ ∃ c, l[k - n]? = some c ∧ c.type = host.COMPONENT_TYPE_CATCH_ERROR_ACTION
  | [], n, k, h => by simp [findCatchErrorLoop] at h
  | c :: rest, n, k, h => by
    simp only [findCatchErrorLoop] at h
    split at h
    · rename_i hc
      simp only [Option.some.injEq] at h
      subst h
      exact ⟨le_refl _, c, by simp, hc⟩
    · obtain ⟨h1, c', h2, h3⟩ := findCatchErrorLoop_spec host rest (n + 1) k h
      refine ⟨by omega, c', ?_, h3⟩
      have : k - n = (k - (n + 1)) + 1 := by omega
      rw [this, List.getElem?_cons_succ]
      exact h2

theorem firstSeqout_spec :
    ∀ (l : List ComponentOutput) (n s : Nat) (o : ComponentOutput),
      firstSeqout l n = some (s, o) → n ≤ s ∧ l[s - n]? = some o
  | [], n, s, o, h => by simp [firstSeqout] at h
  | x :: rest, n, s, o, h => by
    simp only [firstSeqout] at h
    split at h
    · simp only [Option.some.injEq, Prod.mk.injEq] at h
      obtain ⟨h1, h2⟩ := h
      subst h1 h2
      exact ⟨le_refl _, by simp⟩
    · obtain ⟨h1, h2⟩ := firstSeqout_spec rest (n + 1) s o h
      refine ⟨by omega, ?_⟩
      have : s - n = (s - (n + 1)) + 1 := by omega
      rw [this, List.getElem?_cons_succ]
      exact h2

theorem propagateValueThroughSeqoutLoop_eq (host : Host) (fuel : Nat) (e : Engine)
    (flowState : FlowState) (componentIndex : Nat) :
    ∀ (l : List ComponentOutput) (n : Nat),
      propagateValueThroughSeqoutLoop host fuel e flowState componentIndex l n
        = match firstSeqout l n with
          | some (s, _) => propagateNullValue host fuel e flowState componentIndex s
          | none => .ok e
  | [], n => rfl
  | x :: rest, n => by
    simp only [propagateValueThroughSeqoutLoop, firstSeqout]
    split
    · rfl
    · exact propagateValueThroughSeqoutLoop_eq host fuel e flowState componentIndex rest (n + 1)

theorem deallocateComponentExecutionState_total (host : Host) (e : Engine)
    {flowState : FlowState} {k : Nat} {c : Component}
    (hc : flowState.flow.components[k]? = some c) {tasks : List QueueEntry}
    (hq : QueueHolds e tasks) :
    ∃ e', deallocateComponentExecutionState host e flowState k = .ok e' ∧
      QueueHolds e' tasks ∧ e'.error = e.error ∧ e'.g_enableThrowError = e.g_enableThrowError ∧
      e'.executingComponentIndex = e.executingComponentIndex ∧
      e'.componenentExecutionStates flowState.flowStateIndex k = none ∧
      e'.trace = e.trace ++
        (if (e.componenentExecutionStates flowState.flowStateIndex k).isSome then
          [.onComponentExecutionStateChanged flowState.flowStateIndex k] else []) := by
  unfold deallocateComponentExecutionState
  cases hs : e.componenentExecutionStates flowState.flowStateIndex k with
  | none => exact ⟨e, rfl, hq, rfl, rfl, rfl, hs, by simp⟩
  | some st =>
    simp only [hc]
    exact ⟨_, rfl, hq, rfl, rfl, rfl, by simp [setAt2], by simp⟩

theorem allocateComponentExecutionState_total (host : Host) (e : Engine)
    {flowState : FlowState} {k : Nat} {c : Component}
    (hc : flowState.flow.components[k]? = some c) (state : ComponenentExecutionState)
    {tasks : List QueueEntry} (hq : QueueHolds e tasks) :
    ∃ e', allocateComponentExecutionState host e flowState k state = .ok e' ∧
      QueueHolds e' tasks ∧ e'.error = e.error ∧ e'.g_enableThrowError = e.g_enableThrowError ∧
      e'.executingComponentIndex = e.executingComponentIndex ∧
      e'.componenentExecutionStates flowState.flowStateIndex k = some state ∧
      e'.trace = e.trace ++
        (if (e.componenentExecutionStates flowState.flowStateIndex k).isSome then
          [.onComponentExecutionStateChanged flowState.flowStateIndex k] else []) ++
        [.onComponentExecutionStateChanged flowState.flowStateIndex k] := by
  obtain ⟨e1, h1, hq1, her, hen, hex, _, htr⟩ :=
    deallocateComponentExecutionState_total host e hc hq
  unfold allocateComponentExecutionState
  rw [h1]
  simp only [hc]
  refine ⟨_, rfl, hq1, her, hen, hex, by simp [setAt2], ?_⟩
  simp only [htr]

/-- The loop of `throwError` over the flow states from a child up to its parent,
the catching flow state, sets the error flag of the child only. -/
theorem setErrorFlags_child (parent : FlowState) (i : Nat) (f : Flow) (a : Bool) (pci : Nat)
    (error : Nat → Bool) (hne : i ≠ parent.flowStateIndex) :
    setErrorFlags parent (.child i f a parent pci) error = .ok (setAt error i true) := by
  rw [setErrorFlags]
  have hi : FlowState.flowStateIndex (.child i f a parent pci) = i := rfl
  rw [if_pos (by rw [hi]; exact hne)]
  exact setErrorFlags_self parent _

/-- C13 (amended). A component of a child action flow throws an error; neither that
component nor the calling CallAction has a wired error output, the child flow has
no CatchError component and the parent flow has one (the first being component
`k`). If the queue is not full, `throwError` returns with the error flag of the
child flow state set, the execution state of the CatchError component holding
the value that `makeStringRef` made of the message, and that component added
once to the queue, as its last task. When the component is then executed with
room in the queue for the wires of its outputs, it propagates the value held
through its output 1 once, releases its execution state and then propagates the
null value through its sequence output. -/
theorem catchError_in_parent (host : Host) (fuel : Nat) (e : Engine) (i : Nat) (f : Flow)
    (a : Bool) (parent : FlowState) (parentComponentIndex componentIndex k : Nat)
    (component callAction : Component) (errorMessage : String) (tasks : List QueueEntry)
    (hc : f.components[componentIndex]? = some component)
    (hout : component.errorCatchOutput = -1)
    (hcall : parent.flow.components[parentComponentIndex]? = some callAction)
    (hcallout : callAction.errorCatchOutput = -1)
    (hchild : findCatchErrorLoop host f.components 0 = none)
    (hparent : findCatchErrorLoop host parent.flow.components 0 = some k)
    (hne : i ≠ parent.flowStateIndex) (he : e.g_enableThrowError = true)
    (hq : QueueHolds e tasks) (hl : tasks.length < QUEUE_SIZE) :
    (∃ e1, flow.throwError host (fuel + 1) e (.child i f a parent parentComponentIndex)
          componentIndex errorMessage = .ok e1 ∧
        QueueHolds e1 (tasks ++ [QueueEntry.mk (some parent) k false]) ∧
        e1.componenentExecutionStates parent.flowStateIndex k
          = some (.catchError (Value.makeStringRef
              (evalContext host e (.child i f a parent parentComponentIndex)).env
              errorMessage)) ∧
        e1.error = setAt e.error i true ∧
        e1.trace = e.trace ++
          (if (e.componenentExecutionStates parent.flowStateIndex k).isSome then
            [.onComponentExecutionStateChanged parent.flowStateIndex k] else []) ++
          [.onComponentExecutionStateChanged parent.flowStateIndex k,
           .onAddToQueue parent.flowStateIndex (-1) (-1) k (-1)]) ∧
    (host.allocOk = true →
      (Value.makeStringRef (evalContext host e (.child i f a parent parentComponentIndex)).env
        errorMessage).getString = some errorMessage) ∧
    (∀ (fuel2 : Nat) (e2 : Engine) (message : Value) (catchError : Component)
        (output1 seqout : ComponentOutput) (s : Nat) (tasks2 : List QueueEntry),
      parent.flow.wellFormed host = true → executingOk e2 parent →
      parent.flow.components[k]? = some catchError →
      catchError.outputs[1]? = some output1 →
      firstSeqout catchError.outputs 0 = some (s, seqout) →
      e2.componenentExecutionStates parent.flowStateIndex k = some (.catchError message) →
      QueueHolds e2 tasks2 →
      tasks2.length + output1.connections.length + seqout.connections.length ≤ QUEUE_SIZE →
      ∃ e3 evs1 evs2, executeCatchErrorComponent host fuel2 e2 parent k = .ok e3 ∧
        e3.trace = e2.trace ++
          (.propagate parent.flowStateIndex k 1 message :: evs1) ++
          (.onComponentExecutionStateChanged parent.flowStateIndex k ::
            .propagate parent.flowStateIndex k s (host.constants host.NULL_VALUE_INDEX) ::
            evs2) ∧
        (∀ h ∈ evs1, Hook.isQuiet h = true) ∧ (∀ h ∈ evs2, Hook.isQuiet h = true) ∧
        e3.componenentExecutionStates parent.flowStateIndex k = none ∧
        e3.error = e2.error) := by
  obtain ⟨_, cc, hcc, hcct⟩ := findCatchErrorLoop_spec host _ 0 k hparent
  simp only [Nat.sub_zero] at hcc
  refine ⟨?_, ?_, ?_⟩
  · have hfind : (if component.type = host.COMPONENT_TYPE_ERROR_ACTION then
          (FlowState.child i f a parent parentComponentIndex).parentFlowState
        else some (FlowState.child i f a parent parentComponentIndex)).bind
          (findCatchErrorComponent host) = some (parent, k) := by
      split
      · simp only [FlowState.parentFlowState, Option.some_bind]
        exact findCatchErrorComponent_self hparent
      · simp only [Option.some_bind, findCatchErrorComponent, hchild, hcall, hcallout, ne_eq,
          not_true_eq_false, if_false]
        exact findCatchErrorComponent_self hparent
    have hq0 : QueueHolds { e with error := setAt e.error i true } tasks := hq
    obtain ⟨e2, h2, hq2, her2, hen2, _, hst2, htr2⟩ :=
      allocateComponentExecutionState_total host { e with error := setAt e.error i true } hcc
        (.catchError (Value.makeStringRef
          (evalContext host { e with error := setAt e.error i true }
            (.child i f a parent parentComponentIndex)).env errorMessage)) hq0
    obtain ⟨e3, h3, hq3, hquiet, _, _, htr3⟩ :=
      addToQueueWith_room (flow.throwError host fuel) hq2 hl parent k (-1) (-1) (-1)
    obtain ⟨q1, q2, _, _, _⟩ := hquiet
    refine ⟨e3, ?_, hq3, ?_, ?_, ?_⟩
    · have hflow : (FlowState.child i f a parent parentComponentIndex).flow = f := rfl
      simp only [flow.throwError, throwErrorBody, hflow, hc, he, Bool.not_true,
        Bool.false_eq_true, if_false, hout, ne_eq, not_true_eq_false]
      rw [hfind]
      simp only [setErrorFlags_child parent i f a parentComponentIndex e.error hne, hcc, hcct,
        if_true]
      simp only [he] at h2
      rw [h2]
      simp only
      rw [h3]
    · rw [q2, hst2]; rfl
    · rw [q1, her2]
    · rw [htr3, htr2]
      simp
  · intro h
    simp [Value.makeStringRef, evalContext, EvalContext.env, h, Value.getString]
  · intro fuel2 e2 message catchError output1 seqout s tasks2 hw hx hk ho1 hseq hst hq2 hl2
    obtain ⟨_, hos⟩ := firstSeqout_spec _ 0 s seqout hseq
    simp only [Nat.sub_zero] at hos
    obtain ⟨e3, added1, evs1, hp1, hq3, hlen1, _, her3, hst3, _, htr3, hqu1, hx3⟩ :=
      propagateValueWith_room (flow.throwError host fuel2) hw hx hk ho1 hq2 (by omega) message
    obtain ⟨e4, hd, hq4, her4, _, hx4, hst4, htr4⟩ :=
      deallocateComponentExecutionState_total host e3 hk hq3
    have hx4' : executingOk e4 parent := Or.inl (by rw [hx4]; exact hx3)
    obtain ⟨e5, added2, evs2, hp2, _, _, _, her5, hst5, _, htr5, hqu2, _⟩ :=
      propagateValueWith_room (flow.throwError host fuel2) hw hx4' hk hos hq4
        (by simp only [List.length_append]; omega) (host.constants host.NULL_VALUE_INDEX)
    refine ⟨e5, evs1, evs2, ?_, ?_, hqu1, hqu2, ?_, ?_⟩
    · simp only [executeCatchErrorComponent, hst, propagateValue]
      rw [hp1]
      simp only
      rw [hd]
      simp only [propagateValueThroughSeqout, hk, propagateValueThroughSeqoutLoop_eq, hseq,
        propagateNullValue, propagateValue]
      exact hp2
    · rw [htr5, htr4, htr3, hst3, hst]
      simp
    · rw [hst5]; exact hst4
    · rw [her5, her4, her3]

/-- C13 (counterexample). When the arena has no room for the string of the message,
the error thrown in the called action is caught by the CatchError component of
the caller, whose message output then propagates the null value, not the text
of the message. -/
theorem catchError_message_null_when_exhausted :
    messagesOfRun (runCaughtError exhaustedHost) = some [Value.nullValue] ∧
    Value.nullValue.getString = none := by
  decide

theorem catchError_in_parent_witness :
    (1 : Nat) ≠ callerFlowState.flowStateIndex ∧ QueueHolds initialEngine [] ∧
    (∃ e1, flow.throwError exampleHost 1 initialEngine (.child 1 calledFlow true callerFlowState 0)
          0 "boom" = .ok e1 ∧
        QueueHolds e1 ([] ++ [QueueEntry.mk (some callerFlowState) 1 false])) ∧
    messagesOfRun (runCaughtError exampleHost)
      = some [Value.makeStringRef (evalContext exampleHost initialEngine calledFlowState).env
          "boom"] ∧
    (Value.makeStringRef (evalContext exampleHost initialEngine calledFlowState).env
      "boom").getString = some "boom" ∧
    hooksOfRun (runCaughtError exampleHost)
      = some
        [.onComponentExecutionStateChanged 0 1, .onAddToQueue 0 (-1) (-1) 1 (-1),
         .onRemoveFromQueue,
         .propagate 0 1 1
           (Value.makeStringRef (evalContext exampleHost initialEngine calledFlowState).env
             "boom"),
         .onValueChanged (.flowStateValue 0 0), .onAddToQueue 0 1 1 2 0,
         .onComponentExecutionStateChanged 0 1,
         .propagate 0 1 0 Value.nullValue] :=
  ⟨by decide, queueHolds_initialEngine,
   (let ⟨e1, h1, h2, _⟩ :=
      (catchError_in_parent exampleHost 0 initialEngine 1 calledFlow true callerFlowState 0 0 1
        { type := 1012, inputs := [], properties := [], outputs := [], errorCatchOutput := -1 }
        { type := 1013, inputs := [], properties := [],
          outputs := [{ connections := [], isSeqOut := true }], errorCatchOutput := -1 }
        "boom" [] rfl rfl rfl rfl (by decide) (by decide) (by decide) rfl
        queueHolds_initialEngine (by decide)).1
    ⟨e1, h1, h2⟩),
   by decide, by decide, by decide⟩

theorem tornDown_refl (e : Engine) : TornDown e e := ⟨[], by simp, by simp⟩

theorem tornDown_trans {a b c : Engine} (h1 : TornDown a b) (h2 : TornDown b c) :
    TornDown a c := by
  obtain ⟨ev1, a1, a2⟩ := h1
  obtain ⟨ev2, b1, b2⟩ := h2
  refine ⟨ev1 ++ ev2, by rw [b1, a1, List.append_assoc], ?_⟩
  intro h hh
  rcases List.mem_append.mp hh with hh | hh
  · exact a2 h hh
  · exact b2 h hh

theorem deallocateComponentExecutionState_tornDown (host : Host) (e : Engine)
    {flowState : FlowState} {k : Nat} (hk : k < flowState.flow.components.length) :
    ∃ e', deallocateComponentExecutionState host e flowState k = .ok e' ∧ TornDown e e' := by
  obtain ⟨c, hc⟩ : ∃ c, flowState.flow.components[k]? = some c :=
    ⟨_, List.getElem?_eq_getElem hk⟩
  unfold deallocateComponentExecutionState
  cases hs : e.componenentExecutionStates flowState.flowStateIndex k with
  | none => exact ⟨e, rfl, tornDown_refl e⟩
  | some st =>
    simp only [hc]
    refine ⟨_, rfl, _, rfl, ?_⟩
    intro h hh
    simp only [List.mem_singleton] at hh
    subst hh; rfl

theorem deallocateAllComponentExecutionStates_total (host : Host) (flowState : FlowState) :
    ∀ (l : List Component) (i : Nat) (e : Engine), i + l.length ≤ flowState.flow.components.length →
      ∃ e', deallocateAllComponentExecutionStates host flowState l i e = .ok e' ∧ TornDown e e'
  | [], _, e, _ => ⟨e, rfl, tornDown_refl e⟩
  | _ :: rest, i, e, h => by
    simp only [List.length_cons] at h
    obtain ⟨e1, h1, t1⟩ := deallocateComponentExecutionState_tornDown host e
      (show i < flowState.flow.components.length by omega)
    obtain ⟨e2, h2, t2⟩ := deallocateAllComponentExecutionStates_total host flowState rest (i + 1)
      e1 (by omega)
    refine ⟨e2, ?_, tornDown_trans t1 t2⟩
    simp only [deallocateAllComponentExecutionStates, h1]
    exact h2

/-- With a recursion budget above the number of flow states, the release of a
well-formed list of flow states returns; what stays linked is no larger and
well-formed, and only hook calls of the teardown are made. -/
theorem freeAllChildrenFlowStates_total (host : Host) :
    ∀ (fuel : Nat) (t : FlowStateTree) (e : Engine), t.size < fuel → t.wellFormed = true →
      ∃ e' t', freeAllChildrenFlowStates host fuel t e = .ok (e', t') ∧ t'.size ≤ t.size ∧
        t'.wellFormed = true ∧ TornDown e e'
  | 0, _, _, h, _ => by omega
  | fuel + 1, .null, e, _, _ => ⟨e, .null, rfl, le_refl _, rfl, tornDown_refl e⟩
  | fuel + 1, .node flowState firstChild nextSibling, e, hs, hw => by
    simp only [FlowStateTree.size] at hs
    simp only [FlowStateTree.wellFormed, Bool.and_eq_true] at hw
    obtain ⟨⟨hp, hwc⟩, hwn⟩ := hw
    obtain ⟨e1, c1, h1, s1, w1, t1⟩ :=
      freeAllChildrenFlowStates_total host fuel firstChild e (by omega) hwc
    have hfree : ∃ e2 kept, freeFlowStateWith host (freeAllChildrenFlowStates host fuel)
        flowState c1 e1 = .ok (e2, kept) ∧ TornDown e1 e2 ∧
        (∀ c2, kept = some c2 → c2 = c1) := by
      have hunlink : ∃ e2, (match deallocateAllComponentExecutionStates host flowState
            flowState.flow.components 0 e1 with
          | .error f => (.error f : Except Fault (Engine × Option FlowStateTree))
          | .ok e1' =>
            match freeAllChildrenFlowStates host fuel c1 e1' with
            | .error f => .error f
            | .ok (e2, _) =>
              .ok ({ e2 with trace := e2.trace ++
                      [Hook.onFlowStateDestroyed flowState.flowStateIndex] }, none))
          = .ok (e2, none) ∧ TornDown e1 e2 := by
        obtain ⟨e1', hd, td⟩ := deallocateAllComponentExecutionStates_total host flowState
          flowState.flow.components 0 e1 (by omega)
        obtain ⟨e2, c2, h2, _, _, t2⟩ :=
          freeAllChildrenFlowStates_total host fuel c1 e1' (by omega) w1
        refine ⟨_, by rw [hd]; simp only; rw [h2], ?_⟩
        have t3 : TornDown e2 { e2 with trace := e2.trace ++
            [Hook.onFlowStateDestroyed flowState.flowStateIndex] } := by
          refine ⟨_, rfl, ?_⟩
          intro h hh
          simp only [List.mem_singleton] at hh
          subst hh; rfl
        exact tornDown_trans td (tornDown_trans t2 t3)
      cases flowState with
      | root i f a =>
        obtain ⟨e2, h2, t2⟩ := hunlink
        exact ⟨e2, none, by simp only [freeFlowStateWith]; exact h2, t2, by simp⟩
      | child i f a p pci =>
        simp only [FlowState.parentOk, decide_eq_true_eq] at hp
        cases hst : e1.componenentExecutionStates p.flowStateIndex pci with
        | none =>
          obtain ⟨e2, h2, t2⟩ := hunlink
          exact ⟨e2, none, by simp only [freeFlowStateWith, hst]; exact h2, t2, by simp⟩
        | some st =>
          obtain ⟨e2, h2, t2⟩ := deallocateComponentExecutionState_tornDown host e1 hp
          exact ⟨e2, some c1, by simp only [freeFlowStateWith, hst, h2], t2, by simp⟩
    obtain ⟨e2, kept, h2, t2, hk⟩ := hfree
    obtain ⟨e3, n1, h3, s3, w3, t3⟩ :=
      freeAllChildrenFlowStates_total host fuel nextSibling e2 (by omega) hwn
    simp only [freeAllChildrenFlowStates, h1, h2, h3]
    cases kept with
    | none =>
      exact ⟨e3, n1, rfl, by simp only [FlowStateTree.size]; omega, w3,
        tornDown_trans t1 (tornDown_trans t2 t3)⟩
    | some c2 =>
      have := hk c2 rfl
      subst this
      refine ⟨e3, _, rfl, by simp only [FlowStateTree.size]; omega, ?_,
        tornDown_trans t1 (tornDown_trans t2 t3)⟩
      simp only [FlowStateTree.wellFormed, Bool.and_eq_true]
      exact ⟨⟨hp, w1⟩, w3⟩

theorem watchListReset_eq : ∀ l : List WatchListNode, watchListReset l = []
  | [] => rfl
  | _ :: rest => by simp only [watchListReset]; exact watchListReset_eq rest

/-- C14: On a running engine whose flow states name components of their
parents, `stop` sets the stopping flag and nothing else, so the queue, the
flow states, the watch list and `isFlowStopped` (false) are as before.  The
next `tick`, with a recursion budget above the number of flow states, returns;
it makes only the hook calls of the teardown, and after it `isFlowStopped` is
true, the queue is empty, the watch list is empty and the list of flow states
is null.  Every later `tick` returns the same state. -/
theorem stop_then_tick_tears_down (host : Host) (fuel : Nat) (r : Runtime)
    (hrun : isFlowStopped r = false)
    (hw : r.flowStates.wellFormed = true)
    (hf : r.flowStates.size < fuel) :
    ((stop r).g_isStopping = true ∧ (stop r).engine = r.engine ∧
      (stop r).flowStates = r.flowStates ∧ (stop r).g_watchList = r.g_watchList ∧
      (stop r).g_debuggerIsConnected = r.g_debuggerIsConnected ∧
      (stop r).g_debuggerState = r.g_debuggerState ∧
      isFlowStopped (stop r) = false) ∧
    ∃ r1, tick host fuel (stop r) = .ok r1 ∧
      TornDown r.engine r1.engine ∧
      isFlowStopped r1 = true ∧
      getQueueSize r1.engine = 0 ∧ peekNextTaskFromQueue r1.engine = none ∧
      r1.g_watchList = [] ∧
      r1.flowStates = .null ∧
      ∀ fuel2, tick host fuel2 r1 = .ok r1 := by
  have hrun1 : r.g_isStopped = false := hrun
  refine ⟨⟨rfl, rfl, rfl, rfl, rfl, rfl, hrun⟩, ?_⟩
  have t0 : TornDown r.engine { r.engine with trace := r.engine.trace ++
      [Hook.onStopped, Hook.finishToDebuggerMessageHook] } := by
    refine ⟨_, rfl, ?_⟩
    intro h hh
    simp only [List.mem_cons, List.mem_singleton, List.not_mem_nil, or_false] at hh
    rcases hh with hh | hh <;> subst hh <;> rfl
  obtain ⟨e1, t1, h1, _, _, td⟩ := freeAllChildrenFlowStates_total host fuel r.flowStates
    { r.engine with trace := r.engine.trace ++
      [Hook.onStopped, Hook.finishToDebuggerMessageHook] } hf hw
  have htick : tick host fuel (stop r) = .ok { r with
      g_isStopping := true,
      engine := queueReset e1,
      g_debuggerState := .DEBUGGER_STATE_STOPPED,
      g_debuggerIsConnected := false,
      flowStates := .null,
      g_isStopped := true,
      g_watchList := watchListReset r.g_watchList } := by
    simp only [tick, tickWith, isFlowStopped, stop, hrun1, doStop, h1]
    rfl
  refine ⟨_, htick, ?_, rfl, ?_, ?_, watchListReset_eq _, rfl, ?_⟩
  · obtain ⟨evs, hevs, hall⟩ := tornDown_trans t0 td
    exact ⟨evs, hevs, hall⟩
  · simp [getQueueSize, queueReset]
  · simp [peekNextTaskFromQueue, getQueueSize, queueReset]
  · intro fuel2
    simp [tick, tickWith, isFlowStopped]

theorem stop_then_tick_tears_down_witness :
    isFlowStopped runningRuntime = false ∧
    runningRuntime.flowStates.wellFormed = true ∧
    runningRuntime.flowStates.size < 3 ∧
    getQueueSize runningRuntime.engine = 1 ∧
    ∃ r1, tick exampleHost 3 (stop runningRuntime) = .ok r1 ∧
      isFlowStopped r1 = true ∧ getQueueSize r1.engine = 0 ∧ r1.g_watchList = [] ∧
      r1.flowStates = .null :=
  ⟨by decide, by decide, by decide, by decide,
   let ⟨r1, h1, _, h3, h4, _, h6, h7, _⟩ :=
     (stop_then_tick_tears_down exampleHost 3 runningRuntime (by decide) (by decide)
       (by decide)).2
   ⟨r1, h1, h3, h4, h6, h7⟩⟩

end flow
end eez

namespace eez

theorem alignSize_eq_roundUp64 {S : Nat} (h : S + 63 < WORD) : alignSize S = roundUp64 S := by
  unfold alignSize roundUp64 ALIGNMENT WORD at *
  omega

theorem allocLoop_none_of_no_block (R id : Nat) :
    ∀ l : List AllocBlock, (∀ b ∈ l, b.free = true → b.size < R) → allocLoop R id l = none
  | [], _ => rfl
  | b :: rest, h => by
    have hb : ¬(b.free = true ∧ R ≤ b.size) := by
      intro ⟨h1, h2⟩
      have := h b (List.mem_cons_self _ _) h1
      omega
    rw [allocLoop, if_neg hb,
      allocLoop_none_of_no_block R id rest (fun c hc => h c (List.mem_cons_of_mem _ hc))]

/-- For a size whose rounding does not wrap around, `alloc` returns null and
leaves the heap as it is when the size is zero or no free block is large
enough. -/
theorem alloc_null_of_no_block (h : Heap) (S id : Nat)
    (hS : S = 0 ∨ (S + 63 < WORD ∧ noFreeBlockOfSize h (roundUp64 S))) :
    alloc h S id = (h, none) := by
  unfold alloc
  rcases hS with rfl | ⟨hw, hn⟩
  · simp
  · split
    · rfl
    · rw [alignSize_eq_roundUp64 hw, allocLoop_none_of_no_block _ _ h hn]

/-- C22 (the code at the failing input). On the heap of 1000 bytes after
`initAllocHeap`, whose only block is free and has 984 bytes, no free block has
a size of at least 4294967295 rounded up to a multiple of 64 (4294967296), yet
`alloc(4294967295, 7)` does not return null: the rounded size wraps around to 0,
the first free block is taken and split, and the pointer returned is that of a
block of 0 bytes. -/
theorem alloc_oversize_returns_block :
    roundUp64 4294967295 = 4294967296 ∧
    noFreeBlockOfSize (initAllocHeap 1000) (roundUp64 4294967295) ∧
    alignSize 4294967295 = 0 ∧
    alloc (initAllocHeap 1000) 4294967295 7 =
      ([{ addr := 0, free := false, size := 0, id := some 7 },
        { addr := 16, free := true, size := 968, id := none }], some 16) := by
  refine ⟨by decide, ?_, by decide, by decide⟩
  intro b hb _
  simp only [initAllocHeap, List.mem_singleton] at hb
  subst hb
  decide

theorem remaining_of_small {B R : Nat} (hB : B < 2147483648) (hR : R ≤ B) :
    ((MIN_BLOCK_SIZE : Int) ≤ toInt32 (wrapSub (wrapSub B R) SIZEOF_ALLOC_BLOCK) ↔
      R + SIZEOF_ALLOC_BLOCK + MIN_BLOCK_SIZE ≤ B) ∧
    (R + SIZEOF_ALLOC_BLOCK + MIN_BLOCK_SIZE ≤ B →
      (toInt32 (wrapSub (wrapSub B R) SIZEOF_ALLOC_BLOCK)).toNat = B - R - SIZEOF_ALLOC_BLOCK) := by
  unfold toInt32 wrapSub WORD MIN_BLOCK_SIZE SIZEOF_ALLOC_BLOCK
  constructor
  · constructor
    · intro h
      split at h <;> omega
    · intro h
      rw [if_pos (by omega)]
      omega
  · intro h
    rw [if_pos (by omega)]
    omega

theorem allocLoop_first_fit (R id : Nat) :
    ∀ (l l' : List AllocBlock) (p : Nat), (∀ b ∈ l, b.size < 2147483648) →
      allocLoop R id l = some (l', p) →
      ∃ pre block post, l = pre ++ block :: post ∧
        (∀ b ∈ pre, ¬(b.free = true ∧ R ≤ b.size)) ∧
        block.free = true ∧ R ≤ block.size ∧
        p = block.addr + SIZEOF_ALLOC_BLOCK ∧
        (R + SIZEOF_ALLOC_BLOCK + MIN_BLOCK_SIZE ≤ block.size →
          l' = pre ++ { block with size := R, free := false, id := some id } ::
            { addr := block.addr + SIZEOF_ALLOC_BLOCK + R, free := true,
              size := block.size - R - SIZEOF_ALLOC_BLOCK, id := none } :: post) ∧
        (block.size < R + SIZEOF_ALLOC_BLOCK + MIN_BLOCK_SIZE →
          l' = pre ++ { block with free := false, id := some id } :: post)
  | [], _, _, _, h => by simp [allocLoop] at h
  | b :: rest, l', p, hs, h => by
    by_cases hc : b.free = true ∧ R ≤ b.size
    · have hB := hs b (List.mem_cons_self _ _)
      obtain ⟨hiff, hval⟩ := remaining_of_small hB hc.2
      rw [allocLoop, if_pos hc] at h
      by_cases hr : R + SIZEOF_ALLOC_BLOCK + MIN_BLOCK_SIZE ≤ b.size
      · simp only [if_pos (hiff.mpr hr), Option.some.injEq, Prod.mk.injEq, hval hr] at h
        obtain ⟨rfl, rfl⟩ := h
        exact ⟨[], b, rest, rfl, by simp, hc.1, hc.2, rfl, fun _ => rfl, fun hlt => by omega⟩
      · simp only [if_neg (fun hh => hr (hiff.mp hh)), Option.some.injEq, Prod.mk.injEq] at h
        obtain ⟨rfl, rfl⟩ := h
        exact ⟨[], b, rest, rfl, by simp, hc.1, hc.2, rfl, fun hle => absurd hle hr, fun _ => rfl⟩
    · rw [allocLoop, if_neg hc] at h
      cases hrec : allocLoop R id rest with
      | none => rw [hrec] at h; simp at h
      | some res =>
        obtain ⟨rest', q⟩ := res
        rw [hrec] at h
        simp only [Option.some.injEq, Prod.mk.injEq] at h
        obtain ⟨rfl, rfl⟩ := h
        obtain ⟨pre, block, post, hl, hpre, hf, hsz, hp, h1, h2⟩ :=
          allocLoop_first_fit R id rest rest' q
            (fun c hcm => hs c (List.mem_cons_of_mem _ hcm)) hrec
        refine ⟨b :: pre, block, post, by rw [hl]; rfl, ?_, hf, hsz, hp, ?_, ?_⟩
        · intro c hcm
          rcases List.mem_cons.mp hcm with rfl | hcm
          · exact hc
          · exact hpre c hcm
        · intro hle; rw [h1 hle]; rfl
        · intro hlt; rw [h2 hlt]; rfl

/-- C23 (the code at the failing input). On the heap of 1000 bytes after
`initAllocHeap`, whose only block is free and has 984 bytes, `alloc(4294967295, 7)`
is successful, with `S > 0`, although `S` rounded up to a multiple of 64 is
4294967296 and the block taken is smaller: the rounded size wraps around to 0 in
`size_t`, the first free block passes the size test, and it is split into an
allocated block of 0 bytes, not of 4294967296, and a free block of 968 bytes.
So it is not true that every successful `alloc` takes a block of at least the
rounded size. -/
theorem alloc_oversize_takes_small_block :
    roundUp64 4294967295 = 4294967296 ∧ alignSize 4294967295 = 0 ∧
    initAllocHeap 1000 = [{ addr := 0, free := true, size := 984, id := none }] ∧
    alloc (initAllocHeap 1000) 4294967295 7 =
      ([{ addr := 0, free := false, size := 0, id := some 7 },
        { addr := 16, free := true, size := 968, id := none }], some 16) ∧
    ¬ (∀ (h h' : Heap) (S id p : Nat), 0 < S → S < WORD → alloc h S id = (h', some p) →
        ∃ pre block post, h = pre ++ block :: post ∧ block.free = true ∧
          roundUp64 S ≤ block.size ∧ p = block.addr + SIZEOF_ALLOC_BLOCK) := by
  refine ⟨by decide, by decide, by decide, by decide, ?_⟩
  intro hall
  obtain ⟨pre, block, post, hl, _, hsz, _⟩ :=
    hall (initAllocHeap 1000)
      [{ addr := 0, free := false, size := 0, id := some 7 },
       { addr := 16, free := true, size := 968, id := none }]
      4294967295 7 16 (by decide) (by decide) (by decide)
  have hmem : block ∈ initAllocHeap 1000 := by rw [hl]; simp
  simp only [initAllocHeap, List.mem_singleton] at hmem
  subst hmem
  revert hsz
  decide

/-- First fit where the rounding of the size does not wrap around: a successful
`alloc(S, id)` with `0 < S <= 2^32 - 64`, in a heap whose blocks are smaller than
2^31 bytes, takes the first block in list order that is free and whose size is
at least `R`, `S` rounded up to a multiple of 64, and returns the address just
past its header.  If the size of that block minus
`R` minus the size of a block header is at least the minimum block size 8, the
block is split: the allocated block has size `R` and the remainder is a new free
block linked right after it; otherwise the whole block is allocated unsplit. -/
theorem alloc_first_fit (h h' : Heap) (S id p : Nat)
    (hpos : 0 < S) (hS : S + 63 < WORD)
    (hsize : ∀ b ∈ h, b.size < 2147483648)
    (ha : alloc h S id = (h', some p)) :
    ∃ pre block post, h = pre ++ block :: post ∧
      (∀ b ∈ pre, ¬(b.free = true ∧ roundUp64 S ≤ b.size)) ∧
      block.free = true ∧ roundUp64 S ≤ block.size ∧
      p = block.addr + SIZEOF_ALLOC_BLOCK ∧
      (roundUp64 S + SIZEOF_ALLOC_BLOCK + MIN_BLOCK_SIZE ≤ block.size →
        h' = pre ++ { block with size := roundUp64 S, free := false, id := some id } ::
          { addr := block.addr + SIZEOF_ALLOC_BLOCK + roundUp64 S, free := true,
            size := block.size - roundUp64 S - SIZEOF_ALLOC_BLOCK, id := none } :: post) ∧
      (block.size < roundUp64 S + SIZEOF_ALLOC_BLOCK + MIN_BLOCK_SIZE →
        h' = pre ++ { block with free := false, id := some id } :: post) := by
  unfold alloc at ha
  rw [if_neg (by omega), alignSize_eq_roundUp64 hS] at ha
  cases hrec : allocLoop (roundUp64 S) id h with
  | none => rw [hrec] at ha; simp at ha
  | some res =>
    obtain ⟨l', q⟩ := res
    rw [hrec] at ha
    simp only [Prod.mk.injEq, Option.some.injEq] at ha
    obtain ⟨rfl, rfl⟩ := ha
    exact allocLoop_first_fit _ id h _ _ hsize hrec

theorem alloc_first_fit_witness :
    (0 < 700 ∧ 700 + 63 < WORD ∧ (∀ b ∈ exampleHeap, b.size < 2147483648) ∧
      alloc exampleHeap 700 9 =
        ([{ addr := 0, free := true, size := 128, id := some 7 },
          { addr := 144, free := false, size := 64, id := some 8 },
          { addr := 224, free := false, size := 704, id := some 9 },
          { addr := 944, free := true, size := 40, id := none }], some 240)) ∧
    ∃ pre block post, exampleHeap = pre ++ block :: post ∧
      (∀ b ∈ pre, ¬(b.free = true ∧ roundUp64 700 ≤ b.size)) ∧
      block.free = true ∧ roundUp64 700 ≤ block.size ∧
      240 = block.addr + SIZEOF_ALLOC_BLOCK :=
  ⟨⟨by decide, by decide, by decide, by decide⟩,
   let ⟨pre, block, post, h1, h2, h3, h4, h5, _⟩ :=
     alloc_first_fit exampleHeap
       [{ addr := 0, free := true, size := 128, id := some 7 },
        { addr := 144, free := false, size := 64, id := some 8 },
        { addr := 224, free := false, size := 704, id := some 9 },
        { addr := 944, free := true, size := 40, id := none }]
       700 9 240 (by decide) (by decide) (by decide) (by decide)
   ⟨pre, block, post, h1, h2, h3, h4, h5⟩⟩

theorem noAdjacentFree_of_heapInv {limit : Nat} :
    ∀ {l : List AllocBlock}, heapInv limit l → noAdjacentFree l
  | [], _ => List.chain'_nil
  | [_], _ => List.chain'_singleton _
  | b :: c :: rest, h => by
    have ih : noAdjacentFree (c :: rest) := noAdjacentFree_of_heapInv h.2.2
    exact List.chain'_cons.mpr ⟨h.2.1, ih⟩

/-- C24. In every heap state reachable from `initAllocHeap` by `alloc` and `free`
calls, no two blocks that are adjacent in the block list are both free; in
particular the heap that a `free` call leaves has no two adjacent free blocks:
the released block was merged with a free successor and with a free
predecessor. -/
theorem heapReachable_noAdjacentFree (h : Heap) (hr : HeapReachable h) :
    noAdjacentFree h ∧
    ∀ (ptr : Option Nat) (h' : Heap), free h ptr = some h' → noAdjacentFree h' := by
  have key : ∀ g, HeapReachable g → noAdjacentFree g := by
    intro g hg
    obtain ⟨limit, _, hinv, _⟩ := heapReachable_inv hg
    exact noAdjacentFree_of_heapInv hinv
  exact ⟨key h hr, fun ptr h' hf => key h' (HeapReachable.free h h' ptr hr hf)⟩

theorem heapReachable_noAdjacentFree_witness :
    HeapReachable exampleHeap ∧
    free exampleHeap (some 160) = some [{ addr := 0, free := true, size := 984, id := some 7 }] ∧
    noAdjacentFree exampleHeap ∧
    noAdjacentFree [{ addr := 0, free := true, size := 984, id := some 7 }] :=
  (fun (hr : HeapReachable exampleHeap) =>
    ⟨hr, by decide, (heapReachable_noAdjacentFree exampleHeap hr).1,
     (heapReachable_noAdjacentFree exampleHeap hr).2 (some 160) _ (by decide)⟩)
  (HeapReachable.free (alloc (alloc (initAllocHeap 1000) 100 7).1 40 8).1 exampleHeap (some 16)
    (HeapReachable.alloc _ 40 8
      (HeapReachable.alloc _ 100 7 (HeapReachable.init 1000 (by decide) (by decide))))
    (by decide))

end eez

namespace eez
namespace flow

/-- C28. `canFreeFlowState(F)` is true exactly when `F` is an action flow state and
its reference counter is not greater than zero; for a page flow state it is
false whatever the counter. -/
theorem canFreeFlowState_iff (e : Engine) (flowState : FlowState) :
    (canFreeFlowState e flowState = true ↔
      flowState.isAction = true ∧ e.refCounter flowState.flowStateIndex ≤ 0) ∧
    (flowState.isAction = false → canFreeFlowState e flowState = false) := by
  unfold canFreeFlowState
  cases ha : flowState.isAction
  · simp
  · by_cases hc : 0 < e.refCounter flowState.flowStateIndex
    · simp [hc]
    · simp [hc]; omega

theorem canFreeFlowState_iff_witness :
    catchErrorFlowState.isAction = false ∧ calledFlowState.isAction = true ∧
    initialEngine.refCounter calledFlowState.flowStateIndex ≤ 0 ∧
    canFreeFlowState initialEngine catchErrorFlowState = false ∧
    canFreeFlowState initialEngine calledFlowState = true :=
  ⟨rfl, rfl, by decide,
   (canFreeFlowState_iff initialEngine catchErrorFlowState).2 rfl,
   (canFreeFlowState_iff initialEngine calledFlowState).1.mpr ⟨rfl, by decide⟩⟩

end flow
end eez

namespace eez

theorem Value.getValue_of_isError {resolve : Value → Value} {v : Value} (h : v.isError = true) :
    v.getValue resolve = v := by
  simp only [Value.isError, decide_eq_true_eq] at h
  simp [Value.getValue, Value.isIndirectValueType, h]

/-- C21 (counterexample). When the arena has no room, `op_add` of two blobs of
three bytes each is the null value, not a blob. -/
theorem op_add_blob_null_when_exhausted :
    blobAt4096.isBlob = true ∧ blobAt8192.isBlob = true ∧
    op_add ValueEnv.exhausted blobAt4096 blobAt8192 = Value.nullValue ∧
    Value.nullValue.isBlob = false := by
  decide

/-- C21 (amended). `op_add` with at least one blob operand (after `getValue`): if
both operands are blobs the result is what `makeBlobRef` returns for the bytes
of `a` followed by the bytes of `b`: a new blob of length `len(a) + len(b)`
holding these bytes when the arena has room for it, the null value when it has
not; if the other operand is undefined or null the result is the blob operand;
for any other type of the other operand the result is an Error. -/
theorem op_add_blob (env : ValueEnv) (a1 b1 : Value) :
    ((a1.getValue env.resolve).isBlob = true → (b1.getValue env.resolve).isBlob = true →
      op_add env a1 b1 = Value.makeBlobRef2 env ((a1.getValue env.resolve).blobValue.getD [])
        ((b1.getValue env.resolve).blobValue.getD []) ∧
      (env.allocOk = true →
        (op_add env a1 b1).isBlob = true ∧
        (op_add env a1 b1).blobValue = some ((a1.getValue env.resolve).blobValue.getD [] ++
          (b1.getValue env.resolve).blobValue.getD []) ∧
        (op_add env a1 b1).blobLength =
          (a1.getValue env.resolve).blobLength + (b1.getValue env.resolve).blobLength) ∧
      (env.allocOk = false → op_add env a1 b1 = Value.nullValue)) ∧
    ((a1.getValue env.resolve).isBlob = true →
      (b1.getValue env.resolve).isUndefinedOrNull = true →
      op_add env a1 b1 = a1.getValue env.resolve) ∧
    ((b1.getValue env.resolve).isBlob = true →
      (a1.getValue env.resolve).isUndefinedOrNull = true →
      op_add env a1 b1 = b1.getValue env.resolve) ∧
    ((a1.getValue env.resolve).isBlob = true →
      (b1.getValue env.resolve).isBlob = false →
      (b1.getValue env.resolve).isUndefinedOrNull = false →
      (op_add env a1 b1).isError = true) ∧
    ((b1.getValue env.resolve).isBlob = true →
      (a1.getValue env.resolve).isBlob = false →
      (a1.getValue env.resolve).isUndefinedOrNull = false →
      (op_add env a1 b1).isError = true) := by
  have hblobA : (a1.getValue env.resolve).isBlob = true → a1.isError = false := by
    intro h
    cases he : a1.isError
    · rfl
    · rw [Value.getValue_of_isError he] at h
      simp only [Value.isBlob, Value.isError, decide_eq_true_eq] at h he
      rw [h] at he; cases he
  have hblobB : (b1.getValue env.resolve).isBlob = true → b1.isError = false := by
    intro h
    cases he : b1.isError
    · rfl
    · rw [Value.getValue_of_isError he] at h
      simp only [Value.isBlob, Value.isError, decide_eq_true_eq] at h he
      rw [h] at he; cases he
  have hnullA : (a1.getValue env.resolve).isUndefinedOrNull = true → a1.isError = false := by
    intro h
    cases he : a1.isError
    · rfl
    · rw [Value.getValue_of_isError he] at h
      simp only [Value.isUndefinedOrNull, Value.isError, decide_eq_true_eq] at h he
      rw [he] at h; simp at h
  have hnullB : (b1.getValue env.resolve).isUndefinedOrNull = true → b1.isError = false := by
    intro h
    cases he : b1.isError
    · rfl
    · rw [Value.getValue_of_isError he] at h
      simp only [Value.isUndefinedOrNull, Value.isError, decide_eq_true_eq] at h he
      rw [he] at h; simp at h
  have hnn : ∀ v : Value, v.isBlob = true → v.isUndefinedOrNull = false := by
    intro v h
    simp only [Value.isBlob, Value.isUndefinedOrNull, decide_eq_true_eq] at h ⊢
    simp [h]
  refine ⟨?_, ?_, ?_, ?_, ?_⟩
  · intro ha hb
    have heq : op_add env a1 b1 = Value.makeBlobRef2 env
        ((a1.getValue env.resolve).blobValue.getD [])
        ((b1.getValue env.resolve).blobValue.getD []) := by
      simp [op_add, hblobA ha, hblobB hb, ha, hb, hnn _ hb]
    refine ⟨heq, ?_, ?_⟩
    · intro hok
      rw [heq]
      simp [Value.makeBlobRef2, hok, Value.isBlob, Value.blobLength, Value.undefined]
    · intro hno
      rw [heq]
      simp [Value.makeBlobRef2, hno]
  · intro ha hb
    simp [op_add, hblobA ha, hnullB hb, ha, hb]
  · intro hb ha
    have hab : (a1.getValue env.resolve).isBlob = false := by
      cases h : (a1.getValue env.resolve).isBlob
      · rfl
      · rw [hnn _ h] at ha; cases ha
    simp [op_add, hblobB hb, hnullA ha, ha, hb, hab]
  · intro ha hb hn
    cases hea : a1.isError
    · cases heb : b1.isError
      · have heq : op_add env a1 b1 = Value.makeError := by
          simp [op_add, hea, heb, ha, hb, hn]
        rw [heq]; rfl
      · have heq : op_add env a1 b1 = b1 := by simp [op_add, hea, heb]
        rw [heq]; exact heb
    · exact absurd (hblobA ha) (by simp [hea])
  · intro hb ha hn
    cases hea : a1.isError
    · cases heb : b1.isError
      · have heq : op_add env a1 b1 = Value.makeError := by
          simp [op_add, hea, heb, ha, hb, hn]
        rw [heq]; rfl
      · exact absurd (hblobB hb) (by simp [heb])
    · have heq : op_add env a1 b1 = a1 := by simp [op_add, hea]
      rw [heq]; exact hea

theorem op_add_blob_witness :
    (blobAt4096.getValue ValueEnv.plain.resolve).isBlob = true ∧
    (blobAt8192.getValue ValueEnv.plain.resolve).isBlob = true ∧
    ValueEnv.plain.allocOk = true ∧
    (op_add ValueEnv.plain blobAt4096 blobAt8192).blobLength = 6 ∧
    (op_add ValueEnv.plain blobAt4096 blobAt8192).isBlob = true ∧
    (op_add ValueEnv.plain blobAt4096 blobAt8192).blobValue
      = some ((blobAt4096.getValue ValueEnv.plain.resolve).blobValue.getD [] ++
          (blobAt8192.getValue ValueEnv.plain.resolve).blobValue.getD []) :=
  ⟨by decide, by decide, rfl, by decide,
   (((op_add_blob ValueEnv.plain blobAt4096 blobAt8192).1 (by decide) (by decide)).2.1 rfl).1,
   (((op_add_blob ValueEnv.plain blobAt4096 blobAt8192).1 (by decide) (by decide)).2.1 rfl).2.1⟩

end eez

namespace eez
namespace flow

theorem findCatchErrorComponent_parent {host : Host} {i : Nat} {f : Flow} {a : Bool}
    {parent : FlowState} {pci k : Nat} {callAction : Component}
    (hchild : findCatchErrorLoop host f.components 0 = none)
    (hcall : parent.flow.components[pci]? = some callAction)
    (hcallout : callAction.errorCatchOutput = -1)
    (hparent : findCatchErrorLoop host parent.flow.components 0 = some k) :
    findCatchErrorComponent host (.child i f a parent pci) = some (parent, k) := by
  rw [findCatchErrorComponent]
  simp only [hchild, hcall, hcallout, ne_eq, not_true_eq_false, if_false]
  exact findCatchErrorComponent_self hparent

/-- On a full queue, `throwError` for a component of a called action without catch
point of its own, whose caller has a CatchError component without wired error
output, does not return: it reaches `addToQueue` for that CatchError component,
whose `throwError` finds the same catch point again. -/
theorem throwError_child_of_catchError_diverges {host : Host} {i : Nat} {f : Flow} {a : Bool}
    {parent : FlowState} {pci k : Nat} {callAction c component : Component}
    (hchild : findCatchErrorLoop host f.components 0 = none)
    (hcall : parent.flow.components[pci]? = some callAction)
    (hcallout : callAction.errorCatchOutput = -1)
    (hparent : findCatchErrorLoop host parent.flow.components 0 = some k)
    (hc : parent.flow.components[k]? = some c)
    (hct : c.type = host.COMPONENT_TYPE_CATCH_ERROR_ACTION) (hout : c.errorCatchOutput = -1)
    (hne : i ≠ parent.flowStateIndex)
    (fuel : Nat) (e : Engine) (componentIndex : Nat) (errorMessage : String)
    (hcomp : f.components[componentIndex]? = some component)
    (hcout : component.errorCatchOutput = -1)
    (hty : component.type ≠ host.COMPONENT_TYPE_ERROR_ACTION)
    (hf : e.g_queueIsFull = true) (he : e.g_enableThrowError = true) :
    flow.throwError host fuel e (.child i f a parent pci) componentIndex errorMessage
      = .error .outOfFuel := by
  cases fuel with
  | zero => rfl
  | succ fuel =>
    have hflow : (FlowState.child i f a parent pci).flow = f := rfl
    obtain ⟨e2, ha, hf2, he2⟩ := allocateComponentExecutionState_ok host
      { e with error := setAt e.error i true } hc
      (.catchError (Value.makeStringRef
        (evalContext host { e with error := setAt e.error i true }
          (.child i f a parent pci)).env errorMessage))
    have hadd : addToQueueWith (flow.throwError host fuel) e2 parent k
        (-1) (-1) (-1) false = .error .outOfFuel := by
      have hf2' : e2.g_queueIsFull = true := hf2.trans hf
      have he2' : e2.g_enableThrowError = true := he2.trans he
      simp only [addToQueueWith, hf2', if_true,
        throwError_catchError_diverges hparent hc hct hout fuel e2 _ hf2' he2']
    rw [flow.throwError, throwErrorBody, hflow, hcomp]
    simp only [he] at ha
    simp only [he, Bool.not_true, Bool.false_eq_true, if_false, hcout, ne_eq, not_true_eq_false,
      hty, Option.some_bind, findCatchErrorComponent_parent hchild hcall hcallout hparent,
      setErrorFlags_child parent i f a pci e.error hne, hc, hct, if_true, ha, hadd]

/-- C25 (the code at the failing input). With a full queue, `addToQueue` for a
component of a called action whose caller has a CatchError component does not
return, whatever the recursion budget: the error it raises is caught in the
caller, `throwError` calls `addToQueue` for the CatchError component, and that
call raises the same error again for the CatchError component itself. -/
theorem addToQueue_full_ancestor_catchError_never_returns (fuel : Nat) :
    fullQueueEngine.g_queueIsFull = true ∧
    findCatchErrorComponent exampleHost calledFlowState = some (callerFlowState, 1) ∧
    addToQueue exampleHost fuel fullQueueEngine calledFlowState 0 (-1) (-1) (-1) false
      = .error .outOfFuel := by
  refine ⟨rfl, by decide, ?_⟩
  have hdiv : flow.throwError exampleHost fuel fullQueueEngine calledFlowState 0
      "Execution queue is full\n" = .error .outOfFuel :=
    @throwError_child_of_catchError_diverges exampleHost 1 calledFlow true callerFlowState 0 1
      _ _ _ (by decide) rfl rfl (by decide) rfl rfl rfl (by decide) fuel fullQueueEngine 0 _
      rfl rfl (by decide) rfl rfl
  simp only [addToQueue, addToQueueWith, show fullQueueEngine.g_queueIsFull = true from rfl,
    if_true, hdiv]

theorem addToQueueWith_room_continuous (raise : ThrowError) {e : Engine}
    {tasks : List QueueEntry} (hq : QueueHolds e tasks) (hl : tasks.length < QUEUE_SIZE)
    (flowState : FlowState) (componentIndex : Nat) (s1 s2 t : Int) :
    ∃ e', addToQueueWith raise e flowState componentIndex s1 s2 t true = .ok (e', true) ∧
      QueueHolds e' (tasks ++ [QueueEntry.mk (some flowState) componentIndex true]) ∧
      e'.componenentExecutionStates = e.componenentExecutionStates ∧
      e'.trace = e.trace := by
  obtain ⟨e1, he1, hq1, _, _⟩ := @QueueHolds.add raise _ _ hq hl flowState componentIndex
    s1 s2 t true
  obtain ⟨e2, he2, _, _, _, _, _, _, _, _, _, hst, _⟩ :=
    addToQueueWith_notFull raise e flowState componentIndex s1 s2 t true (hq.notFull hl)
  have heq : e2 = e1 := by
    rw [he2] at he1
    simpa using he1
  subst heq
  refine ⟨e2, he2, hq1, hst, ?_⟩
  simp only [addToQueueWith, hq.notFull hl, Bool.false_eq_true, if_false, Bool.not_true,
    Except.ok.injEq, Prod.mk.injEq, and_true] at he2
  rw [← he2]
  split <;> rfl

/-- C27. A Delay component whose Milliseconds evaluates to 0, executed without
execution state at the clock reading `t0` while the queue is not full (as after
the removal of its task): the call allocates the execution state with the
deadline `t0` and adds the component to the queue as a continuous task, and it
propagates nothing.  Executed again with that state at a reading `t1` not
earlier than `t0`, in a well-formed flow and with room in the queue for the wires
of its sequence output, it releases the execution state and then propagates the
null value through its sequence output. -/
theorem executeDelayComponent_zero (host : Host) (fuel : Nat) (t0 t1 : Nat) (e : Engine)
    (flowState : FlowState) (componentIndex : Nat) (component : Component) (value : Value)
    (tasks : List QueueEntry)
    (hc : flowState.flow.components[componentIndex]? = some component)
    (hstate : e.componenentExecutionStates flowState.flowStateIndex componentIndex = none)
    (heval : evalProperty host fuel e flowState componentIndex
        host.DELAY_ACTION_COMPONENT_PROPERTY_MILLISECONDS
        "Failed to evaluate Milliseconds in Delay" = .ok (e, some value))
    (hzero : ((value.getValue (evalContext host e flowState).resolve).toDouble host.strtod).1
        = Dbl.fin 0)
    (hq : QueueHolds e tasks) (hl : tasks.length < QUEUE_SIZE)
    (ht0 : t0 < WORD) (ht : t0 ≤ t1) :
    (∃ e1, executeDelayComponent host fuel t0 e flowState componentIndex = .ok e1 ∧
      e1.componenentExecutionStates flowState.flowStateIndex componentIndex
        = some (.delay t0) ∧
      QueueHolds e1 (tasks ++ [QueueEntry.mk (some flowState) componentIndex true]) ∧
      e1.trace = e.trace ++
        [.onComponentExecutionStateChanged flowState.flowStateIndex componentIndex]) ∧
    (∀ (fuel2 : Nat) (e2 : Engine) (tasks2 : List QueueEntry) (s : Nat)
        (seqout : ComponentOutput),
      flowState.flow.wellFormed host = true → executingOk e2 flowState →
      e2.componenentExecutionStates flowState.flowStateIndex componentIndex
        = some (.delay t0) →
      firstSeqout component.outputs 0 = some (s, seqout) →
      QueueHolds e2 tasks2 → tasks2.length + seqout.connections.length ≤ QUEUE_SIZE →
      ∃ e3 evs, executeDelayComponent host fuel2 t1 e2 flowState componentIndex = .ok e3 ∧
        e3.componenentExecutionStates flowState.flowStateIndex componentIndex = none ∧
        e3.trace = e2.trace ++
          (.onComponentExecutionStateChanged flowState.flowStateIndex componentIndex ::
            .propagate flowState.flowStateIndex componentIndex s
              (host.constants host.NULL_VALUE_INDEX) :: evs) ∧
        ∀ h ∈ evs, Hook.isQuiet h = true) := by
  refine ⟨?_, ?_⟩
  · obtain ⟨e2, h2, hq2, _, _, _, hst2, htr2⟩ :=
      allocateComponentExecutionState_total host e hc (.delay t0) hq
    obtain ⟨e3, h3, hq3, hst3, htr3⟩ :=
      addToQueueWith_room_continuous (flow.throwError host fuel) hq2 hl flowState
        componentIndex (-1) (-1) (-1)
    refine ⟨e3, ?_, ?_, hq3, ?_⟩
    · have hw : (t0 + (Dbl.fin 0).floor.toUInt32) % WORD = t0 := by
        have : (Dbl.fin 0).floor.toUInt32 = 0 := by decide
        rw [this, Nat.add_zero, Nat.mod_eq_of_lt ht0]
      simp only [executeDelayComponent, hstate, heval, hzero, Dbl.isNaN, Bool.not_false, if_true,
        hw, h2, addToQueue, h3]
    · rw [hst3]; exact hst2
    · rw [htr3, htr2, hstate]; simp
  · intro fuel2 e2 tasks2 s seqout hw hx hst hseq hq2 hl2
    obtain ⟨_, hos⟩ := firstSeqout_spec _ 0 s seqout hseq
    simp only [Nat.sub_zero] at hos
    obtain ⟨e3, hd, hq3, _, _, hx3, hst3, htr3⟩ :=
      deallocateComponentExecutionState_total host e2 hc hq2
    have hx3' : executingOk e3 flowState := by
      unfold executingOk at *
      rw [hx3]; exact hx
    obtain ⟨e4, added, evs, hp, _, _, _, _, hst4, _, htr4, hqu, _⟩ :=
      propagateValueWith_room (flow.throwError host fuel2) hw hx3' hc hos hq3 hl2
        (host.constants host.NULL_VALUE_INDEX)
    refine ⟨e4, evs, ?_, ?_, ?_, hqu⟩
    · simp only [executeDelayComponent, hst, if_pos ht, hd, propagateValueThroughSeqout, hc,
        propagateValueThroughSeqoutLoop_eq, hseq, propagateNullValue, propagateValue]
      exact hp
    · rw [hst4]; exact hst3
    · rw [htr4, htr3, hst]
      simp

theorem executeDelayComponent_zero_witness :
    QueueHolds initialEngine [] ∧
    (∃ e1, executeDelayComponent exampleHost 1 1000 initialEngine zeroDelayFlowState 0 = .ok e1 ∧
      e1.componenentExecutionStates zeroDelayFlowState.flowStateIndex 0 = some (.delay 1000) ∧
      QueueHolds e1 ([] ++ [QueueEntry.mk (some zeroDelayFlowState) 0 true]) ∧
      e1.trace = initialEngine.trace ++
        [.onComponentExecutionStateChanged zeroDelayFlowState.flowStateIndex 0]) ∧
    outputsOfRun (executeDelayComponent exampleHost 1 1000 initialEngine zeroDelayFlowState 0)
      = some [] ∧
    outputsOfRun
      (match executeDelayComponent exampleHost 1 1000 initialEngine zeroDelayFlowState 0 with
       | .ok e1 => executeDelayComponent exampleHost 1 1000 e1 zeroDelayFlowState 0
       | .error f => .error f) = some [0] :=
  ⟨queueHolds_initialEngine,
   (executeDelayComponent_zero exampleHost 1 1000 1000 initialEngine zeroDelayFlowState 0 _
      (Value.ofInt 0 .INT32) [] rfl rfl rfl (by decide) queueHolds_initialEngine
      (by decide) (by decide) (le_refl _)).1,
   by decide, by decide⟩

/-- What one iteration of the loop of `tick` that returns leads to: the loop is
left before a task is removed; or it is left after the task was removed because
the engine is stopped or stopping; or the time is tested after the task, and the
loop is left or goes on; or the loop goes on without a test. -/
theorem tickLoop_step {host : Host} {exec : ExecuteComponent} {fuel start n steps i : Nat}
    {checks : List (Nat × Nat)} {r : Runtime} {res : TickLoopResult}
    (h : tickLoop host exec fuel start n (steps + 1) i checks r = .ok res) :
    (res.dequeued = i ∧ res.checks = checks ∧ res.exit ≠ .timeElapsed ∧ res.exit ≠ .stopped) ∨
    (res.dequeued = i + 1 ∧ res.checks = checks ∧ res.exit = .stopped) ∨
    ((i + 1) % 5 = 0 ∧ ∃ elapsed,
      ((FLOW_TICK_MAX_DURATION_MS ≤ elapsed ∧ res.dequeued = i + 1 ∧
          res.checks = checks ++ [(i + 1, elapsed)] ∧ res.exit = .timeElapsed) ∨
        (elapsed < FLOW_TICK_MAX_DURATION_MS ∧ ∃ r7,
          tickLoop host exec fuel start n steps (i + 1) (checks ++ [(i + 1, elapsed)]) r7
            = .ok res))) ∨
    ((i + 1) % 5 ≠ 0 ∧ ∃ r6, tickLoop host exec fuel start n steps (i + 1) checks r6 = .ok res) := by
  rw [tickLoop] at h
  by_cases hcond : ¬(i < n ∨ 0 < r.engine.g_numContinuousTaskInQueue)
  · rw [if_pos hcond] at h
    cases h; left; simp
  rw [if_neg hcond] at h
  cases hpeek : peekNextTaskFromQueue r.engine with
  | none => rw [hpeek] at h; cases h; left; simp
  | some task =>
    obtain ⟨flowStatePtr, componentIndex, continuousTask⟩ := task
    rw [hpeek] at h
    simp only at h
    cases hallowed : tickAllowed r flowStatePtr componentIndex continuousTask with
    | error f => rw [hallowed] at h; cases h
    | ok a =>
      obtain ⟨allowed, r1⟩ := a
      rw [hallowed] at h
      cases allowed with
      | false => cases h; left; simp
      | true =>
        simp only at h
        cases hrem : removeNextTaskFromQueue r1.engine with
        | error f => rw [hrem] at h; cases flowStatePtr <;> cases h
        | ok e2 =>
          rw [hrem] at h
          cases flowStatePtr with
          | none => cases h
          | some flowState =>
            simp only at h
            cases hexec : tickExecuteTask host exec fuel start { r1 with engine := e2 } flowState
                componentIndex continuousTask with
            | error f => rw [hexec] at h; cases h
            | ok r4 =>
              rw [hexec] at h
              simp only at h
              by_cases hstop : isFlowStopped r4 ∨ r4.g_isStopping
              · rw [if_pos hstop] at h
                cases h; right; left; simp
              rw [if_neg hstop] at h
              cases hfin : tickFinishTask host fuel r4 flowState with
              | error f => rw [hfin] at h; cases h
              | ok r6 =>
                rw [hfin] at h
                simp only at h
                by_cases h5 : (i + 1) % 5 = 0
                · rw [if_pos h5] at h
                  right; right; left
                  refine ⟨h5, wrapSub (millis r6).1 start, ?_⟩
                  by_cases hel : FLOW_TICK_MAX_DURATION_MS ≤ wrapSub (millis r6).1 start
                  · rw [if_pos hel] at h
                    cases h
                    left
                    exact ⟨hel, rfl, rfl, rfl⟩
                  · rw [if_neg hel] at h
                    right
                    exact ⟨by omega, _, h⟩
                · rw [if_neg h5] at h
                  right; right; right
                  exact ⟨h5, _, h⟩

theorem checkPoints_self (i : Nat) : checkPoints i i = [] := by
  simp [checkPoints]

theorem checkPoints_succ {i d : Nat} (h : i + 1 ≤ d) :
    checkPoints i d = if (i + 1) % 5 = 0 then (i + 1) :: checkPoints (i + 1) d
      else checkPoints (i + 1) d := by
  unfold checkPoints
  have hd : d - i = (d - (i + 1)) + 1 := by omega
  rw [hd, List.range'_succ, List.filter_cons]
  simp only [decide_eq_true_eq]

theorem mem_checkPoints {i d k : Nat} (h : k ∈ checkPoints i d) : k % 5 = 0 ∧ i < k ∧ k ≤ d := by
  unfold checkPoints at h
  simp only [List.mem_filter, List.mem_range'_1, decide_eq_true_eq] at h
  omega

theorem tickLoop_checks {host : Host} {exec : ExecuteComponent} {fuel start n : Nat} :
    ∀ (steps i : Nat) (checks : List (Nat × Nat)) (r : Runtime) (res : TickLoopResult),
      tickLoop host exec fuel start n steps i checks r = .ok res →
      i ≤ res.tested ∧ res.tested ≤ res.dequeued ∧
      ∃ more, res.checks = checks ++ more ∧
        more.map Prod.fst = checkPoints i res.tested ∧
        (∀ c ∈ more.dropLast, c.2 < FLOW_TICK_MAX_DURATION_MS) ∧
        (res.exit = .timeElapsed →
          ∃ t, more.getLast? = some (res.dequeued, t) ∧ FLOW_TICK_MAX_DURATION_MS ≤ t) ∧
        (res.exit ≠ .timeElapsed → ∀ c ∈ more, c.2 < FLOW_TICK_MAX_DURATION_MS)
  | 0, _, _, _, _, h => by simp [tickLoop] at h
  | steps + 1, i, checks, r, res, h => by
    rcases tickLoop_step h with ⟨hd, hc, hne, hns⟩ | ⟨hd, hc, hs⟩ |
      ⟨h5, elapsed, ⟨hel, hd, hc, hx⟩ | ⟨hel, r7, hrec⟩⟩ | ⟨h5, r6, hrec⟩
    · have ht : res.tested = i := by simp [TickLoopResult.tested, hns, hd]
      refine ⟨by omega, by omega, [], by simp [hc], by simp [ht, checkPoints_self], by simp,
        fun hx => absurd hx hne, by simp⟩
    · have ht : res.tested = i := by simp [TickLoopResult.tested, hs, hd]
      refine ⟨by omega, by omega, [], by simp [hc], by simp [ht, checkPoints_self], by simp,
        fun hx => (by rw [hs] at hx; cases hx), by simp⟩
    · have ht : res.tested = i + 1 := by simp [TickLoopResult.tested, hx, hd]
      refine ⟨by omega, by omega, [(i + 1, elapsed)], hc, ?_, by simp, ?_, fun hne => absurd hx hne⟩
      · rw [ht, checkPoints_succ (le_refl _), if_pos h5, checkPoints_self]
        rfl
      · intro _
        exact ⟨elapsed, by simp [hd], hel⟩
    · obtain ⟨h1, h2, more, hm, hfst, hdl, hte, hnte⟩ :=
        tickLoop_checks steps (i + 1) _ r7 res hrec
      refine ⟨by omega, h2, (i + 1, elapsed) :: more, by simp [hm], ?_, ?_, ?_, ?_⟩
      · rw [checkPoints_succ h1, if_pos h5, List.map_cons, hfst]
      · intro c hc
        cases more with
        | nil => simp at hc
        | cons m rest =>
          rw [List.dropLast_cons₂] at hc
          rcases List.mem_cons.mp hc with rfl | hc
          · exact hel
          · exact hdl c hc
      · intro hx
        obtain ⟨t, hl, ht⟩ := hte hx
        cases more with
        | nil => simp at hl
        | cons m rest =>
          exact ⟨t, by rw [List.getLast?_cons_cons]; exact hl, ht⟩
      · intro hne c hc
        rcases List.mem_cons.mp hc with rfl | hc
        · exact hel
        · exact hnte hne c hc
    · obtain ⟨h1, h2, more, hm, hfst, hdl, hte, hnte⟩ :=
        tickLoop_checks steps (i + 1) _ r6 res hrec
      refine ⟨by omega, h2, more, hm, ?_, hdl, hte, hnte⟩
      rw [checkPoints_succ h1, if_neg h5, hfst]

/-- C26. In the loop of `tick`, whatever `executeComponent` does: the elapsed time
`millis() - startTickCount` is read exactly after the removed tasks number 5, 10,
15, ... (unless the loop is left before, the engine being stopped or stopping);
every reading but the last one was below `FLOW_TICK_MAX_DURATION_MS` (5 ms); the
loop is left because the time is up exactly when the last reading, made after the
last task removed, is at least 5 ms.  So the loop is never left for the time
after a number of removed tasks that is not a positive multiple of 5, it is left
at the first test that reads 5 ms or more, and every test made 5 or more tasks
before the end read less than 5 ms. -/
theorem tickLoop_time_test (host : Host) (exec : ExecuteComponent) (fuel start n steps : Nat)
    (r : Runtime) (res : TickLoopResult)
    (h : tickLoop host exec fuel start n steps 0 [] r = .ok res) :
    res.checks.map Prod.fst = (List.range' 1 res.tested).filter (fun k => k % 5 = 0) ∧
    (∀ c ∈ res.checks.dropLast, c.2 < FLOW_TICK_MAX_DURATION_MS) ∧
    (res.exit = .timeElapsed ↔
      ∃ t, res.checks.getLast? = some (res.dequeued, t) ∧ FLOW_TICK_MAX_DURATION_MS ≤ t) ∧
    (res.exit = .timeElapsed →
      0 < res.dequeued ∧ res.dequeued % 5 = 0 ∧
      ∀ c ∈ res.checks, c.1 + 5 ≤ res.dequeued → c.2 < FLOW_TICK_MAX_DURATION_MS) := by
  obtain ⟨_, _, more, hm, hfst, hdl, hte, hnte⟩ := tickLoop_checks steps 0 [] r res h
  simp only [List.nil_append] at hm
  subst hm
  have hlast : res.exit = .timeElapsed → 0 < res.dequeued ∧ res.dequeued % 5 = 0 := by
    intro hx
    obtain ⟨t, hl, _⟩ := hte hx
    have hmem : (res.dequeued, t) ∈ res.checks := List.mem_of_mem_getLast? hl
    have : res.dequeued ∈ res.checks.map Prod.fst := List.mem_map.mpr ⟨_, hmem, rfl⟩
    rw [hfst] at this
    have := mem_checkPoints this
    omega
  refine ⟨?_, hdl, ⟨hte, ?_⟩, ?_⟩
  · rw [hfst]; simp [checkPoints]
  · rintro ⟨t, hl, ht⟩
    by_contra hne
    have := hnte hne _ (List.mem_of_mem_getLast? hl)
    simp only at this
    omega
  · intro hx
    refine ⟨(hlast hx).1, (hlast hx).2, ?_⟩
    intro c hc hlt
    obtain ⟨t, hl, _⟩ := hte hx
    have hsplit : res.checks = res.checks.dropLast ++ [(res.dequeued, t)] := by
      have := List.dropLast_append_getLast? _ hl
      exact this.symm
    rw [hsplit] at hc
    rcases List.mem_append.mp hc with hc | hc
    · exact hdl c hc
    · simp only [List.mem_singleton] at hc
      subst hc
      simp only at hlt
      omega

theorem tickLoop_time_test_witness :
    tickLoopSummary (tickLoop exampleHost executeNothing 1 100 12 20 0 []
        (millis twelveTaskRuntime).2)
      = some (.timeElapsed, 10, [(5, 3), (10, 6)]) ∧
    ∃ res, tickLoop exampleHost executeNothing 1 100 12 20 0 [] (millis twelveTaskRuntime).2
        = .ok res ∧
      (res.exit = .timeElapsed ↔
        ∃ t, res.checks.getLast? = some (res.dequeued, t) ∧ FLOW_TICK_MAX_DURATION_MS ≤ t) := by
  have hs : tickLoopSummary (tickLoop exampleHost executeNothing 1 100 12 20 0 []
      (millis twelveTaskRuntime).2) = some (.timeElapsed, 10, [(5, 3), (10, 6)]) := by
    decide
  refine ⟨hs, ?_⟩
  cases hrun : tickLoop exampleHost executeNothing 1 100 12 20 0 []
      (millis twelveTaskRuntime).2 with
  | error f => rw [hrun] at hs; cases hs
  | ok res =>
    exact ⟨res, rfl,
      (tickLoop_time_test exampleHost executeNothing 1 100 12 20 _ res hrun).2.2.1⟩

theorem isSubscribedTo_same (r : Runtime) (messageType : Nat) :
    SameButDebugger r (isSubscribedTo r messageType).2 := by
  unfold isSubscribedTo
  split
  · exact ⟨⟨_, rfl⟩, rfl, rfl, rfl, rfl⟩
  · exact ⟨⟨[], by simp⟩, rfl, rfl, rfl, rfl⟩

theorem sameButDebugger_trans {a b c : Runtime} (h1 : SameButDebugger a b)
    (h2 : SameButDebugger b c) : SameButDebugger a c := by
  obtain ⟨⟨ev1, e1⟩, a1, a2, a3, a4⟩ := h1
  obtain ⟨⟨ev2, e2⟩, b1, b2, b3, b4⟩ := h2
  refine ⟨⟨ev1 ++ ev2, ?_⟩, b1.trans a1, b2.trans a2, b3.trans a3, b4.trans a4⟩
  rw [e2, e1]
  simp

theorem setDebuggerState_same (r : Runtime) (newState : DebuggerState) :
    SameButDebugger r (setDebuggerState r newState) := by
  unfold setDebuggerState
  split
  · have h0 : SameButDebugger r { r with g_debuggerState := newState } :=
      ⟨⟨[], by simp⟩, rfl, rfl, rfl, rfl⟩
    have h1 := isSubscribedTo_same { r with g_debuggerState := newState }
      MESSAGE_TO_DEBUGGER_STATE_CHANGED
    simp only
    split
    · refine sameButDebugger_trans (sameButDebugger_trans h0 h1) ?_
      exact ⟨⟨_, rfl⟩, rfl, rfl, rfl, rfl⟩
    · exact sameButDebugger_trans h0 h1
  · exact ⟨⟨[], by simp⟩, rfl, rfl, rfl, rfl⟩

theorem canExecuteStep_same {r r2 : Runtime} {flowState : Option FlowState}
    {componentIndex : Nat} {b : Bool}
    (h : canExecuteStep r flowState componentIndex = .ok (b, r2)) : SameButDebugger r r2 := by
  have hrefl : SameButDebugger r r := ⟨⟨[], by simp⟩, rfl, rfl, rfl, rfl⟩
  have hsub := isSubscribedTo_same r MESSAGE_TO_DEBUGGER_ADD_TO_QUEUE
  unfold canExecuteStep at h
  split at h
  · cases h; exact hrefl
  · simp only at h
    split at h
    · cases h; exact hsub
    · split at h
      · cases h; exact hsub
      · split at h
        · cases h
          refine sameButDebugger_trans (sameButDebugger_trans hsub ?_) (setDebuggerState_same _ _)
          exact ⟨⟨[], by simp⟩, rfl, rfl, rfl, rfl⟩
        · split at h
          · cases h
            refine sameButDebugger_trans hsub ?_
            exact ⟨⟨[], by simp⟩, rfl, rfl, rfl, rfl⟩
          · split at h
            · cases h
            · split at h
              · cases h
              · split at h
                · cases h
                  refine sameButDebugger_trans (sameButDebugger_trans hsub ?_)
                    (setDebuggerState_same _ _)
                  exact ⟨⟨[], by simp⟩, rfl, rfl, rfl, rfl⟩
                · cases h; exact hsub

theorem isSubscribedTo_clock (r : Runtime) (k : Nat) (messageType : Nat) :
    isSubscribedTo { r with clockReads := k } messageType =
      ((isSubscribedTo r messageType).1,
        { (isSubscribedTo r messageType).2 with clockReads := k }) := by
  unfold isSubscribedTo
  by_cases hc : r.g_debuggerIsConnected = true ∧
      (r.g_messageSubsciptionFilter % WORD).testBit messageType = true
  · rw [if_pos hc, if_pos hc]
  · rw [if_neg hc, if_neg hc]

theorem setDebuggerState_clock (r : Runtime) (k : Nat) (newState : DebuggerState) :
    setDebuggerState { r with clockReads := k } newState =
      { setDebuggerState r newState with clockReads := k } := by
  unfold setDebuggerState
  by_cases hn : newState ≠ r.g_debuggerState
  · rw [if_pos hn, if_pos hn]
    have h := isSubscribedTo_clock { r with g_debuggerState := newState } k
      MESSAGE_TO_DEBUGGER_STATE_CHANGED
    simp only at h ⊢
    rw [h]
    simp only
    split <;> rfl
  · rw [if_neg hn, if_neg hn]

/-- The result of `canExecuteStep` does not depend on the number of clock
readings made. -/
theorem canExecuteStep_clock (r : Runtime) (k : Nat) (flowState : Option FlowState)
    (componentIndex : Nat) :
    canExecuteStep { r with clockReads := k } flowState componentIndex =
      match canExecuteStep r flowState componentIndex with
      | .ok (b, r2) => .ok (b, { r2 with clockReads := k })
      | .error f => .error f := by
  unfold canExecuteStep
  rw [isSubscribedTo_clock]
  generalize isSubscribedTo r MESSAGE_TO_DEBUGGER_ADD_TO_QUEUE = sub
  obtain ⟨b, r1⟩ := sub
  simp only
  cases hconn : r.g_debuggerIsConnected
  · simp [hconn]
  · cases b
    · simp [hconn]
    · by_cases hp : r1.g_debuggerState = .DEBUGGER_STATE_PAUSED
      · simp [hconn, hp]
      · by_cases hs : r1.g_debuggerState = .DEBUGGER_STATE_SINGLE_STEP
        · simp [hconn, hp, hs, ← setDebuggerState_clock]
        · cases hskip : r1.g_skipNextBreakpoint
          · cases flowState with
            | none => simp [hconn, hp, hs, hskip]
            | some fs =>
              cases hcomp : fs.flow.components[componentIndex]? with
              | none => simp [hconn, hp, hs, hskip, hcomp]
              | some c =>
                cases hb : r1.breakpoint fs.flow componentIndex
                · simp [hconn, hp, hs, hskip, hcomp, hb]
                · simp [hconn, hp, hs, hskip, hcomp, hb, ← setDebuggerState_clock]
          · simp [hconn, hp, hs, hskip]

theorem queueHolds_of_trace {e : Engine} {evs : List Hook} {tasks : List QueueEntry}
    (h : QueueHolds e tasks) : QueueHolds { e with trace := e.trace ++ evs } tasks := h

theorem visitWatchList_nil {r : Runtime} (h : r.g_watchList = []) : visitWatchList r = .ok r := by
  unfold visitWatchList
  rw [h]

/-- C29. On a running engine with an empty watch list, when the task at the head of
the queue is not a continuous task and `canExecuteStep` returns false for it,
`tick` returns, whatever `executeComponent` is, and leaves the engine as it was
but for the hook calls recorded: the queue holds the same tasks in the same
order, with the same head. -/
theorem tick_keeps_queue_when_cannotExecuteStep (host : Host) (exec : ExecuteComponent)
    (fuel : Nat) (r r2 : Runtime) (flowStatePtr : Option FlowState) (componentIndex : Nat)
    (hrun : isFlowStopped r = false) (hstopping : r.g_isStopping = false) (hfuel : 0 < fuel)
    (hpeek : peekNextTaskFromQueue r.engine = some (flowStatePtr, componentIndex, false))
    (hcan : canExecuteStep r flowStatePtr componentIndex = .ok (false, r2))
    (hwatch : r.g_watchList = []) :
    ∃ r' evs, tickWith host exec fuel r = .ok r' ∧
      r'.engine = { r.engine with trace := r.engine.trace ++ evs } ∧
      (∀ tasks, QueueHolds r.engine tasks → QueueHolds r'.engine tasks) ∧
      getQueueSize r'.engine = getQueueSize r.engine ∧
      peekNextTaskFromQueue r'.engine = some (flowStatePtr, componentIndex, false) := by
  have key : ∃ r' evs, tickWith host exec fuel r = .ok r' ∧
      r'.engine = { r.engine with trace := r.engine.trace ++ evs } := by
    obtain ⟨steps, rfl⟩ : ∃ steps, fuel = steps + 1 := ⟨fuel - 1, by omega⟩
    have hrun1 : r.g_isStopped = false := hrun
    unfold tickWith
    simp only [isFlowStopped, hrun1, hstopping, Bool.false_eq_true, if_false]
    rw [tickLoop]
    by_cases hcond : ¬(0 < getQueueSize (millis r).2.engine ∨
        0 < (millis r).2.engine.g_numContinuousTaskInQueue)
    · rw [if_pos hcond]
      have hw : (millis r).2.g_watchList = [] := hwatch
      simp only [visitWatchList_nil hw]
      exact ⟨_, [.finishToDebuggerMessageHook], rfl, rfl⟩
    · rw [if_neg hcond]
      have hp : peekNextTaskFromQueue (millis r).2.engine
          = some (flowStatePtr, componentIndex, false) := hpeek
      rw [hp]
      have hallowed : tickAllowed (millis r).2 flowStatePtr componentIndex false
          = .ok (false, { r2 with clockReads := r.clockReads + 1 }) := by
        have := canExecuteStep_clock r (r.clockReads + 1) flowStatePtr componentIndex
        rw [hcan] at this
        simp only [tickAllowed, Bool.false_eq_true, if_false]
        exact this
      simp only [hallowed]
      obtain ⟨⟨evs, he⟩, _, _, _, hw⟩ := canExecuteStep_same hcan
      have hw2 : ({ r2 with clockReads := r.clockReads + 1 } : Runtime).g_watchList = [] := by
        show r2.g_watchList = []
        rw [hw, hwatch]
      simp only [visitWatchList_nil hw2]
      refine ⟨_, evs ++ [.finishToDebuggerMessageHook], rfl, ?_⟩
      show { r2.engine with trace := r2.engine.trace ++ [Hook.finishToDebuggerMessageHook] } = _
      rw [he]
      simp
  obtain ⟨r', evs, ht, he⟩ := key
  refine ⟨r', evs, ht, he, ?_, ?_, ?_⟩
  · intro tasks hq
    rw [he]
    exact queueHolds_of_trace hq
  · rw [he]; rfl
  · rw [he]; exact hpeek

theorem tick_keeps_queue_when_cannotExecuteStep_witness :
    isFlowStopped pausedRuntime = false ∧ pausedRuntime.g_isStopping = false ∧
    peekNextTaskFromQueue pausedRuntime.engine = some (some catchErrorFlowState, 0, false) ∧
    pausedRuntime.g_watchList = [] ∧
    ∃ r' evs, tickWith exampleHost (fun r _ _ => .ok r) 1 pausedRuntime = .ok r' ∧
      r'.engine = { pausedRuntime.engine with trace := pausedRuntime.engine.trace ++ evs } ∧
      getQueueSize r'.engine = 1 :=
  ⟨rfl, rfl, by decide, rfl,
   let ⟨r', evs, h1, h2, _, h4, _⟩ :=
     tick_keeps_queue_when_cannotExecuteStep exampleHost (fun r _ _ => .ok r) 1 pausedRuntime
       (isSubscribedTo pausedRuntime MESSAGE_TO_DEBUGGER_ADD_TO_QUEUE).2
       (some catchErrorFlowState) 0 rfl rfl (by decide) (by decide) rfl rfl
   ⟨r', evs, h1, h2, by rw [h4]; decide⟩⟩

theorem evalProperty_constant (host : Host) (fuel : Nat) (e : Engine) (flowState : FlowState)
    (componentIndex propertyIndex k : Nat) (component : Component) (msg : String) (x : Int)
    (hc : flowState.flow.components[componentIndex]? = some component)
    (hp : component.properties[propertyIndex]? = some [.PUSH_CONSTANT k, .END])
    (hk : host.constants k = Value.ofInt x .INT32) :
    evalProperty host fuel e flowState componentIndex propertyIndex msg
      = .ok (e, some (Value.ofInt x .INT32)) := by
  simp [evalProperty, hc, hp, evalExpressionIn, evalExpression, evalExpressionLoop,
    evalInstruction, EvalStack.push, EvalStack.empty, EvalStack.sp, EvalStack.pop, evalContext,
    hk, Value.getValue, Value.isIndirectValueType, Value.ofInt, Value.isError]

theorem evalAssignableProperty_localVar (host : Host) (fuel : Nat) (e : Engine)
    (flowState : FlowState) (componentIndex propertyIndex v : Nat) (component : Component)
    (msg : String)
    (hc : flowState.flow.components[componentIndex]? = some component)
    (hp : component.properties[propertyIndex]? = some [.PUSH_LOCAL_VAR v, .END]) :
    evalAssignableProperty host fuel e flowState componentIndex propertyIndex msg
      = .ok (e, some (valueOfPointer
          (.flowStateValue flowState.flowStateIndex (flowState.flow.componentInputs.length + v)))) := by
  simp [evalAssignableProperty, hc, hp, evalAssignableExpressionIn, evalExpressionLoop,
    evalInstruction, EvalStack.push, EvalStack.empty, EvalStack.sp, EvalStack.pop, evalContext,
    valueOfPointer]

end flow
end eez

namespace eez

theorem op_add_pointer_int32 (env : ValueEnv) (a1 b1 : Value) (ha : a1.type = .VALUE_PTR)
    (hr : (env.resolve a1).type = .INT32) (hb : b1.type = .INT32) :
    op_add env a1 b1 = Value.ofInt ((env.resolve a1).int32Value + b1.int32Value) .INT32 := by
  simp [op_add, Value.isError, Value.getValue, Value.isIndirectValueType, ha, hb, hr,
    Value.isBlob, Value.isString, Value.isDouble, Value.isFloat, Value.isInt64,
    Value.isInt32OrLess]

theorem op_great_int32 (env : ValueEnv) (a b : Value) (ha : a.type = .INT32)
    (hb : b.type = .INT32) :
    ((op_great env a b).toBool env).1 = decide (b.int32Value < a.int32Value) := by
  simp [op_great, Value.isError, ha, hb, is_great, is_less, is_equal, Value.getValue,
    Value.isIndirectValueType, Value.isString, Value.isBlob, Value.toDouble, Dbl.lt, Dbl.eq,
    Dbl.ofInt, Value.toBool, Value.ofBool, Value.undefined]
  by_cases h1 : b.int32Value < a.int32Value
  · have h2 : b.int32Value ≤ a.int32Value := by omega
    have h3 : ¬ a.int32Value = b.int32Value := by omega
    simp [h1, h2, h3]
  · by_cases h2 : b.int32Value ≤ a.int32Value
    · have h3 : a.int32Value = b.int32Value := by omega
      simp [h3]
    · simp [h1, h2]

theorem op_less_int32 (env : ValueEnv) (a b : Value) (ha : a.type = .INT32)
    (hb : b.type = .INT32) :
    ((op_less env a b).toBool env).1 = decide (a.int32Value < b.int32Value) := by
  simp [op_less, Value.isError, ha, hb, is_less, Value.getValue,
    Value.isIndirectValueType, Value.isString, Value.toDouble, Dbl.lt,
    Dbl.ofInt, Value.toBool, Value.ofBool, Value.undefined]

end eez

namespace eez
namespace flow

theorem propagatedOutputs_append (c : Nat) (l1 l2 : List Hook) :
    propagatedOutputs c (l1 ++ l2) = propagatedOutputs c l1 ++ propagatedOutputs c l2 := by
  induction l1 with
  | nil => rfl
  | cons h rest ih =>
    cases h <;> simp only [List.cons_append, propagatedOutputs] <;>
      first
        | exact ih
        | (split
           · exact congrArg _ ih
           · exact ih)

theorem resetSequenceInputs_loop (f t s : Int) (e : Engine)
    (hx : e.executingComponentIndex 0 = 0)
    (h0 : e.values 0 0 = getEmptyInputValue ∨ e.values 0 0 = Value.nullValue)
    (h1 : e.values 0 1 = getEmptyInputValue ∨ e.values 0 1 = Value.nullValue) :
    ∃ e', resetSequenceInputs (loopHost f t s) e loopFlowState = .ok e' ∧
      e'.values 0 0 = getEmptyInputValue ∧ e'.values 0 1 = getEmptyInputValue ∧
      e'.values 0 2 = e.values 0 2 ∧
      e'.componenentExecutionStates = e.componenentExecutionStates ∧
      e'.executingComponentIndex 0 = NO_COMPONENT_INDEX ∧
      propagatedOutputs 0 e'.trace = propagatedOutputs 0 e.trace := by
  have hidx : loopFlowState.flowStateIndex = 0 := rfl
  have hcomp : loopFlowState.flow.components[0]? = some loopComponent := rfl
  have hty : loopComponent.type ≠ (loopHost f t s).COMPONENT_TYPE_OUTPUT_ACTION := by
    show (1018 : Nat) ≠ 1001 + 3
    decide
  have hin : loopComponent.inputs = [0, 1] := rfl
  have hi0 : loopFlowState.flow.componentInputs[0]? = some ⟨true, false⟩ := rfl
  have hi1 : loopFlowState.flow.componentInputs[1]? = some ⟨true, false⟩ := rfl
  have hne : isInputEmpty Value.nullValue = false := by decide
  have hem : isInputEmpty getEmptyInputValue = true := by decide
  unfold resetSequenceInputs
  rw [hidx, hx]
  simp only [show (0 : Nat) ≠ NO_COMPONENT_INDEX from by decide, ne_eq, not_false_eq_true,
    if_true, hcomp, hty, hin]
  rcases h0 with h0 | h0 <;> rcases h1 with h1 | h1 <;>
    simp [resetSequenceInputsLoop, hi0, hi1, hidx, h0, h1, hne, hem, setAt2, setAt,
      propagatedOutputs_append, propagatedOutputs]

theorem propagateValue_loop (f t s : Int) (fuel : Nat) (e : Engine) (k : Nat) (value : Value)
    (hk : k = 0 ∨ k = 1)
    (hx : e.executingComponentIndex 0 = 0)
    (h0 : e.values 0 0 = getEmptyInputValue ∨ e.values 0 0 = Value.nullValue)
    (h1 : e.values 0 1 = getEmptyInputValue ∨ e.values 0 1 = Value.nullValue) :
    ∃ e', propagateValue (loopHost f t s) fuel e loopFlowState 0 k value = .ok e' ∧
      e'.values 0 0 = getEmptyInputValue ∧ e'.values 0 1 = getEmptyInputValue ∧
      e'.values 0 2 = e.values 0 2 ∧
      e'.componenentExecutionStates = e.componenentExecutionStates ∧
      e'.executingComponentIndex 0 = NO_COMPONENT_INDEX ∧
      propagatedOutputs 0 e'.trace = propagatedOutputs 0 e.trace ++ [k] := by
  obtain ⟨e1, hr, a0, a1, a2, a3, a4, a5⟩ := resetSequenceInputs_loop f t s
    { e with trace := e.trace ++ [.propagate loopFlowState.flowStateIndex 0 k value] } hx h0 h1
  have hcomp : loopFlowState.flow.components[0]? = some loopComponent := rfl
  have hout : ∃ o, loopComponent.outputs[k]? = some o ∧ o.connections = [] := by
    rcases hk with rfl | rfl
    · exact ⟨_, rfl, rfl⟩
    · exact ⟨_, rfl, rfl⟩
  obtain ⟨o, ho, hoc⟩ := hout
  refine ⟨e1, ?_, a0, a1, a2, a3, a4, ?_⟩
  · unfold propagateValue propagateValueWith
    rw [if_neg (by decide)]
    simp only [hr, hcomp, ho, hoc, propagateValueLoop]
  · rw [a5]
    simp [propagatedOutputs_append, propagatedOutputs]

theorem ofInt_int32Value (x : Int) : (Value.ofInt x .INT32).int32Value = wrapInt32 x := rfl

theorem ofInt_type (x : Int) (ty : ValueType) : (Value.ofInt x ty).type = ty := rfl

theorem wrapInt32_idem (x : Int) : wrapInt32 (wrapInt32 x) = wrapInt32 x := by
  unfold wrapInt32; omega

theorem executeLoopTail_loop (f t s : Int) (fuel : Nat) (e : Engine) (x y : Int) (cur0 : Value)
    (hst : e.componenentExecutionStates 0 0
      = some (.loop loopVariable (Value.ofInt t .INT32) cur0))
    (hx : e.executingComponentIndex 0 = 0)
    (h0 : e.values 0 0 = getEmptyInputValue ∨ e.values 0 0 = Value.nullValue)
    (h1 : e.values 0 1 = getEmptyInputValue ∨ e.values 0 1 = Value.nullValue)
    (hv : e.values 0 2 = Value.ofInt y .INT32) :
    ∃ e', executeLoopTail (loopHost f t s) fuel e loopFlowState 0 (Value.ofInt s .INT32)
        loopVariable (Value.ofInt t .INT32) (Value.ofInt x .INT32) = .ok e' ∧
      e'.values 0 0 = getEmptyInputValue ∧ e'.values 0 1 = getEmptyInputValue ∧
      e'.values 0 2 = Value.ofInt x .INT32 ∧
      e'.executingComponentIndex 0 = NO_COMPONENT_INDEX ∧
      (if loopDone t s x then
        e'.componenentExecutionStates 0 0 = none ∧
        propagatedOutputs 0 e'.trace = propagatedOutputs 0 e.trace ++ [1]
      else
        e'.componenentExecutionStates 0 0
          = some (.loop loopVariable (Value.ofInt t .INT32) cur0) ∧
        propagatedOutputs 0 e'.trace = propagatedOutputs 0 e.trace ++ [0]) := by
  have hidx : loopFlowState.flowStateIndex = 0 := rfl
  have hcomp : loopFlowState.flow.components[0]? = some loopComponent := rfl
  have hty : loopVariable.type = .VALUE_PTR := rfl
  have hpv : loopVariable.pValueValue = some (.flowStateValue 0 2) := rfl
  have hassign : assignValue (loopHost f t s) fuel e loopFlowState 0 loopVariable
      (Value.ofInt x .INT32) = .ok
        { e with
          values := setAt2 e.values 0 2 (Value.ofInt x .INT32),
          trace := e.trace ++ [.onValueChanged (.flowStateValue 0 2)] } := by
    have hval : assignValueTo (evalContext (loopHost f t s) e loopFlowState).env (e.values 0 2)
        (Value.ofInt x .INT32) = Value.ofInt x .INT32 := by
      rw [hv]
      simp [assignValueTo, Value.isBoolean, Value.isInt32OrLess, Value.ofInt, Value.getValue,
        Value.isIndirectValueType, Value.toInt32, Value.undefined, wrapInt32_idem]
    simp only [assignValue, hty, hpv]
    simp only [hval]
    simp
  set e1 : Engine :=
    { e with
      values := setAt2 e.values 0 2 (Value.ofInt x .INT32),
      trace := e.trace ++ [.onValueChanged (.flowStateValue 0 2)] } with he1
  have hcond : (if Dbl.lt (.fin 0)
        (((Value.ofInt s .INT32).getValue (evalContext (loopHost f t s) e1 loopFlowState).env.resolve).toDouble
          (loopHost f t s).strtod).1 then
        ((op_great (evalContext (loopHost f t s) e1 loopFlowState).env (Value.ofInt x .INT32)
          (Value.ofInt t .INT32)).toBool (evalContext (loopHost f t s) e1 loopFlowState).env).1
      else ((op_less (evalContext (loopHost f t s) e1 loopFlowState).env (Value.ofInt x .INT32)
          (Value.ofInt t .INT32)).toBool (evalContext (loopHost f t s) e1 loopFlowState).env).1)
      = loopDone t s x := by
    rw [op_great_int32 _ _ _ rfl rfl, op_less_int32 _ _ _ rfl rfl]
    simp only [ofInt_int32Value, loopDone]
    have : Dbl.lt (.fin 0)
        (((Value.ofInt s .INT32).getValue
          (evalContext (loopHost f t s) e1 loopFlowState).env.resolve).toDouble
          (loopHost f t s).strtod).1 = decide (0 < wrapInt32 s) := by
      simp [Value.getValue, Value.isIndirectValueType, Value.ofInt, Value.toDouble, Dbl.lt,
        Dbl.ofInt, Value.undefined]
    rw [this]
    by_cases hs : 0 < wrapInt32 s <;> simp [hs]
  have h1x : e1.executingComponentIndex 0 = 0 := hx
  have h10 : e1.values 0 0 = getEmptyInputValue ∨ e1.values 0 0 = Value.nullValue := by
    simpa [he1, setAt2] using h0
  have h11 : e1.values 0 1 = getEmptyInputValue ∨ e1.values 0 1 = Value.nullValue := by
    simpa [he1, setAt2] using h1
  have h12 : e1.values 0 2 = Value.ofInt x .INT32 := by simp [he1, setAt2]
  have h1st : e1.componenentExecutionStates 0 0
      = some (.loop loopVariable (Value.ofInt t .INT32) cur0) := hst
  have h1tr : propagatedOutputs 0 e1.trace = propagatedOutputs 0 e.trace := by
    simp [he1, propagatedOutputs_append, propagatedOutputs]
  unfold executeLoopTail
  simp only [hty, show ValueType.VALUE_PTR ≠ ValueType.FLOW_OUTPUT from by decide, if_false,
    hassign, ne_eq, not_false_eq_true]
  rw [hcond]
  cases hdone : loopDone t s x
  · simp only [Bool.false_eq_true, if_false]
    obtain ⟨e', hp, a0, a1, a2, a3, a4, a5⟩ :=
      propagateValue_loop f t s fuel e1 0 ((loopHost f t s).constants (loopHost f t s).NULL_VALUE_INDEX)
        (Or.inl rfl) h1x h10 h11
    refine ⟨e', ?_, a0, a1, by rw [a2, h12], a4, by rw [a3]; exact h1st, by rw [a5, h1tr]⟩
    simp only [propagateValueThroughSeqout, hcomp]
    exact hp
  · simp only [if_true]
    have hd : deallocateComponentExecutionState (loopHost f t s) e1 loopFlowState 0 = .ok
        { e1 with
          componenentExecutionStates := setAt2 e1.componenentExecutionStates 0 0 none,
          trace := e1.trace ++ [.onComponentExecutionStateChanged 0 0] } := by
      unfold deallocateComponentExecutionState
      rw [hidx, h1st]
      simp only [hcomp]
      rfl
    rw [hd]
    obtain ⟨e', hp, a0, a1, a2, a3, a4, a5⟩ :=
      propagateValue_loop f t s fuel
        { e1 with
          componenentExecutionStates := setAt2 e1.componenentExecutionStates 0 0 none,
          trace := e1.trace ++ [.onComponentExecutionStateChanged 0 0] } 1
        ((loopHost f t s).constants (loopHost f t s).NULL_VALUE_INDEX)
        (Or.inr rfl) h1x h10 h11
    refine ⟨e', hp, a0, a1, by rw [a2]; exact h12, a4, by rw [a3]; simp [setAt2], ?_⟩
    rw [a5]
    simp [propagatedOutputs_append, propagatedOutputs, h1tr]

theorem loopHost_constants (f t s : Int) :
    (loopHost f t s).constants 0 = Value.ofInt f .INT32 ∧
    (loopHost f t s).constants 5 = Value.ofInt t .INT32 ∧
    (loopHost f t s).constants 1 = Value.ofInt s .INT32 := ⟨rfl, rfl, rfl⟩

theorem resetSequenceInputs_idle (host : Host) (e : Engine) (flowState : FlowState)
    (h : e.executingComponentIndex flowState.flowStateIndex = NO_COMPONENT_INDEX) :
    resetSequenceInputs host e flowState = .ok e := by
  unfold resetSequenceInputs
  simp [h]

/-- An execution of the Loop component while the loop is running: the variable
becomes the int32 sum of its value and the step; the loop ends through the
completed output when that value is beyond To, and goes on through the sequence
output otherwise. -/
theorem executeLoopTask_running (f t s : Int) (fuel : Nat) (e : Engine) (y : Int)
    (outs : List Nat) (h : LoopRunning t y outs e) :
    ∃ e', executeLoopTask (loopHost f t s) fuel e = .ok e' ∧
      if loopDone t s (wrapInt32 y + wrapInt32 s) then
        propagatedOutputs 0 e'.trace = outs ++ [1] ∧
        e'.values 0 2 = Value.ofInt (wrapInt32 y + wrapInt32 s) .INT32
      else LoopRunning t (wrapInt32 y + wrapInt32 s) (outs ++ [0]) (retriggerLoop e') := by
  obtain ⟨h0, h1, h2, hst, htr⟩ := h
  set e0 : Engine :=
    { e with executingComponentIndex := setAt e.executingComponentIndex 0 0 } with he0
  have hidx : loopFlowState.flowStateIndex = 0 := rfl
  have hcomp : loopFlowState.flow.components[0]? = some loopComponent := rfl
  have hin : loopComponent.inputs[0]? = some 0 := rfl
  have hx : e0.executingComponentIndex 0 = 0 := by simp [he0, setAt]
  have hstep := evalProperty_constant (loopHost f t s) fuel e0 loopFlowState 0
    (loopHost f t s).LOOP_ACTION_COMPONENT_PROPERTY_STEP 1 loopComponent
    "Failed to evaluate Step in Loop" s hcomp rfl rfl
  have hnext : op_add (evalContext (loopHost f t s) e0 loopFlowState).env loopVariable
      (Value.ofInt s .INT32) = Value.ofInt (wrapInt32 y + wrapInt32 s) .INT32 := by
    have hres : (evalContext (loopHost f t s) e0 loopFlowState).env.resolve loopVariable
        = Value.ofInt y .INT32 := by
      simp [evalContext, EvalContext.env, EvalContext.resolve, loopVariable, valueOfPointer, he0,
        h2]
    rw [op_add_pointer_int32 _ _ _ rfl (by rw [hres]; rfl) rfl, hres]
    rfl
  obtain ⟨e', ht, a0, a1, a2, a3, a4⟩ := executeLoopTail_loop f t s fuel e0
    (wrapInt32 y + wrapInt32 s) y Value.undefined hst hx (Or.inl h0) (Or.inr h1) h2
  have hexec : executeLoopComponent (loopHost f t s) fuel e0 loopFlowState 0 = .ok e' := by
    unfold executeLoopComponent
    simp only [hcomp, hin, hidx]
    have hstarted : decide ((e0.values 0 0).type ≠ ValueType.UNDEFINED) = false := by
      have : e0.values 0 0 = getEmptyInputValue := h0
      rw [this]; decide
    have hst0 : e0.componenentExecutionStates 0 0
        = some (.loop loopVariable (Value.ofInt t .INT32) Value.undefined) := hst
    simp only [hstarted, hst, Bool.not_false, Bool.false_eq_true, if_false, hstep, true_and,
      reduceCtorEq, show loopVariable.type ≠ ValueType.FLOW_OUTPUT from by decide, hnext]
    exact ht
  refine ⟨e', ?_, ?_⟩
  · unfold executeLoopTask
    rw [hexec]
    exact resetSequenceInputs_idle _ _ _ a3
  · cases hdone : loopDone t s (wrapInt32 y + wrapInt32 s)
    · rw [hdone] at a4
      simp only [Bool.false_eq_true, if_false] at a4 ⊢
      refine ⟨?_, ?_, ?_, ?_, ?_⟩
      · simp [retriggerLoop, setAt2, a0]
      · simp [retriggerLoop, setAt2]
      · simp [retriggerLoop, setAt2, a2]
      · simp [retriggerLoop, a4.1]
      · simp only [retriggerLoop]
        rw [a4.2]
        show propagatedOutputs 0 e.trace ++ [0] = outs ++ [0]
        rw [htr]
    · rw [hdone] at a4
      simp only [if_true] at a4 ⊢
      refine ⟨?_, a2⟩
      rw [a4.2]
      show propagatedOutputs 0 e.trace ++ [1] = outs ++ [1]
      rw [htr]

/-- The first execution of the Loop component, after the start pulse: the variable
becomes the value of From; the loop ends at once through the completed output
when that value is beyond To, and goes on through the sequence output
otherwise. -/
theorem executeLoopTask_first (f t s : Int) (fuel : Nat) (e : Engine) (y : Int)
    (outs : List Nat)
    (h0 : e.values 0 0 = Value.nullValue) (h1 : e.values 0 1 = getEmptyInputValue)
    (h2 : e.values 0 2 = Value.ofInt y .INT32)
    (hst : e.componenentExecutionStates 0 0 = none)
    (htr : propagatedOutputs 0 e.trace = outs) :
    ∃ e', executeLoopTask (loopHost f t s) fuel e = .ok e' ∧
      if loopDone t s f then
        propagatedOutputs 0 e'.trace = outs ++ [1] ∧ e'.values 0 2 = Value.ofInt f .INT32
      else LoopRunning t f (outs ++ [0]) (retriggerLoop e') := by
  set e0 : Engine :=
    { e with executingComponentIndex := setAt e.executingComponentIndex 0 0 } with he0
  have hidx : loopFlowState.flowStateIndex = 0 := rfl
  have hcomp : loopFlowState.flow.components[0]? = some loopComponent := rfl
  have hin : loopComponent.inputs[0]? = some 0 := rfl
  have hstep := evalProperty_constant (loopHost f t s) fuel e0 loopFlowState 0
    (loopHost f t s).LOOP_ACTION_COMPONENT_PROPERTY_STEP 1 loopComponent
    "Failed to evaluate Step in Loop" s hcomp rfl rfl
  have hfrom := evalProperty_constant (loopHost f t s) fuel e0 loopFlowState 0
    (loopHost f t s).LOOP_ACTION_COMPONENT_PROPERTY_FROM 0 loopComponent
    "Failed to evaluate From in Loop" f hcomp rfl rfl
  have hto := evalProperty_constant (loopHost f t s) fuel e0 loopFlowState 0
    (loopHost f t s).LOOP_ACTION_COMPONENT_PROPERTY_TO 5 loopComponent
    "Failed to evaluate To in Loop" t hcomp rfl rfl
  have hvar := evalAssignableProperty_localVar (loopHost f t s) fuel e0 loopFlowState 0
    (loopHost f t s).LOOP_ACTION_COMPONENT_PROPERTY_VARIABLE 0 loopComponent
    "Failed to evaluate Variable in Loop" hcomp rfl
  have hvar' : evalAssignableProperty (loopHost f t s) fuel e0 loopFlowState 0
      (loopHost f t s).LOOP_ACTION_COMPONENT_PROPERTY_VARIABLE
      "Failed to evaluate Variable in Loop" = .ok (e0, some loopVariable) := hvar
  set e6 : Engine :=
    { e0 with
      componenentExecutionStates := setAt2 e0.componenentExecutionStates 0 0
        (some (.loop loopVariable (Value.ofInt t .INT32) Value.undefined)),
      trace := e0.trace ++ [.onComponentExecutionStateChanged 0 0] } with he6
  have hdealloc : deallocateComponentExecutionState (loopHost f t s) e0 loopFlowState 0
      = .ok e0 := by
    unfold deallocateComponentExecutionState
    rw [hidx, show e0.componenentExecutionStates 0 0 = none from hst]
  have halloc : allocateComponentExecutionState (loopHost f t s) e0 loopFlowState 0
      (.loop loopVariable (Value.ofInt t .INT32) Value.undefined) = .ok e6 := by
    unfold allocateComponentExecutionState
    rw [hdealloc]
    simp only [hcomp]
    rfl
  have hx : e6.executingComponentIndex 0 = 0 := by simp [he6, he0, setAt]
  obtain ⟨e', ht, a0, a1, a2, a3, a4⟩ := executeLoopTail_loop f t s fuel e6 f y Value.undefined
    (by simp [he6, setAt2]) hx (Or.inr h0) (Or.inl h1) h2
  have h6tr : propagatedOutputs 0 e6.trace = outs := by
    simp [he6, he0, propagatedOutputs_append, propagatedOutputs, htr]
  have hexec : executeLoopComponent (loopHost f t s) fuel e0 loopFlowState 0 = .ok e' := by
    unfold executeLoopComponent
    simp only [hcomp, hin, hidx]
    have hstarted : decide ((e0.values 0 0).type ≠ ValueType.UNDEFINED) = true := by
      have : e0.values 0 0 = Value.nullValue := h0
      rw [this]; decide
    simp only [hstarted, hst, Bool.not_true, Bool.false_eq_true, if_false, false_and,
      if_true, hdealloc, hstep, hvar', hfrom, hto, halloc]
    exact ht
  refine ⟨e', ?_, ?_⟩
  · unfold executeLoopTask
    rw [hexec]
    exact resetSequenceInputs_idle _ _ _ a3
  · cases hdone : loopDone t s f
    · rw [hdone] at a4
      simp only [Bool.false_eq_true, if_false] at a4 ⊢
      refine ⟨?_, ?_, ?_, ?_, ?_⟩
      · simp [retriggerLoop, setAt2, a0]
      · simp [retriggerLoop, setAt2]
      · simp [retriggerLoop, setAt2, a2]
      · simp [retriggerLoop, a4.1]
      · simp only [retriggerLoop]
        rw [a4.2, h6tr]
    · rw [hdone] at a4
      simp only [if_true] at a4 ⊢
      refine ⟨?_, a2⟩
      rw [a4.2, h6tr]

theorem wrapInt32_of_inInt32 {x : Int} (h : inInt32 x) : wrapInt32 x = x := by
  unfold inInt32 at h
  unfold wrapInt32
  omega

theorem wrapInt32_inInt32 (x : Int) : inInt32 (wrapInt32 x) := by
  unfold inInt32 wrapInt32
  omega

theorem runLoop_succ_of_ok {host : Host} {fuel : Nat} {e e1 : Engine} (n : Nat)
    (h : executeLoopTask host fuel e = .ok e1) :
    runLoop host fuel (n + 1) e = runLoop host fuel n (retriggerLoop e1) := by
  rw [runLoop, h]

theorem outputsOfRun_retrigger (e : Engine) :
    outputsOfRun (.ok (retriggerLoop e)) = some (propagatedOutputs 0 e.trace) := rfl

/-- When no int32 value is beyond To, the running loop goes on through the
sequence output at every execution. -/
theorem runLoop_never_done (f t s : Int) (fuel : Nat)
    (hnever : ∀ c, loopDone t s c = false) :
    ∀ (n : Nat) (y : Int) (outs : List Nat) (e : Engine), LoopRunning t y outs e →
      outputsOfRun (runLoop (loopHost f t s) fuel n e) = some (outs ++ List.replicate n 0)
  | 0, _, outs, e, h => by
    simp only [runLoop, outputsOfRun, List.replicate_zero, List.append_nil]
    rw [h.2.2.2.2]
  | n + 1, y, outs, e, h => by
    obtain ⟨e', hrun, hres⟩ := executeLoopTask_running f t s fuel e y outs h
    rw [hnever] at hres
    simp only [Bool.false_eq_true, if_false] at hres
    rw [runLoop_succ_of_ok n hrun, runLoop_never_done f t s fuel hnever n _ _ _ hres]
    simp [List.replicate_succ]

theorem loopStartEngine_started :
    loopStartEngine.values 0 0 = Value.nullValue ∧
    loopStartEngine.values 0 1 = getEmptyInputValue ∧
    loopStartEngine.values 0 2 = Value.ofInt 0 .INT32 ∧
    loopStartEngine.componenentExecutionStates 0 0 = none ∧
    propagatedOutputs 0 loopStartEngine.trace = [] := ⟨rfl, rfl, rfl, rfl, rfl⟩

/-- C30 (counterexample). With From = 0, To = 2147483647 and Step = 1 the Loop
component never reaches its completed output: no int32 value exceeds To, the sum
of the variable and the step wraps around, and every execution propagates
through the sequence output. -/
theorem loop_to_int32_max_never_completes :
    ¬ (∀ f t s : Int, inInt32 f → inInt32 t → inInt32 s → s ≠ 0 →
        ∃ n outs, outputsOfRun (runLoop (loopHost f t s) 1 n loopStartEngine) = some outs ∧
          1 ∈ outs) := by
  intro hall
  obtain ⟨n, outs, hrun, hmem⟩ := hall 0 2147483647 1 (by unfold inInt32; omega)
    (by unfold inInt32; omega) (by unfold inInt32; omega) (by omega)
  have hnever : ∀ c, loopDone 2147483647 1 c = false := by
    intro c
    have := wrapInt32_inInt32 c
    unfold inInt32 at this
    have h1 : wrapInt32 1 = 1 := by decide
    have h2 : wrapInt32 2147483647 = 2147483647 := by decide
    simp only [loopDone, h1, h2, show (0 : Int) < 1 from by omega, if_true, decide_eq_false_iff_not]
    omega
  have hall0 : ∀ n, outputsOfRun (runLoop (loopHost 0 2147483647 1) 1 n loopStartEngine)
      = some (List.replicate n 0) := by
    intro n
    cases n with
    | zero => rfl
    | succ n =>
      obtain ⟨h0, h1, h2, h3, h4⟩ := loopStartEngine_started
      obtain ⟨e', hfirst, hres⟩ := executeLoopTask_first 0 2147483647 1 1 loopStartEngine 0 []
        h0 h1 h2 h3 h4
      rw [hnever] at hres
      simp only [Bool.false_eq_true, if_false, List.nil_append] at hres
      rw [runLoop_succ_of_ok n hfirst, runLoop_never_done 0 2147483647 1 1 hnever n _ _ _ hres]
      simp [List.replicate_succ]
  rw [hall0 n] at hrun
  simp only [Option.some.injEq] at hrun
  subst hrun
  simp at hmem

theorem loopDone_eq_beyond {t s c : Int} (ht : inInt32 t) (hs : inInt32 s) (hc : inInt32 c) :
    (loopDone t s c = true ↔ loopBeyond t s c) := by
  unfold loopDone loopBeyond
  rw [wrapInt32_of_inInt32 ht, wrapInt32_of_inInt32 hs, wrapInt32_of_inInt32 hc]
  split <;> simp

theorem loopVariableOfRun_retrigger (e : Engine) :
    loopVariableOfRun (.ok (retriggerLoop e)) = some (e.values 0 2).int32Value := rfl

theorem runLoop_running_completes (f t s : Int) (fuel : Nat) (ht : inInt32 t) (hs : inInt32 s)
    (hs0 : s ≠ 0) (hno : if 0 < s then t + s < 2147483648 else -2147483648 ≤ t + s) :
    ∀ (m : Nat) (y : Int) (outs : List Nat) (e : Engine), LoopRunning t y outs e →
      inInt32 y → ¬ loopBeyond t s y → (if 0 < s then t - y else y - t) < m →
      ∃ j : Nat, 1 ≤ j ∧
        outputsOfRun (runLoop (loopHost f t s) fuel j e)
          = some (outs ++ List.replicate (j - 1) 0 ++ [1]) ∧
        loopVariableOfRun (runLoop (loopHost f t s) fuel j e) = some (y + j * s) ∧
        (∀ k : Nat, k < j → ¬ loopBeyond t s (y + k * s)) ∧
        loopBeyond t s (y + j * s)
  | 0, y, _, _, _, _, hnb, hm => by
    exfalso
    unfold loopBeyond at hnb
    split at hm <;> rename_i h <;> simp only [h, if_true, if_false] at hnb <;> omega
  | m + 1, y, outs, e, h, hy, hnb, hm => by
    have hy' : inInt32 (y + s) := by
      unfold inInt32 loopBeyond at *
      split at hno <;> rename_i h <;> simp only [h, if_true, if_false] at hnb <;> omega
    obtain ⟨e', hrun, hres⟩ := executeLoopTask_running f t s fuel e y outs h
    rw [wrapInt32_of_inInt32 hy, wrapInt32_of_inInt32 hs] at hres
    by_cases hb : loopBeyond t s (y + s)
    · rw [(loopDone_eq_beyond ht hs hy').mpr hb] at hres
      simp only [if_true] at hres
      refine ⟨1, le_refl _, ?_, ?_, ?_, ?_⟩
      · rw [runLoop_succ_of_ok 0 hrun]
        simp only [runLoop, outputsOfRun_retrigger, hres.1]
        simp
      · rw [runLoop_succ_of_ok 0 hrun]
        simp only [runLoop, loopVariableOfRun_retrigger, hres.2, ofInt_int32Value,
          wrapInt32_of_inInt32 hy']
        simp
      · intro k hk
        have : k = 0 := by omega
        subst this
        simpa using hnb
      · simpa using hb
    · have hd : loopDone t s (y + s) = false := by
        cases hdd : loopDone t s (y + s)
        · rfl
        · exact absurd ((loopDone_eq_beyond ht hs hy').mp hdd) hb
      rw [hd] at hres
      simp only [Bool.false_eq_true, if_false] at hres
      have hm' : (if 0 < s then t - (y + s) else (y + s) - t) < m := by
        split at hm <;> rename_i h <;> simp only [h, if_true, if_false] <;> omega
      obtain ⟨j, hj, ho, hv, hk, hbj⟩ :=
        runLoop_running_completes f t s fuel ht hs hs0 hno m (y + s) (outs ++ [0])
          (retriggerLoop e') hres hy' hb hm'
      refine ⟨j + 1, by omega, ?_, ?_, ?_, ?_⟩
      · rw [runLoop_succ_of_ok j hrun, ho]
        obtain ⟨i, rfl⟩ : ∃ i, j = i + 1 := ⟨j - 1, by omega⟩
        simp [List.replicate_succ]
      · rw [runLoop_succ_of_ok j hrun, hv]
        congr 1
        push_cast
        ring
      · intro k hkj
        cases k with
        | zero => simpa using hnb
        | succ k =>
          have := hk k (by omega)
          have he : y + ((k + 1 : Nat) : Int) * s = y + s + (k : Int) * s := by
            push_cast; ring
          rw [he]
          exact this
      · have he : y + ((j + 1 : Nat) : Int) * s = y + s + (j : Int) * s := by
          push_cast; ring
        rw [he]
        exact hbj

/-- C30 (amended). For all int32 values From, To and Step with Step not zero such
that To + Step is an int32 value (the value stepped beyond To does not wrap
around), a Loop component assigning to an int32 variable, started by one start
pulse and re-triggered after each sequence output, propagates through its
sequence output at its first `n` executions, the variable holding From,
From + Step, ..., none of them beyond To, and at execution `n + 1` sets the
variable to From + n * Step, the first value beyond To (above To for Step > 0,
below To for Step < 0), and propagates through its completed output. -/
theorem loop_completes (f t s : Int) (hf : inInt32 f) (ht : inInt32 t) (hs : inInt32 s)
    (hs0 : s ≠ 0) (hno : if 0 < s then t + s < 2147483648 else -2147483648 ≤ t + s) :
    ∃ n : Nat,
      outputsOfRun (runLoop (loopHost f t s) 1 (n + 1) loopStartEngine)
        = some (List.replicate n 0 ++ [1]) ∧
      loopVariableOfRun (runLoop (loopHost f t s) 1 (n + 1) loopStartEngine)
        = some (f + n * s) ∧
      (∀ k : Nat, k < n → ¬ loopBeyond t s (f + k * s)) ∧
      loopBeyond t s (f + n * s) := by
  obtain ⟨h0, h1, h2, h3, h4⟩ := loopStartEngine_started
  obtain ⟨e', hfirst, hres⟩ := executeLoopTask_first f t s 1 loopStartEngine 0 [] h0 h1 h2 h3 h4
  by_cases hb : loopBeyond t s f
  · rw [(loopDone_eq_beyond ht hs hf).mpr hb] at hres
    simp only [if_true, List.nil_append] at hres
    refine ⟨0, ?_, ?_, ?_, ?_⟩
    · rw [runLoop_succ_of_ok 0 hfirst]
      simp only [runLoop, outputsOfRun_retrigger, hres.1]
      simp
    · rw [runLoop_succ_of_ok 0 hfirst]
      simp only [runLoop, loopVariableOfRun_retrigger, hres.2, ofInt_int32Value,
        wrapInt32_of_inInt32 hf]
      simp
    · intro k hk; omega
    · simpa using hb
  · have hd : loopDone t s f = false := by
      cases hdd : loopDone t s f
      · rfl
      · exact absurd ((loopDone_eq_beyond ht hs hf).mp hdd) hb
    rw [hd] at hres
    simp only [Bool.false_eq_true, if_false, List.nil_append] at hres
    have hm : (if 0 < s then t - f else f - t) < ((if 0 < s then t - f else f - t) + 1).toNat := by
      unfold loopBeyond at hb
      split <;> rename_i h <;> simp only [h, if_true, if_false] at hb <;> omega
    obtain ⟨j, hj, ho, hv, hk, hbj⟩ :=
      runLoop_running_completes f t s 1 ht hs hs0 hno _ f [0] (retriggerLoop e') hres hf hb hm
    refine ⟨j, ?_, ?_, hk, hbj⟩
    · rw [runLoop_succ_of_ok j hfirst, ho]
      obtain ⟨i, rfl⟩ : ∃ i, j = i + 1 := ⟨j - 1, by omega⟩
      simp [List.replicate_succ]
    · rw [runLoop_succ_of_ok j hfirst, hv]

theorem loop_completes_witness :
    inInt32 5 ∧ inInt32 0 ∧ inInt32 (-1) ∧
    outputsOfRun (runLoop (loopHost 5 0 (-1)) 1 7 loopStartEngine)
      = some [0, 0, 0, 0, 0, 0, 1] ∧
    ∃ n : Nat,
      outputsOfRun (runLoop (loopHost 5 0 (-1)) 1 (n + 1) loopStartEngine)
        = some (List.replicate n 0 ++ [1]) ∧
      loopVariableOfRun (runLoop (loopHost 5 0 (-1)) 1 (n + 1) loopStartEngine)
        = some ((5 : Int) + (n : Int) * (-1)) ∧
      (∀ k : Nat, k < n → ¬ loopBeyond 0 (-1) ((5 : Int) + (k : Int) * (-1))) ∧
      loopBeyond 0 (-1) ((5 : Int) + (n : Int) * (-1)) :=
  ⟨by unfold inInt32; decide, by unfold inInt32; decide, by unfold inInt32; decide, by decide,
   loop_completes 5 0 (-1) (by unfold inInt32; decide) (by unfold inInt32; decide)
     (by unfold inInt32; decide) (by decide) (by decide)⟩

end flow
end eez

namespace eez
namespace flow

theorem findCatchErrorLoop_eq_head (host : Host) :
    ∀ (l : List Component) (n : Nat),
      findCatchErrorLoop host l n
        = (((List.range l.length).filter
            (fun k => match l[k]? with
              | some c => decide (c.type = host.COMPONENT_TYPE_CATCH_ERROR_ACTION)
              | none => false)).head?).map (· + n)
  | [], n => by simp [findCatchErrorLoop]
  | c :: rest, n => by
    rw [findCatchErrorLoop, List.length_cons, List.range_succ_eq_map, List.filter_cons]
    by_cases hc : c.type = host.COMPONENT_TYPE_CATCH_ERROR_ACTION
    · simp [hc]
    · rw [if_neg hc, findCatchErrorLoop_eq_head host rest (n + 1)]
      simp only [List.getElem?_cons_zero, hc, decide_False, Bool.false_eq_true, if_false,
        List.filter_map]
      rw [List.head?_map, Option.map_map]
      have hf : ((fun k => match (c :: rest)[k]? with
            | some c => decide (c.type = host.COMPONENT_TYPE_CATCH_ERROR_ACTION)
            | none => false) ∘ Nat.succ)
          = (fun k => match rest[k]? with
            | some c => decide (c.type = host.COMPONENT_TYPE_CATCH_ERROR_ACTION)
            | none => false) := by
        funext k
        simp
      rw [hf]
      congr 1
      funext k
      simp only [Function.comp, Nat.succ_eq_add_one]
      omega

theorem head?_catchPointsAt (host : Host) (flowState : FlowState) :
    (((List.range flowState.flow.components.length).filter
        (isCatchErrorAt host flowState.flow)).map (fun k => (flowState, k))).head?
      = (findCatchErrorLoop host flowState.flow.components 0).map (fun k => (flowState, k)) := by
  rw [findCatchErrorLoop_eq_head host _ 0, List.head?_map]
  simp only [Nat.add_zero, Option.map_id', isCatchErrorAt]
  rfl

/-- The result of `findCatchErrorComponent` is the first of the catch points of the
chain. -/
theorem findCatchErrorComponent_eq_head (host : Host) :
    ∀ flowState : FlowState,
      findCatchErrorComponent host flowState = (catchPoints host flowState).head?
  | .root i f a => by
    have h := head?_catchPointsAt host (.root i f a)
    simp only [FlowState.flow] at h
    simp only [catchPoints, FlowState.chain, List.flatMap_cons, List.flatMap_nil,
      List.append_nil, catchPointsAt, FlowState.flow, h, findCatchErrorComponent]
    cases findCatchErrorLoop host f.components 0 <;> rfl
  | .child i f a parent pci => by
    have h := head?_catchPointsAt host (.child i f a parent pci)
    have ih := findCatchErrorComponent_eq_head host parent
    have hflow : (FlowState.child i f a parent pci).flow = f := rfl
    rw [hflow] at h
    simp only [catchPoints, FlowState.chain, List.flatMap_cons, catchPointsAt, hflow,
      findCatchErrorComponent, List.head?_append, h]
    cases hl : findCatchErrorLoop host f.components 0 with
    | some k => rfl
    | none =>
      simp only [Option.map_none', Option.none_or]
      cases hp : parent.flow.components[pci]? with
      | none =>
        simp only [List.head?_nil, Option.none_or]
        exact ih
      | some c =>
        by_cases hw : c.errorCatchOutput = -1
        · simp only [hw, ne_eq, not_true_eq_false, if_false, List.head?_nil, Option.none_or]
          exact ih
        · simp only [hw, ne_eq, not_false_eq_true, if_true, List.head?_cons]
          rfl

/-- The catch point found is a component of a flow state of the chain. -/
theorem findCatchErrorComponent_mem (host : Host) :
    ∀ (flowState c : FlowState) (k : Nat),
      findCatchErrorComponent host flowState = some (c, k) →
      c ∈ flowState.chain ∧ ∃ cc, c.flow.components[k]? = some cc
  | .root i f a, c, k, h => by
    simp only [findCatchErrorComponent] at h
    cases hl : findCatchErrorLoop host f.components 0 with
    | none => simp [hl] at h
    | some k' =>
      simp only [hl, Option.some.injEq, Prod.mk.injEq] at h
      obtain ⟨rfl, rfl⟩ := h
      obtain ⟨_, cc, hcc, _⟩ := findCatchErrorLoop_spec host _ 0 _ hl
      exact ⟨by simp [FlowState.chain], cc, by simpa using hcc⟩
  | .child i f a parent pci, c, k, h => by
    simp only [findCatchErrorComponent] at h
    cases hl : findCatchErrorLoop host f.components 0 with
    | some k' =>
      simp only [hl, Option.some.injEq, Prod.mk.injEq] at h
      obtain ⟨rfl, rfl⟩ := h
      obtain ⟨_, cc, hcc, _⟩ := findCatchErrorLoop_spec host _ 0 _ hl
      exact ⟨by simp [FlowState.chain], cc, by simpa using hcc⟩
    | none =>
      simp only [hl] at h
      have hrec : findCatchErrorComponent host parent = some (c, k) →
          c ∈ (FlowState.child i f a parent pci).chain ∧ ∃ cc, c.flow.components[k]? = some cc := by
        intro hr
        obtain ⟨hm, hcc⟩ := findCatchErrorComponent_mem host parent c k hr
        exact ⟨by simp [FlowState.chain, hm], hcc⟩
      cases hp : parent.flow.components[pci]? with
      | none =>
        simp only [hp] at h
        exact hrec h
      | some pc =>
        simp only [hp] at h
        by_cases hw : pc.errorCatchOutput ≠ -1
        · simp only [hw, ne_eq, not_false_eq_true, if_true, Option.some.injEq,
            Prod.mk.injEq] at h
          obtain ⟨rfl, rfl⟩ := h
          refine ⟨?_, pc, hp⟩
          simp only [FlowState.chain, List.mem_cons]
          right
          cases parent <;> simp [FlowState.chain]
        · simp only [hw, if_false] at h
          exact hrec h

theorem mem_chain_self (flowState : FlowState) : flowState ∈ flowState.chain := by
  cases flowState <;> simp [FlowState.chain]

theorem flaggedIndexes_of_eq (c flowState : FlowState)
    (h : flowState.flowStateIndex = c.flowStateIndex) : flaggedIndexes c flowState = [] := by
  cases flowState <;> simp [flaggedIndexes, FlowState.chain, List.takeWhile, h]

theorem flaggedIndexes_child (c : FlowState) (i : Nat) (f : Flow) (a : Bool) (parent : FlowState)
    (pci : Nat) (h : i ≠ c.flowStateIndex) :
    flaggedIndexes c (.child i f a parent pci) = i :: flaggedIndexes c parent := by
  have hd : decide (FlowState.flowStateIndex (.child i f a parent pci) ≠ c.flowStateIndex)
      = true := by
    simpa [FlowState.flowStateIndex] using h
  simp only [flaggedIndexes, FlowState.chain, List.takeWhile, hd, List.map_cons]
  rfl

/-- The loop of `throwError` that sets the error flags ends at the first flow state
of the chain that is the catching one, and sets the flags of those before it. -/
theorem setErrorFlags_spec (c : FlowState) :
    ∀ (flowState : FlowState) (error : Nat → Bool),
      (∃ x ∈ flowState.chain, x.flowStateIndex = c.flowStateIndex) →
      ∃ error', setErrorFlags c flowState error = .ok error' ∧
        ∀ j, error' j = (error j || decide (j ∈ flaggedIndexes c flowState))
  | .root i f a, error, h => by
    obtain ⟨x, hx, hxi⟩ := h
    simp only [FlowState.chain, List.mem_singleton] at hx
    subst hx
    refine ⟨error, ?_, fun j => ?_⟩
    · simp only [setErrorFlags, hxi, ne_eq, not_true_eq_false, if_false]
    · simp [flaggedIndexes_of_eq _ _ hxi]
  | .child i f a parent pci, error, h => by
    by_cases he : FlowState.flowStateIndex (.child i f a parent pci) = c.flowStateIndex
    · refine ⟨error, ?_, fun j => ?_⟩
      · simp only [setErrorFlags, he, ne_eq, not_true_eq_false, if_false]
      · simp [flaggedIndexes_of_eq _ _ he]
    · have hp : ∃ x ∈ parent.chain, x.flowStateIndex = c.flowStateIndex := by
        obtain ⟨x, hx, hxi⟩ := h
        simp only [FlowState.chain, List.mem_cons] at hx
        rcases hx with hx | hx
        · subst hx; exact absurd hxi he
        · exact ⟨x, hx, hxi⟩
      obtain ⟨error', h1, h2⟩ := setErrorFlags_spec c parent (setAt error i true) hp
      refine ⟨error', ?_, fun j => ?_⟩
      · simp only [setErrorFlags, he, ne_eq, not_false_eq_true, if_true]
        exact h1
      · rw [h2 j, flaggedIndexes_child c i f a parent pci he]
        simp only [setAt, List.mem_cons]
        by_cases hj : j = i
        · simp [hj]
        · simp [hj]

/-- C31. `findCatchErrorComponent`, walking from the given flow state towards the
root, returns the first of the catch points of the chain, where each flow state
contributes its CatchError components (lowest index first) before the wired
error output of the component that called it, and returns false exactly when the
chain has none. When `throwError`, for a component without wired error output,
uses the catch point found, its loop sets the error flag of exactly the flow
states from the throwing one up to, but not including, the catching one; and
when the queue has room for what the catch point adds to it, these are the
flags that are set when `throwError` returns. -/
theorem findCatchErrorComponent_first_catch_point (host : Host) (flowState : FlowState) :
    findCatchErrorComponent host flowState = (catchPoints host flowState).head? ∧
    (findCatchErrorComponent host flowState = none ↔ catchPoints host flowState = []) ∧
    ∀ (fuel : Nat) (e : Engine) (componentIndex : Nat) (component cc : Component)
      (errorMessage : String) (catchErrorFlowState : FlowState) (k : Nat)
      (tasks : List QueueEntry),
      flowState.flow.components[componentIndex]? = some component →
      e.g_enableThrowError = true → component.errorCatchOutput = -1 →
      (catchSearchStart host flowState component).bind (findCatchErrorComponent host)
        = some (catchErrorFlowState, k) →
      (∃ error', setErrorFlags catchErrorFlowState flowState e.error = .ok error' ∧
        ∀ j, error' j
          = (e.error j || decide (j ∈ flaggedIndexes catchErrorFlowState flowState))) ∧
      (catchErrorFlowState.flow.components[k]? = some cc →
        RoomForCatch host e tasks catchErrorFlowState cc →
        ∃ e', flow.throwError host (fuel + 1) e flowState componentIndex errorMessage = .ok e' ∧
          ∀ j, e'.error j
            = (e.error j || decide (j ∈ flaggedIndexes catchErrorFlowState flowState))) := by
  refine ⟨findCatchErrorComponent_eq_head host flowState, ?_, ?_⟩
  · rw [findCatchErrorComponent_eq_head host flowState]
    exact List.head?_eq_none_iff
  intro fuel e componentIndex component cc errorMessage c k tasks hc he hout hfind
  have hmem : ∃ x ∈ flowState.chain, x.flowStateIndex = c.flowStateIndex := by
    unfold catchSearchStart at hfind
    by_cases hty : component.type = host.COMPONENT_TYPE_ERROR_ACTION
    · rw [if_pos hty] at hfind
      cases flowState with
      | root i f a => simp [FlowState.parentFlowState] at hfind
      | child i f a parent pci =>
        simp only [FlowState.parentFlowState, Option.some_bind] at hfind
        refine ⟨c, ?_, rfl⟩
        simp only [FlowState.chain, List.mem_cons]
        exact Or.inr (findCatchErrorComponent_mem host parent c k hfind).1
    · rw [if_neg hty] at hfind
      simp only [Option.some_bind] at hfind
      exact ⟨c, (findCatchErrorComponent_mem host flowState c k hfind).1, rfl⟩
  obtain ⟨error', h1, h2⟩ := setErrorFlags_spec c flowState e.error hmem
  refine ⟨⟨error', h1, h2⟩, ?_⟩
  intro hcc hroom
  obtain ⟨hq, hl, hwired⟩ := hroom
  have hstart : (if component.type = host.COMPONENT_TYPE_ERROR_ACTION then
        flowState.parentFlowState else some flowState).bind (findCatchErrorComponent host)
      = some (c, k) := hfind
  have hq1 : QueueHolds { e with error := error' } tasks := hq
  simp only [flow.throwError, throwErrorBody, hc, he, Bool.not_true, Bool.false_eq_true,
    if_false, hout, ne_eq, not_true_eq_false, hstart, h1, hcc]
  by_cases hty : cc.type = host.COMPONENT_TYPE_CATCH_ERROR_ACTION
  · rw [if_pos hty]
    obtain ⟨e2, ha, hq2, her2, _⟩ :=
      allocateComponentExecutionState_total host { e with error := error' } hcc
        (.catchError (Value.makeStringRef
          (evalContext host { e with error := error' } flowState).env errorMessage)) hq1
    obtain ⟨e3, hadd, _, hquiet, _⟩ :=
      addToQueueWith_room (flow.throwError host fuel) hq2 hl c k (-1) (-1) (-1)
    simp only [he] at ha
    rw [ha]
    simp only [hadd]
    refine ⟨e3, rfl, fun j => ?_⟩
    rw [hquiet.1, her2]
    exact h2 j
  · rw [if_neg hty]
    obtain ⟨hw, hx, output, ho, hlo⟩ := hwired hty
    have hx1 : executingOk { e with error := error' } c := hx
    obtain ⟨e2, _, _, hp, _, _, _, her2, _⟩ :=
      propagateValueWith_room (flow.throwError host fuel) hw hx1 hcc ho hq1 hlo
        (Value.makeStringRef (evalContext host { e with error := error' } flowState).env
          errorMessage)
    simp only [he] at hp
    refine ⟨e2, hp, fun j => ?_⟩
    rw [her2]
    exact h2 j

theorem findCatchErrorComponent_first_catch_point_witness :
    findCatchErrorComponent exampleHost innerFlowState = some (callerFlowState, 1) ∧
    catchPoints exampleHost innerFlowState = [(callerFlowState, 1)] ∧
    flaggedIndexes callerFlowState innerFlowState = [2, 1] ∧
    ∃ e', flow.throwError exampleHost 1 initialEngine innerFlowState 0 "boom" = .ok e' ∧
      ∀ j, e'.error j = (initialEngine.error j || decide (j ∈ [2, 1])) :=
  ⟨by decide, by decide, by decide,
   ((findCatchErrorComponent_first_catch_point exampleHost innerFlowState).2.2 0 initialEngine 0
      { type := 1012, inputs := [], properties := [], outputs := [], errorCatchOutput := -1 }
      { type := 1016, inputs := [], properties := [],
        outputs := [{ connections := [], isSeqOut := true },
                    { connections := [{ targetComponentIndex := 2, targetInputIndex := 0 }],
                      isSeqOut := false }],
        errorCatchOutput := -1 }
      "boom" callerFlowState 1 [] rfl rfl rfl (by decide)).2 rfl
     ⟨queueHolds_initialEngine, by decide, fun h => absurd rfl h⟩⟩

theorem continuousQueue_millis {host : Host} {r : Runtime} {tasks : List QueueEntry}
    (h : ContinuousQueue host r tasks) : ContinuousQueue host (millis r).2 tasks := h

/-- One iteration of the loop of `tick` on a queue of continuous tasks that are
only added to the queue again: the first task goes to the end of the queue. -/
theorem tickLoop_continuous_step (host : Host) (fuel start n steps i : Nat)
    (checks : List (Nat × Nat)) (r : Runtime) (x : QueueEntry) (rest : List QueueEntry)
    (h : ContinuousQueue host r (x :: rest)) (hi : i < n) :
    ∃ r6, ContinuousQueue host r6 (rest ++ [x]) ∧ r6.clock = r.clock ∧
      r6.clockReads = r.clockReads ∧ r6.g_watchList = r.g_watchList ∧
      tickLoop host (executeRequeue host fuel) fuel start n (steps + 1) i checks r =
        (if (i + 1) % 5 = 0 then
          (if FLOW_TICK_MAX_DURATION_MS ≤ wrapSub (millis r6).1 start then
            .ok ⟨(millis r6).2, .timeElapsed, i + 1,
              checks ++ [(i + 1, wrapSub (millis r6).1 start)]⟩
          else
            tickLoop host (executeRequeue host fuel) fuel start n steps (i + 1)
              (checks ++ [(i + 1, wrapSub (millis r6).1 start)]) (millis r6).2)
        else tickLoop host (executeRequeue host fuel) fuel start n steps (i + 1) checks r6) := by
  obtain ⟨hq, hcount, hstopped, hstopping, htasks⟩ := h
  obtain ⟨hcont, flowState, hfs, herr, href, hwf, hci⟩ := htasks x (List.mem_cons_self _ _)
  have hpeek := hq.peek_cons
  rw [hfs, hcont] at hpeek
  have hhead : r.engine.g_queue r.engine.g_queueHead = x := by
    obtain ⟨h1, _, _, _, h5⟩ := hq
    have := h5 0 (by simp)
    simpa [Nat.mod_eq_of_lt h1] using this
  obtain ⟨e2, hrem, hq2, _, _, _⟩ := hq.remove flowState hfs
  obtain ⟨e2', hrem', _, _, _, _, hcount2, hrc2, _, herr2, _, _, _⟩ :=
    removeNextTaskFromQueue_ok r.engine flowState (by rw [hhead]; exact hfs)
  have heq2 : e2' = e2 := by
    rw [hrem] at hrem'
    exact (Except.ok.inj hrem').symm
  subst heq2
  rw [hhead, hcont, if_pos rfl] at hcount2
  have hlen : rest.length < QUEUE_SIZE := by
    have := hq.2.1
    simp only [List.length_cons] at this
    omega
  have hq3 : QueueHolds
      { e2' with
        executingComponentIndex :=
          setAt e2'.executingComponentIndex flowState.flowStateIndex x.componentIndex } rest :=
    hq2.of_sameQueue ⟨rfl, rfl, rfl, rfl, rfl, rfl, fun _ => le_refl _⟩
  obtain ⟨e4, hadd, hq4, hst4, _⟩ :=
    addToQueueWith_room_continuous (flow.throwError host fuel) hq3 hlen flowState
      x.componentIndex (-1) (-1) (-1)
  obtain ⟨e4', hadd', _, _, _, _, hcount4, hrc4, _, herr4, _, _, hex4⟩ :=
    addToQueueWith_notFull (flow.throwError host fuel)
      { e2' with
        executingComponentIndex :=
          setAt e2'.executingComponentIndex flowState.flowStateIndex x.componentIndex }
      flowState x.componentIndex (-1) (-1) (-1) true (hq3.notFull hlen)
  have heq4 : e4' = e4 := by
    rw [hadd] at hadd'
    exact (congrArg Prod.fst (Except.ok.inj hadd')).symm
  subst heq4
  simp only [if_true] at hcount4
  have hentry : QueueEntry.mk (some flowState) x.componentIndex true = x := by
    cases x
    simp only at hfs hcont
    simp [hfs, hcont]
  rw [hentry] at hq4
  have hexec : ∃ r4, tickExecuteTask host (executeRequeue host fuel) fuel start
      { r with engine := e2' } flowState x.componentIndex true = .ok r4 ∧ r4.engine = e4' ∧
      r4.g_isStopped = r.g_isStopped ∧ r4.g_isStopping = r.g_isStopping ∧ r4.clock = r.clock ∧
      r4.clockReads = r.clockReads ∧ r4.g_watchList = r.g_watchList := by
    have herr3 : e2'.error flowState.flowStateIndex = false := by rw [herr2]; exact herr
    unfold tickExecuteTask
    simp only [herr3, Bool.false_eq_true, if_false, if_true, executeRequeue, addToQueue, hadd]
    cases e2'.componenentExecutionStates flowState.flowStateIndex x.componentIndex with
    | none => exact ⟨_, rfl, rfl, rfl, rfl, rfl, rfl, rfl⟩
    | some st =>
      simp only
      split
      · exact ⟨_, rfl, rfl, rfl, rfl, rfl, rfl, rfl⟩
      · exact ⟨_, rfl, rfl, rfl, rfl, rfl, rfl, rfl⟩
  obtain ⟨r4, hr4, hr4e, hr4a, hr4b, hr4c, hr4d, hr4w⟩ := hexec
  have hx4 : executingOk e4' flowState := by
    right
    rw [hex4]
    simp only [setAt, if_true]
    exact hci
  obtain ⟨e5, hreset, hquiet, _⟩ := resetSequenceInputs_total hwf hx4
  have hsame := resetSequenceInputs_sameQueue hreset
  have hrc : ∀ j, r.engine.refCounter j ≤ e5.refCounter j := by
    intro j
    have h1 := hsame.2.2.2.2.2.2 j
    have h2 : e4'.refCounter j = r.engine.refCounter j := by
      rw [hrc4, incRefCounterForFlowState_apply]
      show e2'.refCounter j + _ = _
      rw [hrc2, decRefCounterForFlowState_apply]
      omega
    omega
  have hfree : canFreeFlowState e5 flowState = false := by
    unfold canFreeFlowState
    have := hrc flowState.flowStateIndex
    have hpos : 0 < e5.refCounter flowState.flowStateIndex := by omega
    simp [hpos]
  have hfin : tickFinishTask host fuel r4 flowState = .ok { r4 with engine := e5 } := by
    unfold tickFinishTask
    rw [hr4e, hreset]
    simp only [hfree, Bool.false_eq_true, if_false]
  refine ⟨{ r4 with engine := e5 }, ⟨hq4.of_sameQueue hsame, ?_, ?_, ?_, ?_⟩, hr4c, hr4d, hr4w,
    ?_⟩
  · show e5.g_numContinuousTaskInQueue = 0
    rw [hsame.2.2.2.2.2.1, hcount4]
    show e2'.g_numContinuousTaskInQueue = 0
    rw [hcount2, hcount]
  · show r4.g_isStopped = false
    rw [hr4a, hstopped]
  · show r4.g_isStopping = false
    rw [hr4b, hstopping]
  · intro y hy
    have hy' : y ∈ x :: rest := by
      rcases List.mem_append.mp hy with hy | hy
      · exact List.mem_cons_of_mem _ hy
      · rw [List.mem_singleton.mp hy]; exact List.mem_cons_self _ _
    obtain ⟨c1, fs, c2, c3, c4, c5, c6⟩ := htasks y hy'
    refine ⟨c1, fs, c2, ?_, ?_, c5, c6⟩
    · show e5.error fs.flowStateIndex = false
      rw [hquiet.1, herr4]
      show e2'.error fs.flowStateIndex = false
      rw [herr2]; exact c3
    · have := hrc fs.flowStateIndex
      show 0 < e5.refCounter fs.flowStateIndex
      omega
  · have hcond : ¬¬(i < n ∨ 0 < r.engine.g_numContinuousTaskInQueue) := fun hh => hh (Or.inl hi)
    have hns : ¬(isFlowStopped r4 ∨ r4.g_isStopping = true) := by
      unfold isFlowStopped
      rw [hr4a, hr4b, hstopped, hstopping]
      simp
    rw [tickLoop, if_neg hcond, hpeek]
    simp only [tickAllowed, if_true, hrem, hr4, if_neg hns, hfin]

/-- The loop of `tick` on a queue that holds the continuous tasks `todo` followed
by `done`, when `todo.length` iterations are left: it returns after `d` of the
tasks `todo` went to the end of the queue, all of them unless a test of the time
ended the loop. -/
theorem tickLoop_continuous (host : Host) (fuel start n : Nat) :
    ∀ (todo : List QueueEntry) (steps i : Nat) (checks : List (Nat × Nat)) (r : Runtime)
      (done : List QueueEntry),
      ContinuousQueue host r (todo ++ done) → i + todo.length = n → todo.length < steps →
      ∃ res d, tickLoop host (executeRequeue host fuel) fuel start n steps i checks r = .ok res ∧
        res.dequeued = i + d ∧ d ≤ todo.length ∧
        ContinuousQueue host res.runtime (todo.drop d ++ (done ++ todo.take d)) ∧
        res.runtime.g_watchList = r.g_watchList ∧
        ((res.exit = .loopCondition ∧ d = todo.length) ∨
          (res.exit = .timeElapsed ∧ res.dequeued % 5 = 0 ∧
            ∃ c, FLOW_TICK_MAX_DURATION_MS ≤ wrapSub (r.clock c % WORD) start)) ∧
        ((∀ c, wrapSub (r.clock c % WORD) start < FLOW_TICK_MAX_DURATION_MS) →
          d = todo.length) := by
  intro todo
  induction todo with
  | nil =>
    intro steps i checks r done h hn hs
    obtain ⟨steps, rfl⟩ : ∃ k, steps = k + 1 := ⟨steps - 1, by simp at hs; omega⟩
    simp only [List.length_nil, Nat.add_zero] at hn
    have hcond : ¬(i < n ∨ 0 < r.engine.g_numContinuousTaskInQueue) := by
      rw [h.2.1]; omega
    refine ⟨⟨r, .loopCondition, i, checks⟩, 0, ?_, rfl, le_refl _, ?_, rfl, Or.inl ⟨rfl, rfl⟩,
      fun _ => rfl⟩
    · rw [tickLoop, if_pos hcond]
    · simpa using h
  | cons x rest ih =>
    intro steps i checks r done h hn hs
    obtain ⟨steps, rfl⟩ : ∃ k, steps = k + 1 := ⟨steps - 1, by omega⟩
    simp only [List.length_cons] at hn hs
    have h' : ContinuousQueue host r (x :: (rest ++ done)) := by simpa using h
    obtain ⟨r6, h6, hclock, hreads, hwatch, hloop⟩ :=
      tickLoop_continuous_step host fuel start n steps i checks r x (rest ++ done) h' (by omega)
    have h6' : ContinuousQueue host r6 (rest ++ (done ++ [x])) := by
      simpa [List.append_assoc] using h6
    have hdrop : ∀ d, (x :: rest).drop (d + 1) ++ (done ++ (x :: rest).take (d + 1))
        = rest.drop d ++ ((done ++ [x]) ++ rest.take d) := by
      intro d
      simp [List.append_assoc]
    rw [hloop]
    by_cases h5 : (i + 1) % 5 = 0
    · rw [if_pos h5]
      by_cases hel : FLOW_TICK_MAX_DURATION_MS ≤ wrapSub (millis r6).1 start
      · rw [if_pos hel]
        have hread : (millis r6).1 = r.clock r.clockReads % WORD := by
          simp only [millis, hclock, hreads]
        refine ⟨_, 1, rfl, rfl, by simp, ?_, hwatch, Or.inr ⟨rfl, h5, r.clockReads, ?_⟩, ?_⟩
        · have := continuousQueue_millis h6'
          rw [hdrop 0]
          simpa using this
        · rw [← hread]; exact hel
        · intro hall
          have := hall r.clockReads
          rw [← hread] at this
          omega
      · rw [if_neg hel]
        obtain ⟨res, d, hres, hd, hle, hinv, hw, hexit, hall⟩ :=
          ih steps (i + 1)
            (checks ++ [(i + 1, wrapSub (millis r6).1 start)]) (millis r6).2 (done ++ [x])
            (continuousQueue_millis h6') (by omega) (by omega)
        have hclock' : (millis r6).2.clock = r.clock := hclock
        rw [hclock'] at hexit hall
        refine ⟨res, d + 1, hres, by omega, by simp only [List.length_cons]; omega, ?_,
          hw.trans hwatch, ?_, ?_⟩
        · rw [hdrop d]; exact hinv
        · rcases hexit with ⟨he, hd'⟩ | he
          · exact Or.inl ⟨he, by simp only [List.length_cons]; omega⟩
          · exact Or.inr he
        · intro hc
          have := hall hc
          simp only [List.length_cons]; omega
    · rw [if_neg h5]
      obtain ⟨res, d, hres, hd, hle, hinv, hw, hexit, hall⟩ :=
        ih steps (i + 1) checks r6 (done ++ [x]) h6' (by omega) (by omega)
      rw [hclock] at hexit hall
      refine ⟨res, d + 1, hres, by omega, by simp only [List.length_cons]; omega, ?_,
        hw.trans hwatch, ?_, ?_⟩
      · rw [hdrop d]; exact hinv
      · rcases hexit with ⟨he, hd'⟩ | he
        · exact Or.inl ⟨he, by simp only [List.length_cons]; omega⟩
        · exact Or.inr he
      · intro hc
        have := hall hc
        simp only [List.length_cons]; omega

theorem queueHolds_sixContinuousEngine : QueueHolds sixContinuousEngine sixContinuousTasks := by
  refine ⟨by decide, by decide, by decide, by decide, ?_⟩
  intro k hk
  simp only [sixContinuousTasks, List.length_replicate] at hk
  interval_cases k <;> rfl

theorem continuousTasks_sixContinuousEngine :
    ContinuousTasks exampleHost sixContinuousEngine sixContinuousTasks := by
  intro x hx
  rw [List.eq_of_mem_replicate hx]
  exact ⟨rfl, zeroDelayFlowState, rfl, rfl, by decide, by decide, by decide⟩

/-- C32 (counterexample). The queue holds six tasks, all of them continuous,
executing a task only adds it to the queue again, and the clock advances by 5 ms
from one reading to the next: `tick` returns, but its loop removes five tasks
from the queue, not six; it is left at the test of the time made after the fifth
task, which reads 5 ms. -/
theorem tick_six_continuous_tasks_dequeues_five :
    QueueHolds (sixContinuousRuntime 5).engine sixContinuousTasks ∧
    getQueueSize (millis (sixContinuousRuntime 5)).2.engine = 6 ∧
    (∀ x ∈ sixContinuousTasks, x.continuousTask = true) ∧
    tickLoopSummary (tickLoop exampleHost (executeRequeue exampleHost 10) 10
        (millis (sixContinuousRuntime 5)).1 6 10 0 [] (millis (sixContinuousRuntime 5)).2)
      = some (.timeElapsed, 5, [(5, 5)]) ∧
    (tickWith exampleHost (executeRequeue exampleHost 10) 10 (sixContinuousRuntime 5)).toOption.isSome
      = true := by
  refine ⟨queueHolds_sixContinuousEngine, by decide, by decide, by decide, by decide⟩

/-- C32 (amended). If at the start of `tick` the engine runs with an empty watch
list, the queue holds `n` tasks and nothing else, all of them continuous tasks
for components of well-formed flows whose flow states have no error flag and a
positive reference counter, and executing each of them only adds the same
component to the queue again as a continuous task, then `tick` returns, and its
loop removes at most `n` tasks from the queue, the first ones of the queue in
their order, each of which is at the end of the queue afterwards: a continuous
task added again during a tick is not executed again in that tick.  The loop
removes exactly `n` tasks unless it is left at a test of the time (made after
every fifth task) that reads 5 ms or more, and so whenever every reading of the
clock is less than 5 ms after the start. -/
theorem tick_continuous_tasks (host : Host) (fuel : Nat) (r : Runtime)
    (tasks : List QueueEntry) (hq : ContinuousQueue host r tasks) (hw : r.g_watchList = [])
    (hfuel : tasks.length < fuel) :
    ∃ res r', tickLoop host (executeRequeue host fuel) fuel (millis r).1
        (getQueueSize (millis r).2.engine) fuel 0 [] (millis r).2 = .ok res ∧
      tickWith host (executeRequeue host fuel) fuel r = .ok r' ∧
      r'.engine = { res.runtime.engine with
        trace := res.runtime.engine.trace ++ [.finishToDebuggerMessageHook] } ∧
      res.dequeued ≤ tasks.length ∧
      QueueHolds r'.engine (tasks.drop res.dequeued ++ tasks.take res.dequeued) ∧
      ((res.exit = .loopCondition ∧ res.dequeued = tasks.length) ∨
        (res.exit = .timeElapsed ∧ res.dequeued % 5 = 0)) ∧
      ((∀ c, wrapSub (r.clock c % WORD) (millis r).1 < FLOW_TICK_MAX_DURATION_MS) →
        res.dequeued = tasks.length ∧ QueueHolds r'.engine tasks) := by
  have hsize : getQueueSize (millis r).2.engine = tasks.length := hq.1.getQueueSize
  obtain ⟨res, d, hres, hd, hle, hinv, hwatch, hexit, hall⟩ :=
    tickLoop_continuous host fuel (millis r).1 tasks.length tasks fuel 0 [] (millis r).2 []
      (by simpa using continuousQueue_millis hq) (by omega) hfuel
  simp only [Nat.zero_add] at hd
  simp only [List.nil_append] at hinv
  have hvisit : visitWatchList res.runtime = .ok res.runtime :=
    visitWatchList_nil (hwatch.trans hw)
  have hqueue : QueueHolds
      { res.runtime.engine with
        trace := res.runtime.engine.trace ++ [.finishToDebuggerMessageHook] }
      (tasks.drop res.dequeued ++ tasks.take res.dequeued) := by
    rw [hd]
    exact queueHolds_of_trace hinv.1
  refine ⟨res,
    { res.runtime with
      engine :=
        { res.runtime.engine with
          trace := res.runtime.engine.trace ++ [.finishToDebuggerMessageHook] } },
    by rw [hsize]; exact hres, ?_, rfl, by omega, hqueue, ?_, ?_⟩
  · unfold tickWith
    simp only [isFlowStopped, hq.2.2.1, hq.2.2.2.1, Bool.false_eq_true, if_false, hsize, hres,
      hvisit]
  · rcases hexit with ⟨he, hd'⟩ | ⟨he, h5, _⟩
    · exact Or.inl ⟨he, by omega⟩
    · exact Or.inr ⟨he, h5⟩
  · intro hc
    have hdl := hall hc
    refine ⟨by omega, ?_⟩
    have := hqueue
    rw [hd, hdl] at this
    simpa using this

/-- C32 (witness). Six continuous tasks and a clock that advances by 1 ms from one
reading to the next: the loop of `tick` removes the six tasks. -/
theorem tick_continuous_tasks_witness :
    ContinuousQueue exampleHost (sixContinuousRuntime 1) sixContinuousTasks ∧
    tickLoopSummary (tickLoop exampleHost (executeRequeue exampleHost 10) 10
        (millis (sixContinuousRuntime 1)).1 6 10 0 [] (millis (sixContinuousRuntime 1)).2)
      = some (.loopCondition, 6, [(5, 1)]) ∧
    ∃ res r', tickLoop exampleHost (executeRequeue exampleHost 10) 10
        (millis (sixContinuousRuntime 1)).1
        (getQueueSize (millis (sixContinuousRuntime 1)).2.engine) 10 0 []
        (millis (sixContinuousRuntime 1)).2 = .ok res ∧
      tickWith exampleHost (executeRequeue exampleHost 10) 10 (sixContinuousRuntime 1) = .ok r' ∧
      r'.engine = { res.runtime.engine with
        trace := res.runtime.engine.trace ++ [.finishToDebuggerMessageHook] } ∧
      res.dequeued ≤ sixContinuousTasks.length ∧
      QueueHolds r'.engine
        (sixContinuousTasks.drop res.dequeued ++ sixContinuousTasks.take res.dequeued) ∧
      ((res.exit = .loopCondition ∧ res.dequeued = sixContinuousTasks.length) ∨
        (res.exit = .timeElapsed ∧ res.dequeued % 5 = 0)) ∧
      ((∀ c, wrapSub ((sixContinuousRuntime 1).clock c % WORD) (millis (sixContinuousRuntime 1)).1
          < FLOW_TICK_MAX_DURATION_MS) →
        res.dequeued = sixContinuousTasks.length ∧ QueueHolds r'.engine sixContinuousTasks) :=
  ⟨⟨queueHolds_sixContinuousEngine, rfl, rfl, rfl, continuousTasks_sixContinuousEngine⟩,
    by decide,
    tick_continuous_tasks exampleHost 10 (sixContinuousRuntime 1) sixContinuousTasks
      ⟨queueHolds_sixContinuousEngine, rfl, rfl, rfl, continuousTasks_sixContinuousEngine⟩ rfl
      (by decide)⟩

end flow
end eez

namespace eez

theorem heapBytes_of_heapInv {limit : Nat} :
    ∀ {l : List AllocBlock} {b : AllocBlock}, heapInv limit (b :: l) →
      heapBytes (b :: l) + b.addr = limit ∧ nextLinksContiguous (b :: l)
  | [], b, h => by
    refine ⟨?_, List.chain'_singleton _⟩
    have h1 : b.addr + SIZEOF_ALLOC_BLOCK + b.size = limit := h
    simp only [heapBytes, List.map, List.sum_cons, List.sum_nil]
    omega
  | c :: rest, b, h => by
    obtain ⟨ih1, ih2⟩ := heapBytes_of_heapInv (l := rest) (b := c) h.2.2
    have h1 := h.1
    refine ⟨?_, List.chain'_cons.mpr ⟨h1.symm, ih2⟩⟩
    simp only [heapBytes, List.map, List.sum_cons] at ih1 ⊢
    omega

theorem runHeapCalls_inv {limit : Nat} (hl : limit < WORD) :
    ∀ (calls : List HeapCall) (h : Heap), heapInv limit h →
      (∃ b tl, h = b :: tl ∧ b.addr = 0) →
      heapInv limit (runHeapCalls calls h) ∧
        ∃ b tl, runHeapCalls calls h = b :: tl ∧ b.addr = 0
  | [], h, hi, hne => ⟨hi, hne⟩
  | .alloc size id :: rest, h, hi, hne => by
    obtain ⟨hi', hne'⟩ := @alloc_inv limit hl h size id hi hne
    exact runHeapCalls_inv hl rest _ hi' hne'
  | .free ptr :: rest, h, hi, hne => by
    rw [runHeapCalls]
    cases hf : free h ptr with
    | none => exact runHeapCalls_inv hl rest h hi hne
    | some h' =>
      obtain ⟨hi', hne'⟩ := free_inv hl hi hne hf
      exact runHeapCalls_inv hl rest h' hi' hne'

/-- C33. In every heap state reached from `initAllocHeap(heap, N)`, for a buffer
that holds at least the first header, by `alloc` and `free` calls, the block list
partitions the buffer: the headers and payloads of all blocks add up to `N`, the
first block is at the start of the buffer, and the `next` link of each block
that has a successor is the address just past the payload of that block. -/
theorem heap_blocks_partition_buffer (N : Nat) (calls : List HeapCall)
    (h₁ : SIZEOF_ALLOC_BLOCK ≤ N) (h₂ : N < WORD) :
    heapBytes (runHeapCalls calls (initAllocHeap N)) = N ∧
    nextLinksContiguous (runHeapCalls calls (initAllocHeap N)) ∧
    ((runHeapCalls calls (initAllocHeap N)).head?.map AllocBlock.addr = some 0) := by
  have h0 : heapInv N (initAllocHeap N) := by
    show _ + _ + _ = N
    simp only [wrapSub]
    unfold WORD SIZEOF_ALLOC_BLOCK at *
    omega
  obtain ⟨hi, b, tl, he, hb⟩ := runHeapCalls_inv h₂ calls _ h0 ⟨_, _, rfl, rfl⟩
  rw [he] at hi ⊢
  obtain ⟨hs, hc⟩ := heapBytes_of_heapInv hi
  refine ⟨by omega, hc, by simp [hb]⟩

theorem heap_blocks_partition_buffer_witness :
    SIZEOF_ALLOC_BLOCK ≤ 1000 ∧ 1000 < WORD ∧
    runHeapCalls [.alloc 100 7, .alloc 40 8, .free (some 16), .alloc 700 9] (initAllocHeap 1000)
      = [{ addr := 0, free := true, size := 128, id := some 7 },
         { addr := 144, free := false, size := 64, id := some 8 },
         { addr := 224, free := false, size := 704, id := some 9 },
         { addr := 944, free := true, size := 40, id := none }] ∧
    heapBytes (runHeapCalls [.alloc 100 7, .alloc 40 8, .free (some 16), .alloc 700 9]
      (initAllocHeap 1000)) = 1000 ∧
    nextLinksContiguous (runHeapCalls [.alloc 100 7, .alloc 40 8, .free (some 16), .alloc 700 9]
      (initAllocHeap 1000)) :=
  ⟨by decide, by decide, by decide,
   (heap_blocks_partition_buffer 1000 [.alloc 100 7, .alloc 40 8, .free (some 16), .alloc 700 9]
     (by decide) (by decide)).1,
   (heap_blocks_partition_buffer 1000 [.alloc 100 7, .alloc 40 8, .free (some 16), .alloc 700 9]
     (by decide) (by decide)).2.1⟩

end eez

namespace eez
namespace flow

theorem queuedEntries_of_queueHolds {e : Engine} {tasks : List QueueEntry}
    (h : QueueHolds e tasks) : queuedEntries e = tasks := by
  unfold queuedEntries
  rw [h.getQueueSize]
  apply List.ext_getElem
  · simp
  · intro k h1 h2
    simp only [List.getElem_map, List.getElem_range]
    exact h.2.2.2.2 k h2

/-- The invariant behind C34: the queue holds a list of entries and the counter
is the number of those that are not continuous. -/
theorem counter_of_queueCallsReachable {host : Host} {e : Engine}
    (hr : QueueCallsReachable host e) :
    ∃ tasks, QueueHolds e tasks ∧
      e.g_numContinuousTaskInQueue = (tasks.filter (fun x => !x.continuousTask)).length := by
  induction hr with
  | reset e => exact ⟨[], QueueHolds.queueReset e, rfl⟩
  | add e e' fuel flowState componentIndex s1 s2 t continuousTask ok _ hadd ih =>
    obtain ⟨tasks, hq, hc⟩ := ih
    by_cases hf : e.g_queueIsFull = true
    · have hs := (addToQueue_full_of_returns host fuel e flowState componentIndex s1 s2 t
        continuousTask _ hf hadd).2.1
      exact ⟨tasks, hq.of_sameQueue hs, by rw [hs.2.2.2.2.2.1, hc]⟩
    · have hl : tasks.length < QUEUE_SIZE := by
        obtain ⟨_, h2, _, h4, _⟩ := hq
        have : ¬ tasks.length = QUEUE_SIZE := fun hh => hf (h4.mpr hh)
        omega
      obtain ⟨e1, he1, hq1, _, _⟩ := @QueueHolds.add (flow.throwError host fuel) _ _ hq hl
        flowState componentIndex s1 s2 t continuousTask
      obtain ⟨e2, he2, _, _, _, _, hn, _⟩ :=
        addToQueueWith_notFull (flow.throwError host fuel) e flowState componentIndex s1 s2 t
          continuousTask (by simpa using hf)
      have h12 : e2 = e1 := by
        rw [he1] at he2
        simp only [Except.ok.injEq, Prod.mk.injEq, and_true] at he2
        exact he2.symm
      subst h12
      simp only [addToQueue, he1, Except.ok.injEq, Prod.mk.injEq] at hadd
      obtain ⟨rfl, _⟩ := hadd
      refine ⟨_, hq1, ?_⟩
      rw [hn, hc, List.filter_append, List.length_append]
      have hle := List.length_filter_le (fun x : QueueEntry => !x.continuousTask) tasks
      cases continuousTask
      · simp only [Bool.false_eq_true, if_false, List.filter_cons, Bool.not_false, if_true,
          List.filter_nil, List.length_singleton]
        unfold QUEUE_SIZE at hl
        unfold WORD
        omega
      · simp
  | remove e e' _ hg hrem ih =>
    obtain ⟨tasks, hq, hc⟩ := ih
    cases tasks with
    | nil =>
      rw [hq.peek_nil] at hg
      simp at hg
    | cons x rest =>
      have hx0 : e.g_queue e.g_queueHead = x := by
        have := hq.2.2.2.2 0 (by simp)
        simpa [Nat.mod_eq_of_lt hq.1] using this
      cases hfs : x.flowState with
      | none =>
        simp [removeNextTaskFromQueue, hx0, hfs] at hrem
      | some flowState =>
        obtain ⟨e1, he1, hq1, _, _⟩ := hq.remove flowState hfs
        obtain ⟨e2, he2, _, _, _, _, hn, _⟩ :=
          removeNextTaskFromQueue_ok e flowState (by rw [hx0]; exact hfs)
        have h12 : e2 = e1 := by
          rw [he1] at he2
          simpa using he2.symm
        subst h12
        rw [he1, Except.ok.injEq] at hrem
        subst hrem
        refine ⟨rest, hq1, ?_⟩
        rw [hn, hc, hx0]
        have hle := List.length_filter_le (fun x : QueueEntry => !x.continuousTask) rest
        have hlen := hq.2.1
        simp only [List.length_cons] at hlen
        cases hxc : x.continuousTask
        · simp only [Bool.false_eq_true, if_false, List.filter_cons, hxc, Bool.not_false,
            if_true, List.length_cons]
          unfold QUEUE_SIZE at hlen
          unfold WORD
          omega
        · simp [List.filter_cons, hxc]

/-- C34. In every state reachable from `queueReset` through `addToQueue` calls and
`removeNextTaskFromQueue` calls made on a non-empty queue, the counter
`g_numContinuousTaskInQueue` is the number of queued entries whose
`continuousTask` flag is false: it counts the ordinary tasks, not the continuous
ones. -/
theorem g_numContinuousTaskInQueue_counts_ordinary_tasks (host : Host) (e : Engine)
    (hr : QueueCallsReachable host e) :
    e.g_numContinuousTaskInQueue = ordinaryTaskCount e := by
  obtain ⟨tasks, hq, hc⟩ := counter_of_queueCallsReachable hr
  rw [ordinaryTaskCount, queuedEntries_of_queueHolds hq, hc]

theorem g_numContinuousTaskInQueue_counts_ordinary_tasks_witness :
    QueueCallsReachable exampleHost mixedQueueEngine ∧
    queuedEntries mixedQueueEngine
      = [QueueEntry.mk (some catchErrorFlowState) 0 true,
         QueueEntry.mk (some catchErrorFlowState) 0 false] ∧
    mixedQueueEngine.g_numContinuousTaskInQueue = 1 ∧ ordinaryTaskCount mixedQueueEngine = 1 :=
  (fun (hr : QueueCallsReachable exampleHost mixedQueueEngine) =>
    ⟨hr, by decide, by decide,
      (g_numContinuousTaskInQueue_counts_ordinary_tasks exampleHost mixedQueueEngine hr).symm.trans
        (by decide)⟩)
  (QueueCallsReachable.add _ mixedQueueEngine 0 catchErrorFlowState 0 (-1) (-1) (-1) false true
    (QueueCallsReachable.add _ _ 0 catchErrorFlowState 0 (-1) (-1) (-1) true true
      (QueueCallsReachable.reset initialEngine) rfl)
    rfl)

/-- C35. In lines 4209-4227 of `tick`, for a task just removed from the queue whose
flow state has its error flag set and whose component exists: the call returns
whatever `executeComponent` is, also one that never returns a result, so
`executeComponent` is not called; what is done is what
`deallocateComponentExecutionState` does after the component was marked as
executing, the component has no execution state afterwards, and the error flags
are unchanged, so that a later task of that flow state is treated the same
way. -/
theorem tick_does_not_execute_errored_flowState (host : Host) (executeComponent : ExecuteComponent)
    (fuel startTickCount : Nat) (r : Runtime) (flowState : FlowState) (componentIndex : Nat)
    (component : Component) (continuousTask : Bool)
    (herr : r.engine.error flowState.flowStateIndex = true)
    (hc : flowState.flow.components[componentIndex]? = some component) :
    ∃ e',
      (∀ exec : ExecuteComponent,
        tickExecuteTask host exec fuel startTickCount r flowState componentIndex continuousTask
          = .ok { r with engine := e' }) ∧
      tickExecuteTask host executeComponent fuel startTickCount r flowState componentIndex
          continuousTask = .ok { r with engine := e' } ∧
      deallocateComponentExecutionState host
          { r.engine with
            executingComponentIndex :=
              setAt r.engine.executingComponentIndex flowState.flowStateIndex componentIndex }
          flowState componentIndex = .ok e' ∧
      e'.componenentExecutionStates flowState.flowStateIndex componentIndex = none ∧
      e'.error = r.engine.error := by
  have key : ∃ e', deallocateComponentExecutionState host
      { r.engine with
        executingComponentIndex :=
          setAt r.engine.executingComponentIndex flowState.flowStateIndex componentIndex }
      flowState componentIndex = .ok e' ∧
      e'.componenentExecutionStates flowState.flowStateIndex componentIndex = none ∧
      e'.error = r.engine.error := by
    unfold deallocateComponentExecutionState
    cases hs : r.engine.componenentExecutionStates flowState.flowStateIndex componentIndex with
    | none =>
      refine ⟨{ r.engine with
        executingComponentIndex :=
          setAt r.engine.executingComponentIndex flowState.flowStateIndex componentIndex },
        ?_, hs, rfl⟩
      simp only [hs]
    | some st =>
      simp only [hs, hc]
      exact ⟨_, rfl, by simp [setAt2], rfl⟩
  obtain ⟨e', hd, hn, he⟩ := key
  have hall : ∀ exec : ExecuteComponent,
      tickExecuteTask host exec fuel startTickCount r flowState componentIndex continuousTask
        = .ok { r with engine := e' } := by
    intro exec
    simp only [tickExecuteTask, herr, if_true, hd]
  exact ⟨e', hall, hall executeComponent, hd, hn, he⟩

theorem tick_does_not_execute_errored_flowState_witness :
    erroredRuntime.engine.error catchErrorFlowState.flowStateIndex = true ∧
    peekNextTaskFromQueue erroredRuntime.engine = some (some catchErrorFlowState, 0, false) ∧
    (∃ e', tickExecuteTask exampleHost (fun _ _ _ => .error .notEmbedded) 2 1000 erroredRuntime
        catchErrorFlowState 0 false = .ok { erroredRuntime with engine := e' }) ∧
    stateAndHooksOfTick (tick exampleHost 2 erroredRuntime)
      = some (none,
          [.onAddToQueue 0 (-1) (-1) 0 (-1), .onRemoveFromQueue,
           .onComponentExecutionStateChanged 0 0, .finishToDebuggerMessageHook]) :=
  ⟨rfl, by decide,
   let ⟨e', _, h, _⟩ :=
     tick_does_not_execute_errored_flowState exampleHost (fun _ _ _ => .error .notEmbedded) 2 1000
       erroredRuntime catchErrorFlowState 0
       { type := 1012, inputs := [], properties := [], outputs := [], errorCatchOutput := -1 }
       false rfl rfl
   ⟨e', h⟩,
   by decide⟩

end flow
end eez

namespace eez

theorem dbl_lt_mirror (x y : Dbl) (hx : x.isNaN = false) (hy : y.isNaN = false) :
    (!Dbl.lt x y && !Dbl.eq x y) = Dbl.lt y x := by
  cases x <;> cases y <;> simp_all [Dbl.lt, Dbl.eq, Dbl.isNaN]
  rename_i a b
  rcases lt_trichotomy a b with h | h | h
  · simp [h, not_lt.mpr h.le]
  · simp [h]
  · simp [h, h.ne', not_lt.mpr h.le]

theorem string_lt_mirror (s t : String) :
    (!decide (s < t) && !decide (s = t)) = decide (t < s) := by
  rcases lt_trichotomy s t with h | h | h
  · simp [h, h.ne, not_lt.mpr h.le]
  · simp [h]
  · simp [h, h.ne', not_lt.mpr h.le]

theorem Value.toDouble_not_nan_type (strtod : String → Option Dbl) (v : Value)
    (h : (v.toDouble strtod).1.isNaN = false) :
    v.type ≠ .UNDEFINED ∧ v.type ≠ .NULL ∧ v.isBlob = false := by
  unfold Value.toDouble at h
  refine ⟨?_, ?_, ?_⟩
  · intro ht; simp [ht, Value.isString, Dbl.isNaN] at h
  · intro ht; simp [ht, Value.isString, Dbl.isNaN] at h
  · by_contra hb
    have ht : v.type = .BLOB_REF := by simpa [Value.isBlob] using hb
    simp [ht, Value.isString, Dbl.isNaN] at h

theorem is_great_mirror (env : ValueEnv) (a1 b1 : Value) (h : mirrorComparable env a1 b1) :
    is_great env a1 b1 = is_less env b1 a1 := by
  unfold is_great is_less is_equal
  rcases h with ⟨hsa, hsb, hta, htb⟩ | ⟨hns, hna, hnb⟩
  · obtain ⟨s, hs⟩ := Option.isSome_iff_exists.mp hta
    obtain ⟨t, ht⟩ := Option.isSome_iff_exists.mp htb
    have hua : ¬((a1.getValue env.resolve).type = .UNDEFINED ∨
        (a1.getValue env.resolve).type = .NULL) := by
      intro hu
      rcases hu with hu | hu <;> simp [Value.isString, hu] at hsa
    have hub : ¬((b1.getValue env.resolve).type = .UNDEFINED ∨
        (b1.getValue env.resolve).type = .NULL) := by
      intro hu
      rcases hu with hu | hu <;> simp [Value.isString, hu] at hsb
    simp only [hsa, hsb, hs, ht, Bool.and_self, if_true, hua, hub, decide_False,
      Bool.false_eq_true, if_false]
    exact string_lt_mirror s t
  · obtain ⟨hau, han, hab⟩ := Value.toDouble_not_nan_type env.strtod _ hna
    obtain ⟨hbu, hbn, hbb⟩ := Value.toDouble_not_nan_type env.strtod _ hnb
    have hua : ¬((a1.getValue env.resolve).type = .UNDEFINED ∨
        (a1.getValue env.resolve).type = .NULL) := by
      intro hu; rcases hu with hu | hu
      · exact hau hu
      · exact han hu
    have hub : ¬((b1.getValue env.resolve).type = .UNDEFINED ∨
        (b1.getValue env.resolve).type = .NULL) := by
      intro hu; rcases hu with hu | hu
      · exact hbu hu
      · exact hbn hu
    have hs1 : ((a1.getValue env.resolve).isString && (b1.getValue env.resolve).isString)
        = false := by
      cases h1 : (a1.getValue env.resolve).isString <;>
        cases h2 : (b1.getValue env.resolve).isString <;> simp_all
    have hs2 : ((b1.getValue env.resolve).isString && (a1.getValue env.resolve).isString)
        = false := by rw [Bool.and_comm]; exact hs1
    simp only [hs1, hs2, hua, hub, decide_False, Bool.false_eq_true, if_false, hab,
      Bool.false_and]
    exact dbl_lt_mirror _ _ hna hnb

/-- C36 (counterexample). `op_great(a, b)` is true while `op_less(b, a)` is false
when `a` is the `double` NaN and `b` the int32 1, and when `a` is the null value
and `b` the int32 0: a value whose conversion to `double` is NaN is neither less
than nor equal to a number. -/
theorem op_great_nan_not_mirror :
    (Value.ofDouble Dbl.nan .DOUBLE).isError = false ∧ (Value.ofInt 1 .INT32).isError = false ∧
    op_great ValueEnv.plain (Value.ofDouble Dbl.nan .DOUBLE) (Value.ofInt 1 .INT32)
      = Value.ofBool true .BOOLEAN ∧
    op_less ValueEnv.plain (Value.ofInt 1 .INT32) (Value.ofDouble Dbl.nan .DOUBLE)
      = Value.ofBool false .BOOLEAN ∧
    Value.nullValue.isError = false ∧
    op_great ValueEnv.plain Value.nullValue (Value.ofInt 0 .INT32) = Value.ofBool true .BOOLEAN ∧
    op_less ValueEnv.plain (Value.ofInt 0 .INT32) Value.nullValue
      = Value.ofBool false .BOOLEAN := by
  decide

/-- C36 (amended). For all non-error values `a` and `b` that, after `getValue`, are
both strings with a text, or are not both strings and each convert to a `double`
that is not NaN, `op_great(a, b)` is the boolean true exactly when `op_less(b, a)`
is, and both results are booleans. -/
theorem op_great_iff_op_less (env : ValueEnv) (a1 b1 : Value) (ha : a1.isError = false)
    (hb : b1.isError = false) (h : mirrorComparable env a1 b1) :
    (op_great env a1 b1 = Value.ofBool true .BOOLEAN ↔
      op_less env b1 a1 = Value.ofBool true .BOOLEAN) ∧
    op_great env a1 b1 = op_less env b1 a1 ∧ (op_great env a1 b1).type = .BOOLEAN := by
  have heq : op_great env a1 b1 = op_less env b1 a1 := by
    simp only [op_great, op_less, ha, hb, Bool.false_eq_true, if_false,
      is_great_mirror env a1 b1 h]
  refine ⟨by rw [heq], heq, ?_⟩
  simp only [op_great, ha, hb, Bool.false_eq_true, if_false]
  rfl

theorem op_great_iff_op_less_witness :
    mirrorComparable ValueEnv.plain (Value.ofInt 3 .INT32) (Value.ofDouble (.fin 2) .DOUBLE) ∧
    op_great ValueEnv.plain (Value.ofInt 3 .INT32) (Value.ofDouble (.fin 2) .DOUBLE)
      = Value.ofBool true .BOOLEAN ∧
    op_less ValueEnv.plain (Value.ofDouble (.fin 2) .DOUBLE) (Value.ofInt 3 .INT32)
      = Value.ofBool true .BOOLEAN :=
  (fun (hm : mirrorComparable ValueEnv.plain (Value.ofInt 3 .INT32)
      (Value.ofDouble (.fin 2) .DOUBLE)) =>
    (fun (hg : op_great ValueEnv.plain (Value.ofInt 3 .INT32) (Value.ofDouble (.fin 2) .DOUBLE)
        = Value.ofBool true .BOOLEAN) =>
      ⟨hm, hg,
        (op_great_iff_op_less ValueEnv.plain (Value.ofInt 3 .INT32)
          (Value.ofDouble (.fin 2) .DOUBLE) rfl rfl hm).1.mp hg⟩)
    (by decide))
  (Or.inr ⟨by decide, by decide, by decide⟩)

end eez

namespace eez
namespace flow

theorem padStartLoop_spec (padStr : List Char) (hp : padStr ≠ []) :
    ∀ (count i : Nat) (resultStr : List Char), i + count ≤ resultStr.length →
      ∃ r, padStartLoop padStr count i resultStr = .ok r ∧ r.length = resultStr.length ∧
        ∀ k, r[k]? =
          if i ≤ k ∧ k < i + count then some (padStr.getD (k % padStr.length) (Char.ofNat 0))
          else resultStr[k]?
  | 0, i, resultStr, _ => ⟨resultStr, rfl, rfl, fun k => by
      rw [if_neg (by omega)]⟩
  | count + 1, i, resultStr, h => by
    have hlen : padStr.length ≠ 0 := fun h0 => hp (List.length_eq_zero.mp h0)
    have hlt : i % padStr.length < padStr.length := Nat.mod_lt _ (Nat.pos_of_ne_zero hlen)
    obtain ⟨r, hr, hl, hk⟩ := padStartLoop_spec padStr hp count (i + 1)
      (resultStr.set i (padStr[i % padStr.length])) (by simp only [List.length_set]; omega)
    refine ⟨r, ?_, by rw [hl, List.length_set], fun k => ?_⟩
    · rw [padStartLoop, if_neg hlen, List.getElem?_eq_getElem hlt]
      exact hr
    · rw [hk k]
      by_cases h1 : i + 1 ≤ k ∧ k < i + 1 + count
      · rw [if_pos h1, if_pos (by omega)]
      · rw [if_neg h1]
        by_cases h2 : k = i
        · subst h2
          rw [if_pos (by omega), List.getElem?_set_self (by omega),
            List.getD_eq_getElem _ _ hlt]
        · rw [if_neg (by omega), List.getElem?_set_ne (fun e => h2 e.symm)]

/-- With a pad string that is not empty the loop of the operation returns the
padding followed by the string. -/
theorem padStartLoop_result (padStr str : List Char) (n : Nat) (hp : padStr ≠ []) :
    padStartLoop padStr n 0 (List.replicate n (Char.ofNat 0) ++ str)
      = .ok (cyclicPad padStr n ++ str) := by
  obtain ⟨r, hr, hl, hk⟩ := padStartLoop_spec padStr hp n 0
    (List.replicate n (Char.ofNat 0) ++ str) (by simp)
  rw [hr]
  congr 1
  apply List.ext_getElem?
  intro k
  rw [hk k]
  by_cases h : k < n
  · rw [if_pos (by omega), List.getElem?_append_left (by simp [cyclicPad, h])]
    simp [cyclicPad, h]
  · rw [if_neg (by omega), List.getElem?_append_right (by simp; omega),
      List.getElem?_append_right (by simp [cyclicPad]; omega)]
    simp [cyclicPad]

/-- With a pad string that is not empty and room in the arena, the operation
returns what the specification says: a string of `max(n, len(s))` characters,
the padding followed by `s`. -/
theorem padStart_of_nonempty_pad (ctx : EvalContext) (a b c : Value) (rest : List Value)
    (msg : String) (s p : String) (t : Int)
    (ha : (a.getValue ctx.resolve).isError = false) (hb : (b.getValue ctx.resolve).isError = false)
    (hc : (c.getValue ctx.resolve).isError = false)
    (hs : ((a.getValue ctx.resolve).toString ctx.env).getString = some s)
    (ht : (b.getValue ctx.resolve).toInt32 ctx.strtol = (t, false))
    (hpad : ((c.getValue ctx.resolve).toString ctx.env).getString = some p)
    (hp : p ≠ "") (halloc : ctx.allocOk = true) :
    ∃ v, do_OPERATION_TYPE_STRING_PAD_START ctx { stack := a :: b :: c :: rest, errorMessage := msg }
        = .ok { stack := v :: rest, errorMessage := msg } ∧
      v.getString = some (String.mk (cyclicPad p.data ((max t s.length) - s.length).toNat ++ s.data)) ∧
      (cyclicPad p.data ((max t s.length) - s.length).toNat ++ s.data).length
        = (max t s.length).toNat := by
  have hpd : p.data ≠ [] := fun h => hp (by
    cases p; simp only at h; subst h; rfl)
  have hmax : (if t < (s.length : Int) then (s.length : Int) else t) = max t s.length := by
    split
    · rw [max_eq_right (by omega)]
    · rw [max_eq_left (by omega)]
  refine ⟨{ Value.makeStringRef ctx.env "" with
      strValue := some (String.mk
        (cyclicPad p.data ((max t s.length) - s.length).toNat ++ s.data)) }, ?_, ?_, ?_⟩
  · simp only [do_OPERATION_TYPE_STRING_PAD_START, EvalStack.pop, ha, hb, hc, hs, ht, hpad,
      Bool.false_eq_true, if_false, hmax]
    have hnn : (Value.makeStringRef ctx.env "").type ≠ .NULL := by
      simp [Value.makeStringRef, EvalContext.env, halloc]
    rw [if_neg hnn, padStartLoop_result _ _ _ hpd]
    rfl
  · simp [Value.makeStringRef, EvalContext.env, halloc, Value.getString]
  · simp only [List.length_append, cyclicPad, List.length_map, List.length_range]
    have : s.data.length = s.length := rfl
    omega

/-- C37 (the code at the failing input). For the string `ab`, the target length 5
and the empty pad string, `do_OPERATION_TYPE_STRING_PAD_START` computes
`i % padStrLen` with `padStrLen` zero in the first pass of its loop: the
operation divides by zero where the specification has it return a string of 5
characters. With the target length 2 the loop is not entered and the string `ab`
is returned. -/
theorem padStart_empty_pad_divides_by_zero :
    do_OPERATION_TYPE_STRING_PAD_START exampleContext
        { stack := [stringValue "ab", Value.ofInt 5 .INT32, stringValue ""], errorMessage := "" }
      = .error .undefinedBehaviour ∧
    do_OPERATION_TYPE_STRING_PAD_START exampleContext
        { stack := [stringValue "ab", Value.ofInt 2 .INT32, stringValue ""], errorMessage := "" }
      = .ok { stack := [{ Value.makeStringRef exampleContext.env "" with strValue := some "ab" }],
              errorMessage := "" } ∧
    padStartLoop [] 3 0 [Char.ofNat 0, Char.ofNat 0, Char.ofNat 0, 'a', 'b']
      = .error .undefinedBehaviour :=
  ⟨by rfl, by rfl, by rfl⟩

theorem copyElements_spec (array : List Value) :
    ∀ (count i j : Nat) (result : List Value), i + count ≤ array.length →
      j + count ≤ result.length →
      ∃ r, copyElements array count i j result = .ok r ∧ r.length = result.length ∧
        ∀ k, r[k]? = if j ≤ k ∧ k < j + count then array[i + (k - j)]? else result[k]?
  | 0, i, j, result, _, _ => ⟨result, rfl, rfl, fun k => by rw [if_neg (by omega)]⟩
  | count + 1, i, j, result, h1, h2 => by
    have hi : i < array.length := by omega
    have hj : j < result.length := by omega
    obtain ⟨r, hr, hl, hk⟩ := copyElements_spec array count (i + 1) (j + 1)
      (result.set j array[i]) (by omega) (by simp only [List.length_set]; omega)
    refine ⟨r, ?_, by rw [hl, List.length_set], fun k => ?_⟩
    · rw [copyElements, List.getElem?_eq_getElem hi]
      simp only [hj, if_true]
      exact hr
    · rw [hk k]
      by_cases h3 : j + 1 ≤ k ∧ k < j + 1 + count
      · rw [if_pos h3, if_pos (by omega)]
        congr 1
        omega
      · rw [if_neg h3]
        by_cases h4 : k = j
        · subst h4
          rw [if_pos (by omega), List.getElem?_set_self hj, Nat.sub_self, Nat.add_zero,
            List.getElem?_eq_getElem hi]
        · rw [if_neg (by omega), List.getElem?_set_ne (fun e => h4 e.symm)]

theorem getArray_makeArrayRef (env : ValueEnv) (mem : ArrayMemory) (arraySize arrayType : Nat)
    (halloc : env.allocOk = true) (href : env.newRef ≠ 0) :
    (makeArrayRef env mem arraySize arrayType).1.refValue = env.newRef ∧
    (makeArrayRef env mem arraySize arrayType).1.isError = false ∧
    (makeArrayRef env mem arraySize arrayType).1.isArray = true ∧
    (makeArrayRef env mem arraySize arrayType).1.isIndirectValueType = false ∧
    getArray (makeArrayRef env mem arraySize arrayType).2
        (makeArrayRef env mem arraySize arrayType).1
      = some { arraySize := arraySize, arrayType := arrayType,
               values := List.replicate arraySize Value.undefined } := by
  simp [makeArrayRef, halloc, getArray, href, setAt, Value.isError, Value.isArray,
    Value.isIndirectValueType, Value.undefined]

/-- The elements after the insertion of `v` at position `p`. -/
theorem insert_elements (values r : List Value) (v : Value) (p : Nat) (hp : p ≤ values.length)
    (hk : ∀ k, r[k]? = if p + 1 ≤ k ∧ k < p + 1 + (values.length - p) then values[p + (k - (p + 1))]?
      else if k = p then some v else if k < p then values[k]? else none) :
    r = values.take p ++ v :: values.drop p := by
  apply List.ext_getElem?
  intro k
  rw [hk k]
  by_cases h1 : k < p
  · rw [if_neg (by omega), if_neg (by omega), if_pos h1,
      List.getElem?_append_left (by simp; omega), List.getElem?_take_of_lt h1]
  · rw [List.getElem?_append_right (by simp; omega)]
    simp only [List.length_take, Nat.min_eq_left hp]
    by_cases h2 : k = p
    · subst h2
      rw [if_neg (by omega), if_pos rfl]
      simp
    · have h3 : k - p = (k - (p + 1)) + 1 := by omega
      rw [h3, List.getElem?_cons_succ, List.getElem?_drop]
      by_cases h4 : k < values.length + 1
      · rw [if_pos (by omega)]
      · rw [if_neg (by omega), if_neg h2, if_neg h1]
        symm
        apply List.getElem?_eq_none
        omega

/-- The elements after the removal of the element at position `p`. -/
theorem remove_elements (values r : List Value) (p : Nat) (hp : p < values.length)
    (hk : ∀ k, r[k]? = if p ≤ k ∧ k < p + (values.length - (p + 1)) then values[p + 1 + (k - p)]?
      else if k < p then values[k]? else if k < values.length - 1 then some Value.undefined
      else none) :
    r = values.take p ++ values.drop (p + 1) := by
  apply List.ext_getElem?
  intro k
  rw [hk k]
  by_cases h1 : k < p
  · rw [if_neg (by omega), if_pos h1,
      List.getElem?_append_left (by simp; omega), List.getElem?_take_of_lt h1]
  · rw [List.getElem?_append_right (by simp; omega)]
    simp only [List.length_take, Nat.min_eq_left (le_of_lt hp), List.getElem?_drop]
    by_cases h4 : k < values.length - 1
    · rw [if_pos (by omega)]
    · rw [if_neg (by omega), if_neg h1, if_neg h4]
      symm
      apply List.getElem?_eq_none
      omega

theorem toInt32_of_lt {x : Nat} (h : x < 2147483648) : toInt32 x = (x : Int) := by
  unfold toInt32 WORD
  rw [Nat.mod_eq_of_lt (by omega), if_pos h]

/-- What `do_OPERATION_TYPE_ARRAY_INSERT` returns for an array, a position within
it and a value, when the arena has room. -/
theorem array_insert_ok (ctx : EvalContext) (mem : ArrayMemory) (A pos v : Value)
    (rest : List Value) (msg : String) (array : ArrayValue) (i : Nat)
    (hA : (A.getValue ctx.resolve).isError = false)
    (harr : (A.getValue ctx.resolve).isArray = true)
    (hget : getArray mem (A.getValue ctx.resolve) = some array)
    (hlen : array.values.length = array.arraySize) (hsize : array.arraySize + 1 < 2147483648)
    (hpos : (pos.getValue ctx.resolve).isError = false)
    (hi : (pos.getValue ctx.resolve).toInt32 ctx.strtol = ((i : Int), false))
    (hn : i ≤ array.arraySize) (hv : (v.getValue ctx.resolve).isError = false)
    (halloc : ctx.allocOk = true) (href : ctx.newRef ≠ 0) :
    ∃ mem1,
      do_OPERATION_TYPE_ARRAY_INSERT ctx mem { stack := A :: pos :: v :: rest, errorMessage := msg }
        = .ok ({ stack := (makeArrayRef ctx.env mem (array.arraySize + 1) array.arrayType).1 :: rest,
                 errorMessage := msg }, mem1) ∧
      getArray mem1 (makeArrayRef ctx.env mem (array.arraySize + 1) array.arrayType).1
        = some { arraySize := array.arraySize + 1, arrayType := array.arrayType,
                 values := array.values.take i ++ v.getValue ctx.resolve :: array.values.drop i } := by
  have henv1 : ctx.env.allocOk = true := halloc
  have henv2 : ctx.env.newRef ≠ 0 := href
  obtain ⟨hr1, hr2, hr3, hr4, hr5⟩ :=
    getArray_makeArrayRef ctx.env mem (array.arraySize + 1) array.arrayType henv1 henv2
  have hsz : (toInt32 (array.arraySize + 1)).toNat = array.arraySize + 1 := by
    rw [toInt32_of_lt hsize]; rfl
  have hposi : (if (i : Int) < 0 then (0 : Int)
      else if array.arraySize < ((i : Int) % (WORD : Int)).toNat then toInt32 array.arraySize
      else (i : Int)) = (i : Int) := by
    rw [if_neg (by omega), if_neg]
    unfold WORD
    omega
  have hmod : ((i : Int) % (WORD : Int)).toNat = i := by unfold WORD; omega
  have hnlt : ¬ array.arraySize < i := by omega
  obtain ⟨r1, hc1, hl1, hk1⟩ := copyElements_spec array.values i 0 0
    (List.replicate (array.arraySize + 1) Value.undefined) (by omega) (by simp; omega)
  obtain ⟨r3, hc3, hl3, hk3⟩ := copyElements_spec array.values (array.arraySize - i) i (i + 1)
    (r1.set i (v.getValue ctx.resolve)) (by omega)
    (by rw [List.length_set, hl1, List.length_replicate]; omega)
  have hvals : r3 = array.values.take i ++ v.getValue ctx.resolve :: array.values.drop i := by
    apply insert_elements _ _ _ _ (by omega)
    intro k
    rw [hk3 k, hlen]
    by_cases h1 : i + 1 ≤ k ∧ k < i + 1 + (array.arraySize - i)
    · rw [if_pos h1, if_pos h1]
    · rw [if_neg h1, if_neg h1]
      by_cases h2 : k = i
      · subst h2
        rw [if_pos rfl, List.getElem?_set_self (by rw [hl1, List.length_replicate]; omega)]
      · rw [if_neg h2, List.getElem?_set_ne (fun e => h2 e.symm), hk1 k]
        by_cases h3 : k < i
        · rw [if_pos (by omega), if_pos h3, Nat.zero_add, Nat.sub_zero]
        · rw [if_neg (by omega), if_neg h3]
          apply List.getElem?_eq_none
          rw [List.length_replicate]
          omega
  refine ⟨{ (makeArrayRef ctx.env mem (array.arraySize + 1) array.arrayType).2 with
      arrays := setAt (makeArrayRef ctx.env mem (array.arraySize + 1) array.arrayType).2.arrays
        (makeArrayRef ctx.env mem (array.arraySize + 1) array.arrayType).1.refValue
        (some { arraySize := array.arraySize + 1, arrayType := array.arrayType, values := r3 }) },
    ?_, ?_⟩
  · simp only [do_OPERATION_TYPE_ARRAY_INSERT, EvalStack.pop, hA, hpos, hv, hi, harr, hget, hsz,
      Bool.false_eq_true, if_false, Bool.not_true, hr5, hposi, hmod, hnlt, Int.toNat_ofNat, hc1]
    have hin : ¬¬((0 : Int) ≤ (i : Int) ∧ i < r1.length) := by
      rw [hl1, List.length_replicate]
      simp only [not_not]
      exact ⟨by omega, by omega⟩
    have hposi2 : (if (i : Int) < 0 then (0 : Int) else (i : Int)) = (i : Int) := by
      rw [if_neg (by omega)]
    simp only [hposi2, Int.toNat_ofNat, hmod, hc1, hin, if_false, hc3]
    rfl
  · simp only [getArray, hr1, setAt, if_true]
    have ht1 : (makeArrayRef ctx.env mem (array.arraySize + 1) array.arrayType).1.type
        = .ARRAY_REF := by simp [makeArrayRef, henv1]
    simp only [ht1, henv2, if_false, reduceCtorEq, hvals]

/-- What `do_OPERATION_TYPE_ARRAY_REMOVE` returns for an array and a position of
one of its elements, when the arena has room. -/
theorem array_remove_ok (ctx : EvalContext) (mem : ArrayMemory) (A pos : Value)
    (rest : List Value) (msg : String) (array : ArrayValue) (i : Nat)
    (hA : (A.getValue ctx.resolve).isError = false)
    (harr : (A.getValue ctx.resolve).isArray = true)
    (hget : getArray mem (A.getValue ctx.resolve) = some array)
    (hlen : array.values.length = array.arraySize) (hsize : array.arraySize < 2147483648)
    (hpos : (pos.getValue ctx.resolve).isError = false)
    (hi : (pos.getValue ctx.resolve).toInt32 ctx.strtol = ((i : Int), false))
    (hn : i < array.arraySize)
    (halloc : ctx.allocOk = true) (href : ctx.newRef ≠ 0) :
    ∃ mem1,
      do_OPERATION_TYPE_ARRAY_REMOVE ctx mem { stack := A :: pos :: rest, errorMessage := msg }
        = .ok ({ stack := (makeArrayRef ctx.env mem (array.arraySize - 1) array.arrayType).1 :: rest,
                 errorMessage := msg }, mem1) ∧
      getArray mem1 (makeArrayRef ctx.env mem (array.arraySize - 1) array.arrayType).1
        = some { arraySize := array.arraySize - 1, arrayType := array.arrayType,
                 values := array.values.take i ++ array.values.drop (i + 1) } := by
  have henv1 : ctx.env.allocOk = true := halloc
  have henv2 : ctx.env.newRef ≠ 0 := href
  obtain ⟨hr1, hr2, hr3, hr4, hr5⟩ :=
    getArray_makeArrayRef ctx.env mem (array.arraySize - 1) array.arrayType henv1 henv2
  have hsz : (toInt32 (array.arraySize - 1)).toNat = array.arraySize - 1 := by
    rw [toInt32_of_lt (by omega)]; rfl
  have hcond : (0 : Int) ≤ (i : Int) ∧ (i : Int) < toInt32 array.arraySize := by
    rw [toInt32_of_lt hsize]; omega
  obtain ⟨r1, hc1, hl1, hk1⟩ := copyElements_spec array.values i 0 0
    (List.replicate (array.arraySize - 1) Value.undefined) (by omega) (by simp; omega)
  obtain ⟨r2, hc2, hl2, hk2⟩ := copyElements_spec array.values (array.arraySize - (i + 1)) (i + 1) i
    r1 (by omega) (by rw [hl1, List.length_replicate]; omega)
  have hvals : r2 = array.values.take i ++ array.values.drop (i + 1) := by
    apply remove_elements _ _ _ (by omega)
    intro k
    rw [hk2 k, hlen]
    by_cases h1 : i ≤ k ∧ k < i + (array.arraySize - (i + 1))
    · rw [if_pos h1, if_pos h1]
    · rw [if_neg h1, if_neg h1, hk1 k]
      by_cases h3 : k < i
      · rw [if_pos (by omega), if_pos h3, Nat.zero_add, Nat.sub_zero]
      · rw [if_neg (by omega), if_neg h3]
        by_cases h4 : k < array.arraySize - 1
        · rw [if_pos h4]
          simp [h4]
        · rw [if_neg h4]
          apply List.getElem?_eq_none
          rw [List.length_replicate]
          omega
  refine ⟨{ (makeArrayRef ctx.env mem (array.arraySize - 1) array.arrayType).2 with
      arrays := setAt (makeArrayRef ctx.env mem (array.arraySize - 1) array.arrayType).2.arrays
        (makeArrayRef ctx.env mem (array.arraySize - 1) array.arrayType).1.refValue
        (some { arraySize := array.arraySize - 1, arrayType := array.arrayType, values := r2 }) },
    ?_, ?_⟩
  · simp only [do_OPERATION_TYPE_ARRAY_REMOVE, EvalStack.pop, hA, hpos, hi, harr, hget, hsz,
      Bool.false_eq_true, if_false, Bool.not_true, hr5, Int.toNat_ofNat, hc1, hc2, hcond,
      and_self, if_true]
    rfl
  · simp only [getArray, hr1, setAt, if_true]
    have ht1 : (makeArrayRef ctx.env mem (array.arraySize - 1) array.arrayType).1.type
        = .ARRAY_REF := by simp [makeArrayRef, henv1]
    simp only [ht1, henv2, if_false, reduceCtorEq, hvals]

theorem take_drop_insert (values : List Value) (v : Value) (i : Nat) (hi : i ≤ values.length) :
    (values.take i ++ v :: values.drop i).take i
      ++ (values.take i ++ v :: values.drop i).drop (i + 1) = values := by
  have hl : (values.take i).length = i := by simp [hi]
  rw [List.take_left' hl]
  have : (values.take i ++ v :: values.drop i).drop (i + 1) = values.drop i := by
    rw [show values.take i ++ v :: values.drop i = (values.take i ++ [v]) ++ values.drop i by simp]
    exact List.drop_left' (by simp [hl])
  rw [this, List.take_append_drop]

/-- C38 (counterexample). When the arena has no room, `makeArrayRef` returns the
null value, `getArray()` of it is not an array, and
`do_OPERATION_TYPE_ARRAY_INSERT`, which does not test for it, writes the elements
through that pointer: no array is returned. -/
theorem array_insert_null_array_when_exhausted :
    exampleArray.isError = false ∧ (Value.ofInt 15 .INT32).isError = false ∧
    getArray exampleArrayMemory exampleArray
      = some { arraySize := 2, arrayType := 0,
               values := [Value.ofInt 10 .INT32, Value.ofInt 20 .INT32] } ∧
    (makeArrayRef exhaustedContext.env exampleArrayMemory 3 0).1 = Value.nullValue ∧
    getArray exampleArrayMemory Value.nullValue = none ∧
    do_OPERATION_TYPE_ARRAY_INSERT exhaustedContext exampleArrayMemory
        { stack := [exampleArray, Value.ofInt 1 .INT32, Value.ofInt 15 .INT32], errorMessage := "" }
      = .error .undefinedBehaviour :=
  ⟨by decide, by decide, by rfl, by rfl, by rfl, by rfl⟩

/-- C38 (amended). For every array `A` of `n` elements (fewer than 2^31 - 1), every
position `i` with `0 <= i <= n` and every value `v` that is not an Error after
`getValue`, when the arena has room for the new array, the Array.insert operation
returns a new array of `n + 1` elements that holds `v` at index `i`, after the
first `i` elements of `A` and before the others; and when the arena has room
again, the Array.remove operation at index `i` of that array returns a new array
of `n` elements, those of `A`. -/
theorem array_insert_then_remove (ctx : EvalContext) (newRef2 : Nat) (mem : ArrayMemory)
    (A pos v : Value) (rest : List Value) (msg : String) (array : ArrayValue) (i : Nat)
    (hA : (A.getValue ctx.resolve).isError = false)
    (harr : (A.getValue ctx.resolve).isArray = true)
    (hget : getArray mem (A.getValue ctx.resolve) = some array)
    (hlen : array.values.length = array.arraySize) (hsize : array.arraySize + 1 < 2147483648)
    (hpos : (pos.getValue ctx.resolve).isError = false)
    (hi : (pos.getValue ctx.resolve).toInt32 ctx.strtol = ((i : Int), false))
    (hn : i ≤ array.arraySize) (hv : (v.getValue ctx.resolve).isError = false)
    (halloc : ctx.allocOk = true) (href : ctx.newRef ≠ 0) (href2 : newRef2 ≠ 0) :
    ∃ R mem1 R2 mem2,
      do_OPERATION_TYPE_ARRAY_INSERT ctx mem { stack := A :: pos :: v :: rest, errorMessage := msg }
        = .ok ({ stack := R :: rest, errorMessage := msg }, mem1) ∧
      getArray mem1 R
        = some { arraySize := array.arraySize + 1, arrayType := array.arrayType,
                 values := array.values.take i ++ v.getValue ctx.resolve :: array.values.drop i } ∧
      do_OPERATION_TYPE_ARRAY_REMOVE { ctx with newRef := newRef2 } mem1
          { stack := R :: pos :: rest, errorMessage := msg }
        = .ok ({ stack := R2 :: rest, errorMessage := msg }, mem2) ∧
      getArray mem2 R2
        = some { arraySize := array.arraySize, arrayType := array.arrayType,
                 values := array.values } := by
  obtain ⟨mem1, h1, h2⟩ := array_insert_ok ctx mem A pos v rest msg array i hA harr hget hlen
    hsize hpos hi hn hv halloc href
  obtain ⟨_, hr2, hr3, hr4, _⟩ :=
    getArray_makeArrayRef ctx.env mem (array.arraySize + 1) array.arrayType halloc href
  have hgv : ∀ resolve : Value → Value,
      (makeArrayRef ctx.env mem (array.arraySize + 1) array.arrayType).1.getValue resolve
        = (makeArrayRef ctx.env mem (array.arraySize + 1) array.arrayType).1 := by
    intro resolve
    simp only [Value.getValue, hr4, Bool.false_eq_true, if_false]
  obtain ⟨mem2, h3, h4⟩ := array_remove_ok { ctx with newRef := newRef2 } mem1
    (makeArrayRef ctx.env mem (array.arraySize + 1) array.arrayType).1 pos rest msg
    { arraySize := array.arraySize + 1, arrayType := array.arrayType,
      values := array.values.take i ++ v.getValue ctx.resolve :: array.values.drop i } i
    (by rw [hgv]; exact hr2) (by rw [hgv]; exact hr3) (by rw [hgv]; exact h2)
    (by simp [hlen]; omega) (show array.arraySize + 1 < 2147483648 from hsize) hpos hi
    (show i < array.arraySize + 1 by omega) halloc href2
  refine ⟨_, mem1, _, mem2, h1, h2, h3, ?_⟩
  rw [h4]
  simp only [Nat.add_sub_cancel, take_drop_insert _ _ _ (by omega : i ≤ array.values.length)]

theorem array_insert_then_remove_witness :
    arrayOfResult (do_OPERATION_TYPE_ARRAY_INSERT exampleContext exampleArrayMemory
        { stack := [exampleArray, Value.ofInt 1 .INT32, Value.ofInt 15 .INT32], errorMessage := "" })
      = some { arraySize := 3, arrayType := 0,
               values := [Value.ofInt 10 .INT32, Value.ofInt 15 .INT32, Value.ofInt 20 .INT32] } ∧
    ∃ R mem1 R2 mem2,
      do_OPERATION_TYPE_ARRAY_INSERT exampleContext exampleArrayMemory
          { stack := [exampleArray, Value.ofInt 1 .INT32, Value.ofInt 15 .INT32],
            errorMessage := "" }
        = .ok ({ stack := [R], errorMessage := "" }, mem1) ∧
      do_OPERATION_TYPE_ARRAY_REMOVE { exampleContext with newRef := 12288 } mem1
          { stack := [R, Value.ofInt 1 .INT32], errorMessage := "" }
        = .ok ({ stack := [R2], errorMessage := "" }, mem2) ∧
      getArray mem2 R2
        = some { arraySize := 2, arrayType := 0,
                 values := [Value.ofInt 10 .INT32, Value.ofInt 20 .INT32] } :=
  ⟨by rfl,
   let ⟨R, mem1, R2, mem2, h1, _, h3, h4⟩ :=
     array_insert_then_remove exampleContext 12288 exampleArrayMemory exampleArray
       (Value.ofInt 1 .INT32) (Value.ofInt 15 .INT32) [] ""
       { arraySize := 2, arrayType := 0,
         values := [Value.ofInt 10 .INT32, Value.ofInt 20 .INT32] } 1
       (by decide) (by decide) (by rfl) (by decide) (by decide) (by decide) (by decide)
       (by decide) (by decide) (by decide) (by decide) (by decide)
   ⟨R, mem1, R2, mem2, h1, h3, h4⟩⟩

end flow
end eez

namespace eez
namespace flow
namespace date

theorem LEAP_YEAR_eq (Y : Nat) (h : Y ≤ 1000) : LEAP_YEAR (Y : Int) = isLeapYear (1970 + (Y : Int)) := by
  unfold LEAP_YEAR isLeapYear
  rw [wrapInt32_of_range (by omega) (by omega)]
  rw [Int.tmod_eq_emod (by omega) (by omega), Int.tmod_eq_emod (by omega) (by omega),
    Int.tmod_eq_emod (by omega) (by omega)]
  have : (0 : Int) < 1970 + (Y : Int) := by omega
  simp [this]

theorem yearDays_bounds (Y : Nat) : 365 ≤ yearDays Y ∧ yearDays Y ≤ 366 := by
  unfold yearDays; split <;> omega

theorem daysBeforeYear_bounds : ∀ Y : Nat, 365 * Y ≤ daysBeforeYear Y ∧ daysBeforeYear Y ≤ 366 * Y
  | 0 => by simp [daysBeforeYear]
  | Y + 1 => by
    have := daysBeforeYear_bounds Y
    have := yearDays_bounds Y
    simp only [daysBeforeYear]
    omega

theorem daysBeforeYear_mono : ∀ {a b : Nat}, a ≤ b → daysBeforeYear a ≤ daysBeforeYear b := by
  intro a b h
  induction b with
  | zero =>
    have : a = 0 := by omega
    subst this; exact le_refl _
  | succ b ih =>
    by_cases hab : a = b + 1
    · subst hab; exact le_refl _
    · have := ih (by omega)
      simp only [daysBeforeYear]
      omega

/-- The first loop of `makeDate` adds one day for each leap year. -/
theorem makeDateYearLoop_spec (DATE base : Nat) :
    ∀ (count k time : Nat), k + count ≤ 1000 →
      time + 365 * 86400 * k = base + 86400 * daysBeforeYear k →
      base + 86400 * (k + count) < DATE →
      makeDateYearLoop DATE count (k : Int) time + 365 * 86400 * (k + count)
        = base + 86400 * daysBeforeYear (k + count)
  | 0, k, time, _, h, _ => by simpa [makeDateYearLoop] using h
  | count + 1, k, time, hk, h, hD => by
    have hstep : daysBeforeYear (k + 1) = daysBeforeYear k + yearDays k := rfl
    have hb := yearDays_bounds k
    have hbk := daysBeforeYear_bounds k
    rw [makeDateYearLoop, LEAP_YEAR_eq k (by omega)]
    have hcast : ((k : Int) + 1) = ((k + 1 : Nat) : Int) := by push_cast; rfl
    rw [hcast]
    have hkk : k + (count + 1) = (k + 1) + count := by omega
    rw [hkk] at hD ⊢
    apply makeDateYearLoop_spec DATE base count (k + 1) _ (by omega) _ hD
    unfold yearDays at hstep hb
    unfold SECONDS_PER_DAY SECONDS_PER_HOUR SECONDS_PER_MINUTE
    by_cases hl : isLeapYear (1970 + (k : Int)) = true
    · rw [if_pos hl] at hstep hb
      rw [if_pos hl, Nat.mod_eq_of_lt (by omega)]
      omega
    · rw [if_neg hl] at hstep hb
      rw [if_neg hl]
      omega

theorem monthLength_bounds (leap : Bool) (month : Nat) : monthLength leap month ≤ 31 := by
  unfold monthLength monthDays
  split
  · split <;> omega
  · rcases month with _ | _ | _ | _ | _ | _ | _ | _ | _ | _ | _ | _ | _ <;> simp

theorem daysOfMonths_bounds (leap : Bool) :
    ∀ count month : Nat, daysOfMonths leap count month ≤ 31 * count
  | 0, _ => by simp [daysOfMonths]
  | count + 1, month => by
    have := daysOfMonths_bounds leap count (month + 1)
    have := monthLength_bounds leap month
    simp only [daysOfMonths]
    omega

/-- The second loop of `makeDate` adds the days of the months before the given
one. -/
theorem makeDateMonthLoop_spec (DATE : Nat) (year : Int) :
    ∀ (count month time : Nat), month + count ≤ 12 →
      time + 86400 * (31 * count) < DATE →
      makeDateMonthLoop DATE year count (month + 1) time
        = .ok (time + 86400 * daysOfMonths (LEAP_YEAR year) count month)
  | 0, month, time, _, _ => by simp [makeDateMonthLoop, daysOfMonths]
  | count + 1, month, time, hm, hD => by
    have hb := monthLength_bounds (LEAP_YEAR year) month
    have hlt : month < monthDays.length := by simp [monthDays]; omega
    rw [makeDateMonthLoop]
    simp only [Nat.add_sub_cancel, daysOfMonths]
    by_cases h2 : month + 1 = 2 ∧ LEAP_YEAR year = true
    · rw [if_pos h2]
      have hlen : monthLength (LEAP_YEAR year) month = 29 := by
        unfold monthLength
        rw [if_pos (by omega), h2.2]
        rfl
      rw [hlen] at hb ⊢
      unfold SECONDS_PER_DAY SECONDS_PER_HOUR SECONDS_PER_MINUTE
      rw [Nat.mod_eq_of_lt (by omega),
        makeDateMonthLoop_spec DATE year count (month + 1) _ (by omega) (by omega)]
      congr 1
      omega
    · rw [if_neg h2, List.getElem?_eq_getElem hlt]
      have hlen : monthLength (LEAP_YEAR year) month = monthDays[month] := by
        unfold monthLength
        by_cases h1 : month = 1
        · subst h1
          have hl : LEAP_YEAR year = false := by
            cases hh : LEAP_YEAR year
            · rfl
            · exact absurd ⟨rfl, hh⟩ h2
          rw [if_pos rfl, hl]
          rfl
        · rw [if_neg h1, List.getD_eq_getElem _ _ hlt]
      rw [hlen] at hb
      simp only
      unfold SECONDS_PER_DAY SECONDS_PER_HOUR SECONDS_PER_MINUTE
      rw [Nat.mod_eq_of_lt (by omega),
        makeDateMonthLoop_spec DATE year count (month + 1) _ (by omega) (by omega), hlen]
      congr 1
      omega

/-- The `while` loop of `breakDate` finds the year of a day. -/
theorem breakDateYearLoop_spec (time Y : Nat) (hY : Y ≤ 255)
    (h1 : daysBeforeYear Y ≤ time) (h2 : time < daysBeforeYear (Y + 1)) :
    ∀ (j k fuel : Nat), k + j = Y → j < fuel →
      breakDateYearLoop time fuel k (daysBeforeYear k) = some (Y, daysBeforeYear (Y + 1))
  | 0, k, fuel + 1, hk, _ => by
    have hk' : k = Y := by omega
    subst hk'
    have hb := daysBeforeYear_bounds (k + 1)
    rw [breakDateYearLoop, LEAP_YEAR_eq k (by omega)]
    have hstep : (daysBeforeYear k + if isLeapYear (1970 + (k : Int)) = true then 366 else 365)
        = daysBeforeYear (k + 1) := rfl
    simp only [hstep]
    rw [Nat.mod_eq_of_lt (by unfold WORD; omega), if_neg (by omega)]
  | j + 1, k, fuel + 1, hk, hf => by
    have hb := daysBeforeYear_bounds (k + 1)
    have hmono := @daysBeforeYear_mono (k + 1) Y (by omega)
    rw [breakDateYearLoop, LEAP_YEAR_eq k (by omega)]
    have hstep : (daysBeforeYear k + if isLeapYear (1970 + (k : Int)) = true then 366 else 365)
        = daysBeforeYear (k + 1) := rfl
    simp only [hstep]
    rw [Nat.mod_eq_of_lt (by unfold WORD; omega), if_pos (by omega),
      Nat.mod_eq_of_lt (by omega)]
    exact breakDateYearLoop_spec time Y hY h1 h2 j (k + 1) fuel (by omega) (by omega)

/-- The `for` loop of `breakDate` finds the month of a day of the year. -/
theorem breakDateMonthLoop_spec (year : Nat) :
    ∀ (k month count r : Nat), month + k < 12 → k < count →
      r < monthLength (LEAP_YEAR (year : Int)) (month + k) →
      breakDateMonthLoop year count month
          (daysOfMonths (LEAP_YEAR (year : Int)) k month + r) = .ok (month + k, r)
  | 0, month, count + 1, r, hm, _, hr => by
    have hlt : month < monthDays.length := by simp [monthDays]; omega
    have hlen : (if month = 1 then some (if LEAP_YEAR (year : Int) then 29 else 28)
        else monthDays[month]?) = some (monthLength (LEAP_YEAR (year : Int)) month) := by
      unfold monthLength
      by_cases h1 : month = 1
      · rw [if_pos h1, if_pos h1]
      · rw [if_neg h1, if_neg h1, List.getElem?_eq_getElem hlt, List.getD_eq_getElem _ _ hlt]
    rw [breakDateMonthLoop, hlen]
    simp only [daysOfMonths, Nat.zero_add, Nat.add_zero] at hr ⊢
    rw [if_neg (by omega)]
  | k + 1, month, count + 1, r, hm, hc, hr => by
    have hlt : month < monthDays.length := by simp [monthDays]; omega
    have hlen : (if month = 1 then some (if LEAP_YEAR (year : Int) then 29 else 28)
        else monthDays[month]?) = some (monthLength (LEAP_YEAR (year : Int)) month) := by
      unfold monthLength
      by_cases h1 : month = 1
      · rw [if_pos h1, if_pos h1]
      · rw [if_neg h1, if_neg h1, List.getElem?_eq_getElem hlt, List.getD_eq_getElem _ _ hlt]
    rw [breakDateMonthLoop, hlen]
    simp only [daysOfMonths]
    rw [if_pos (by omega)]
    have hsub : monthLength (LEAP_YEAR (year : Int)) month
        + daysOfMonths (LEAP_YEAR (year : Int)) k (month + 1) + r
        - monthLength (LEAP_YEAR (year : Int)) month
        = daysOfMonths (LEAP_YEAR (year : Int)) k (month + 1) + r := by omega
    rw [hsub, breakDateMonthLoop_spec year k (month + 1) count r (by omega) (by omega)
      (by rw [show month + 1 + k = month + (k + 1) by omega]; exact hr)]
    congr 2
    omega

theorem daysOfMonths_lt_year (leap : Bool) (M : Nat) (hM : M ≤ 11) :
    daysOfMonths leap M 0 + monthLength leap M ≤ (if leap then 366 else 365) := by
  interval_cases M <;> cases leap <;> decide

theorem daysInMonth_eq (year : Int) (M : Nat) (hM : M ≤ 11) :
    daysInMonth year ((M : Int) + 1) = (monthLength (isLeapYear year) M : Int) := by
  interval_cases M <;> cases h : isLeapYear year <;> simp [daysInMonth, monthLength, monthDays, h]

/-- The value of `makeDate` for a date from 1970 to 2106: the milliseconds from
1970-01-01 00:00:00.000. -/
theorem makeDate_value (DATE Y M dd hr mi s ms : Nat) (hD : 4398046511104 ≤ DATE) (hY : Y ≤ 136)
    (hM : M ≤ 11) (hd : dd ≤ 30) (hh : hr ≤ 23) (hmi : mi ≤ 59) (hs : s ≤ 59) (hms : ms ≤ 999) :
    makeDate DATE (1970 + (Y : Int)) ((M : Int) + 1) ((dd : Int) + 1) hr mi s ms
      = .ok ((((daysBeforeYear Y + daysOfMonths (LEAP_YEAR (Y : Int)) M 0 + dd) * 86400
          + hr * 3600 + mi * 60 + s) * 1000) + ms) := by
  have hbY := daysBeforeYear_bounds Y
  have hbM := daysOfMonths_bounds (LEAP_YEAR (Y : Int)) M 0
  have hyear : wrapInt32 (1970 + (Y : Int) - 1970) = (Y : Int) := by
    rw [wrapInt32_of_range (by omega) (by omega)]; omega
  have hprod : (toUnsignedLong (wrapInt32 ((Y : Int) * 365)) * SECONDS_PER_DAY) % WORD % DATE
      = 365 * 86400 * Y := by
    rw [wrapInt32_of_range (by omega) (by omega)]
    unfold toUnsignedLong SECONDS_PER_DAY SECONDS_PER_HOUR SECONDS_PER_MINUTE WORD
    have : (((Y : Int) * 365) % ((4294967296 : Nat) : Int)).toNat = Y * 365 := by omega
    rw [this, Nat.mod_eq_of_lt (by omega), Nat.mod_eq_of_lt (by omega)]
    omega
  have hloop := makeDateYearLoop_spec DATE (365 * 86400 * Y) Y 0 (365 * 86400 * Y) (by omega)
    (by simp [daysBeforeYear]) (by omega)
  simp only [Nat.zero_add, Nat.cast_zero] at hloop
  have hloop' : makeDateYearLoop DATE Y 0 (365 * 86400 * Y) = 86400 * daysBeforeYear Y := by
    omega
  have hmonth := makeDateMonthLoop_spec DATE (Y : Int) M 0 (86400 * daysBeforeYear Y) (by omega)
    (by omega)
  simp only [Nat.zero_add] at hmonth
  have hday : (toUnsignedLong (wrapInt32 ((dd : Int) + 1 - 1)) * SECONDS_PER_DAY) % WORD
      = dd * 86400 := by
    rw [wrapInt32_of_range (by omega) (by omega)]
    unfold toUnsignedLong SECONDS_PER_DAY SECONDS_PER_HOUR SECONDS_PER_MINUTE WORD
    have : (((dd : Int) + 1 - 1) % ((4294967296 : Nat) : Int)).toNat = dd := by omega
    rw [this, Nat.mod_eq_of_lt (by omega)]
  have hhours : (toUnsignedLong (hr : Int) * SECONDS_PER_HOUR) % WORD = hr * 3600 := by
    unfold toUnsignedLong SECONDS_PER_HOUR SECONDS_PER_MINUTE WORD
    have : ((hr : Int) % ((4294967296 : Nat) : Int)).toNat = hr := by omega
    rw [this, Nat.mod_eq_of_lt (by omega)]
  have hmins : (toUnsignedLong (mi : Int) * SECONDS_PER_MINUTE) % WORD = mi * 60 := by
    unfold toUnsignedLong SECONDS_PER_MINUTE WORD
    have : ((mi : Int) % ((4294967296 : Nat) : Int)).toNat = mi := by omega
    rw [this, Nat.mod_eq_of_lt (by omega)]
  have hsec : toDate DATE (s : Int) = s := by
    unfold toDate
    have : (s : Int) % (DATE : Int) = (s : Int) := Int.emod_eq_of_lt (by omega) (by omega)
    rw [this]; rfl
  have hmsec : toDate DATE (ms : Int) = ms := by
    unfold toDate
    have : (ms : Int) % (DATE : Int) = (ms : Int) := Int.emod_eq_of_lt (by omega) (by omega)
    rw [this]; rfl
  have hM1 : ((M : Int) + 1 - 1).toNat = M := by omega
  have hY1 : ((Y : Int)).toNat = Y := by omega
  generalize hA : 86400 * daysBeforeYear Y + 86400 * daysOfMonths (LEAP_YEAR (Y : Int)) M 0 = A
    at hmonth
  have hA' : A ≤ 86400 * (366 * 136 + 31 * 11) := by omega
  have m1 : (A + dd * 86400) % DATE = A + dd * 86400 := Nat.mod_eq_of_lt (by omega)
  have m2 : (A + dd * 86400 + hr * 3600) % DATE = A + dd * 86400 + hr * 3600 :=
    Nat.mod_eq_of_lt (by omega)
  have m3 : (A + dd * 86400 + hr * 3600 + mi * 60) % DATE = A + dd * 86400 + hr * 3600 + mi * 60 :=
    Nat.mod_eq_of_lt (by omega)
  have m4 : (A + dd * 86400 + hr * 3600 + mi * 60 + s) % DATE
      = A + dd * 86400 + hr * 3600 + mi * 60 + s := Nat.mod_eq_of_lt (by omega)
  have m5 : ((A + dd * 86400 + hr * 3600 + mi * 60 + s) * 1000) % DATE
      = (A + dd * 86400 + hr * 3600 + mi * 60 + s) * 1000 := Nat.mod_eq_of_lt (by omega)
  have m6 : ((A + dd * 86400 + hr * 3600 + mi * 60 + s) * 1000 + ms) % DATE
      = (A + dd * 86400 + hr * 3600 + mi * 60 + s) * 1000 + ms := Nat.mod_eq_of_lt (by omega)
  unfold makeDate
  simp only [hyear, hprod, hY1, hloop', hM1, hmonth, hday, hhours, hmins, hsec, hmsec, m1, m2,
    m3, m4, m5, m6]
  refine congrArg Except.ok ?_
  omega

/-- What `breakDate` returns for the milliseconds of a date from 1970 to 2106. -/
theorem breakDate_value (DATE fuel Y M dd h mi s ms : Nat) (hD : 4398046511104 ≤ DATE)
    (hY : Y ≤ 136) (hfuel : Y < fuel)
    (hM : M ≤ 11) (hd : dd < monthLength (LEAP_YEAR (Y : Int)) M) (hh : h ≤ 23) (hmi : mi ≤ 59)
    (hs : s ≤ 59) (hms : ms ≤ 999) :
    breakDate DATE fuel
        ((((daysBeforeYear Y + daysOfMonths (LEAP_YEAR (Y : Int)) M 0 + dd) * 86400
          + h * 3600 + mi * 60 + s) * 1000) + ms)
      = .ok { year := 1970 + (Y : Int), month := (M : Int) + 1, day := (dd : Int) + 1,
              hours := h, minutes := mi, seconds := s, milliseconds := ms } := by
  have hbY := daysBeforeYear_bounds Y
  have hbY1 := daysBeforeYear_bounds (Y + 1)
  have hbM := daysOfMonths_bounds (LEAP_YEAR (Y : Int)) M 0
  have hbL := monthLength_bounds (LEAP_YEAR (Y : Int)) M
  have hyr := daysOfMonths_lt_year (LEAP_YEAR (Y : Int)) M hM
  have hstep : daysBeforeYear (Y + 1) = daysBeforeYear Y + yearDays Y := rfl
  have hyd : yearDays Y = (if LEAP_YEAR (Y : Int) = true then 366 else 365) := by
    unfold yearDays
    rw [LEAP_YEAR_eq Y (by omega)]
  generalize hT : (((daysBeforeYear Y + daysOfMonths (LEAP_YEAR (Y : Int)) M 0 + dd) * 86400
          + h * 3600 + mi * 60 + s) * 1000) + ms = T
  have e1 : T % 1000 = ms := by omega
  have e2 : T / 1000 % 60 = s := by omega
  have e3 : T / 1000 / 60 % 60 = mi := by omega
  have e4 : T / 1000 / 60 / 60 % 24 = h := by omega
  have e5 : T / 1000 / 60 / 60 / 24
      = daysBeforeYear Y + daysOfMonths (LEAP_YEAR (Y : Int)) M 0 + dd := by omega
  have hloop := breakDateYearLoop_spec
    (daysBeforeYear Y + daysOfMonths (LEAP_YEAR (Y : Int)) M 0 + dd) Y (by omega) (by omega)
    (by rw [hstep, hyd]; split at hyr <;> simp_all <;> omega) Y 0 fuel (by omega) hfuel
  have hdays : wrapSub (daysBeforeYear (Y + 1)) (if LEAP_YEAR (Y : Int) = true then 366 else 365)
      = daysBeforeYear Y := by
    rw [← hyd, hstep]
    have := yearDays_bounds Y
    unfold wrapSub WORD
    omega
  have htime : (daysBeforeYear Y + daysOfMonths (LEAP_YEAR (Y : Int)) M 0 + dd
      + (DATE - daysBeforeYear Y % DATE)) % DATE
      = daysOfMonths (LEAP_YEAR (Y : Int)) M 0 + dd := by
    rw [Nat.mod_eq_of_lt (show daysBeforeYear Y < DATE by omega)]
    have : daysBeforeYear Y + daysOfMonths (LEAP_YEAR (Y : Int)) M 0 + dd
        + (DATE - daysBeforeYear Y)
        = (daysOfMonths (LEAP_YEAR (Y : Int)) M 0 + dd) + DATE := by omega
    rw [this, Nat.add_mod_right, Nat.mod_eq_of_lt (by omega)]
  have hmonth := breakDateMonthLoop_spec Y M 0 12 dd (by omega) (by omega)
    (by rw [Nat.zero_add]; exact hd)
  simp only [Nat.zero_add] at hmonth
  have hd1 : (dd + 1) % DATE = dd + 1 := Nat.mod_eq_of_lt (by omega)
  have w := And.intro
    (And.intro (@wrapInt32_of_range ((Y : Int) + 1970) (by omega) (by omega))
      (And.intro (@wrapInt32_of_range ((M : Int) + 1) (by omega) (by omega))
        (@wrapInt32_of_range ((dd + 1 : Nat) : Int) (by omega) (by omega))))
    (And.intro
      (And.intro (@wrapInt32_of_range (h : Int) (by omega) (by omega))
        (@wrapInt32_of_range (mi : Int) (by omega) (by omega)))
      (And.intro (@wrapInt32_of_range (s : Int) (by omega) (by omega))
        (@wrapInt32_of_range (ms : Int) (by omega) (by omega))))
  unfold breakDate
  simp only [e1, e2, e3, e4, e5, w.2.1.1, w.2.1.2, w.2.2.1, w.2.2.2]
  rw [show breakDateYearLoop
      (daysBeforeYear Y + daysOfMonths (LEAP_YEAR (Y : Int)) M 0 + dd) fuel 0 0
      = some (Y, daysBeforeYear (Y + 1)) from hloop]
  simp only []
  unfold breakDateOfYear
  simp only [hdays, htime, hmonth, w.1.1]
  simp only [Except.map, hd1, w.1.2.1, w.1.2.2]
  rw [Int.add_comm (Y : Int) 1970, Nat.cast_add, Nat.cast_one]

/-- C39 (counterexample). With a type `Date` of 64 bits, the valid date and time
2107-01-01 00:00:00.000 is not returned by `breakDate` after `makeDate`: the
product `year * 365 * SECONDS_PER_DAY` is computed in the 32 bits of
`unsigned long` and wraps around (137 * 365 * 86400 = 4320432000), so `makeDate`
returns 28315904000 and `breakDate` returns 1970-11-24 17:31:44.000. -/
theorem makeDate_2107_wraps :
    validDateTime 2107 1 1 0 0 0 0 ∧
    makeDate DATE64 2107 1 1 0 0 0 0 = .ok 28315904000 ∧
    breakDate DATE64 1 28315904000
      = .ok { year := 1970, month := 11, day := 24, hours := 17, minutes := 31, seconds := 44,
              milliseconds := 0 } := by
  refine ⟨?_, ?_, ?_⟩
  · unfold validDateTime daysInMonth isLeapYear
    decide
  · set_option maxRecDepth 100000 in rfl
  · set_option maxRecDepth 100000 in rfl

/-- C39 (amended). For every valid calendar date and time of the years 1970 to
2106 (month 1-12, day within the length of the month, hours 0-23, minutes and
seconds 0-59, milliseconds 0-999) and a type `Date` of at least 42 bits,
`makeDate` returns a value, and `breakDate` of that value returns the same seven
fields. -/
theorem breakDate_makeDate (DATE fuel : Nat)
    (year month day hours minutes seconds milliseconds : Int)
    (hD : 4398046511104 ≤ DATE) (hfuel : year - 1970 < (fuel : Int))
    (hlo : 1970 ≤ year) (hhi : year ≤ 2106)
    (hv : validDateTime year month day hours minutes seconds milliseconds) :
    ∃ t, makeDate DATE year month day hours minutes seconds milliseconds = .ok t ∧
      breakDate DATE fuel t
        = .ok { year := year, month := month, day := day, hours := hours, minutes := minutes,
                seconds := seconds, milliseconds := milliseconds } := by
  obtain ⟨hm1, hm2, hd1, hd2, hh1, hh2, hmi1, hmi2, hs1, hs2, hms1, hms2⟩ := hv
  obtain ⟨Y, rfl⟩ : ∃ Y : Nat, year = 1970 + (Y : Int) := ⟨(year - 1970).toNat, by omega⟩
  obtain ⟨M, rfl⟩ : ∃ M : Nat, month = (M : Int) + 1 := ⟨(month - 1).toNat, by omega⟩
  obtain ⟨dd, rfl⟩ : ∃ dd : Nat, day = (dd : Int) + 1 := ⟨(day - 1).toNat, by omega⟩
  obtain ⟨hr, rfl⟩ : ∃ hr : Nat, hours = (hr : Int) := ⟨hours.toNat, by omega⟩
  obtain ⟨mi, rfl⟩ : ∃ mi : Nat, minutes = (mi : Int) := ⟨minutes.toNat, by omega⟩
  obtain ⟨s, rfl⟩ : ∃ s : Nat, seconds = (s : Int) := ⟨seconds.toNat, by omega⟩
  obtain ⟨ms, rfl⟩ : ∃ ms : Nat, milliseconds = (ms : Int) := ⟨milliseconds.toNat, by omega⟩
  have hM : M ≤ 11 := by omega
  have hY : Y ≤ 136 := by omega
  rw [daysInMonth_eq (1970 + (Y : Int)) M hM, ← LEAP_YEAR_eq Y (by omega)] at hd2
  have hdd : dd < monthLength (LEAP_YEAR (Y : Int)) M := by omega
  have hbL := monthLength_bounds (LEAP_YEAR (Y : Int)) M
  exact ⟨_, makeDate_value DATE Y M dd hr mi s ms hD hY hM (by omega) (by omega) (by omega)
      (by omega) (by omega),
    breakDate_value DATE fuel Y M dd hr mi s ms hD hY (by omega) hM hdd (by omega) (by omega)
      (by omega) (by omega)⟩

/-- C39 (witness). The amended claim at 2024-02-29 23:59:59.999 with a type `Date`
of 64 bits. -/
theorem breakDate_makeDate_witness :
    validDateTime 2024 2 29 23 59 59 999 ∧
    ∃ t, makeDate DATE64 2024 2 29 23 59 59 999 = .ok t ∧
      breakDate DATE64 55 t
        = .ok { year := 2024, month := 2, day := 29, hours := 23, minutes := 59, seconds := 59,
                milliseconds := 999 } :=
  ⟨by unfold validDateTime daysInMonth isLeapYear; decide,
    breakDate_makeDate DATE64 55 2024 2 29 23 59 59 999 (by decide) (by decide) (by decide)
      (by decide) (by unfold validDateTime daysInMonth isLeapYear; decide)⟩

end date
end flow
end eez

namespace eez
namespace flow

theorem emitted_WRITE_TO_OUTPUT_BUFFER (o : OutputBuffer) (ch : Char) :
    (WRITE_TO_OUTPUT_BUFFER o ch).emitted = o.emitted ++ [ch] := by
  unfold WRITE_TO_OUTPUT_BUFFER OutputBuffer.emitted
  by_cases h : (o.outputBuffer ++ [ch]).length = OUTPUT_BUFFER_SIZE
  · simp only [h, if_true]
    simp
  · simp only [h, if_false]
    simp

theorem emitted_FLUSH_OUTPUT_BUFFER (o : OutputBuffer) :
    (FLUSH_OUTPUT_BUFFER o).emitted = o.emitted ∧ (FLUSH_OUTPUT_BUFFER o).outputBuffer = [] := by
  unfold FLUSH_OUTPUT_BUFFER OutputBuffer.emitted
  by_cases h : 0 < o.outputBuffer.length
  · simp only [h, if_true]
    simp
  · simp only [h, if_false]
    have : o.outputBuffer = [] := List.length_eq_zero.mp (by omega)
    simp [this]

theorem emitted_writeLogMessageChar (o : OutputBuffer) (ch : Char) :
    (writeLogMessageChar o ch).emitted = o.emitted ++ logWritten ch := by
  unfold writeLogMessageChar logWritten
  by_cases ht : ch = '\t'
  · have hn : ch ≠ '\n' := by rw [ht]; decide
    simp only [ht, if_true, emitted_WRITE_TO_OUTPUT_BUFFER]
    rw [if_neg (by decide)]
    simp [emitted_WRITE_TO_OUTPUT_BUFFER]
  · by_cases hn : ch = '\n'
    · simp [ht, hn, emitted_WRITE_TO_OUTPUT_BUFFER]
    · simp [ht, hn, emitted_WRITE_TO_OUTPUT_BUFFER]

theorem emitted_writeLogMessageLoop :
    ∀ (str : List Char) (o : OutputBuffer),
      (writeLogMessageLoop str o).emitted = o.emitted ++ str.flatMap logWritten
  | [], o => by simp [writeLogMessageLoop]
  | ch :: rest, o => by
    rw [writeLogMessageLoop, emitted_writeLogMessageLoop rest, emitted_writeLogMessageChar]
    simp [List.flatMap_cons]

/-- What `writeLogMessage(const char *)` emits for every message: for each
character what `logWritten` gives, then a newline; nothing is left in the
buffer. -/
theorem emitted_writeLogMessage (o : OutputBuffer) (str : String) :
    (writeLogMessage o str).emitted = o.emitted ++ str.data.flatMap logWritten ++ ['\n'] ∧
    (writeLogMessage o str).outputBuffer = [] := by
  unfold writeLogMessage
  refine ⟨?_, (emitted_FLUSH_OUTPUT_BUFFER _).2⟩
  rw [(emitted_FLUSH_OUTPUT_BUFFER _).1, emitted_WRITE_TO_OUTPUT_BUFFER,
    emitted_writeLogMessageLoop]

/-- For a message without a tab `writeLogMessage(const char *)` emits what the
specification says: the message with every newline replaced by its escape,
followed by one newline, which is the only raw newline emitted. -/
theorem writeLogMessage_without_tab (o : OutputBuffer) (str : String)
    (h : '\t' ∉ str.data) :
    (writeLogMessage o str).emitted = o.emitted ++ str.data.flatMap logEscape ++ ['\n'] ∧
    '\t' ∉ str.data.flatMap logEscape ∧ '\n' ∉ str.data.flatMap logEscape := by
  have heq : ∀ l : List Char, '\t' ∉ l → l.flatMap logWritten = l.flatMap logEscape := by
    intro l hl
    induction l with
    | nil => rfl
    | cons c rest ih =>
      have hc : c ≠ '\t' := fun hc => hl (by rw [hc]; exact List.mem_cons_self _ _)
      have hr : '\t' ∉ rest := fun hr => hl (List.mem_cons_of_mem _ hr)
      simp only [List.flatMap_cons, ih hr]
      congr 1
      simp [logWritten, logEscape, hc]
  have hno : ∀ c : Char, c ≠ '\t' → '\t' ∉ logEscape c ∧ '\n' ∉ logEscape c := by
    intro c hc
    unfold logEscape
    rw [if_neg hc]
    by_cases hn : c = '\n'
    · rw [if_pos hn]; decide
    · rw [if_neg hn]
      simp only [List.mem_singleton]
      exact ⟨fun h => hc h.symm, fun h => hn h.symm⟩
  refine ⟨by rw [(emitted_writeLogMessage o str).1, heq _ h], ?_, ?_⟩
  · intro hm
    obtain ⟨c, hc, hc2⟩ := List.mem_flatMap.mp hm
    exact (hno c (fun e => h (e ▸ hc))).1 hc2
  · intro hm
    obtain ⟨c, hc, hc2⟩ := List.mem_flatMap.mp hm
    exact (hno c (fun e => h (e ▸ hc))).2 hc2

/-- C40 (the code at the failing input). For the message of the three characters
`a`, tab, `b`, both `writeLogMessage` functions pass to `writeDebuggerBufferHook`
one buffer of six characters: `a`, backslash, `t`, a raw tab, `b` and the
newline. The escape of the tab is followed by the tab itself, where the
specification has `a`, backslash, `t`, `b` and the newline. -/
theorem writeLogMessage_emits_raw_tab :
    writeLogMessage emptyOutputBuffer "a\tb"
      = { outputBuffer := [], written := ["a\\t\tb\n"] } ∧
    writeLogMessageLen emptyOutputBuffer "a\tb" 3
      = .ok { outputBuffer := [], written := ["a\\t\tb\n"] } ∧
    "a\\t\tb\n".data = ['a', '\\', 't', '\t', 'b', '\n'] ∧
    "a\tb".data.flatMap logEscape ++ ['\n'] = ['a', '\\', 't', 'b', '\n'] :=
  ⟨by decide, by rfl, by decide, by decide⟩

end flow
end eez
